import Mathlib

/-!
Libbroadcast: AMF0 codec, RTMP target URLs and the RTMP chunk engine

A shallow embedding of `amf.cpp`, `rtmptargetinfo.cpp` and the chunk
framing of `rtmpclient.cpp`, followed by the properties proved of it.

Conventions of the embedding.

* A byte is a `Nat` below 256 and a `QByteArray` is a list of bytes.
* A `QString` is its sequence of UTF-16 code units, which is what Qt stores
  and what `QString::operator<` compares.
* `uint` arithmetic is `Nat` arithmetic reduced `% 2 ^ 32` wherever the
  source can wrap; `x >> 8` is `x / 256`, `x & 0xff` is `x % 256` and
  `(a << 8) | b` on bytes is `a * 256 + b`.
* A `const char *` carries no length.  It is embedded as the memory that
  follows the pointer, a total function from offsets to bytes, so that the
  reads the source performs past the end of a buffer stay visible.
* Functions of Qt that the library calls but does not define
  (`QString::toUtf8`, `QString::fromUtf8`, `QUrl`) are parameters.
-/

namespace Libbroadcast

/-! ## Bytes, strings and raw memory -/

/-- The bytes of a `QByteArray`. -/
abbrev QByteArray := List Nat

/-- The UTF-16 code units of a `QString`. -/
abbrev QString := List Nat

/-- The code units of an ASCII literal such as `QStringLiteral("rtmp")`. -/
def qstr (s : String) : QString := s.toList.map Char.toNat

/-- The comparison `QString::operator<`: lexicographic on code units. -/
def QString.lt : QString → QString → Bool
  | _, [] => false
  | [], _ :: _ => true
  | a :: as, b :: bs => decide (a < b) || (decide (a = b) && QString.lt as bs)

/-- The two Qt conversions between text and UTF-8 that the AMF codec calls. -/
structure QtUtf8 where
  /-- The function `QString::toUtf8`. -/
  toUtf8 : QString → QByteArray
  /-- The function `QString::fromUtf8(data, len)` on the `len` bytes at `data`. -/
  fromUtf8 : QByteArray → QString

/-- The memory behind a `const char *`: the byte found at each offset. -/
abbrev CharPtr := Nat → Nat

/-- The pointer `&data[off]`. -/
def CharPtr.offset (data : CharPtr) (off : Nat) : CharPtr := fun i => data (off + i)

/-- The `len` bytes starting at `data`. -/
def CharPtr.read (data : CharPtr) (len : Nat) : QByteArray := (List.range len).map data

/-- The memory that starts with the bytes of a buffer and goes on with
whatever lies `beyond` it. -/
def CharPtr.ofBytes (bytes : QByteArray) (beyond : CharPtr) : CharPtr :=
  fun i => match bytes[i]? with
    | some byte => byte
    | none => beyond (i - bytes.length)

/-- The memory `data` holds `bytes` from offset `off` on. -/
def CharPtr.Holds (data : CharPtr) (off : Nat) (bytes : QByteArray) : Prop :=
  ∀ i, i < bytes.length → data (off + i) = bytes.getD i 0

/-! ## `amf.cpp`: integer helpers -/

/-- Decodes a big-endian 8-bit unsigned integer. -/
def amfDecodeUInt8 (data : CharPtr) : Nat := data 0 % 256

/-- Decodes a big-endian 16-bit unsigned integer. -/
def amfDecodeUInt16 (data : CharPtr) : Nat := data 0 % 256 * 256 + data 1 % 256

/-- Decodes a big-endian 24-bit unsigned integer. -/
def amfDecodeUInt24 (data : CharPtr) : Nat :=
  data 0 % 256 * 65536 + data 1 % 256 * 256 + data 2 % 256

/-- Decodes a big-endian 32-bit unsigned integer. -/
def amfDecodeUInt32 (data : CharPtr) : Nat :=
  data 0 % 256 * 16777216 + data 1 % 256 * 65536 + data 2 % 256 * 256 + data 3 % 256

/-- Decodes a big-endian double: the eight bytes are reversed into the
little-endian object representation, whose 64-bit pattern is returned. -/
def amfDecodeDouble (data : CharPtr) : Nat :=
  data 7 % 256 + data 6 % 256 * 0x100 + data 5 % 256 * 0x10000 + data 4 % 256 * 0x1000000
    + data 3 % 256 * 0x100000000 + data 2 % 256 * 0x10000000000
    + data 1 % 256 * 0x1000000000000 + data 0 % 256 * 0x100000000000000

/-- Encodes a big-endian 8-bit unsigned integer. -/
def amfEncodeUInt8 (val : Nat) : QByteArray := [val % 256]

/-- Encodes a big-endian 16-bit unsigned integer. -/
def amfEncodeUInt16 (val : Nat) : QByteArray := [val / 256 % 256, val % 256]

/-- Encodes a big-endian 24-bit unsigned integer. -/
def amfEncodeUInt24 (val : Nat) : QByteArray :=
  [val / 65536 % 256, val / 256 % 256, val % 256]

/-- Encodes a big-endian 32-bit unsigned integer. -/
def amfEncodeUInt32 (val : Nat) : QByteArray :=
  [val / 16777216 % 256, val / 65536 % 256, val / 256 % 256, val % 256]

/-- Encodes a double given by its 64-bit pattern: byte `7 - k` of the
little-endian object representation goes to position `k`. -/
def amfEncodeDouble (val : Nat) : QByteArray :=
  [val / 0x100000000000000 % 256, val / 0x1000000000000 % 256, val / 0x10000000000 % 256,
   val / 0x100000000 % 256, val / 0x1000000 % 256, val / 0x10000 % 256, val / 0x100 % 256,
   val % 256]

/-- Encodes UTF-8 bytes behind a 16-bit length, or a 32-bit one above 0xFFFF. -/
def amfEncodeUtf8String (str : QByteArray) : QByteArray :=
  (if str.length > 0xFFFF then amfEncodeUInt32 str.length else amfEncodeUInt16 str.length)
    ++ str

/-- The position of the leading one of `n`, for `n` below `2 ^ fuel`. -/
def leadingBit : Nat → Nat → Nat
  | 0, _ => 0
  | fuel + 1, n => if 2 ≤ n then leadingBit fuel (n / 2) + 1 else 0

/-- The IEEE-754 binary64 pattern of a whole number `n` with `0 < n < 2 ^ 53`:
biased exponent 1023 plus the position of the leading one, fraction `n`
without its leading one. -/
def binary64OfNat (n : Nat) : Nat :=
  (1023 + leadingBit 53 n) * 2 ^ 52 + (n - 2 ^ leadingBit 53 n) * 2 ^ (52 - leadingBit 53 n)

/-! ## `amf.h`: the value tree -/

mutual
/-- An AMF0 value (`AMFType` and its subclasses), of AMF version 0.  A
number is held by the bit pattern of its double. -/
inductive AMFType where
  | number (bits : Nat)
  | boolean (value : Bool)
  | string (str : QString)
  | object (props : AMFProps)
  | ecmaArray (associativeCount : Nat) (props : AMFProps)
  | null
  | undefined
  deriving DecidableEq
/-- The `QMap<QString, AMFType *>` of an object, in iteration order. -/
inductive AMFProps where
  | nil
  | cons (key : QString) (value : AMFType) (rest : AMFProps)
  deriving DecidableEq
end

/-- The method `QMap::insert`: the map stays in ascending key order and an
existing key keeps its place and takes the new value. -/
def AMFProps.insert (key : QString) (value : AMFType) : AMFProps → AMFProps
  | .nil => .cons key value .nil
  | .cons k v rest =>
    if QString.lt key k then .cons key value (.cons k v rest)
    else if QString.lt k key then .cons k v (rest.insert key value)
    else .cons k value rest

/-- The key/value pairs of a map in iteration order. -/
def AMFProps.toList : AMFProps → List (QString × AMFType)
  | .nil => []
  | .cons k v rest => (k, v) :: rest.toList

/-- The map obtained from an empty one by inserting the pairs in list order. -/
def AMFProps.ofInserts (kvs : List (QString × AMFType)) : AMFProps :=
  kvs.foldl (fun m kv => m.insert kv.1 kv.2) .nil

/-- The map `front` followed by the pairs of `back`. -/
def AMFProps.append : AMFProps → AMFProps → AMFProps
  | .nil, back => back
  | .cons k v rest, back => .cons k v (rest.append back)

/-- The downcast `asString`, null unless the value is a string. -/
def AMFType.asString : AMFType → Option QString
  | .string s => some s
  | _ => none

/-- The downcast `asNumber`, null unless the value is a number. -/
def AMFType.asNumber : AMFType → Option Nat
  | .number bits => some bits
  | _ => none

/-- The downcast `asObject`, null unless the value is a plain object. -/
def AMFType.asObject : AMFType → Option AMFProps
  | .object props => some props
  | _ => none

/-! ## `amf.cpp`: `serialized` and `decode` -/

mutual
/-- The virtual method `serialized` for AMF version 0. -/
def AMFType.serialized (qt : QtUtf8) : AMFType → QByteArray
  | .number bits => amfEncodeUInt8 0x00 ++ amfEncodeDouble bits
  | .boolean value => amfEncodeUInt8 0x01 ++ amfEncodeUInt8 (if value then 1 else 0)
  | .string str =>
    (if (qt.toUtf8 str).length > 0xFFFF then amfEncodeUInt8 0x0C else amfEncodeUInt8 0x02)
      ++ amfEncodeUtf8String (qt.toUtf8 str)
  | .object props => [0x03] ++ props.serialized qt ++ [0x00, 0x00] ++ [0x09]
  | .ecmaArray count props =>
    ([0x08] ++ amfEncodeUInt32 count) ++ props.serialized qt ++ [0x00, 0x00] ++ [0x09]
  | .null => amfEncodeUInt8 0x05
  | .undefined => amfEncodeUInt8 0x06
/-- The loop of `AMFObject::serialized` over the map: encoded key, then value. -/
def AMFProps.serialized (qt : QtUtf8) : AMFProps → QByteArray
  | .nil => []
  | .cons key value rest =>
    amfEncodeUtf8String (qt.toUtf8 key) ++ value.serialized qt ++ rest.serialized qt
end

mutual
/-- The static method `AMFType::decode(data, resultOut)`.  The result is the
value left in `*resultOut` (`none` for `NULL`) and the `uint` returned.
Every nested call and every turn of the property loop takes one unit of
`fuel`; the outer `none` means the fuel ran out before the call returned. -/
def AMFType.decode (qt : QtUtf8) : Nat → CharPtr → Option (Option AMFType × Nat)
  | 0, _ => none
  | fuel + 1, data =>
    let marker := amfDecodeUInt8 data
    if marker = 0x00 then
      some (some (.number (amfDecodeDouble (data.offset 1))), 1 + 8)
    else if marker = 0x01 then
      some (some (.boolean (amfDecodeUInt8 (data.offset 1) != 0)), 1 + 1)
    else if marker = 0x02 then
      let len := amfDecodeUInt16 (data.offset 1)
      some (some (.string (qt.fromUtf8 ((data.offset 3).read len))), 1 + 2 + len)
    else if marker = 0x03 then
      match AMFType.decodeProps qt fuel data 1 .nil with
      | none => none
      | some (none, n) => some (none, n)
      | some (some props, n) => some (some (.object props), n)
    else if marker = 0x08 then
      match AMFType.decodeProps qt fuel data (1 + 4) .nil with
      | none => none
      | some (none, n) => some (none, n)
      | some (some props, n) =>
        some (some (.ecmaArray (amfDecodeUInt32 (data.offset 1)) props), n)
    else if marker = 0x05 then some (some .null, 1)
    else if marker = 0x06 then some (some .undefined, 1)
    else if marker = 0x0C then
      let len := amfDecodeUInt32 (data.offset 1)
      some (some (.string (qt.fromUtf8 ((data.offset 5).read len))), (1 + 4 + len) % 2 ^ 32)
    else some (none, 0)
/-- The `for(;;)` loop of `decode` for an object or ECMA array: `objSize`
bytes have been read and `obj` holds the properties inserted so far. -/
def AMFType.decodeProps (qt : QtUtf8) :
    Nat → CharPtr → Nat → AMFProps → Option (Option AMFProps × Nat)
  | 0, _, _, _ => none
  | fuel + 1, data, objSize, obj =>
    let len := amfDecodeUInt16 (data.offset objSize)
    let key := qt.fromUtf8 ((data.offset (objSize + 2)).read len)
    let objSize := (objSize + (2 + len)) % 2 ^ 32
    if amfDecodeUInt8 (data.offset objSize) = 0x09 then
      some (some obj, (objSize + 1) % 2 ^ 32)
    else
      match AMFType.decode qt fuel (data.offset objSize) with
      | none => none
      | some (none, _) => some (none, 0)
      | some (some value, n) =>
        AMFType.decodeProps qt fuel data ((objSize + n) % 2 ^ 32) (obj.insert key value)
end

/-- The property loop of `decode`, with `objSize` bytes read and the
properties `obj` inserted, comes after some turns, each of which has read a
key that is not the end of the object and decoded its value, to `objSize'`
bytes read and the properties `obj'`. -/
inductive AMFType.LoopReaches (qt : QtUtf8) (data : CharPtr) :
    Nat → AMFProps → Nat → AMFProps → Prop
  | here (objSize : Nat) (obj : AMFProps) : AMFType.LoopReaches qt data objSize obj objSize obj
  | turn (objSize : Nat) (obj : AMFProps) (fuel : Nat) (value : AMFType) (n objSize' : Nat)
      (obj' : AMFProps)
      (h9 : amfDecodeUInt8
        (data.offset ((objSize + (2 + amfDecodeUInt16 (data.offset objSize))) % 2 ^ 32)) ≠ 0x09)
      (hv : AMFType.decode qt fuel
        (data.offset ((objSize + (2 + amfDecodeUInt16 (data.offset objSize))) % 2 ^ 32))
          = some (some value, n))
      (rest : AMFType.LoopReaches qt data
        (((objSize + (2 + amfDecodeUInt16 (data.offset objSize))) % 2 ^ 32 + n) % 2 ^ 32)
        (obj.insert (qt.fromUtf8 ((data.offset (objSize + 2)).read
          (amfDecodeUInt16 (data.offset objSize)))) value)
        objSize' obj') :
      AMFType.LoopReaches qt data objSize obj objSize' obj'

/-! ## Well-formed values -/

/-- Whether every key of the map is above `key`, seen at the first pair. -/
def AMFProps.headAbove (key : QString) : AMFProps → Bool
  | .nil => true
  | .cons k _ _ => QString.lt key k

mutual
/-- The value is one a program can hold: each map in it is a `QMap`, with
its keys in strictly ascending order. -/
def AMFType.wellFormed : AMFType → Bool
  | .object props => props.wellFormed
  | .ecmaArray _ props => props.wellFormed
  | _ => true
/-- The pairs are in strictly ascending key order and the values well-formed. -/
def AMFProps.wellFormed : AMFProps → Bool
  | .nil => true
  | .cons key value rest => rest.headAbove key && value.wellFormed && rest.wellFormed
end

mutual
/-- Every string and every key in the value survives Qt's UTF-8 round trip. -/
def AMFType.textRoundTrips (qt : QtUtf8) : AMFType → Prop
  | .string str => qt.fromUtf8 (qt.toUtf8 str) = str
  | .object props => props.textRoundTrips qt
  | .ecmaArray _ props => props.textRoundTrips qt
  | _ => True
/-- Every key and every value of the map survives Qt's UTF-8 round trip. -/
def AMFProps.textRoundTrips (qt : QtUtf8) : AMFProps → Prop
  | .nil => True
  | .cons key value rest =>
    qt.fromUtf8 (qt.toUtf8 key) = key ∧ value.textRoundTrips qt ∧ rest.textRoundTrips qt
end

mutual
/-- Every key in the value takes at most 0xFFFF bytes of UTF-8, and every
number and associative count fits its field. -/
def AMFType.fitsAmf0 (qt : QtUtf8) : AMFType → Prop
  | .number bits => bits < 2 ^ 64
  | .object props => props.fitsAmf0 qt
  | .ecmaArray count props => count < 2 ^ 32 ∧ props.fitsAmf0 qt
  | _ => True
/-- Every key of the map takes at most 0xFFFF bytes of UTF-8. -/
def AMFProps.fitsAmf0 (qt : QtUtf8) : AMFProps → Prop
  | .nil => True
  | .cons key value rest =>
    (qt.toUtf8 key).length ≤ 0xFFFF ∧ value.fitsAmf0 qt ∧ rest.fitsAmf0 qt
end

mutual
/-- The calls of `decode` and turns of its loop that reading the value back takes. -/
def AMFType.decodeSteps : AMFType → Nat
  | .object props => 1 + props.decodeSteps
  | .ecmaArray _ props => 1 + props.decodeSteps
  | _ => 1
/-- The turns of the property loop, and the calls below it, for the map. -/
def AMFProps.decodeSteps : AMFProps → Nat
  | .nil => 1
  | .cons _ value rest => 1 + value.decodeSteps + rest.decodeSteps
end

/-- The text codec of plain ASCII: one byte per code unit. -/
def asciiText : QtUtf8 := ⟨id, id⟩


/-- The keys of a map in iteration order. -/
def AMFProps.keys (m : AMFProps) : List QString := m.toList.map Prod.fst

/-- The bytes `AMFObject::serialized` emits for one property: the key behind
its length, then the encoded value. -/
def AMFType.serializedProperty (qt : QtUtf8) (kv : QString × AMFType) : QByteArray :=
  amfEncodeUtf8String (qt.toUtf8 kv.1) ++ kv.2.serialized qt

/-- The test `QString::isEmpty`. -/
def QString.isEmpty (s : QString) : Bool := s.length == 0

/-- The method `QString::trimmed`: whitespace, as `QChar::isSpace` sees it,
removed from both ends. -/
def QString.trimmed (isSpace : Nat → Bool) (s : QString) : QString :=
  ((s.dropWhile isSpace).reverse.dropWhile isSpace).reverse

/-- The test `QString::contains(pattern)`. -/
def QString.contains : QString → QString → Bool
  | [], pattern => pattern.isEmpty
  | c :: cs, pattern => pattern.isPrefixOf (c :: cs) || QString.contains cs pattern

/-- The method `QString::split(sep)`, which keeps empty parts. -/
def QString.split (sep : Nat) : QString → List QString
  | [] => [[]]
  | c :: cs =>
    if c = sep then [] :: QString.split sep cs
    else
      match QString.split sep cs with
      | [] => [[c]]
      | part :: parts => (c :: part) :: parts

/-- The method `QStringList::join(sep)`. -/
def QString.join (sep : Nat) : List QString → QString
  | [] => []
  | [part] => part
  | part :: next :: parts => part ++ sep :: QString.join sep (next :: parts)

/-- The decimal digits of `n`, for `n` below `10 ^ fuel`. -/
def QString.digits : Nat → Nat → QString
  | 0, _ => []
  | fuel + 1, n => if n < 10 then [48 + n] else QString.digits fuel (n / 10) ++ [48 + n % 10]

/-- The text `.arg(int)` substitutes: the number in decimal. -/
def QString.number : Int → QString
  | .ofNat n => QString.digits (n + 1) n
  | .negSucc n => 45 :: QString.digits (n + 2) (n + 1)

/-- What the accessors of a `QUrl` report. -/
structure QUrl where
  /-- The result of `isValid()`. -/
  isValid : Bool
  /-- The result of `scheme()`. -/
  scheme : QString
  /-- The result of `userInfo()`. -/
  userInfo : QString
  /-- The result of `host()`. -/
  host : QString
  /-- The result of `port(-1)`: the port, or `none` when the URL has none. -/
  port : Option Nat
  /-- The result of `path()`. -/
  path : QString
  /-- The result of `hasQuery()`. -/
  hasQuery : Bool
  /-- The result of `query()`. -/
  query : QString
  /-- The result of `hasFragment()`. -/
  hasFragment : Bool
  deriving DecidableEq

/-- The call `url.port(defaultPort)`. -/
def QUrl.portOr (url : QUrl) (defaultPort : Int) : Int :=
  (url.port.map Int.ofNat).getD defaultPort

/-- The functions of Qt that `fromUrl` relies on. -/
structure QtUrl where
  /-- The test `QChar::isSpace`. -/
  isSpace : Nat → Bool
  /-- The constructor `QUrl(urlStr)`, which parses the text. -/
  parse : QString → QUrl

/-! ## `rtmptargetinfo.h` and `rtmptargetinfo.cpp` -/

/-- The constant `DEFAULT_RTMP_PORT`. -/
def DEFAULT_RTMP_PORT : Int := 1935

/-- The enumeration `RTMPProtocolType`. -/
inductive RTMPProtocolType where
  | RTMPProtocol
  | RTMPSProtocol
  | RTMPInvalidProtocol
  deriving DecidableEq

/-- The value of an enumerator: 0, 1 and 100. -/
def RTMPProtocolType.toInt : RTMPProtocolType → Nat
  | .RTMPProtocol => 0
  | .RTMPSProtocol => 1
  | .RTMPInvalidProtocol => 100

/-- The table `RTMPProtocolTypeStrings`. -/
def RTMPProtocolTypeStrings : List QString := [qstr "rtmp", qstr "rtmps"]

/-- The class `RTMPTargetInfo`. -/
structure RTMPTargetInfo where
  protocol : RTMPProtocolType
  host : QString
  port : Int
  appName : QString
  appInstance : QString
  streamName : QString
  deriving DecidableEq

/-- The method `isValid`. -/
def RTMPTargetInfo.isValid (info : RTMPTargetInfo) : Bool :=
  info.protocol != .RTMPInvalidProtocol

/-- The path `fromUrl` splits: `url.path()` without its first character,
followed by `?` and the query when the URL has one. -/
def RTMPTargetInfo.pathWithQuery (url : QUrl) : QString :=
  if url.hasQuery then url.path.drop 1 ++ qstr "?" ++ url.query else url.path.drop 1

/-- The text `fromUrl` hands to `QUrl`: trimmed, with `rtmp://` put in front
when it holds no `://`. -/
def RTMPTargetInfo.urlStr (qt : QtUrl) (str : QString) : QString :=
  if !(QString.trimmed qt.isSpace str).contains (qstr "://") then
    qstr "rtmp://" ++ QString.trimmed qt.isSpace str
  else QString.trimmed qt.isSpace str

/-- The body of `fromUrl` from the validity test of the parsed `QUrl` on. -/
def RTMPTargetInfo.fromQUrl (url : QUrl) (incStreamName : Bool) (streamName : QString) :
    RTMPTargetInfo :=
  let out : RTMPTargetInfo :=
    { protocol := .RTMPInvalidProtocol, host := [], port := DEFAULT_RTMP_PORT,
      appName := [], appInstance := [], streamName := [] }
  if !url.isValid then out
  else if !(RTMPProtocolTypeStrings.any (fun name => url.scheme == name)) then out
  else if !url.userInfo.isEmpty then out
  else if url.host.isEmpty then out
  else if url.hasFragment then out
  else
    let path := RTMPTargetInfo.pathWithQuery url
    if path.isEmpty then out
    else
      let protocol :=
        if url.scheme == RTMPProtocolTypeStrings.getD 0 [] then RTMPProtocolType.RTMPProtocol
        else if url.scheme == RTMPProtocolTypeStrings.getD 1 [] then .RTMPSProtocol
        else .RTMPInvalidProtocol
      let port := url.portOr DEFAULT_RTMP_PORT
      let split := QString.split 47 path
      let takeLast := incStreamName && decide (split.length > 1)
      let name := if incStreamName then (if takeLast then split.getLastD [] else []) else streamName
      let split := if takeLast then split.dropLast else split
      let appName := split.headD []
      let split := split.tail
      let appInstance := if split.length > 0 then QString.join 47 split else []
      { protocol := if appName.isEmpty then .RTMPInvalidProtocol else protocol,
        host := url.host, port := port, appName := appName, appInstance := appInstance,
        streamName := name }

/-- The static method `RTMPTargetInfo::fromUrl(str, incStreamName, streamName)`. -/
def RTMPTargetInfo.fromUrl (qt : QtUrl) (str : QString) (incStreamName : Bool)
    (streamName : QString) : RTMPTargetInfo :=
  RTMPTargetInfo.fromQUrl (qt.parse (RTMPTargetInfo.urlStr qt str)) incStreamName streamName

/-- The method `asUrl(forcePort, incStreamName)`.  The `arg` chain puts the
protocol name, host, port and application name into the template in that
order; the result is `none` when `protocol` indexes past the name table. -/
def RTMPTargetInfo.asUrl (info : RTMPTargetInfo) (forcePort incStreamName : Bool) :
    Option QString :=
  match RTMPProtocolTypeStrings[info.protocol.toInt]? with
  | none => none
  | some name =>
    let url :=
      if info.port == DEFAULT_RTMP_PORT && !forcePort then
        name ++ qstr "://" ++ info.host ++ qstr "/" ++ info.appName
      else
        name ++ qstr "://" ++ info.host ++ qstr ":" ++ QString.number info.port ++ qstr "/"
          ++ info.appName
    let url := if !info.appInstance.isEmpty then url ++ (qstr "/" ++ info.appInstance) else url
    let url :=
      if incStreamName && !info.streamName.isEmpty then url ++ (qstr "/" ++ info.streamName)
      else url
    some url

/-- What `QUrl` reports for a URL without user-info or fragment whose text
after the authority is `/` and `rest`: the query starts at the first `?`. -/
def QUrl.ofParts (scheme host : QString) (port : Option Nat) (rest : QString) : QUrl :=
  { isValid := true, scheme := scheme, userInfo := [], host := host, port := port,
    path := 47 :: rest.takeWhile (fun c => c != 63),
    hasQuery := rest.contains [63],
    query := (rest.dropWhile (fun c => c != 63)).drop 1,
    hasFragment := false }

/-- A stand-in for Qt that reports the given `QUrl` for every text. -/
def QtUrl.reporting (url : QUrl) : QtUrl :=
  { isSpace := fun c => c == 32 || (decide (9 ≤ c) && decide (c ≤ 13)), parse := fun _ => url }

/-! ## `rtmpclient.h`: the session state -/

/-- The enumeration `RTMPClient::HandshakeState`. -/
inductive HandshakeState where
  | DisconnectedState
  | ConnectingState
  | ConnectedState
  | VersionSentState
  | VersionReceivedState
  | AckSentState
  | InitializedState
  | DisconnectingState
  deriving DecidableEq

/-- The enumeration `RTMPClient::RTMPError`. -/
inductive RTMPError where
  | UnknownError
  | ConnectionRefusedError
  | RemoteHostClosedError
  | HostNotFoundError
  | TimeoutError
  | NetworkError
  | SslHandshakeFailedError
  | UnexpectedResponseError
  | InvalidWriteError
  | RtmpConnectRejectedError
  | RtmpCreateStreamError
  | RtmpPublishRejectedError
  deriving DecidableEq

/-- The enumeration `RTMPClient::AckLimitType`. -/
inductive AckLimitType where
  | HardLimitType
  | SoftLimitType
  | DynamicLimitType
  deriving DecidableEq

/-- The enumerator `NullMsgType` of `RTMPMsgType`. -/
def NullMsgType : Int := 0
/-- The enumerator `SetChunkSizeMsgType`. -/
def SetChunkSizeMsgType : Int := 1
/-- The enumerator `AbortMsgType`. -/
def AbortMsgType : Int := 2
/-- The enumerator `AckMsgType`. -/
def AckMsgType : Int := 3
/-- The enumerator `UserControlMsgType`. -/
def UserControlMsgType : Int := 4
/-- The enumerator `WindowAckSizeMsgType`. -/
def WindowAckSizeMsgType : Int := 5
/-- The enumerator `SetPeerBWMsgType`. -/
def SetPeerBWMsgType : Int := 6
/-- The enumerator `AudioMsgType`. -/
def AudioMsgType : Int := 8
/-- The enumerator `VideoMsgType`. -/
def VideoMsgType : Int := 9
/-- The enumerator `CommandAmf0MsgType`. -/
def CommandAmf0MsgType : Int := 20

/-- The structure `RTMPClient::ChunkStreamState`.  `msgType` is an
enumeration and so an `int`; the other numbers are 32-bit unsigned. -/
structure ChunkStreamState where
  timestamp : Nat
  timestampDelta : Nat
  msgLen : Nat
  msgType : Int
  msgStreamId : Nat
  msgLenRemaining : Nat
  msg : QByteArray
  deriving DecidableEq

/-- The state `initInChunkStreamState` and `initOutChunkStreamState` store
for a new chunk stream. -/
def ChunkStreamState.init : ChunkStreamState :=
  { timestamp := 0, timestampDelta := 0, msgLen := 0, msgType := NullMsgType,
    msgStreamId := 0, msgLenRemaining := 0, msg := [] }

/-- A `QHash<uint, T>`, as its key/value pairs. -/
abbrev QHash (α : Type) := List (Nat × α)

/-- The test `QHash::contains`. -/
def QHash.contains {α : Type} (h : QHash α) (key : Nat) : Bool :=
  h.any (fun kv => kv.1 == key)

/-- The value stored under a key, if any. -/
def QHash.value? {α : Type} : QHash α → Nat → Option α
  | [], _ => none
  | (k, v) :: rest, key => if k = key then some v else QHash.value? rest key

/-- The assignment `h[key] = value`. -/
def QHash.set {α : Type} : QHash α → Nat → α → QHash α
  | [], key, value => [(key, value)]
  | (k, v) :: rest, key, value =>
    if k = key then (k, value) :: rest else (k, v) :: QHash.set rest key value

/-- A call of `processMessage(streamId, type, timestamp, msg)`. -/
structure Dispatch where
  streamId : Nat
  type : Int
  timestamp : Nat
  msg : QByteArray
  deriving DecidableEq

/-- The members of `RTMPPublisher`. -/
structure RTMPPublisher where
  isReady : Bool
  isAvc : Bool
  deriving DecidableEq

/-- The signals of `RTMPClient` other than `error` and `dataWritten`, and
the signal `ready` of its publisher. -/
inductive Signal where
  | connecting
  | connected
  | initialized
  | connectedToApp
  | createdStream (streamId : Nat)
  | disconnected
  | receivedAmfCommandMsg (streamId : Nat) (params : List AMFType)
  | ready
  deriving DecidableEq

/-- The members of `RTMPClient` that the chunk engine and the send pipeline
read and write, followed by three records of what the session did: the
`error` signals emitted, the bytes handed to `QTcpSocket::write`, and the
calls of `processMessage`; then the publisher (`none` for `NULL`), the
settings the constructor initialises, the other signals emitted, and the
average upload speed of gamer mode. -/
structure RTMPClient where
  handshakeState : HandshakeState
  handshakeRandomData : QByteArray
  inMaxChunkSize : Nat
  outMaxChunkSize : Nat
  inAckWinSize : Nat
  outAckWinSize : Nat
  inAckLimitType : AckLimitType
  inBytesSinceLastAck : Nat
  outBytesSinceLastAck : Nat
  inBytesSinceHandshake : Nat
  inChunkStreams : QHash ChunkStreamState
  outChunkStreams : QHash ChunkStreamState
  nextTransactionIds : QHash Nat
  appConnected : Bool
  appConnectTransId : Nat
  creatingStream : Bool
  createStreamTransId : Nat
  publishStreamId : Nat
  beginningPublish : Bool
  lastPublishTimestamp : Nat
  outBuf : QByteArray
  bufferOutBufRef : Int
  inGamerMode : Bool
  gamerOutBuf : QByteArray
  gamerInSatMode : Bool
  errors : List RTMPError
  socketWritten : QByteArray
  processed : List Dispatch
  publisher : Option RTMPPublisher := none
  autoInitialize : Bool := true
  autoAppConnect : Bool := true
  versionString : QString := qstr "FMLE/3.0 (compatible; FMSc/1.0)"
  remoteInfo : RTMPTargetInfo :=
    { protocol := .RTMPProtocol, host := [], port := DEFAULT_RTMP_PORT, appName := [],
      appInstance := [], streamName := [] }
  signals : List Signal := []
  gamerAvgUploadBytes : Int := 100 * 1024 * 1024

/-- The session as `RTMPClient()` and `resetStateMembers()` leave it. -/
def RTMPClient.initial : RTMPClient :=
  { handshakeState := .DisconnectedState, handshakeRandomData := [],
    inMaxChunkSize := 128, outMaxChunkSize := 128,
    inAckWinSize := 2500000, outAckWinSize := 2500000,
    inAckLimitType := .HardLimitType,
    inBytesSinceLastAck := 0, outBytesSinceLastAck := 0, inBytesSinceHandshake := 0,
    inChunkStreams := [], outChunkStreams := [], nextTransactionIds := [],
    appConnected := false, appConnectTransId := 0,
    creatingStream := false, createStreamTransId := 0,
    publishStreamId := 0, beginningPublish := false, lastPublishTimestamp := 0,
    outBuf := [], bufferOutBufRef := 0,
    inGamerMode := false, gamerOutBuf := [], gamerInSatMode := false,
    errors := [], socketWritten := [], processed := [] }

/-- A fresh session whose handshake has completed. -/
def RTMPClient.initialized : RTMPClient :=
  { RTMPClient.initial with handshakeState := .InitializedState }

/-- The method `socketWrite(data)`, which drives the Qt socket: its return
value and the session it leaves. -/
abbrev SocketWrite := RTMPClient → QByteArray → Int × RTMPClient

/-- A socket whose send buffer takes everything it is given. -/
def SocketWrite.acceptAll : SocketWrite :=
  fun c data => (0, { c with socketWritten := c.socketWritten ++ data })

/-- The method `processMessage(streamId, type, timestamp, msg)`. -/
abbrev ProcessMessage := RTMPClient → Nat → Int → Nat → QByteArray → RTMPClient

/-- What `processMessage` does with a message it has no case for: it logs it. -/
def ProcessMessage.logOnly : ProcessMessage := fun c _ _ _ _ => c

/-! ## `rtmpclient.cpp`: the write path -/

/-- The method `write(data)` up to its call of `socketWrite`. -/
def RTMPClient.write (socketWrite : SocketWrite) (c : RTMPClient) (data : QByteArray) :
    Bool × RTMPClient :=
  match c.handshakeState with
  | .DisconnectedState | .ConnectingState | .DisconnectingState =>
    (false, { c with errors := c.errors ++ [.InvalidWriteError] })
  | _ =>
    if data.isEmpty then (true, c)
    else if c.inGamerMode && !c.gamerInSatMode then
      (true, { c with gamerOutBuf := c.gamerOutBuf ++ data })
    else if c.bufferOutBufRef > 0 then (true, { c with outBuf := c.outBuf ++ data })
    else
      let r := socketWrite c data
      (decide (0 ≤ r.1), r.2)

/-- The function `writeUInt24`. -/
def writeUInt24 (val : Nat) : QByteArray := amfEncodeUInt24 val

/-- The function `writeLEUInt32`: the four bytes of `val`, lowest first. -/
def writeLEUInt32 (val : Nat) : QByteArray :=
  [val % 256, val / 256 % 256, val / 65536 % 256, val / 16777216 % 256]

/-- The message header format `writeMessage` settles on before it splits the
message: the smallest one the state of the chunk stream allows. -/
def chooseFmt (state : ChunkStreamState) (streamId : Nat) (type : Int) (timestamp : Nat)
    (msgSize : Nat) : Nat :=
  let fmt := 3
  let fmt :=
    if state.timestampDelta ≠ (timestamp + 2 ^ 32 - state.timestamp) % 2 ^ 32 then 2 else fmt
  let fmt := if state.msgLen ≠ msgSize ∨ state.msgType ≠ type then 1 else fmt
  if timestamp = 0 ∨ timestamp < state.timestamp ∨ state.msgStreamId ≠ streamId then 0 else fmt

/-- The basic header of a chunk: one byte for chunk streams up to 63, two up
to 319, three above. -/
def basicHeader (fmt csId : Nat) : QByteArray :=
  if csId ≤ 63 then [(fmt * 64 + csId) % 256]
  else if csId ≤ 319 then [fmt * 64 % 256, (csId - 64) % 256]
  else [(fmt * 64 + 1) % 256, (csId - 64) / 256 % 256, (csId - 64) % 256]

/-- The `switch(fmt)` of `writeMessage`: the state after the update and the
message header written. -/
def messageHeader (fmt : Nat) (state : ChunkStreamState) (streamId : Nat) (type : Int)
    (timestamp : Nat) (msgSize : Nat) : ChunkStreamState × QByteArray :=
  if fmt = 1 then
    let state := { state with
      timestampDelta := (timestamp + 2 ^ 32 - state.timestamp) % 2 ^ 32,
      timestamp := timestamp, msgLen := msgSize, msgType := type }
    (state, writeUInt24 state.timestampDelta ++ writeUInt24 state.msgLen
      ++ [(state.msgType % 256).toNat])
  else if fmt = 2 then
    let state := { state with
      timestampDelta := (timestamp + 2 ^ 32 - state.timestamp) % 2 ^ 32,
      timestamp := timestamp }
    (state, writeUInt24 state.timestampDelta)
  else if fmt = 3 then (state, [])
  else
    let state := { state with
      timestamp := timestamp, timestampDelta := timestamp, msgLen := msgSize,
      msgType := type, msgStreamId := streamId }
    (state,
      (if state.timestamp ≥ 0xFFFFFF then writeUInt24 0xFFFFFF else writeUInt24 state.timestamp)
        ++ writeUInt24 state.msgLen ++ [(state.msgType % 256).toNat]
        ++ writeLEUInt32 state.msgStreamId
        ++ (if state.timestamp ≥ 0xFFFFFF then amfEncodeUInt32 state.timestamp else []))

/-- The `do ... while` loop of `writeMessage`, one chunk per turn and one
unit of `fuel` per turn: the bytes put on the write stream and the state at
the end, or `none` when the fuel runs out before the loop ends. -/
def writeChunks : Nat → Nat → Nat → ChunkStreamState → Nat → Int → Nat → QByteArray → Nat →
    Option (QByteArray × ChunkStreamState)
  | 0, _, _, _, _, _, _, _, _ => none
  | fuel + 1, outMaxChunkSize, fmt, state, streamId, type, timestamp, msg, csId =>
    let chunkLen := min state.msgLenRemaining outMaxChunkSize
    let header := messageHeader fmt state streamId type timestamp msg.length
    let data := (msg.drop (msg.length - header.1.msgLenRemaining)).take chunkLen
    let state := { header.1 with msgLenRemaining := header.1.msgLenRemaining - chunkLen }
    let chunk := basicHeader fmt csId ++ header.2 ++ data
    if state.msgLenRemaining > 0 then
      match writeChunks fuel outMaxChunkSize 3 state streamId type timestamp msg csId with
      | none => none
      | some (more, last) => some (chunk ++ more, last)
    else some (chunk, state)

/-- The method `initOutChunkStreamState(id)`. -/
def RTMPClient.initOutChunkStreamState (c : RTMPClient) (id : Nat) : Bool × RTMPClient :=
  if c.outChunkStreams.contains id then (false, c)
  else (true, { c with outChunkStreams := c.outChunkStreams.set id ChunkStreamState.init })

/-- The method `initInChunkStreamState(id)`. -/
def RTMPClient.initInChunkStreamState (c : RTMPClient) (id : Nat) : Bool × RTMPClient :=
  if c.inChunkStreams.contains id then (false, c)
  else (true, { c with inChunkStreams := c.inChunkStreams.set id ChunkStreamState.init })

/-- The part of `writeMessage` between `beginWriteStream()` and
`endWriteStream()`, run on the session in which the state of the chunk stream
is in place: the bytes of all the chunks of the message, which `writeMessage`
hands to `write`, and the state it then stores for the chunk stream. -/
def RTMPClient.chunkMessage (c : RTMPClient) (streamId : Nat) (type : Int) (timestamp : Nat)
    (msg : QByteArray) (csId : Nat) (fuel : Nat) : Option (QByteArray × ChunkStreamState) :=
  let state := (c.outChunkStreams.value? csId).getD ChunkStreamState.init
  let fmt := chooseFmt state streamId type timestamp msg.length
  let state := { state with msgLenRemaining := msg.length }
  writeChunks fuel c.outMaxChunkSize fmt state streamId type timestamp msg csId

/-- The method `writeMessage(streamId, type, timestamp, msg, csId)`: its
return value and the session it leaves, or `none` when its loop does not end
within `fuel` turns. -/
def RTMPClient.writeMessage (socketWrite : SocketWrite) (c : RTMPClient) (streamId : Nat)
    (type : Int) (timestamp : Nat) (msg : QByteArray) (csId : Nat) (fuel : Nat) :
    Option (Bool × RTMPClient) :=
  let c := (c.initOutChunkStreamState csId).2
  if csId > 65599 ∨ csId ≤ 1 then
    some (false, { c with errors := c.errors ++ [.InvalidWriteError] })
  else
    match c.chunkMessage streamId type timestamp msg csId fuel with
    | none => none
    | some (data, state) =>
      let r := c.write socketWrite data
      if !r.1 then some (false, r.2)
      else some (true, { r.2 with outChunkStreams := r.2.outChunkStreams.set csId state })

/-- The method `writeAcknowledge()`. -/
def RTMPClient.writeAcknowledge (socketWrite : SocketWrite) (c : RTMPClient) (fuel : Nat) :
    Option (Bool × RTMPClient) :=
  c.writeMessage socketWrite 0 AckMsgType 0 (amfEncodeUInt32 c.inBytesSinceHandshake) 2 fuel

/-! ## `rtmpclient.cpp`: the read path -/

/-- The conversion `(uint)data[i]` of a `char`: sign-extended where `char`
is a signed type, as the platform decides. -/
def charToUInt (signedChar : Bool) (byte : Nat) : Nat :=
  if signedChar && decide (128 ≤ byte % 256) then byte % 256 + (2 ^ 32 - 256) else byte % 256

/-- The conversion `(RTMPMsgType)data[i]` of a `char` to an enumeration. -/
def charToEnum (signedChar : Bool) (byte : Nat) : Int :=
  if signedChar && decide (128 ≤ byte % 256) then (byte % 256 : Int) - 256 else (byte % 256 : Int)

/-- The function `decodeLEUInt32`. -/
def decodeLEUInt32 (data : CharPtr) : Nat :=
  data 0 % 256 + data 1 % 256 * 256 + data 2 % 256 * 65536 + data 3 % 256 * 16777216

/-- The bytes of a peeked header seen through `constData()`; the reads of
`readChunkFromSocket` stay below the size it has checked. -/
def headerData (header : QByteArray) : CharPtr := fun i => header.getD i 0

/-- The basic header decoded at the top of `readChunkFromSocket`: `fmt`,
the chunk stream id and `basicSize`, or `none` where the method returns false
for want of bytes. -/
def decodeBasicHeader (signedChar : Bool) (header : QByteArray) : Option (Nat × Nat × Nat) :=
  if header.length < 1 then none
  else
    let fmt := header.getD 0 0 % 256 / 64
    let csId := header.getD 0 0 % 64
    if csId = 0 then
      if header.length < 2 then none
      else some (fmt, (charToUInt signedChar (header.getD 1 0) + 64) % 2 ^ 32, 2)
    else if csId = 1 then
      if header.length < 3 then none
      else
        some (fmt,
          (charToUInt signedChar (header.getD 2 0) * 256
            + charToUInt signedChar (header.getD 1 0) + 64) % 2 ^ 32, 3)
    else some (fmt, csId, 1)

/-- The `switch(fmt)` of `readChunkFromSocket`: the updated copy of the
state, `dataStart` and `chunkLen`, or `none` where the method returns false
for want of header bytes. -/
def decodeMessageHeader (signedChar : Bool) (inMaxChunkSize : Nat) (header : QByteArray)
    (fmt basicSize : Nat) (state : ChunkStreamState) : Option (ChunkStreamState × Nat × Nat) :=
  let data := headerData header
  if fmt = 1 then
    if header.length < basicSize + 7 then none
    else
      let delta := amfDecodeUInt24 (data.offset basicSize)
      let state := { state with
        timestampDelta := delta, timestamp := (state.timestamp + delta) % 2 ^ 32,
        msgLen := amfDecodeUInt24 (data.offset (basicSize + 3)) }
      let state := { state with
        msgLenRemaining := state.msgLen,
        msgType := charToEnum signedChar (data (basicSize + 6)) }
      some (state, basicSize + 7, min state.msgLen inMaxChunkSize)
  else if fmt = 2 then
    if header.length < basicSize + 3 then none
    else
      let delta := amfDecodeUInt24 (data.offset basicSize)
      let state := { state with
        timestampDelta := delta, timestamp := (state.timestamp + delta) % 2 ^ 32 }
      if state.msgLenRemaining > 0 then
        some (state, basicSize + 3, min state.msgLenRemaining inMaxChunkSize)
      else
        some ({ state with msgLenRemaining := state.msgLen }, basicSize + 3,
          min state.msgLen inMaxChunkSize)
  else if fmt = 3 then
    if state.msgLenRemaining > 0 then
      some (state, basicSize, min state.msgLenRemaining inMaxChunkSize)
    else
      let state := { state with
        timestamp := (state.timestamp + state.timestampDelta) % 2 ^ 32,
        msgLenRemaining := state.msgLen }
      some (state, basicSize, min state.msgLen inMaxChunkSize)
  else
    if header.length < basicSize + 11 then none
    else
      let short := amfDecodeUInt24 (data.offset basicSize)
      if short ≥ 0xFFFFFF ∧ header.length < basicSize + 11 + 4 then none
      else
        let timestamp :=
          if short ≥ 0xFFFFFF then amfDecodeUInt32 (data.offset (basicSize + 11)) else short
        let dataStart := if short ≥ 0xFFFFFF then basicSize + 11 + 4 else basicSize + 11
        let state := { state with
          timestamp := timestamp, timestampDelta := timestamp,
          msgLen := amfDecodeUInt24 (data.offset (basicSize + 3)) }
        let state := { state with
          msgLenRemaining := state.msgLen,
          msgType := charToEnum signedChar (data (basicSize + 6)),
          msgStreamId := decodeLEUInt32 (data.offset (basicSize + 7)) }
        some (state, dataStart, min state.msgLen inMaxChunkSize)

/-- The method `readChunkFromSocket(buffer)`: its return value, the session
it leaves and what is left of the buffer, or `none` when the acknowledgement
it writes does not return within `fuel` turns. -/
def RTMPClient.readChunkFromSocket (signedChar : Bool) (socketWrite : SocketWrite)
    (processMessage : ProcessMessage) (c : RTMPClient) (buffer : QByteArray) (fuel : Nat) :
    Option (Bool × RTMPClient × QByteArray) :=
  let header := buffer.take (3 + 11 + 4)
  match decodeBasicHeader signedChar header with
  | none => some (false, c, buffer)
  | some (fmt, csId, basicSize) =>
    let c := (c.initInChunkStreamState csId).2
    let state := (c.inChunkStreams.value? csId).getD ChunkStreamState.init
    match decodeMessageHeader signedChar c.inMaxChunkSize header fmt basicSize state with
    | none => some (false, c, buffer)
    | some (state, dataStart, chunkLen) =>
      if buffer.length < dataStart + chunkLen then some (false, c, buffer)
      else
        let state := if fmt ≠ 3 then { state with msg := [] } else state
        let buffer := buffer.drop dataStart
        let state := { state with
          msg := state.msg ++ buffer.take chunkLen,
          msgLenRemaining := state.msgLenRemaining - chunkLen }
        let buffer := buffer.drop chunkLen
        let c := { c with
          inChunkStreams := c.inChunkStreams.set csId state,
          inBytesSinceHandshake := (c.inBytesSinceHandshake + (dataStart + chunkLen)) % 2 ^ 32,
          inBytesSinceLastAck := (c.inBytesSinceLastAck + (dataStart + chunkLen)) % 2 ^ 32 }
        let acked :=
          if c.inBytesSinceLastAck ≥ c.inAckWinSize then
            match c.writeAcknowledge socketWrite fuel with
            | none => none
            | some r => some { r.2 with inBytesSinceLastAck := 0 }
          else some c
        match acked with
        | none => none
        | some c =>
          if state.msgLenRemaining ≤ 0 then
            let c := { c with
              processed := c.processed
                ++ [⟨state.msgStreamId, state.msgType, state.timestamp, state.msg⟩] }
            some (true, processMessage c state.msgStreamId state.msgType state.timestamp
              state.msg, buffer)
          else some (true, c, buffer)

/-- The loop `while(readChunkFromSocket(buffer));` of `processSocketData`,
one unit of `fuel` per chunk read. -/
def RTMPClient.readChunks (signedChar : Bool) (socketWrite : SocketWrite)
    (processMessage : ProcessMessage) :
    Nat → RTMPClient → QByteArray → Option (RTMPClient × QByteArray)
  | 0, _, _ => none
  | fuel + 1, c, buffer =>
    match c.readChunkFromSocket signedChar socketWrite processMessage buffer (fuel + 1) with
    | none => none
    | some (false, c, buffer) => some (c, buffer)
    | some (true, c, buffer) =>
      RTMPClient.readChunks signedChar socketWrite processMessage fuel c buffer

/-- A logical message handed to `writeMessage`. -/
structure Message where
  streamId : Nat
  type : Int
  timestamp : Nat
  msg : QByteArray
  csId : Nat
  deriving DecidableEq

/-- The messages written one after the other with `writeMessage`. -/
def RTMPClient.writeMessages (socketWrite : SocketWrite) (fuel : Nat) :
    RTMPClient → List Message → Option RTMPClient
  | c, [] => some c
  | c, m :: rest =>
    match c.writeMessage socketWrite m.streamId m.type m.timestamp m.msg m.csId fuel with
    | none => none
    | some r => RTMPClient.writeMessages socketWrite fuel r.2 rest

/-- The header format of the first message on a chunk stream without output
state: 0 when the timestamp is 0 or the message stream is not 0; otherwise 1,
or 2 for an empty message of type 0. -/
def firstMessageFmt (streamId : Nat) (type : Int) (timestamp : Nat) (msg : QByteArray) : Nat :=
  if timestamp = 0 ∨ streamId ≠ 0 then 0 else if msg ≠ [] ∨ type ≠ 0 then 1 else 2

/-- Two one-byte video messages on chunk stream 4, 10 ms apart after 10 ms. -/
def twoVideoMessages : List Message :=
  [⟨1, VideoMsgType, 10, [0xAA], 4⟩, ⟨1, VideoMsgType, 20, [0xBB], 4⟩]

/-! ## The chunks of a message, as the wire format describes them -/

/-- A chunk on the wire: basic header, message header and payload. -/
structure Chunk where
  basic : QByteArray
  header : QByteArray
  payload : QByteArray
  deriving DecidableEq

/-- The bytes of a chunk. -/
def Chunk.bytes (ch : Chunk) : QByteArray := ch.basic ++ ch.header ++ ch.payload

/-- The number of chunks of a message of `size` bytes cut into chunks of
`maxChunkSize`: the quotient rounded up, and one chunk for an empty message. -/
def chunkCount (maxChunkSize size : Nat) : Nat := max 1 ((size + maxChunkSize - 1) / maxChunkSize)

/-- The `count` chunks that continue a message: each has a fmt 3 basic
header, no message header, and the next `maxChunkSize` bytes of what is
`left` of the payload. -/
def continuationChunks (maxChunkSize csId : Nat) : Nat → QByteArray → List Chunk
  | 0, _ => []
  | count + 1, left =>
    ⟨basicHeader 3 csId, [], left.take maxChunkSize⟩
      :: continuationChunks maxChunkSize csId count (left.drop maxChunkSize)

/-- The chunks of a message whose first chunk has format `fmt` and message
header `header`: the first `maxChunkSize` bytes of the payload go with the
first chunk and the rest with the chunks that continue it. -/
def messageChunks (fmt : Nat) (header : QByteArray) (maxChunkSize csId : Nat)
    (msg : QByteArray) : List Chunk :=
  ⟨basicHeader fmt csId, header, msg.take maxChunkSize⟩
    :: continuationChunks maxChunkSize csId (chunkCount maxChunkSize msg.length - 1)
        (msg.drop maxChunkSize)

/-- The chunks the wire format prescribes for a message handed to
`writeMessage` on the session `c`: the format of the first chunk and its
message header are those the state of the chunk stream calls for. -/
def RTMPClient.messageChunks (c : RTMPClient) (streamId : Nat) (type : Int) (timestamp : Nat)
    (msg : QByteArray) (csId : Nat) : List Chunk :=
  let state := (c.outChunkStreams.value? csId).getD ChunkStreamState.init
  let fmt := chooseFmt state streamId type timestamp msg.length
  Libbroadcast.messageChunks fmt
    (messageHeader fmt { state with msgLenRemaining := msg.length } streamId type timestamp
      msg.length).2
    c.outMaxChunkSize csId msg

/-! ## `rtmpclient.cpp`: the connection, its buffers and its setters -/

/-- What can keep a method from returning: a loop that outlasts the fuel, or
an operation the language leaves undefined. -/
inductive Fault where
  | outOfFuel
  | nullDereference
  | outOfBounds
  | undefinedConversion
  | signedOverflow
  deriving DecidableEq

deriving instance DecidableEq for Except

/-- The result of a method that loops: `none` becomes the fault `outOfFuel`. -/
def Fault.ofLoop {α : Type} : Option α → Except Fault α
  | none => .error .outOfFuel
  | some a => .ok a

/-- The statement `emit error(e)`. -/
def RTMPClient.emitError (c : RTMPClient) (e : RTMPError) : RTMPClient :=
  { c with errors := c.errors ++ [e] }

/-- The emission of one of the other signals. -/
def RTMPClient.emit (c : RTMPClient) (s : Signal) : RTMPClient :=
  { c with signals := c.signals ++ [s] }

/-- The method `isSocketConnected()`. -/
def RTMPClient.isSocketConnected (c : RTMPClient) : Bool :=
  match c.handshakeState with
  | .DisconnectedState | .ConnectingState => false
  | _ => true

/-- The method `resetStateMembers()`. -/
def RTMPClient.resetStateMembers (c : RTMPClient) : RTMPClient :=
  { c with
    publisher := none,
    inMaxChunkSize := 128, outMaxChunkSize := 128,
    inAckWinSize := 2500000, outAckWinSize := 2500000,
    inAckLimitType := .HardLimitType,
    inBytesSinceLastAck := 0, outBytesSinceLastAck := 0, inBytesSinceHandshake := 0,
    inChunkStreams := [], outChunkStreams := [], nextTransactionIds := [],
    appConnected := false, appConnectTransId := 0,
    creatingStream := false, createStreamTransId := 0,
    publishStreamId := 0, beginningPublish := false, lastPublishTimestamp := 0 }

/-- The largest value of an `int`. -/
def INT_MAX : Int := 2 ^ 31 - 1

/-- The method `beginForceBufferWrite()`.  The count is an `int`:
`m_bufferOutBufRef++` at `INT_MAX` overflows, which the language leaves
undefined. -/
def RTMPClient.beginForceBufferWrite (c : RTMPClient) : Except Fault RTMPClient :=
  if c.bufferOutBufRef ≥ INT_MAX then .error .signedOverflow
  else .ok { c with bufferOutBufRef := c.bufferOutBufRef + 1 }

/-- The method `attemptToEmptyOutBuf()`, without a data request. -/
def RTMPClient.attemptToEmptyOutBuf (socketWrite : SocketWrite) (c : RTMPClient) :
    Bool × RTMPClient :=
  if c.outBuf.isEmpty then (true, c)
  else if c.inGamerMode && !c.gamerInSatMode then (c.outBuf.isEmpty, c)
  else
    let r := socketWrite c []
    (r.2.outBuf.isEmpty, r.2)

/-- The method `endForceBufferWrite()`. -/
def RTMPClient.endForceBufferWrite (socketWrite : SocketWrite) (c : RTMPClient) : RTMPClient :=
  if c.bufferOutBufRef ≤ 0 then c
  else
    let c := { c with bufferOutBufRef := c.bufferOutBufRef - 1 }
    if c.bufferOutBufRef = 0 then (c.attemptToEmptyOutBuf socketWrite).2 else c

/-- The slot `socketDisconnected()`. -/
def RTMPClient.socketDisconnected (c : RTMPClient) : RTMPClient :=
  { c with
    publisher := none, handshakeState := .DisconnectedState, outBuf := [], gamerOutBuf := [],
    signals := c.signals ++ [.disconnected] }

/-- What `QTcpSocket::disconnectFromHost()` has done by the time it returns:
the socket still has bytes to send and is closing; or it closed and emitted
`disconnected()`, which ran the slot `socketDisconnected()`; or it was not
connected in the first place and emitted nothing. -/
inductive SocketClose where
  | closing
  | disconnected
  | unconnected
  deriving DecidableEq

/-- The loop `while(m_bufferOutBufRef > 0) endForceBufferWrite();` of
`disconnect`, one unit of `fuel` per turn. -/
def RTMPClient.leaveForcedBuffer (socketWrite : SocketWrite) : Nat → RTMPClient → Option RTMPClient
  | 0, c => if c.bufferOutBufRef > 0 then none else some c
  | fuel + 1, c =>
    if c.bufferOutBufRef > 0 then
      RTMPClient.leaveForcedBuffer socketWrite fuel (c.endForceBufferWrite socketWrite)
    else some c

/-- The method `disconnect()`, with `cleanDisconnect` true.  The two calls
of `m_socket.write` add to the bytes handed to the socket; the input buffer
it clears is not a member of the embedding. -/
def RTMPClient.disconnect (socketWrite : SocketWrite) (close : SocketClose) (fuel : Nat)
    (c : RTMPClient) : Except Fault RTMPClient :=
  if c.handshakeState = .DisconnectedState then .ok c
  else
    match c.leaveForcedBuffer socketWrite fuel with
    | none => .error .outOfFuel
    | some c =>
      let c := { c with publisher := none }
      let c := { c with socketWritten := c.socketWritten ++ c.outBuf, outBuf := [] }
      let c :=
        if c.inGamerMode then
          { c with socketWritten := c.socketWritten ++ c.gamerOutBuf, gamerOutBuf := [] }
        else c
      let c := { c with handshakeState := .DisconnectingState }
      match close with
      | .closing => .ok c
      | .disconnected => .ok c.socketDisconnected
      | .unconnected =>
        .ok { c with
          handshakeState := .DisconnectedState, signals := c.signals ++ [.disconnected] }

/-- The two statements `emit error(e); disconnect();` with which
`processMessage` and `processSocketData` give up. -/
def RTMPClient.fail (socketWrite : SocketWrite) (close : SocketClose) (fuel : Nat)
    (c : RTMPClient) (e : RTMPError) : Except Fault RTMPClient :=
  (c.emitError e).disconnect socketWrite close fuel

/-- The inline method `getNextTransactionId(streamId)`. -/
def RTMPClient.getNextTransactionId (c : RTMPClient) (streamId : Nat) : Nat × RTMPClient :=
  if c.nextTransactionIds.contains streamId then
    let id := (c.nextTransactionIds.value? streamId).getD 0
    (id, { c with nextTransactionIds := c.nextTransactionIds.set streamId ((id + 1) % 2 ^ 32) })
  else (1, { c with nextTransactionIds := c.nextTransactionIds.set streamId 2 })

/-- The method `setMaxChunkSize(maxSize)`. -/
def RTMPClient.setMaxChunkSize (socketWrite : SocketWrite) (c : RTMPClient) (maxSize fuel : Nat) :
    Option (Bool × RTMPClient) :=
  match c.writeMessage socketWrite 0 SetChunkSizeMsgType 0 (amfEncodeUInt32 (maxSize % 2 ^ 31)) 2
      fuel with
  | none => none
  | some r => if !r.1 then some (false, r.2) else some (true, { r.2 with outMaxChunkSize := maxSize })

/-- The method `setAckWinSize(ackWinSize)`. -/
def RTMPClient.setAckWinSize (socketWrite : SocketWrite) (c : RTMPClient)
    (ackWinSize fuel : Nat) : Option (Bool × RTMPClient) :=
  match c.writeMessage socketWrite 0 WindowAckSizeMsgType 0 (amfEncodeUInt32 ackWinSize) 2
      fuel with
  | none => none
  | some r =>
    if !r.1 then some (false, r.2) else some (true, { r.2 with outAckWinSize := ackWinSize })

/-- The enumerator `PingRequestType` of `UserControlType`. -/
def PingRequestType : Nat := 6
/-- The enumerator `PingResponseType` of `UserControlType`. -/
def PingResponseType : Nat := 7

/-- The method `writePingResponse(timestamp)`. -/
def RTMPClient.writePingResponse (socketWrite : SocketWrite) (c : RTMPClient)
    (timestamp fuel : Nat) : Option (Bool × RTMPClient) :=
  c.writeMessage socketWrite 0 UserControlMsgType 0
    (amfEncodeUInt16 PingResponseType ++ amfEncodeUInt32 timestamp) 2 fuel

/-! ## Doubles against unsigned integers -/

/-- The conversion of a `uint` to `double`, as the bit pattern. -/
def doubleOfUInt (n : Nat) : Nat := if n = 0 then 0 else binary64OfNat n

/-- The comparison `value == n` of a double, given by its bit pattern, with
a `uint`, which is converted to `double`: equal patterns, or the two zeros. -/
def doubleEqUInt (bits n : Nat) : Bool :=
  bits == doubleOfUInt n || (n == 0 && bits == 0x8000000000000000)

/-- The conversion of a double, given by its bit pattern, to `uint`: the
value with its fraction cut off, and `none` where it is not a value of `uint`,
for which the conversion is undefined. -/
def uintOfDouble (bits : Nat) : Option Nat :=
  let negative := bits / 2 ^ 63 % 2 = 1
  let exponent := bits / 2 ^ 52 % 2048
  let fraction := bits % 2 ^ 52
  if exponent = 2047 then none
  else if exponent = 0 then some 0
  else
    let mantissa := 2 ^ 52 + fraction
    let whole :=
      if exponent ≥ 1075 then mantissa * 2 ^ (exponent - 1075)
      else mantissa / 2 ^ (1075 - exponent)
    if whole = 0 then some 0
    else if negative then none
    else if whole < 2 ^ 32 then some whole
    else none

/-! ## `rtmpclient.cpp`: the AMF 0 commands written -/

/-- The method `writeConnectMsg(transactionId)`. -/
def RTMPClient.writeConnectMsg (qt : QtUtf8) (socketWrite : SocketWrite) (c : RTMPClient)
    (transactionId fuel : Nat) : Except Fault (Bool × RTMPClient) :=
  if c.appConnected then .ok (false, c)
  else
    match c.remoteInfo.asUrl false false with
    | none => .error .outOfBounds
    | some url =>
      let app :=
        if !c.remoteInfo.appInstance.isEmpty then
          c.remoteInfo.appName ++ qstr "/" ++ c.remoteInfo.appInstance
        else c.remoteInfo.appName
      let obj := AMFProps.ofInserts
        [(qstr "app", .string app), (qstr "tcUrl", .string url),
         (qstr "type", .string (qstr "nonprivate")), (qstr "flashVer", .string c.versionString),
         (qstr "swfUrl", .string url)]
      let data := (AMFType.string (qstr "connect")).serialized qt
        ++ (AMFType.number (doubleOfUInt transactionId)).serialized qt
        ++ (AMFType.object obj).serialized qt
      Fault.ofLoop (c.writeMessage socketWrite 0 CommandAmf0MsgType 0 data 3 fuel)

/-- The method `connectToApp()`. -/
def RTMPClient.connectToApp (qt : QtUtf8) (socketWrite : SocketWrite) (c : RTMPClient)
    (fuel : Nat) : Except Fault (Bool × RTMPClient) :=
  match c.beginForceBufferWrite with
  | .error e => .error e
  | .ok c =>
    match c.setMaxChunkSize socketWrite 4096 fuel with
    | none => .error .outOfFuel
    | some r =>
      if !r.1 then .ok (false, r.2.endForceBufferWrite socketWrite)
      else
        let next := r.2.getNextTransactionId 0
        let c := { next.2 with appConnectTransId := next.1 }
        match c.writeConnectMsg qt socketWrite c.appConnectTransId fuel with
        | .error e => .error e
        | .ok w => .ok (w.1, w.2.endForceBufferWrite socketWrite)

/-- The method `writePublishMsg(streamId)`. -/
def RTMPClient.writePublishMsg (qt : QtUtf8) (socketWrite : SocketWrite) (c : RTMPClient)
    (streamId fuel : Nat) : Option (Bool × RTMPClient) :=
  let c := { c with beginningPublish := true }
  let data := (AMFType.string (qstr "publish")).serialized qt
    ++ (AMFType.number (doubleOfUInt 0)).serialized qt
    ++ AMFType.null.serialized qt
    ++ (AMFType.string c.remoteInfo.streamName).serialized qt
    ++ (AMFType.string (qstr "live")).serialized qt
  match c.writeMessage socketWrite streamId CommandAmf0MsgType 0 data 4 fuel with
  | none => none
  | some r => if r.1 then some (true, r.2) else some (false, { r.2 with beginningPublish := false })

/-- The method `RTMPPublisher::setReady(isReady)` on the publisher of the
session, which must exist. -/
def RTMPClient.setReady (c : RTMPClient) (isReady : Bool) : Except Fault RTMPClient :=
  match c.publisher with
  | none => .error .nullDereference
  | some p =>
    if p.isReady = isReady then .ok c
    else
      let c := { c with publisher := some { p with isReady := isReady } }
      if isReady then .ok (c.emit .ready) else .ok c

/-! ## `rtmpclient.cpp`: `processMessage` -/

/-- The method `QMap::contains` on the properties of an object. -/
def AMFProps.contains (key : QString) : AMFProps → Bool
  | .nil => false
  | .cons k _ rest => k == key || rest.contains key

/-- The method `QMap::value` on the properties of an object: `none` is the
null pointer it returns for a key that is not there. -/
def AMFProps.value? (key : QString) : AMFProps → Option AMFType
  | .nil => none
  | .cons k v rest => if k = key then some v else rest.value? key

/-- The loop of `processMessage` that decodes the values of an AMF 0
command from the `count` bytes at `data`, one unit of `fuel` per value: the
values, or `none` where the loop gives up on the message.  `off` is an `int`
and the `uint` added to it may leave it negative, in which case the next
read is in front of the message. -/
def decodeParams (qt : QtUtf8) (data : CharPtr) (count : Nat) :
    Nat → Nat → List AMFType → Except Fault (Option (List AMFType))
  | 0, _, _ => .error .outOfFuel
  | fuel + 1, off, params =>
    if off < count then
      match AMFType.decode qt fuel (data.offset off) with
      | none => .error .outOfFuel
      | some (amfObj, bytesRead) =>
        if bytesRead = 0 then .ok none
        else
          match amfObj with
          | none => .ok none
          | some value =>
            let off := (off + bytesRead) % 2 ^ 32
            if off ≥ 2 ^ 31 then .error .outOfBounds
            else if off > count then .ok none
            else decodeParams qt data count fuel off (params ++ [value])
    else .ok (some params)

/-- The branch of `processMessage` for the result of `createStream()`,
entered when a stream is being created and the transaction id is its own. -/
def RTMPClient.processCreateStreamResult (qt : QtUtf8) (socketWrite : SocketWrite)
    (close : SocketClose) (fuel : Nat) (c : RTMPClient) (isError : Bool)
    (params : List AMFType) : Except Fault RTMPClient :=
  let c := { c with creatingStream := false, createStreamTransId := 0 }
  if !isError then
    match (params.getD 3 .null).asNumber with
    | none => .ok c
    | some bits =>
      match uintOfDouble bits with
      | none => .error .undefinedConversion
      | some streamId =>
        let c := c.emit (.createdStream streamId)
        if c.publisher.isSome then
          let c := { c with publishStreamId := streamId }
          match c.writePublishMsg qt socketWrite c.publishStreamId fuel with
          | none => .error .outOfFuel
          | some r => .ok r.2
        else .ok c
  else c.fail socketWrite close fuel .RtmpCreateStreamError

/-- The second test of the result branch: `m_creatingStream` and the
transaction id of `createStream()`. -/
def RTMPClient.processOtherResult (qt : QtUtf8) (socketWrite : SocketWrite)
    (close : SocketClose) (fuel : Nat) (c : RTMPClient) (isError : Bool)
    (params : List AMFType) : Except Fault RTMPClient :=
  if c.creatingStream then
    match (params.getD 1 .null).asNumber with
    | none => .error .nullDereference
    | some bits =>
      if doubleEqUInt bits c.createStreamTransId then
        c.processCreateStreamResult qt socketWrite close fuel isError params
      else .ok c
  else .ok c

/-- The part of `processMessage` that follows the decoding of an AMF 0
command with at least one value. -/
def RTMPClient.processCommand (qt : QtUtf8) (socketWrite : SocketWrite) (close : SocketClose)
    (fuel : Nat) (c : RTMPClient) (streamId : Nat) (params : List AMFType) :
    Except Fault RTMPClient :=
  let c := c.emit (.receivedAmfCommandMsg streamId params)
  match (params.getD 0 .null).asString with
  | none => .error .nullDereference
  | some invoke =>
    if (invoke = qstr "_result" ∨ invoke = qstr "_error") ∧ params.length ≥ 4 then
      let isError := decide (invoke = qstr "_error")
      if !c.appConnected then
        match (params.getD 1 .null).asNumber with
        | none => .error .nullDereference
        | some bits =>
          if doubleEqUInt bits c.appConnectTransId then
            if !isError then .ok ({ c with appConnected := true }.emit .connectedToApp)
            else c.fail socketWrite close fuel .RtmpConnectRejectedError
          else c.processOtherResult qt socketWrite close fuel isError params
      else c.processOtherResult qt socketWrite close fuel isError params
    else if c.beginningPublish ∧ invoke = qstr "onStatus" ∧ params.length ≥ 4
        ∧ streamId = c.publishStreamId then
      let c := { c with beginningPublish := false, lastPublishTimestamp := 0 }
      match (params.getD 3 .null).asObject with
      | none => c.fail socketWrite close fuel .UnexpectedResponseError
      | some result =>
        if !result.contains (qstr "code") then
          c.fail socketWrite close fuel .UnexpectedResponseError
        else
          match result.value? (qstr "code") with
          | none => .error .nullDereference
          | some value =>
            match value.asString with
            | none => c.fail socketWrite close fuel .UnexpectedResponseError
            | some code =>
              if code = qstr "NetStream.Publish.Start" then c.setReady true
              else c.fail socketWrite close fuel .RtmpPublishRejectedError
    else .ok c

/-- The method `processMessage(streamId, type, timestamp, msg)`.  The
memory that follows the bytes of the message is `beyond`. -/
def RTMPClient.processMessage (qt : QtUtf8) (socketWrite : SocketWrite) (close : SocketClose)
    (beyond : CharPtr) (fuel : Nat) (c : RTMPClient) (streamId : Nat) (type : Int)
    (_timestamp : Nat) (msg : QByteArray) : Except Fault RTMPClient :=
  let data := CharPtr.ofBytes msg beyond
  if type = SetChunkSizeMsgType then
    if msg.length < 4 then c.fail socketWrite close fuel .UnexpectedResponseError
    else .ok { c with inMaxChunkSize := amfDecodeUInt32 data % 2 ^ 31 }
  else if type = AckMsgType then
    if msg.length < 4 then c.fail socketWrite close fuel .UnexpectedResponseError
    else .ok c
  else if type = UserControlMsgType then
    if msg.length < 2 then c.fail socketWrite close fuel .UnexpectedResponseError
    else if amfDecodeUInt16 data = PingRequestType then
      match c.writePingResponse socketWrite (amfDecodeUInt32 (data.offset 2)) fuel with
      | none => .error .outOfFuel
      | some r => .ok r.2
    else .ok c
  else if type = WindowAckSizeMsgType then
    if msg.length < 4 then c.fail socketWrite close fuel .UnexpectedResponseError
    else .ok { c with inAckWinSize := amfDecodeUInt32 data }
  else if type = SetPeerBWMsgType then
    if msg.length < 5 then c.fail socketWrite close fuel .UnexpectedResponseError
    else
      let winSize := amfDecodeUInt32 data
      let limit := amfDecodeUInt8 (data.offset 4)
      let set :=
        if limit = 0 then true
        else if limit = 1 then decide (winSize > c.outAckWinSize)
        else if limit = 2 then decide (c.inAckLimitType = .HardLimitType)
        else false
      if set then
        match c.setAckWinSize socketWrite winSize fuel with
        | none => .error .outOfFuel
        | some r => .ok r.2
      else .ok c
  else if type = CommandAmf0MsgType then
    if msg.length < 1 then c.fail socketWrite close fuel .UnexpectedResponseError
    else
      match decodeParams qt data msg.length fuel 0 [] with
      | .error e => .error e
      | .ok none => c.fail socketWrite close fuel .UnexpectedResponseError
      | .ok (some params) =>
        if params.length = 0 then .ok c
        else c.processCommand qt socketWrite close fuel streamId params
  else .ok c

/-! ## `rtmpclient.cpp`: the handshake in `processSocketData` -/

/-- The method `writeC2S2(time, echo)`; `now` is what `getCurrentTime32()`
returns. -/
def RTMPClient.writeC2S2 (socketWrite : SocketWrite) (c : RTMPClient) (time now : Nat)
    (echo : QByteArray) : Bool × RTMPClient :=
  if echo.length ≠ 1528 then (false, c)
  else c.write socketWrite (amfEncodeUInt32 time ++ amfEncodeUInt32 now ++ echo)

/-- How a `case` of the `switch` of `processSocketData` ends: the method
returns, or control falls through to the next `case`.  Either way there is
the session and what is left of the input. -/
inductive Step where
  | done (c : RTMPClient) (buffer : QByteArray)
  | next (c : RTMPClient) (buffer : QByteArray)

/-- The `case VersionSentState`: the server's S0. -/
def RTMPClient.receiveS0 (socketWrite : SocketWrite) (close : SocketClose) (fuel : Nat)
    (c : RTMPClient) (buffer : QByteArray) : Except Fault Step :=
  if buffer.length < 1 then .ok (.done c buffer)
  else if buffer.getD 0 0 % 256 ≠ 3 then
    match c.fail socketWrite close fuel .UnexpectedResponseError with
    | .error e => .error e
    | .ok c => .ok (.done c [])
  else .ok (.next { c with handshakeState := .VersionReceivedState } (buffer.drop 1))

/-- The `case VersionReceivedState`: the server's S1, answered with C2. -/
def RTMPClient.receiveS1 (socketWrite : SocketWrite) (close : SocketClose) (now fuel : Nat)
    (c : RTMPClient) (buffer : QByteArray) : Except Fault Step :=
  if buffer.length < 4 + 4 + 1528 then .ok (.done c buffer)
  else
    let time := amfDecodeUInt32 (headerData buffer)
    let echo := (buffer.drop 8).take 1528
    let r := c.writeC2S2 socketWrite time now echo
    if !r.1 then
      match r.2.disconnect socketWrite close fuel with
      | .error e => .error e
      | .ok c => .ok (.done c [])
    else .ok (.next { r.2 with handshakeState := .AckSentState } (buffer.drop (4 + 4 + 1528)))

/-- The `case AckSentState` up to `emit initialized()`: the server's S2,
whose two time fields are read and ignored. -/
def RTMPClient.receiveS2 (socketWrite : SocketWrite) (close : SocketClose) (fuel : Nat)
    (c : RTMPClient) (buffer : QByteArray) : Except Fault Step :=
  if buffer.length < 4 + 4 + 1528 then .ok (.done c buffer)
  else
    let echo := (buffer.drop 8).take 1528
    if c.handshakeRandomData ≠ echo then
      match c.fail socketWrite close fuel .UnexpectedResponseError with
      | .error e => .error e
      | .ok c => .ok (.done c [])
    else
      .ok (.next
        ({ c.resetStateMembers with handshakeState := .InitializedState }.emit .initialized)
        (buffer.drop (4 + 4 + 1528)))

/-- The end of the `case AckSentState`, the start of `connect()` when
the session connects to the application by itself, and the
`case InitializedState`, which reads all the chunks there are. -/
def RTMPClient.afterS2 (signedChar : Bool) (qt : QtUtf8) (socketWrite : SocketWrite)
    (close : SocketClose) (processMessage : ProcessMessage) (fuel : Nat) (c : RTMPClient)
    (buffer : QByteArray) : Except Fault (RTMPClient × QByteArray) :=
  if c.autoAppConnect then
    match c.connectToApp qt socketWrite fuel with
    | .error e => .error e
    | .ok r =>
      if !r.1 then
        match r.2.disconnect socketWrite close fuel with
        | .error e => .error e
        | .ok c => .ok (c, [])
      else Fault.ofLoop (r.2.readChunks signedChar socketWrite processMessage fuel buffer)
  else Fault.ofLoop (c.readChunks signedChar socketWrite processMessage fuel buffer)

/-- The method `processSocketData(buffer)`: the session it leaves and the
input it has not read.  A disconnect clears the input buffer. -/
def RTMPClient.processSocketData (signedChar : Bool) (qt : QtUtf8) (socketWrite : SocketWrite)
    (close : SocketClose) (processMessage : ProcessMessage) (now fuel : Nat) (c : RTMPClient)
    (buffer : QByteArray) : Except Fault (RTMPClient × QByteArray) :=
  let fromS2 := fun (c : RTMPClient) (buffer : QByteArray) =>
    match c.receiveS2 socketWrite close fuel buffer with
    | .error e => .error e
    | .ok (.done c buffer) => .ok (c, buffer)
    | .ok (.next c buffer) =>
      c.afterS2 signedChar qt socketWrite close processMessage fuel buffer
  let fromS1 := fun (c : RTMPClient) (buffer : QByteArray) =>
    match c.receiveS1 socketWrite close now fuel buffer with
    | .error e => .error e
    | .ok (.done c buffer) => .ok (c, buffer)
    | .ok (.next c buffer) => fromS2 c buffer
  match c.handshakeState with
  | .VersionSentState =>
    match c.receiveS0 socketWrite close fuel buffer with
    | .error e => .error e
    | .ok (.done c buffer) => .ok (c, buffer)
    | .ok (.next c buffer) => fromS1 c buffer
  | .VersionReceivedState => fromS1 c buffer
  | .AckSentState => fromS2 c buffer
  | .InitializedState =>
    Fault.ofLoop (c.readChunks signedChar socketWrite processMessage fuel buffer)
  | _ => .ok (c, [])

/-! ## What a write leaves alone -/

/-- The socket write touches nothing of the session but the output buffer,
the gamer buffer, the saturation flag and the bytes handed to the socket. -/
def SocketWrite.Local (socketWrite : SocketWrite) : Prop :=
  ∀ (c : RTMPClient) (data : QByteArray),
    ∃ outBuf gamerOutBuf gamerInSatMode socketWritten,
      (socketWrite c data).2 = { c with
        outBuf := outBuf, gamerOutBuf := gamerOutBuf, gamerInSatMode := gamerInSatMode,
        socketWritten := socketWritten }

/-- The session `b` differs from `a` at most in what writing a message may
change: the output buffers and the bytes handed to the socket, the state of
the output chunk streams, and the errors emitted. -/
def RTMPClient.WriteFrame (a b : RTMPClient) : Prop :=
  b = { a with
    outBuf := b.outBuf, gamerOutBuf := b.gamerOutBuf, gamerInSatMode := b.gamerInSatMode,
    socketWritten := b.socketWritten, outChunkStreams := b.outChunkStreams,
    errors := b.errors }

/-- The session `b` differs from `a` at most in what leaving forced buffer
mode may change: the count of the forced buffer mode, the output buffers and
the bytes handed to the socket. -/
def RTMPClient.BufferFrame (a b : RTMPClient) : Prop :=
  b = { a with
    bufferOutBufRef := b.bufferOutBufRef, outBuf := b.outBuf, gamerOutBuf := b.gamerOutBuf,
    gamerInSatMode := b.gamerInSatMode, socketWritten := b.socketWritten }

/-- The session `b` is what a disconnect makes of `a`: the publisher is
gone, the session is disconnecting or disconnected, `disconnected` is the
only signal it may have emitted, and nothing else has changed but the count
of the forced buffer mode, the output buffers and the bytes handed to the
socket. -/
def RTMPClient.DisconnectFrame (a b : RTMPClient) : Prop :=
  b = { a with
      handshakeState := b.handshakeState, publisher := none, signals := b.signals,
      bufferOutBufRef := b.bufferOutBufRef, outBuf := b.outBuf, gamerOutBuf := b.gamerOutBuf,
      gamerInSatMode := b.gamerInSatMode, socketWritten := b.socketWritten }
    ∧ (b.handshakeState = .DisconnectingState ∨ b.handshakeState = .DisconnectedState)
    ∧ (b.signals = a.signals ∨ b.signals = a.signals ++ [.disconnected])

/-! ## Single-precision numbers -/

/-- A value of the type `float`, an IEEE-754 binary32 number: the finite
number `± mant × 2 ^ exp`, an infinity, or a NaN.  A finite number is kept
with `mant < 2 ^ 24` and `-149 ≤ exp ≤ 104`, and with `2 ^ 23 ≤ mant` unless
`exp = -149`. -/
inductive Float32 where
  | finite (negative : Bool) (mant : Nat) (exp : Int)
  | infinite (negative : Bool)
  | nan
  deriving DecidableEq

/-- The whole part and the remainder of `num × 2 ^ shift / den`, with the
divisor the remainder is of. -/
def Float32.scaled (num den : Nat) (shift : Int) : Nat × Nat × Nat :=
  let n := num * 2 ^ shift.toNat
  let d := den * 2 ^ (-shift).toNat
  (n / d, n % d, d)

/-- The `float` nearest to `± num / den × 2 ^ exp`, ties going to the even
mantissa, for `den` above zero: the rounding every operation ends with. -/
def Float32.round (negative : Bool) (num den : Nat) (exp : Int) : Float32 :=
  if num = 0 then .finite negative 0 (-149)
  else
    let k : Int := (leadingBit 64 num : Int) - (leadingBit 64 den : Int)
    let shift : Int := 24 - k
    let shift := if (Float32.scaled num den shift).1 ≥ 2 ^ 24 then shift - 1 else shift
    let shift := if exp - shift < -149 then exp + 149 else shift
    let s := Float32.scaled num den shift
    let mant :=
      if 2 * s.2.1 > s.2.2 ∨ (2 * s.2.1 = s.2.2 ∧ s.1 % 2 = 1) then s.1 + 1 else s.1
    let e := exp - shift
    if mant = 2 ^ 24 then
      if e + 1 > 104 then .infinite negative else .finite negative (2 ^ 23) (e + 1)
    else if e > 104 then .infinite negative
    else .finite negative mant e

/-- The conversion `(float)n` of an `int`. -/
def Float32.ofInt (n : Int) : Float32 := Float32.round (decide (n < 0)) n.natAbs 1 0

/-- The product `a * b` of two `float`s. -/
def Float32.mul : Float32 → Float32 → Float32
  | .nan, _ => .nan
  | _, .nan => .nan
  | .infinite s, .infinite t => .infinite (s != t)
  | .infinite s, .finite t m _ => if m = 0 then .nan else .infinite (s != t)
  | .finite s m _, .infinite t => if m = 0 then .nan else .infinite (s != t)
  | .finite s m e, .finite t n f => Float32.round (s != t) (m * n) 1 (e + f)

/-- The quotient `a / b` of two `float`s. -/
def Float32.div : Float32 → Float32 → Float32
  | .nan, _ => .nan
  | _, .nan => .nan
  | .infinite _, .infinite _ => .nan
  | .infinite s, .finite t _ _ => .infinite (s != t)
  | .finite s _ _, .infinite t => .finite (s != t) 0 (-149)
  | .finite s m e, .finite t n f =>
    if n = 0 then (if m = 0 then .nan else .infinite (s != t))
    else Float32.round (s != t) m n (e - f)

/-- The conversion `(int)x` of a `float`: the value with its fraction cut
off, and `none` where that is not a value of `int`, for which the conversion
is undefined. -/
def Float32.toInt : Float32 → Option Int
  | .finite negative mant exp =>
    let whole : Nat := if exp ≥ 0 then mant * 2 ^ exp.toNat else mant / 2 ^ (-exp).toNat
    let value : Int := if negative then -(whole : Int) else (whole : Int)
    if -(2 ^ 31) ≤ value ∧ value < 2 ^ 31 then some value else none
  | _ => none

/-- The `float` 1.0, as the mantissa 2^23 times 2^-23. -/
def Float32.one : Float32 := .finite false (2 ^ 23) (-23)

/-- The constant `GAMER_THROTTLE_MULTIPLY`, `1.3f`: the `float` nearest to
1.3, which is `10905190 / 2 ^ 23`. -/
def GAMER_THROTTLE_MULTIPLY : Float32 := .finite false 10905190 (-23)

/-! ## `rtmpclient.cpp`: `socketWrite` and gamer mode -/

/-- What the Qt socket reports during one call of `socketWrite`. -/
structure SocketAnswers where
  /-- The socket is in `UnconnectedState` or has no descriptor. -/
  closed : Bool
  /-- The result of `getOSWriteBufferSize()`. -/
  osWriteBufSize : Int
  /-- The result of `m_socket.bytesToWrite()` on entry. -/
  bytesToWrite : Nat
  /-- The result of `m_socket.bytesToWrite()` after `m_socket.flush()`. -/
  bytesAfterFlush : Nat
  /-- The write of the internal buffer returns a negative number. -/
  bufferWriteFails : Bool
  /-- The result of `m_socket.bytesToWrite()` after the internal buffer has
  been written. -/
  bytesAfterWrite : Nat
  /-- The write of the data returns a negative number. -/
  dataWriteFails : Bool
  deriving DecidableEq

/-- The socket reports no error during the call. -/
def SocketAnswers.noError (a : SocketAnswers) : Bool :=
  !a.closed && decide (0 ≤ a.osWriteBufSize) && !a.bufferWriteFails && !a.dataWriteFails

/-- The end of `socketWrite`, from `if(data.isEmpty())` on, with the free
space `osWriteBufSize` the method has arrived at. -/
def RTMPClient.socketWriteData (enterSatMode : RTMPClient → RTMPClient) (a : SocketAnswers)
    (osWriteBufSize : Int) (c : RTMPClient) (data : QByteArray) : Int × RTMPClient :=
  if data.isEmpty then (osWriteBufSize, c)
  else
    let bytesToWrite := (min (data.length : Int) osWriteBufSize).toNat
    if a.dataWriteFails then (-1, c)
    else
      let c := { c with socketWritten := c.socketWritten ++ data.take bytesToWrite }
      let osWriteBufSize := max 0 (osWriteBufSize - bytesToWrite)
      if bytesToWrite = data.length then (osWriteBufSize, c)
      else
        (osWriteBufSize, enterSatMode { c with outBuf := c.outBuf ++ data.drop bytesToWrite })

/-- The method `socketWrite(data, emitDataRequest)` for the answers `a` of
the socket, with `gamerEnterSatMode()` as `enterSatMode`.  A write of
`m_socket` is all or nothing: it takes the bytes it is given, or fails.  The
data request the method may emit is not recorded. -/
def RTMPClient.socketWriteWith (enterSatMode : RTMPClient → RTMPClient) (a : SocketAnswers)
    (emitDataRequest : Bool) (c : RTMPClient) (data : QByteArray) : Int × RTMPClient :=
  if c.isSocketConnected && a.closed then (-1, c)
  else if a.osWriteBufSize < 0 then (-1, c)
  else
    let osWriteBufSize :=
      if a.bytesToWrite > 0 then max 0 (a.osWriteBufSize - a.bytesToWrite) else a.osWriteBufSize
    if a.bytesToWrite > 0 ∧ a.bytesAfterFlush > 0 then
      (0, enterSatMode { c with outBuf := c.outBuf ++ data })
    else if !c.outBuf.isEmpty then
      let bytesToWrite := (min (c.outBuf.length : Int) osWriteBufSize).toNat
      if a.bufferWriteFails then (-1, c)
      else
        let c := { c with
          socketWritten := c.socketWritten ++ c.outBuf.take bytesToWrite,
          outBuf := c.outBuf.drop bytesToWrite }
        let osWriteBufSize := max 0 (osWriteBufSize - bytesToWrite)
        if c.outBuf.isEmpty && emitDataRequest then (0, c)
        else if a.bytesAfterWrite > 0 ∨ !c.outBuf.isEmpty then
          (0, enterSatMode { c with outBuf := c.outBuf ++ data })
        else c.socketWriteData enterSatMode a osWriteBufSize data
    else c.socketWriteData enterSatMode a osWriteBufSize data

/-- The method `gamerEnterSatMode()`, with its call of `socketWrite` as
`flush`.  The timer it resets is not a member of the embedding. -/
def RTMPClient.gamerEnterSatModeWith (flush : RTMPClient → QByteArray → RTMPClient)
    (c : RTMPClient) : RTMPClient :=
  if !c.inGamerMode then c
  else if c.gamerInSatMode then c
  else if !c.isSocketConnected then c
  else
    let c := { c with gamerInSatMode := true }
    if !c.gamerOutBuf.isEmpty then flush { c with gamerOutBuf := [] } c.gamerOutBuf else c

/-- The answers of the socket during a call of `socketWrite` and during the
call that `gamerEnterSatMode()` makes from within it. -/
structure SocketEnv where
  outer : SocketAnswers
  nested : SocketAnswers
  deriving DecidableEq

/-- Neither call finds an error. -/
def SocketEnv.noError (env : SocketEnv) : Bool := env.outer.noError && env.nested.noError

/-- The method `socketWrite(data, emitDataRequest)`.  Where it calls
`gamerEnterSatMode()` and that calls `socketWrite` again, the nested call
runs in saturation mode, in which its own `gamerEnterSatMode()` returns
before the flush: the recursion is two calls deep at most. -/
def RTMPClient.socketWrite (env : SocketEnv) (emitDataRequest : Bool) : SocketWrite :=
  RTMPClient.socketWriteWith
    (RTMPClient.gamerEnterSatModeWith (fun c data =>
      (RTMPClient.socketWriteWith (RTMPClient.gamerEnterSatModeWith (fun c _ => c))
        env.nested false c data).2))
    env.outer emitDataRequest

/-- The method `gamerEnterSatMode()`. -/
def RTMPClient.gamerEnterSatMode (nested : SocketAnswers) (c : RTMPClient) : RTMPClient :=
  c.gamerEnterSatModeWith (fun c data =>
    (RTMPClient.socketWriteWith (RTMPClient.gamerEnterSatModeWith (fun c _ => c))
      nested false c data).2)

/-- The method `gamerExitSatMode()`. -/
def RTMPClient.gamerExitSatMode (c : RTMPClient) : RTMPClient :=
  if !c.inGamerMode then c
  else if !c.gamerInSatMode then c
  else if !c.isSocketConnected then c
  else { c with gamerInSatMode := false }

/-- The method `willWriteBuffer()`. -/
def RTMPClient.willWriteBuffer (c : RTMPClient) : Bool :=
  decide (c.bufferOutBufRef > 0) || !c.outBuf.isEmpty

/-- The slot `socketReadyForWrite()`; the `socketWrite` it is given is the
one that emits the data request. -/
def RTMPClient.socketReadyForWrite (socketWrite : SocketWrite) (c : RTMPClient) : RTMPClient :=
  if c.bufferOutBufRef > 0 then c else (c.attemptToEmptyOutBuf socketWrite).2

/-- The method `gamerSetAverageUpload(avgUploadBytes)`. -/
def RTMPClient.gamerSetAverageUpload (c : RTMPClient) (avgUploadBytes : Int) : RTMPClient :=
  { c with gamerAvgUploadBytes := max (5 * 1024) avgUploadBytes }

/-- The number `maxBytes` of `gamerTickEvent`:
`(int)((((float)m_gamerAvgUploadBytes / s_gamerTickFreq) * (float)(1 + numDropped)) * 1.3f)`,
every operation rounded to single precision. -/
def gamerMaxBytes (avgUploadBytes : Int) (tickFreq : Float32) (numDropped : Int) :
    Except Fault Int :=
  if 1 + numDropped ≥ 2 ^ 31 then .error .signedOverflow
  else
    let maxAvgBytes :=
      ((Float32.ofInt avgUploadBytes).div tickFreq).mul (Float32.ofInt (1 + numDropped))
    match (maxAvgBytes.mul GAMER_THROTTLE_MULTIPLY).toInt with
    | none => .error .undefinedConversion
    | some maxBytes => .ok maxBytes

/-- The method `gamerTickEvent(numDropped)`; `tickFreq` is `s_gamerTickFreq`
and `satModeExpired` is the outcome of the comparison
`m_gamerSatModeTimer >= m_gamerExitSatModeTime`, which the method makes in
saturation mode after it has added the time of the tick to the timer. -/
def RTMPClient.gamerTickEvent (socketWrite : SocketWrite) (tickFreq : Float32)
    (satModeExpired : Bool) (c : RTMPClient) (numDropped : Int) : Except Fault RTMPClient :=
  if !c.inGamerMode then .ok c
  else if !c.isSocketConnected then .ok c
  else if c.willWriteBuffer then .ok c
  else if c.gamerInSatMode ∧ 1 + numDropped ≥ 2 ^ 31 then .error .signedOverflow
  else if c.gamerInSatMode && !satModeExpired then .ok c
  else
    let c := if c.gamerInSatMode then c.gamerExitSatMode else c
    if c.gamerOutBuf.isEmpty then .ok c
    else
      match gamerMaxBytes c.gamerAvgUploadBytes tickFreq numDropped with
      | .error e => .error e
      | .ok maxBytes =>
        let size : Int := c.gamerOutBuf.length
        let bufToOut :=
          if maxBytes ≥ size then c.gamerOutBuf else c.gamerOutBuf.take maxBytes.toNat
        let c := { c with
          gamerOutBuf := if maxBytes ≥ size then [] else c.gamerOutBuf.drop maxBytes.toNat }
        .ok (socketWrite c bufToOut).2

/-! ## `rtmpclient.cpp`: the publisher -/

/-- The loop `while(off < data.size() - 1 && data[off] == 0) off++;`, one
unit of `fuel` per turn. -/
def skipZeroBytes (data : QByteArray) : Nat → Nat → Nat
  | 0, off => off
  | fuel + 1, off =>
    if off + 1 < data.length ∧ data.getD off 0 = 0 then skipZeroBytes data fuel (off + 1) else off

/-- The offset at which `writeAvcConfigRecord` and `writeVideoFrame` take a
NAL unit to start: past the zero bytes in front, the last byte apart, and
past a byte 1 that follows any of them. -/
def nalOffset (data : QByteArray) : Nat :=
  let off := skipZeroBytes data data.length 0
  if off > 0 ∧ data.getD off 0 = 1 then off + 1 else off

/-- The method `writeVideoData(timestamp, data)`. -/
def RTMPClient.writeVideoData (socketWrite : SocketWrite) (c : RTMPClient) (timestamp : Nat)
    (data : QByteArray) (fuel : Nat) : Option (Bool × RTMPClient) :=
  match c.writeMessage socketWrite c.publishStreamId VideoMsgType timestamp data 4 fuel with
  | none => none
  | some r =>
    if r.1 && decide (timestamp > r.2.lastPublishTimestamp) then
      some (true, { r.2 with lastPublishTimestamp := timestamp })
    else some r

/-- The record `writeAvcConfigRecord` builds after the FLV header, for the
offsets at which it takes the two NAL units to start. -/
def avcConfigRecord (sps pps : QByteArray) (spsOff ppsOff : Nat) : QByteArray :=
  [0x01, sps.getD (spsOff + 1) 0, sps.getD (spsOff + 2) 0, sps.getD (spsOff + 3) 0]
    ++ [0xFF]
    ++ [0xE1] ++ amfEncodeUInt16 (sps.length - spsOff) ++ sps.drop spsOff
    ++ [1] ++ amfEncodeUInt16 (pps.length - ppsOff) ++ pps.drop ppsOff

/-- The method `RTMPPublisher::writeAvcConfigRecord(sps, pps)` on the
publisher of the session, which must exist. -/
def RTMPClient.writeAvcConfigRecord (socketWrite : SocketWrite) (c : RTMPClient)
    (sps pps : QByteArray) (fuel : Nat) : Except Fault (Bool × RTMPClient) :=
  match c.publisher with
  | none => .error .nullDereference
  | some p =>
    if !p.isReady then .ok (false, c)
    else if sps.isEmpty || pps.isEmpty then .ok (false, c)
    else
      let c := { c with publisher := some { p with isAvc := true } }
      let headerBuf : QByteArray := [0x17, 0x00, 0x00, 0x00, 0x00]
      let spsOff := nalOffset sps
      let ppsOff := nalOffset pps
      if sps.length ≤ spsOff + 3 then .ok (false, c)
      else
        Fault.ofLoop
          (c.writeVideoData socketWrite 0 (headerBuf ++ avcConfigRecord sps pps spsOff ppsOff)
            fuel)

/-- The method `RTMPPublisher::writeVideoFrame(timestamp, header, pkts)` on
the publisher of the session, which must exist. -/
def RTMPClient.writeVideoFrame (socketWrite : SocketWrite) (c : RTMPClient) (timestamp : Nat)
    (header : QByteArray) (pkts : List QByteArray) (fuel : Nat) :
    Except Fault (Bool × RTMPClient) :=
  match c.publisher with
  | none => .error .nullDereference
  | some p =>
    if !p.isReady then .ok (false, c)
    else
      let frameData :=
        if p.isAvc then
          pkts.foldl
            (fun frameData data =>
              let nal := data.drop (nalOffset data)
              frameData ++ (amfEncodeUInt32 nal.length ++ nal))
            header
        else pkts.foldl (fun frameData data => frameData ++ data) header
      Fault.ofLoop (c.writeVideoData socketWrite timestamp frameData fuel)

/-! ## The video payloads as the specification words them -/

/-- Follows the specification: a NAL unit with a leading `00 00 00 01` or
`00 00 01` start code removed. -/
def stripStartCode (data : QByteArray) : QByteArray :=
  if [0, 0, 0, 1].isPrefixOf data then data.drop 4
  else if [0, 0, 1].isPrefixOf data then data.drop 3
  else data

/-- The data starts with one of the two start codes, or with a byte other
than zero, or is empty. -/
def startsWithCodeOrData (data : QByteArray) : Bool :=
  [0, 0, 0, 1].isPrefixOf data || [0, 0, 1].isPrefixOf data || data.head? != some 0

/-- The method `QHash::remove`. -/
def QHash.remove {α : Type} (h : QHash α) (key : Nat) : QHash α :=
  h.filter (fun kv => kv.1 != key)

/-- The method `writeDeleteStreamMsg(streamId)`. -/
def RTMPClient.writeDeleteStreamMsg (qt : QtUtf8) (socketWrite : SocketWrite) (c : RTMPClient)
    (streamId fuel : Nat) : Except Fault (Bool × RTMPClient) :=
  if streamId = 0 ∧ (c.publisher.isNone ∨ c.publishStreamId = 0) then .ok (false, c)
  else
    let closeTimestamp := if streamId = 0 then c.lastPublishTimestamp else 0
    let streamId := if streamId = 0 then c.publishStreamId else streamId
    match c.beginForceBufferWrite with
    | .error e => .error e
    | .ok c =>
      let unpublished :=
        if streamId = c.publishStreamId then
          let next := c.getNextTransactionId 0
          let data := (AMFType.string (qstr "FCUnpublish")).serialized qt
            ++ (AMFType.number (doubleOfUInt next.1)).serialized qt
            ++ AMFType.null.serialized qt
            ++ (AMFType.string c.remoteInfo.streamName).serialized qt
          next.2.writeMessage socketWrite 0 CommandAmf0MsgType 0 data 3 fuel
        else some (true, c)
      match unpublished with
      | none => .error .outOfFuel
      | some r =>
        if !r.1 then .ok (false, r.2.endForceBufferWrite socketWrite)
        else
          let data := (AMFType.string (qstr "closeStream")).serialized qt
            ++ (AMFType.number (doubleOfUInt 0)).serialized qt
            ++ AMFType.null.serialized qt
          match r.2.writeMessage socketWrite streamId CommandAmf0MsgType closeTimestamp data 4
              fuel with
          | none => .error .outOfFuel
          | some r =>
            if !r.1 then .ok (false, r.2.endForceBufferWrite socketWrite)
            else
              let next := r.2.getNextTransactionId 0
              let data := (AMFType.string (qstr "deleteStream")).serialized qt
                ++ (AMFType.number (doubleOfUInt next.1)).serialized qt
                ++ AMFType.null.serialized qt
                ++ (AMFType.number (doubleOfUInt streamId)).serialized qt
              match next.2.writeMessage socketWrite 0 CommandAmf0MsgType 0 data 3 fuel with
              | none => .error .outOfFuel
              | some r =>
                let c := r.2.endForceBufferWrite socketWrite
                let c := { c with nextTransactionIds := c.nextTransactionIds.remove streamId }
                let c :=
                  if streamId = c.publishStreamId then { c with publishStreamId := 0 } else c
                .ok (r.1, c)

/-- Successive calls of `getNextTransactionId`, one for each message stream
id of the list: the ids returned and the session at the end. -/
def RTMPClient.getNextTransactionIds : RTMPClient → List Nat → List Nat × RTMPClient
  | c, [] => ([], c)
  | c, streamId :: rest =>
    let next := c.getNextTransactionId streamId
    let more := RTMPClient.getNextTransactionIds next.2 rest
    (next.1 :: more.1, more.2)

/-- The state of the counter of message stream `s` after `j` calls of
`getNextTransactionId(s)` on a session that had no entry for it. -/
def RTMPClient.Counted (c : RTMPClient) (s j : Nat) : Prop :=
  (j = 0 ∧ c.nextTransactionIds.contains s = false)
    ∨ (0 < j ∧ c.nextTransactionIds.value? s = some ((j + 1) % 2 ^ 32))

/-! ## Sequences of calls on the send path -/

deriving instance DecidableEq for RTMPClient

/-- A call that moves data along the send path. -/
inductive SendCall where
  | write (data : QByteArray)
  | writeMessage (m : Message)
  | beginForceBufferWrite
  | endForceBufferWrite
  | socketReadyForWrite
  | gamerTickEvent (numDropped : Int) (satModeExpired : Bool)
  deriving DecidableEq

/-- The bytes `writeMessage` hands to `write` for a message. -/
def RTMPClient.messageBytes (c : RTMPClient) (m : Message) (fuel : Nat) : QByteArray :=
  match (c.initOutChunkStreamState m.csId).2.chunkMessage m.streamId m.type m.timestamp m.msg
      m.csId fuel with
  | none => []
  | some r => r.1

/-- One call on the send path, with the answers of the socket during it:
the session it leaves and the data that `write` has accepted in it, that is,
the argument of a call of `write` that returned true. -/
def RTMPClient.send (tickFreq : Float32) (fuel : Nat) (env : SocketEnv) (c : RTMPClient) :
    SendCall → Except Fault (RTMPClient × QByteArray)
  | .write data =>
    let r := c.write (RTMPClient.socketWrite env false) data
    .ok (r.2, if r.1 then data else [])
  | .writeMessage m =>
    match c.writeMessage (RTMPClient.socketWrite env false) m.streamId m.type m.timestamp m.msg
        m.csId fuel with
    | none => .error .outOfFuel
    | some r => .ok (r.2, if r.1 then c.messageBytes m fuel else [])
  | .beginForceBufferWrite =>
    match c.beginForceBufferWrite with
    | .error e => .error e
    | .ok c => .ok (c, [])
  | .endForceBufferWrite => .ok (c.endForceBufferWrite (RTMPClient.socketWrite env false), [])
  | .socketReadyForWrite => .ok (c.socketReadyForWrite (RTMPClient.socketWrite env true), [])
  | .gamerTickEvent numDropped satModeExpired =>
    match c.gamerTickEvent (RTMPClient.socketWrite env false) tickFreq satModeExpired
        numDropped with
    | .error e => .error e
    | .ok c => .ok (c, [])

/-- The calls of a list one after the other: the session at the end and all
the data `write` has accepted, in the order of the calls. -/
def RTMPClient.sendAll (tickFreq : Float32) (fuel : Nat) :
    RTMPClient → List (SendCall × SocketEnv) → Except Fault (RTMPClient × QByteArray)
  | c, [] => .ok (c, [])
  | c, (call, env) :: rest =>
    match c.send tickFreq fuel env call with
    | .error e => .error e
    | .ok first =>
      match RTMPClient.sendAll tickFreq fuel first.1 rest with
      | .error e => .error e
      | .ok more => .ok (more.1, first.2 ++ more.2)

/-- The bytes on the send path in the order in which they reach the
socket: those handed to the socket, the internal buffer, the gamer buffer. -/
def RTMPClient.sendOrder (c : RTMPClient) : QByteArray :=
  c.socketWritten ++ c.outBuf ++ c.gamerOutBuf

/-- A socket with a send buffer of `size` bytes that is empty at every call
and reports no error. -/
def SocketAnswers.free (size : Int) : SocketAnswers :=
  { closed := false, osWriteBufSize := size, bytesToWrite := 0, bytesAfterFlush := 0,
    bufferWriteFails := false, bytesAfterWrite := 0, dataWriteFails := false }

/-- The environment in which both calls find the socket `SocketAnswers.free`. -/
def SocketEnv.free (size : Int) : SocketEnv :=
  { outer := SocketAnswers.free size, nested := SocketAnswers.free size }

/-! ## What the send path leaves alone, and what it keeps -/

/-- The session `b` differs from `a` at most in what `socketWrite` may
change: the internal buffer, the gamer buffer, the saturation flag and the
bytes handed to the socket. -/
def RTMPClient.SendFrame (a b : RTMPClient) : Prop :=
  b = { a with
    outBuf := b.outBuf, gamerOutBuf := b.gamerOutBuf, gamerInSatMode := b.gamerInSatMode,
    socketWritten := b.socketWritten }

/-- The gamer buffer holds data only in gamer mode outside saturation mode. -/
def RTMPClient.GamerBufferIdle (c : RTMPClient) : Prop :=
  c.gamerOutBuf ≠ [] → c.inGamerMode = true ∧ c.gamerInSatMode = false

/-! ## Sample traffic for the chunk engine -/

/-- Three one-byte video messages on chunk stream 4 at 10, 20 and 30 ms. -/
def threeVideoMessages : List Message :=
  [⟨1, VideoMsgType, 10, [0xAA], 4⟩, ⟨1, VideoMsgType, 20, [0xBB], 4⟩,
   ⟨1, VideoMsgType, 30, [0xCC], 4⟩]

/-- Two one-byte video messages on chunk stream 4, 0x1000000 ms apart. -/
def twoDistantVideoMessages : List Message :=
  [⟨1, VideoMsgType, 1, [0xAA], 4⟩, ⟨1, VideoMsgType, 0x1000001, [0xBB], 4⟩]

/-! ## The start of a NAL unit, in words -/

/-- The number of zero bytes in front of the data, the last byte of the data
not counted. -/
def leadingZeros : QByteArray → Nat
  | 0 :: b :: rest => leadingZeros (b :: rest) + 1
  | _ => 0

/-! ## Lemmas: key order -/

theorem QString.lt_irrefl (a : QString) : QString.lt a a = false := by
  induction a with
  | nil => rfl
  | cons x xs ih => simp [QString.lt, ih]

theorem QString.lt_trans : ∀ (a b c : QString),
    QString.lt a b = true → QString.lt b c = true → QString.lt a c = true
  | _, [], _, h, _ => by cases ‹QString› <;> simp [QString.lt] at h
  | _, _ :: _, [], _, h => by simp [QString.lt] at h
  | [], _ :: _, _ :: _, _, _ => by simp [QString.lt]
  | x :: xs, y :: ys, z :: zs, h₁, h₂ => by
    simp only [QString.lt, Bool.or_eq_true, Bool.and_eq_true, decide_eq_true_eq] at h₁ h₂ ⊢
    rcases h₁ with h₁ | ⟨e₁, t₁⟩
    · rcases h₂ with h₂ | ⟨e₂, _⟩
      · exact Or.inl (Nat.lt_trans h₁ h₂)
      · exact Or.inl (e₂ ▸ h₁)
    · rcases h₂ with h₂ | ⟨e₂, t₂⟩
      · exact Or.inl (e₁ ▸ h₂)
      · exact Or.inr ⟨e₁.trans e₂, QString.lt_trans xs ys zs t₁ t₂⟩

theorem QString.lt_asymm (a b : QString) (h : QString.lt a b = true) :
    QString.lt b a = false := by
  cases hba : QString.lt b a with
  | false => rfl
  | true =>
    have := QString.lt_trans a b a h hba
    rw [QString.lt_irrefl] at this
    exact absurd this (by simp)

/-! ## Lemmas: memory that holds given bytes -/

theorem CharPtr.holds_ofBytes (bytes : QByteArray) (beyond : CharPtr) :
    (CharPtr.ofBytes bytes beyond).Holds 0 bytes := by
  intro i hi
  simp [CharPtr.ofBytes, List.getElem?_eq_getElem hi, List.getD_eq_getElem _ _ hi]

theorem CharPtr.holds_append {data : CharPtr} {off : Nat} {f b : QByteArray} :
    data.Holds off (f ++ b) ↔ data.Holds off f ∧ data.Holds (off + f.length) b := by
  constructor
  · intro h
    refine ⟨fun i hi => ?_, fun i hi => ?_⟩
    · have := h i (by simp; omega)
      rw [this, List.getD_append _ _ _ _ hi]
    · have := h (f.length + i) (by simp; omega)
      rw [Nat.add_assoc, this, List.getD_append_right _ _ _ _ (by omega)]
      simp
  · rintro ⟨h₁, h₂⟩ i hi
    by_cases hlt : i < f.length
    · rw [h₁ i hlt, List.getD_append _ _ _ _ hlt]
    · have hi' : i - f.length < b.length := by simp at hi; omega
      have := h₂ (i - f.length) hi'
      rw [List.getD_append_right _ _ _ _ (by omega), ← this]
      congr 1; omega

theorem CharPtr.holds_head {data : CharPtr} {off b : Nat} {bytes : QByteArray}
    (h : data.Holds off (b :: bytes)) : data off = b := by
  have := h 0 (by simp)
  simpa using this

theorem CharPtr.holds_tail {data : CharPtr} {off b : Nat} {bytes : QByteArray}
    (h : data.Holds off (b :: bytes)) : data.Holds (off + 1) bytes := by
  have := (CharPtr.holds_append (f := [b]) (b := bytes)).1 (by simpa using h)
  simpa using this.2

theorem CharPtr.read_of_holds {data : CharPtr} {off : Nat} {bytes : QByteArray}
    (h : data.Holds off bytes) : (data.offset off).read bytes.length = bytes := by
  apply List.ext_getElem
  · simp [CharPtr.read]
  · intro i h₁ h₂
    simp only [CharPtr.read, CharPtr.offset, List.getElem_map, List.getElem_range]
    rw [h i h₂, List.getD_eq_getElem _ _ h₂]

theorem CharPtr.offset_offset (data : CharPtr) (a b : Nat) :
    (data.offset a).offset b = data.offset (a + b) := by
  funext i
  simp [CharPtr.offset, Nat.add_assoc]

/-! ## Lemmas: integer fields read back -/

theorem amfDecodeUInt8_of_holds {data : CharPtr} {off b : Nat} {r : QByteArray}
    (h : data.Holds off (b :: r)) (hb : b < 256) :
    amfDecodeUInt8 (data.offset off) = b := by
  have h0 := h 0 (by simp)
  simp only [List.getD_cons_zero, Nat.add_zero] at h0
  simp [amfDecodeUInt8, CharPtr.offset, h0, Nat.mod_eq_of_lt hb]

theorem amfDecodeUInt16_of_holds {data : CharPtr} {off n : Nat}
    (h : data.Holds off (amfEncodeUInt16 n)) (hn : n < 65536) :
    amfDecodeUInt16 (data.offset off) = n := by
  have h0 := h 0 (by simp [amfEncodeUInt16])
  have h1 := h 1 (by simp [amfEncodeUInt16])
  simp only [amfEncodeUInt16, List.getD_cons_zero, List.getD_cons_succ, Nat.add_zero] at h0 h1
  simp only [amfDecodeUInt16, CharPtr.offset, Nat.add_zero, h0, h1]
  omega

theorem amfDecodeUInt32_of_holds {data : CharPtr} {off n : Nat}
    (h : data.Holds off (amfEncodeUInt32 n)) (hn : n < 2 ^ 32) :
    amfDecodeUInt32 (data.offset off) = n := by
  have h0 := h 0 (by simp [amfEncodeUInt32])
  have h1 := h 1 (by simp [amfEncodeUInt32])
  have h2 := h 2 (by simp [amfEncodeUInt32])
  have h3 := h 3 (by simp [amfEncodeUInt32])
  simp only [amfEncodeUInt32, List.getD_cons_zero, List.getD_cons_succ, Nat.add_zero]
    at h0 h1 h2 h3
  simp only [amfDecodeUInt32, CharPtr.offset, Nat.add_zero, h0, h1, h2, h3]
  omega

theorem amfDecodeDouble_of_holds {data : CharPtr} {off n : Nat}
    (h : data.Holds off (amfEncodeDouble n)) (hn : n < 2 ^ 64) :
    amfDecodeDouble (data.offset off) = n := by
  have h0 := h 0 (by simp [amfEncodeDouble])
  have h1 := h 1 (by simp [amfEncodeDouble])
  have h2 := h 2 (by simp [amfEncodeDouble])
  have h3 := h 3 (by simp [amfEncodeDouble])
  have h4 := h 4 (by simp [amfEncodeDouble])
  have h5 := h 5 (by simp [amfEncodeDouble])
  have h6 := h 6 (by simp [amfEncodeDouble])
  have h7 := h 7 (by simp [amfEncodeDouble])
  simp only [amfEncodeDouble, List.getD_cons_zero, List.getD_cons_succ, Nat.add_zero]
    at h0 h1 h2 h3 h4 h5 h6 h7
  simp only [amfDecodeDouble, CharPtr.offset, Nat.add_zero, h0, h1, h2, h3, h4, h5, h6, h7]
  have hn' : n < 18446744073709551616 := by norm_num at hn; exact hn
  clear hn h h0 h1 h2 h3 h4 h5 h6 h7
  simp only [Nat.mod_mod]
  omega

/-! ## Lemmas: the map of an object -/

theorem AMFProps.append_nil : ∀ (a : AMFProps), a.append .nil = a
  | .nil => rfl
  | .cons k v r => by simp [AMFProps.append, AMFProps.append_nil r]

theorem AMFProps.append_assoc : ∀ (a b c : AMFProps),
    (a.append b).append c = a.append (b.append c)
  | .nil, _, _ => rfl
  | .cons k v r, b, c => by simp [AMFProps.append, AMFProps.append_assoc r b c]

theorem AMFProps.lt_of_wellFormed_append : ∀ (r : AMFProps) (k' : QString) (v' : AMFType)
    (k : QString) (v : AMFType) (rest : AMFProps),
    (AMFProps.cons k' v' (r.append (.cons k v rest))).wellFormed = true →
      QString.lt k' k = true
  | .nil, k', v', k, v, rest, h => by
    simp [AMFProps.append, AMFProps.wellFormed, AMFProps.headAbove] at h
    exact h.1.1
  | .cons k'' v'' r'', k', v', k, v, rest, h => by
    simp only [AMFProps.append, AMFProps.wellFormed, AMFProps.headAbove,
      Bool.and_eq_true] at h
    have ih := AMFProps.lt_of_wellFormed_append r'' k'' v'' k v rest
      (by simp only [AMFProps.wellFormed, Bool.and_eq_true]; exact h.2)
    exact QString.lt_trans _ _ _ h.1.1 ih

theorem AMFProps.wellFormed_append_right : ∀ (a b : AMFProps),
    (a.append b).wellFormed = true → b.wellFormed = true
  | .nil, _, h => h
  | .cons k v r, b, h => by
    simp only [AMFProps.append, AMFProps.wellFormed, Bool.and_eq_true] at h
    exact AMFProps.wellFormed_append_right r b h.2

theorem AMFProps.insert_last : ∀ (obj : AMFProps) (k : QString) (v : AMFType)
    (rest : AMFProps), (obj.append (.cons k v rest)).wellFormed = true →
      obj.insert k v = obj.append (.cons k v .nil)
  | .nil, _, _, _, _ => rfl
  | .cons k' v' r', k, v, rest, h => by
    have hlt := AMFProps.lt_of_wellFormed_append r' k' v' k v rest h
    have hwf : (r'.append (.cons k v rest)).wellFormed = true := by
      simp only [AMFProps.append, AMFProps.wellFormed, Bool.and_eq_true] at h
      exact h.2
    simp [AMFProps.insert, AMFProps.append, QString.lt_asymm _ _ hlt, hlt,
      AMFProps.insert_last r' k v rest hwf]

/-- The first byte of every encoding is a marker, and never the end marker. -/
theorem AMFType.serialized_head (qt : QtUtf8) (v : AMFType) :
    ∃ m tail, v.serialized qt = m :: tail ∧ m < 256 ∧ m ≠ 9 := by
  cases v with
  | number b =>
    exact ⟨0, amfEncodeDouble b, by simp [AMFType.serialized, amfEncodeUInt8], by omega, by omega⟩
  | boolean b =>
    exact ⟨1, amfEncodeUInt8 (if b then 1 else 0),
      by simp [AMFType.serialized, amfEncodeUInt8], by omega, by omega⟩
  | string s =>
    by_cases h : (qt.toUtf8 s).length > 0xFFFF
    · exact ⟨0x0C, amfEncodeUtf8String (qt.toUtf8 s),
        by simp [AMFType.serialized, amfEncodeUInt8, h], by omega, by omega⟩
    · exact ⟨0x02, amfEncodeUtf8String (qt.toUtf8 s),
        by simp [AMFType.serialized, amfEncodeUInt8, h], by omega, by omega⟩
  | object ps =>
    exact ⟨3, ps.serialized qt ++ [0, 0, 9], by simp [AMFType.serialized], by omega, by omega⟩
  | ecmaArray n ps =>
    exact ⟨8, amfEncodeUInt32 n ++ (ps.serialized qt ++ [0, 0, 9]),
      by simp [AMFType.serialized], by omega, by omega⟩
  | null => exact ⟨5, [], by simp [AMFType.serialized, amfEncodeUInt8], by omega, by omega⟩
  | undefined => exact ⟨6, [], by simp [AMFType.serialized, amfEncodeUInt8], by omega, by omega⟩

/-! ## Lemmas: reading back what `serialized` wrote -/

theorem AMFProps.decodeProps_end (qt : QtUtf8) (data : CharPtr) (off fuel objSize : Nat)
    (obj : AMFProps) (hh : data.Holds (off + objSize) [0, 0, 9])
    (hsize : objSize + 3 < 2 ^ 32) :
    AMFType.decodeProps qt (fuel + 1) (data.offset off) objSize obj
      = some (some obj, objSize + 3) := by
  have h16 : amfDecodeUInt16 (data.offset (off + objSize)) = 0 :=
    amfDecodeUInt16_of_holds (n := 0)
      ((CharPtr.holds_append (f := [0, 0]) (b := [9])).1 hh).1 (by omega)
  have h9 : amfDecodeUInt8 (data.offset (off + objSize + 2)) = 9 :=
    amfDecodeUInt8_of_holds
      ((CharPtr.holds_append (f := [0, 0]) (b := [9])).1 hh).2 (by omega)
  have e1 : (objSize + 2) % 2 ^ 32 = objSize + 2 := Nat.mod_eq_of_lt (by omega)
  have e2 : (objSize + 2 + 1) % 2 ^ 32 = objSize + 3 := Nat.mod_eq_of_lt (by omega)
  simp only [AMFType.decodeProps, CharPtr.offset_offset, h16, Nat.add_zero, e1,
    ← Nat.add_assoc, h9, if_true, e2]

mutual
theorem AMFType.decode_serialized (qt : QtUtf8) : ∀ (v : AMFType) (data : CharPtr)
    (off fuel : Nat), v.wellFormed = true → v.textRoundTrips qt → v.fitsAmf0 qt →
    data.Holds off (v.serialized qt) → (v.serialized qt).length < 2 ^ 32 →
    v.decodeSteps ≤ fuel →
    AMFType.decode qt fuel (data.offset off) = some (some v, (v.serialized qt).length)
  | .number bits, data, off, fuel, _, _, hfit, hh, _, hf => by
    obtain ⟨f, rfl⟩ : ∃ f, fuel = f + 1 :=
      ⟨fuel - 1, by simp only [AMFType.decodeSteps] at hf; omega⟩
    simp only [AMFType.serialized, amfEncodeUInt8, List.singleton_append, Nat.zero_mod] at hh ⊢
    have hm : amfDecodeUInt8 (data.offset off) = 0 := amfDecodeUInt8_of_holds hh (by omega)
    have hd := amfDecodeDouble_of_holds (CharPtr.holds_tail hh) hfit
    simp [AMFType.decode, hm, CharPtr.offset_offset, hd, amfEncodeDouble]
  | .boolean b, data, off, fuel, _, _, _, hh, _, hf => by
    obtain ⟨f, rfl⟩ : ∃ f, fuel = f + 1 :=
      ⟨fuel - 1, by simp only [AMFType.decodeSteps] at hf; omega⟩
    simp only [AMFType.serialized, amfEncodeUInt8, List.singleton_append] at hh ⊢
    have hm : amfDecodeUInt8 (data.offset off) = 1 := amfDecodeUInt8_of_holds hh (by omega)
    have hb : amfDecodeUInt8 (data.offset (off + 1)) = (if b then 1 else 0) % 256 :=
      amfDecodeUInt8_of_holds (CharPtr.holds_tail hh) (Nat.mod_lt _ (by omega))
    cases b <;> simp [AMFType.decode, hm, CharPtr.offset_offset, hb]
  | .string s, data, off, fuel, _, htext, _, hh, hsize, hf => by
    obtain ⟨f, rfl⟩ : ∃ f, fuel = f + 1 :=
      ⟨fuel - 1, by simp only [AMFType.decodeSteps] at hf; omega⟩
    simp only [AMFType.textRoundTrips] at htext
    by_cases hlong : (qt.toUtf8 s).length > 0xFFFF
    · simp only [AMFType.serialized, amfEncodeUtf8String, amfEncodeUInt8, hlong, if_true,
        List.singleton_append, List.length_cons, List.length_append] at hh hsize ⊢
      have hlen4 : (amfEncodeUInt32 (qt.toUtf8 s).length).length = 4 := rfl
      rw [hlen4] at hsize ⊢
      have hm : amfDecodeUInt8 (data.offset off) = 0x0C :=
        amfDecodeUInt8_of_holds hh (by omega)
      have ht := CharPtr.holds_append.1 (CharPtr.holds_tail hh)
      have hl := amfDecodeUInt32_of_holds ht.1 (by omega)
      have hr := CharPtr.read_of_holds ht.2
      rw [hlen4] at hr
      have e : (1 + 4 + (qt.toUtf8 s).length) % 2 ^ 32 = 4 + (qt.toUtf8 s).length + 1 := by
        rw [Nat.mod_eq_of_lt (by omega)]; omega
      have e5 : off + 1 + 4 = off + 5 := by omega
      rw [e5] at hr
      simp [AMFType.decode, hm, CharPtr.offset_offset, hl, hr, htext]
      omega
    · simp only [AMFType.serialized, amfEncodeUtf8String, amfEncodeUInt8, hlong, if_false,
        List.singleton_append, List.length_cons, List.length_append] at hh hsize ⊢
      have hlen2 : (amfEncodeUInt16 (qt.toUtf8 s).length).length = 2 := rfl
      rw [hlen2] at hsize ⊢
      have hm : amfDecodeUInt8 (data.offset off) = 0x02 :=
        amfDecodeUInt8_of_holds hh (by omega)
      have ht := CharPtr.holds_append.1 (CharPtr.holds_tail hh)
      have hl := amfDecodeUInt16_of_holds ht.1 (by omega)
      have hr := CharPtr.read_of_holds ht.2
      rw [hlen2] at hr
      have e3 : off + 1 + 2 = off + 3 := by omega
      rw [e3] at hr
      simp [AMFType.decode, hm, CharPtr.offset_offset, hl, hr, htext]
      omega
  | .object ps, data, off, fuel, hwf, htext, hfit, hh, hsize, hf => by
    obtain ⟨f, rfl⟩ : ∃ f, fuel = f + 1 :=
      ⟨fuel - 1, by simp only [AMFType.decodeSteps] at hf; omega⟩
    simp only [AMFType.serialized, List.singleton_append, List.append_assoc, List.cons_append,
      List.nil_append, List.length_cons, List.length_append, List.length_nil] at hh hsize ⊢
    simp only [AMFType.decodeSteps] at hf
    have hm : amfDecodeUInt8 (data.offset off) = 0x03 :=
      amfDecodeUInt8_of_holds hh (by omega)
    have hp := AMFProps.decodeProps_serialized qt ps data off f 1 .nil
      (by simpa [AMFProps.append, AMFType.wellFormed] using hwf)
      (by simpa [AMFType.textRoundTrips] using htext)
      (by simpa [AMFType.fitsAmf0] using hfit)
      (CharPtr.holds_tail hh) (by omega) (by omega)
    simp only [AMFType.decode, hm, hp, AMFProps.append]
    simp
    omega
  | .ecmaArray n ps, data, off, fuel, hwf, htext, hfit, hh, hsize, hf => by
    obtain ⟨f, rfl⟩ : ∃ f, fuel = f + 1 :=
      ⟨fuel - 1, by simp only [AMFType.decodeSteps] at hf; omega⟩
    simp only [AMFType.serialized, List.singleton_append, List.append_assoc, List.cons_append,
      List.nil_append, List.length_cons, List.length_append, List.length_nil] at hh hsize ⊢
    simp only [AMFType.decodeSteps] at hf
    simp only [AMFType.fitsAmf0] at hfit
    have hlen4 : (amfEncodeUInt32 n).length = 4 := rfl
    rw [hlen4] at hsize ⊢
    have hm : amfDecodeUInt8 (data.offset off) = 0x08 :=
      amfDecodeUInt8_of_holds hh (by omega)
    have ht := CharPtr.holds_append.1 (CharPtr.holds_tail hh)
    have hn := amfDecodeUInt32_of_holds ht.1 hfit.1
    have ht2 := ht.2
    rw [hlen4] at ht2
    have hp := AMFProps.decodeProps_serialized qt ps data off f (1 + 4) .nil
      (by simpa [AMFProps.append, AMFType.wellFormed] using hwf)
      (by simpa [AMFType.textRoundTrips] using htext)
      hfit.2 (by rw [← Nat.add_assoc]; exact ht2) (by omega) (by omega)
    simp only [AMFType.decode, hm, hp, AMFProps.append, CharPtr.offset_offset, hn]
    simp
    omega
  | .null, data, off, fuel, _, _, _, hh, _, hf => by
    obtain ⟨f, rfl⟩ : ∃ f, fuel = f + 1 :=
      ⟨fuel - 1, by simp only [AMFType.decodeSteps] at hf; omega⟩
    simp only [AMFType.serialized, amfEncodeUInt8] at hh ⊢
    have hm : amfDecodeUInt8 (data.offset off) = 0x05 :=
      amfDecodeUInt8_of_holds hh (by omega)
    simp [AMFType.decode, hm]
  | .undefined, data, off, fuel, _, _, _, hh, _, hf => by
    obtain ⟨f, rfl⟩ : ∃ f, fuel = f + 1 :=
      ⟨fuel - 1, by simp only [AMFType.decodeSteps] at hf; omega⟩
    simp only [AMFType.serialized, amfEncodeUInt8] at hh ⊢
    have hm : amfDecodeUInt8 (data.offset off) = 0x06 :=
      amfDecodeUInt8_of_holds hh (by omega)
    simp [AMFType.decode, hm]
theorem AMFProps.decodeProps_serialized (qt : QtUtf8) : ∀ (ps : AMFProps) (data : CharPtr)
    (off fuel objSize : Nat) (obj : AMFProps), (obj.append ps).wellFormed = true →
    ps.textRoundTrips qt → ps.fitsAmf0 qt →
    data.Holds (off + objSize) (ps.serialized qt ++ [0, 0, 9]) →
    objSize + (ps.serialized qt).length + 3 < 2 ^ 32 → ps.decodeSteps ≤ fuel →
    AMFType.decodeProps qt fuel (data.offset off) objSize obj
      = some (some (obj.append ps), objSize + (ps.serialized qt).length + 3)
  | .nil, data, off, fuel, objSize, obj, _, _, _, hh, hsize, hf => by
    obtain ⟨f, rfl⟩ : ∃ f, fuel = f + 1 :=
      ⟨fuel - 1, by simp only [AMFProps.decodeSteps] at hf; omega⟩
    simp only [AMFProps.serialized, List.nil_append, List.length_nil, Nat.add_zero] at hh hsize ⊢
    rw [AMFProps.decodeProps_end qt data off f objSize obj hh hsize, AMFProps.append_nil]
  | .cons key value rest, data, off, fuel, objSize, obj, hwf, htext, hfit, hh, hsize, hf => by
    obtain ⟨f, rfl⟩ : ∃ f, fuel = f + 1 :=
      ⟨fuel - 1, by simp only [AMFProps.decodeSteps] at hf; omega⟩
    simp only [AMFProps.decodeSteps] at hf
    simp only [AMFProps.textRoundTrips] at htext
    simp only [AMFProps.fitsAmf0] at hfit
    have hshort : ¬ (qt.toUtf8 key).length > 0xFFFF := by omega
    simp only [AMFProps.serialized, amfEncodeUtf8String, hshort, if_false, List.append_assoc,
      List.length_append] at hh hsize ⊢
    have hlen2 : (amfEncodeUInt16 (qt.toUtf8 key).length).length = 2 := rfl
    rw [hlen2] at hsize ⊢
    -- the key
    have hk := CharPtr.holds_append.1 hh
    have hl := amfDecodeUInt16_of_holds hk.1 (by omega)
    have hk2 := CharPtr.holds_append.1 hk.2
    rw [hlen2] at hk2
    have hr := CharPtr.read_of_holds hk2.1
    -- the value
    have hv := CharPtr.holds_append.1 hk2.2
    obtain ⟨m, tail, hser, hm256, hm9⟩ := AMFType.serialized_head qt value
    have hmark : amfDecodeUInt8 (data.offset (off + objSize + 2 + (qt.toUtf8 key).length)) = m :=
      amfDecodeUInt8_of_holds (r := tail) (by rw [← hser]; exact hv.1) hm256
    have hwfv : (AMFProps.cons key value rest).wellFormed = true :=
      AMFProps.wellFormed_append_right obj _ hwf
    simp only [AMFProps.wellFormed, Bool.and_eq_true] at hwfv
    have hdv := AMFType.decode_serialized qt value data
      (off + objSize + 2 + (qt.toUtf8 key).length) f hwfv.1.2 htext.2.1 hfit.2.1 hv.1
      (by omega) (by omega)
    -- the rest of the loop
    have hins := AMFProps.insert_last obj key value rest hwf
    have hrest := AMFProps.decodeProps_serialized qt rest data off f
      (objSize + 2 + (qt.toUtf8 key).length + (value.serialized qt).length)
      (obj.append (.cons key value .nil))
      (by rw [AMFProps.append_assoc]; simpa [AMFProps.append] using hwf)
      htext.2.2 hfit.2.2
      (by
        have := hv.2
        simpa [Nat.add_assoc] using this)
      (by omega) (by omega)
    have e1 : (objSize + (2 + (qt.toUtf8 key).length)) % 2 ^ 32
        = objSize + 2 + (qt.toUtf8 key).length := by
      rw [Nat.mod_eq_of_lt (by omega)]; omega
    have e2 : (objSize + 2 + (qt.toUtf8 key).length + (value.serialized qt).length) % 2 ^ 32
        = objSize + 2 + (qt.toUtf8 key).length + (value.serialized qt).length :=
      Nat.mod_eq_of_lt (by omega)
    have e3 : off + (objSize + 2) = off + objSize + 2 := by omega
    have e4 : off + (objSize + 2 + (qt.toUtf8 key).length)
        = off + objSize + 2 + (qt.toUtf8 key).length := by omega
    simp only [AMFType.decodeProps, CharPtr.offset_offset, hl, e1, e3, e4, hr, htext.1, hmark,
      hm9, if_false, hdv, e2, hins, hrest, AMFProps.append_assoc, AMFProps.append]
    simp
    omega
end

theorem CharPtr.offset_zero (data : CharPtr) : data.offset 0 = data := by
  funext i
  simp [CharPtr.offset]

/-! ## Lemmas: single steps of `decode` -/

theorem AMFType.decode_number (qt : QtUtf8) (fuel : Nat) (data : CharPtr)
    (h : amfDecodeUInt8 data = 0x00) :
    AMFType.decode qt (fuel + 1) data
      = some (some (.number (amfDecodeDouble (data.offset 1))), 9) := by
  simp [AMFType.decode, h]

theorem AMFType.decode_unknown (qt : QtUtf8) (fuel : Nat) (data : CharPtr)
    (h0 : amfDecodeUInt8 data ≠ 0x00) (h1 : amfDecodeUInt8 data ≠ 0x01)
    (h2 : amfDecodeUInt8 data ≠ 0x02) (h3 : amfDecodeUInt8 data ≠ 0x03)
    (h5 : amfDecodeUInt8 data ≠ 0x05) (h6 : amfDecodeUInt8 data ≠ 0x06)
    (h8 : amfDecodeUInt8 data ≠ 0x08) (hC : amfDecodeUInt8 data ≠ 0x0C) :
    AMFType.decode qt (fuel + 1) data = some (none, 0) := by
  simp [AMFType.decode, h0, h1, h2, h3, h5, h6, h8, hC]

theorem AMFType.decode_object_fail (qt : QtUtf8) (fuel : Nat) (data : CharPtr) (n : Nat)
    (h : amfDecodeUInt8 data = 0x03)
    (hp : AMFType.decodeProps qt fuel data 1 .nil = some (none, n)) :
    AMFType.decode qt (fuel + 1) data = some (none, n) := by
  simp [AMFType.decode, h, hp]

theorem AMFType.decode_ecmaArray_fail (qt : QtUtf8) (fuel : Nat) (data : CharPtr) (n : Nat)
    (h : amfDecodeUInt8 data = 0x08)
    (hp : AMFType.decodeProps qt fuel data (1 + 4) .nil = some (none, n)) :
    AMFType.decode qt (fuel + 1) data = some (none, n) := by
  simp [AMFType.decode, h, hp]

/-- One turn of the property loop whose value decodes. -/
theorem AMFType.decodeProps_value (qt : QtUtf8) (fuel : Nat) (data : CharPtr)
    (objSize : Nat) (obj : AMFProps) (value : AMFType) (n : Nat)
    (h9 : amfDecodeUInt8
      (data.offset ((objSize + (2 + amfDecodeUInt16 (data.offset objSize))) % 2 ^ 32)) ≠ 0x09)
    (hv : AMFType.decode qt fuel
      (data.offset ((objSize + (2 + amfDecodeUInt16 (data.offset objSize))) % 2 ^ 32))
        = some (some value, n)) :
    AMFType.decodeProps qt (fuel + 1) data objSize obj
      = AMFType.decodeProps qt fuel data
          (((objSize + (2 + amfDecodeUInt16 (data.offset objSize))) % 2 ^ 32 + n) % 2 ^ 32)
          (obj.insert (qt.fromUtf8 ((data.offset (objSize + 2)).read
            (amfDecodeUInt16 (data.offset objSize)))) value) := by
  simp only [AMFType.decodeProps, h9, if_false, hv]

/-- One turn of the property loop whose value fails to decode. -/
theorem AMFType.decodeProps_fail (qt : QtUtf8) (fuel : Nat) (data : CharPtr)
    (objSize : Nat) (obj : AMFProps) (n : Nat)
    (h9 : amfDecodeUInt8
      (data.offset ((objSize + (2 + amfDecodeUInt16 (data.offset objSize))) % 2 ^ 32)) ≠ 0x09)
    (hv : AMFType.decode qt fuel
      (data.offset ((objSize + (2 + amfDecodeUInt16 (data.offset objSize))) % 2 ^ 32))
        = some (none, n)) :
    AMFType.decodeProps qt (fuel + 1) data objSize obj = some (none, 0) := by
  simp only [AMFType.decodeProps, h9, if_false, hv]

mutual
theorem AMFType.decode_fuel_succ (qt : QtUtf8) : ∀ (fuel : Nat) (data : CharPtr)
    (r : Option AMFType × Nat), AMFType.decode qt fuel data = some r →
      AMFType.decode qt (fuel + 1) data = some r
  | 0, _, _, h => by simp [AMFType.decode] at h
  | f + 1, data, r, h => by
    rw [AMFType.decode] at h ⊢
    split_ifs at h ⊢ with h0 h1 h2 h3 h8
    · exact h
    · exact h
    · exact h
    · cases hp : AMFType.decodeProps qt f data 1 .nil with
      | none => simp [hp] at h
      | some x =>
        rw [AMFType.decodeProps_fuel_succ qt f data 1 .nil x hp]
        rw [hp] at h
        exact h
    · cases hp : AMFType.decodeProps qt f data (1 + 4) .nil with
      | none => simp [hp] at h
      | some x =>
        rw [AMFType.decodeProps_fuel_succ qt f data (1 + 4) .nil x hp]
        rw [hp] at h
        exact h
    all_goals exact h
theorem AMFType.decodeProps_fuel_succ (qt : QtUtf8) : ∀ (fuel : Nat) (data : CharPtr)
    (objSize : Nat) (obj : AMFProps) (r : Option AMFProps × Nat),
    AMFType.decodeProps qt fuel data objSize obj = some r →
      AMFType.decodeProps qt (fuel + 1) data objSize obj = some r
  | 0, _, _, _, _, h => by simp [AMFType.decodeProps] at h
  | f + 1, data, objSize, obj, r, h => by
    rw [AMFType.decodeProps] at h ⊢
    by_cases h9 : amfDecodeUInt8
        (data.offset ((objSize + (2 + amfDecodeUInt16 (data.offset objSize))) % 2 ^ 32)) = 0x09
    · rw [if_pos h9] at h ⊢
      exact h
    · rw [if_neg h9] at h ⊢
      cases hv : AMFType.decode qt f
          (data.offset ((objSize + (2 + amfDecodeUInt16 (data.offset objSize))) % 2 ^ 32)) with
      | none => rw [hv] at h; exact absurd h (by simp)
      | some x =>
        rw [AMFType.decode_fuel_succ qt f _ x hv]
        rw [hv] at h
        rcases x with ⟨_ | value, n⟩
        · exact h
        · exact AMFType.decodeProps_fuel_succ qt f data _ _ r h
end

theorem AMFType.decode_fuel_add (qt : QtUtf8) (fuel : Nat) (data : CharPtr)
    (r : Option AMFType × Nat) (h : AMFType.decode qt fuel data = some r) :
    ∀ k, AMFType.decode qt (fuel + k) data = some r
  | 0 => h
  | k + 1 => AMFType.decode_fuel_succ qt (fuel + k) data r (AMFType.decode_fuel_add qt fuel data r h k)

/-! ## Lemmas: insertion into the map -/

theorem QString.eq_of_not_lt : ∀ (a b : QString),
    QString.lt a b = false → QString.lt b a = false → a = b
  | [], [], _, _ => rfl
  | [], _ :: _, h, _ => by simp [QString.lt] at h
  | _ :: _, [], _, h => by simp [QString.lt] at h
  | x :: xs, y :: ys, h₁, h₂ => by
    simp only [QString.lt, Bool.or_eq_false_iff, decide_eq_false_iff_not,
      Bool.and_eq_false_iff] at h₁ h₂
    have hxy : x = y := by omega
    subst hxy
    have t₁ : QString.lt xs ys = false := by
      rcases h₁.2 with h | h
      · exact absurd rfl h
      · exact h
    have t₂ : QString.lt ys xs = false := by
      rcases h₂.2 with h | h
      · exact absurd rfl h
      · exact h
    rw [QString.eq_of_not_lt xs ys t₁ t₂]

theorem AMFProps.toList_insert_perm (k : QString) (v : AMFType) : ∀ (m : AMFProps),
    k ∉ m.keys → List.Perm (m.insert k v).toList ((k, v) :: m.toList)
  | .nil, _ => by simp [AMFProps.insert, AMFProps.toList]
  | .cons k' v' r, h => by
    simp only [AMFProps.keys, AMFProps.toList, List.map_cons, List.mem_cons, not_or] at h
    unfold AMFProps.insert
    by_cases h₁ : QString.lt k k' = true
    · simp [h₁, AMFProps.toList]
    · by_cases h₂ : QString.lt k' k = true
      · simp only [h₁, h₂, if_true, if_false, AMFProps.toList]
        exact (List.Perm.cons _ (AMFProps.toList_insert_perm k v r h.2)).trans
          (List.Perm.swap _ _ _)
      · exact absurd (QString.eq_of_not_lt k k' (by simpa using h₁) (by simpa using h₂)) h.1

theorem AMFProps.mem_keys_insert (k : QString) (v : AMFType) : ∀ (m : AMFProps) (x : QString),
    x ∈ (m.insert k v).keys → x = k ∨ x ∈ m.keys
  | .nil, x, h => by
    simp [AMFProps.insert, AMFProps.keys, AMFProps.toList] at h
    exact Or.inl h
  | .cons k' v' r, x, h => by
    unfold AMFProps.insert at h
    by_cases h₁ : QString.lt k k' = true
    · simp only [h₁, if_true, AMFProps.keys, AMFProps.toList, List.map_cons,
        List.mem_cons] at h ⊢
      exact h
    · by_cases h₂ : QString.lt k' k = true
      · simp only [h₁, h₂, if_true, if_false, AMFProps.keys, AMFProps.toList, List.map_cons,
          List.mem_cons] at h ⊢
        rcases h with h | h
        · exact Or.inr (Or.inl h)
        · rcases AMFProps.mem_keys_insert k v r x h with h | h
          · exact Or.inl h
          · exact Or.inr (Or.inr h)
      · simp only [h₁, h₂, if_false, AMFProps.keys, AMFProps.toList, List.map_cons,
          List.mem_cons] at h ⊢
        exact Or.inr h

theorem AMFProps.keys_insert_sorted (k : QString) (v : AMFType) : ∀ (m : AMFProps),
    m.keys.Pairwise (fun a b => QString.lt a b = true) →
      (m.insert k v).keys.Pairwise (fun a b => QString.lt a b = true)
  | .nil, _ => by simp [AMFProps.insert, AMFProps.keys, AMFProps.toList]
  | .cons k' v' r, h => by
    have hh : (∀ x ∈ r.keys, QString.lt k' x = true) ∧
        r.keys.Pairwise (fun a b => QString.lt a b = true) := by
      simpa [AMFProps.keys, AMFProps.toList] using h
    unfold AMFProps.insert
    by_cases h₁ : QString.lt k k' = true
    · simp only [h₁, if_true]
      show (k :: k' :: r.keys).Pairwise _
      refine List.Pairwise.cons ?_ (List.Pairwise.cons hh.1 hh.2)
      intro x hx
      rcases List.mem_cons.1 hx with hx | hx
      · exact hx ▸ h₁
      · exact QString.lt_trans _ _ _ h₁ (hh.1 x hx)
    · by_cases h₂ : QString.lt k' k = true
      · simp only [h₁, h₂, if_true, if_false]
        show (k' :: (r.insert k v).keys).Pairwise _
        refine List.Pairwise.cons ?_ (AMFProps.keys_insert_sorted k v r hh.2)
        intro x hx
        rcases AMFProps.mem_keys_insert k v r x hx with hx | hx
        · exact hx ▸ h₂
        · exact hh.1 x hx
      · simp only [h₁, h₂, if_false]
        exact h

theorem AMFProps.foldl_insert_spec : ∀ (kvs : List (QString × AMFType)) (m : AMFProps),
    (m.keys ++ kvs.map Prod.fst).Nodup → m.keys.Pairwise (fun a b => QString.lt a b = true) →
      List.Perm (kvs.foldl (fun m kv => m.insert kv.1 kv.2) m).toList (m.toList ++ kvs) ∧
      (kvs.foldl (fun m kv => m.insert kv.1 kv.2) m).keys.Pairwise
        (fun a b => QString.lt a b = true)
  | [], m, _, hs => by simp [hs]
  | (k, v) :: rest, m, hn, hs => by
    have hk : k ∉ m.keys := by
      intro hmem
      have := (List.nodup_append.1 hn).2.2
      exact this hmem (by simp) 
    have hp := AMFProps.toList_insert_perm k v m hk
    have hpk : List.Perm (m.insert k v).keys (k :: m.keys) := by
      simpa [AMFProps.keys] using hp.map Prod.fst
    have hn' : ((m.insert k v).keys ++ rest.map Prod.fst).Nodup := by
      have h1 : List.Perm ((m.insert k v).keys ++ rest.map Prod.fst)
          (m.keys ++ ((k, v) :: rest).map Prod.fst) := by
        refine (List.Perm.append_right _ hpk).trans ?_
        simpa using (@List.perm_middle _ k m.keys (rest.map Prod.fst)).symm
      exact h1.nodup_iff.2 hn
    obtain ⟨ih₁, ih₂⟩ := AMFProps.foldl_insert_spec rest (m.insert k v) hn'
      (AMFProps.keys_insert_sorted k v m hs)
    refine ⟨?_, ih₂⟩
    simp only [List.foldl_cons]
    refine ih₁.trans ?_
    refine (List.Perm.append_right _ hp).trans ?_
    simpa using (@List.perm_middle _ (k, v) m.toList rest).symm

theorem AMFProps.serialized_eq_flatMap (qt : QtUtf8) : ∀ (m : AMFProps),
    m.serialized qt = m.toList.flatMap (AMFType.serializedProperty qt)
  | .nil => by simp [AMFProps.serialized, AMFProps.toList]
  | .cons k v r => by
    simp [AMFProps.serialized, AMFProps.toList, AMFType.serializedProperty,
      AMFProps.serialized_eq_flatMap qt r]

/-! ## Lemmas: failure of the property loop -/

theorem AMFType.decodeProps_fuel_add (qt : QtUtf8) (fuel : Nat) (data : CharPtr)
    (objSize : Nat) (obj : AMFProps) (r : Option AMFProps × Nat)
    (h : AMFType.decodeProps qt fuel data objSize obj = some r) :
    ∀ k, AMFType.decodeProps qt (fuel + k) data objSize obj = some r
  | 0 => h
  | k + 1 => AMFType.decodeProps_fuel_succ qt (fuel + k) data objSize obj r
      (AMFType.decodeProps_fuel_add qt fuel data objSize obj r h k)

theorem AMFType.decodeProps_null (qt : QtUtf8) : ∀ (fuel : Nat) (data : CharPtr)
    (objSize : Nat) (obj : AMFProps) (n : Nat),
    AMFType.decodeProps qt fuel data objSize obj = some (none, n) → n = 0
  | 0, _, _, _, _, h => by simp [AMFType.decodeProps] at h
  | f + 1, data, objSize, obj, n, h => by
    rw [AMFType.decodeProps] at h
    by_cases h9 : amfDecodeUInt8
        (data.offset ((objSize + (2 + amfDecodeUInt16 (data.offset objSize))) % 2 ^ 32)) = 0x09
    · rw [if_pos h9] at h
      simp at h
    · rw [if_neg h9] at h
      cases hv : AMFType.decode qt f
          (data.offset ((objSize + (2 + amfDecodeUInt16 (data.offset objSize))) % 2 ^ 32)) with
      | none => rw [hv] at h; exact absurd h (by simp)
      | some x =>
        rw [hv] at h
        rcases x with ⟨_ | value, m⟩
        · simp at h
          exact h.symm
        · exact AMFType.decodeProps_null qt f data _ _ n h

theorem AMFType.decode_null (qt : QtUtf8) (fuel : Nat) (data : CharPtr) (n : Nat)
    (h : AMFType.decode qt fuel data = some (none, n)) : n = 0 := by
  cases fuel with
  | zero => simp [AMFType.decode] at h
  | succ f =>
    rw [AMFType.decode] at h
    split_ifs at h
    · simp at h
    · simp at h
    · simp at h
    · cases hp : AMFType.decodeProps qt f data 1 .nil with
      | none => rw [hp] at h; simp at h
      | some x =>
        rw [hp] at h
        rcases x with ⟨_ | ps, m⟩
        · simp at h
          exact h ▸ AMFType.decodeProps_null qt f data 1 .nil m hp
        · simp at h
    · cases hp : AMFType.decodeProps qt f data (1 + 4) .nil with
      | none => rw [hp] at h; simp at h
      | some x =>
        rw [hp] at h
        rcases x with ⟨_ | ps, m⟩
        · simp at h
          exact h ▸ AMFType.decodeProps_null qt f data (1 + 4) .nil m hp
        · simp at h
    · simp at h
    · simp at h
    · simp at h
    · simp at h
      exact h.symm

/-- The property loop run over well-encoded properties carries on where they end. -/
theorem AMFProps.decodeProps_prefix (qt : QtUtf8) : ∀ (ps : AMFProps) (data : CharPtr)
    (off fuel objSize : Nat) (obj : AMFProps) (r : Option AMFProps × Nat),
    (obj.append ps).wellFormed = true → ps.textRoundTrips qt → ps.fitsAmf0 qt →
    data.Holds (off + objSize) (ps.serialized qt) →
    objSize + (ps.serialized qt).length < 2 ^ 32 →
    AMFType.decodeProps qt fuel (data.offset off) (objSize + (ps.serialized qt).length)
      (obj.append ps) = some r →
    AMFType.decodeProps qt (fuel + ps.decodeSteps) (data.offset off) objSize obj = some r
  | .nil, data, off, fuel, objSize, obj, r, _, _, _, _, _, h => by
    simp only [AMFProps.serialized, List.length_nil, Nat.add_zero, AMFProps.append_nil] at h
    exact AMFType.decodeProps_fuel_add qt fuel _ _ _ r h _
  | .cons key value rest, data, off, fuel, objSize, obj, r, hwf, htext, hfit, hh, hsize, h => by
    simp only [AMFProps.textRoundTrips] at htext
    simp only [AMFProps.fitsAmf0] at hfit
    have hshort : ¬ (qt.toUtf8 key).length > 0xFFFF := by omega
    simp only [AMFProps.serialized, amfEncodeUtf8String, hshort, if_false, List.append_assoc,
      List.length_append] at hh hsize h
    have hlen2 : (amfEncodeUInt16 (qt.toUtf8 key).length).length = 2 := rfl
    rw [hlen2] at hsize h
    have hk := CharPtr.holds_append.1 hh
    have hl := amfDecodeUInt16_of_holds hk.1 (by omega)
    have hk2 := CharPtr.holds_append.1 hk.2
    rw [hlen2] at hk2
    have hr := CharPtr.read_of_holds hk2.1
    have hv := CharPtr.holds_append.1 hk2.2
    obtain ⟨m, tail, hser, hm256, hm9⟩ := AMFType.serialized_head qt value
    have hmark : amfDecodeUInt8 (data.offset (off + objSize + 2 + (qt.toUtf8 key).length)) = m :=
      amfDecodeUInt8_of_holds (r := tail) (by rw [← hser]; exact hv.1) hm256
    have hwfv : (AMFProps.cons key value rest).wellFormed = true :=
      AMFProps.wellFormed_append_right obj _ hwf
    simp only [AMFProps.wellFormed, Bool.and_eq_true] at hwfv
    have hdv := AMFType.decode_serialized qt value data
      (off + objSize + 2 + (qt.toUtf8 key).length) (fuel + value.decodeSteps + rest.decodeSteps)
      hwfv.1.2 htext.2.1 hfit.2.1 hv.1 (by omega) (by omega)
    have hins := AMFProps.insert_last obj key value rest hwf
    have hrest := AMFProps.decodeProps_prefix qt rest data off fuel
      (objSize + 2 + (qt.toUtf8 key).length + (value.serialized qt).length)
      (obj.append (.cons key value .nil)) r
      (by rw [AMFProps.append_assoc]; simpa [AMFProps.append] using hwf)
      htext.2.2 hfit.2.2
      (by
        have := hv.2
        simpa [Nat.add_assoc] using this)
      (by omega)
      (by
        rw [AMFProps.append_assoc]
        simp only [AMFProps.append]
        have e : objSize + 2 + (qt.toUtf8 key).length + (value.serialized qt).length
            + (rest.serialized qt).length = objSize + (2 + ((qt.toUtf8 key).length
            + ((value.serialized qt).length + (rest.serialized qt).length))) := by omega
        rw [e]; exact h)
    have hrest' := AMFType.decodeProps_fuel_add qt _ _ _ _ r hrest value.decodeSteps
    have e1 : (objSize + (2 + (qt.toUtf8 key).length)) % 2 ^ 32
        = objSize + 2 + (qt.toUtf8 key).length := by
      rw [Nat.mod_eq_of_lt (by omega)]; omega
    have e2 : (objSize + 2 + (qt.toUtf8 key).length + (value.serialized qt).length) % 2 ^ 32
        = objSize + 2 + (qt.toUtf8 key).length + (value.serialized qt).length :=
      Nat.mod_eq_of_lt (by omega)
    have e3 : off + (objSize + 2) = off + objSize + 2 := by omega
    have e4 : off + (objSize + 2 + (qt.toUtf8 key).length)
        = off + objSize + 2 + (qt.toUtf8 key).length := by omega
    have ef : fuel + (AMFProps.cons key value rest).decodeSteps
        = (fuel + value.decodeSteps + rest.decodeSteps) + 1 := by
      simp only [AMFProps.decodeSteps]; omega
    have ef' : fuel + rest.decodeSteps + value.decodeSteps
        = fuel + value.decodeSteps + rest.decodeSteps := by omega
    rw [ef'] at hrest'
    rw [ef]
    simp only [AMFType.decodeProps, CharPtr.offset_offset, hl, e1, e3, e4, hr, htext.1, hmark,
      hm9, if_false, hdv, e2, hins, hrest']

/-- A string read back from its encoding, whatever Qt makes of its bytes. -/
theorem AMFType.decode_string_serialized (qt : QtUtf8) (s : QString) (fuel : Nat)
    (data : CharPtr) (hh : data.Holds 0 ((AMFType.string s).serialized qt))
    (hsize : (qt.toUtf8 s).length + 5 < 2 ^ 32) :
    AMFType.decode qt (fuel + 1) data
      = some (some (.string (qt.fromUtf8 (qt.toUtf8 s))),
          (if (qt.toUtf8 s).length > 0xFFFF then 5 else 3) + (qt.toUtf8 s).length) := by
  rw [← CharPtr.offset_zero data]
  by_cases hlong : (qt.toUtf8 s).length > 0xFFFF
  · simp only [AMFType.serialized, amfEncodeUtf8String, amfEncodeUInt8, hlong, if_true,
      List.singleton_append] at hh ⊢
    have hlen4 : (amfEncodeUInt32 (qt.toUtf8 s).length).length = 4 := rfl
    have hm : amfDecodeUInt8 (data.offset 0) = 0x0C := amfDecodeUInt8_of_holds hh (by omega)
    have ht := CharPtr.holds_append.1 (CharPtr.holds_tail hh)
    have hl := amfDecodeUInt32_of_holds ht.1 (by omega)
    have hr := CharPtr.read_of_holds ht.2
    rw [hlen4] at hr
    simp only [Nat.zero_add, Nat.reduceAdd] at hl hr
    simp [AMFType.decode, hm, CharPtr.offset_offset, hl, hr]
    omega
  · simp only [AMFType.serialized, amfEncodeUtf8String, amfEncodeUInt8, hlong, if_false,
      List.singleton_append] at hh ⊢
    have hlen2 : (amfEncodeUInt16 (qt.toUtf8 s).length).length = 2 := rfl
    have hm : amfDecodeUInt8 (data.offset 0) = 0x02 := amfDecodeUInt8_of_holds hh (by omega)
    have ht := CharPtr.holds_append.1 (CharPtr.holds_tail hh)
    have hl := amfDecodeUInt16_of_holds ht.1 (by omega)
    have hr := CharPtr.read_of_holds ht.2
    rw [hlen2] at hr
    simp only [Nat.zero_add, Nat.reduceAdd] at hl hr
    simp [AMFType.decode, hm, CharPtr.offset_offset, hl, hr]

/-- The result of the property loop at a state it reaches is its result. -/
theorem AMFType.decodeProps_of_reaches (qt : QtUtf8) (data : CharPtr) {objSize : Nat}
    {obj : AMFProps} {objSize' : Nat} {obj' : AMFProps}
    (h : AMFType.LoopReaches qt data objSize obj objSize' obj') (r : Option AMFProps × Nat)
    (hr : ∃ fuel, AMFType.decodeProps qt fuel data objSize' obj' = some r) :
    ∃ fuel, AMFType.decodeProps qt fuel data objSize obj = some r := by
  induction h with
  | here objSize obj => exact hr
  | turn objSize obj fuel value n objSize' obj' h9 hv _ ih =>
    obtain ⟨f, hf⟩ := ih hr
    refine ⟨fuel + f + 1, ?_⟩
    rw [AMFType.decodeProps_value qt (fuel + f) data objSize obj value n h9
      (AMFType.decode_fuel_add qt fuel _ _ hv f)]
    have hf2 := AMFType.decodeProps_fuel_add qt f data _ _ r hf fuel
    rw [Nat.add_comm f fuel] at hf2
    exact hf2

/-- An Object or EcmaArray fails as a whole when the value of a property
the loop reaches fails to decode. -/
theorem AMFType.decode_of_reaches_fail (qt : QtUtf8) (data : CharPtr) (start p : Nat)
    (obj : AMFProps) (valueFuel n : Nat)
    (hmark : (amfDecodeUInt8 data = 0x03 ∧ start = 1) ∨ (amfDecodeUInt8 data = 0x08 ∧ start = 5))
    (hreach : AMFType.LoopReaches qt data start .nil p obj)
    (h9 : amfDecodeUInt8
      (data.offset ((p + (2 + amfDecodeUInt16 (data.offset p))) % 2 ^ 32)) ≠ 0x09)
    (hv : AMFType.decode qt valueFuel
      (data.offset ((p + (2 + amfDecodeUInt16 (data.offset p))) % 2 ^ 32)) = some (none, n)) :
    ∃ enough, ∀ k, AMFType.decode qt (enough + k) data = some (none, 0) := by
  obtain ⟨f, hf⟩ := AMFType.decodeProps_of_reaches qt data hreach (none, 0)
    ⟨valueFuel + 1, AMFType.decodeProps_fail qt valueFuel data p obj n h9 hv⟩
  refine ⟨f + 1, fun k => AMFType.decode_fuel_add qt (f + 1) data _ ?_ k⟩
  rcases hmark with ⟨hm, rfl⟩ | ⟨hm, rfl⟩
  · exact AMFType.decode_object_fail qt f data 0 hm hf
  · exact AMFType.decode_ecmaArray_fail qt f data 0 hm hf

/-! ## Lemmas: splitting and joining paths -/

theorem QString.split_ne_nil (sep : Nat) : ∀ (s : QString), QString.split sep s ≠ []
  | [] => by simp [QString.split]
  | c :: cs => by
    unfold QString.split
    split_ifs
    · simp
    · split <;> simp

/-- The path and query `QUrl` reports put back together are the text they came from. -/
theorem RTMPTargetInfo.pathWithQuery_ofParts (scheme host : QString) (port : Option Nat) :
    ∀ (rest : QString),
      RTMPTargetInfo.pathWithQuery (QUrl.ofParts scheme host port rest) = rest := by
  intro rest
  have key : ∀ (r : QString),
      (if r.contains [63] then r.takeWhile (fun c => c != 63) ++ qstr "?"
          ++ (r.dropWhile (fun c => c != 63)).drop 1
        else r.takeWhile (fun c => c != 63)) = r := by
    intro r
    induction r with
    | nil => simp [QString.contains, QString.isEmpty]
    | cons c cs ih =>
      by_cases hc : c = 63
      · subst hc
        simp [QString.contains, qstr]
      · have hpre : List.isPrefixOf [63] (c :: cs) = false := by
          simp [List.isPrefixOf, Ne.symm hc]
        simp only [QString.contains, hpre, Bool.false_or]
        by_cases hq : QString.contains cs [63] = true
        · rw [if_pos hq] at ih ⊢
          simp only [List.takeWhile_cons, List.dropWhile_cons, bne_iff_ne, ne_eq, hc,
            not_false_eq_true, if_true, decide_True, List.cons_append]
          rw [ih]
        · rw [if_neg hq] at ih ⊢
          simp only [List.takeWhile_cons, bne_iff_ne, ne_eq, hc, not_false_eq_true,
            decide_True, if_true]
          rw [ih]
  simpa [RTMPTargetInfo.pathWithQuery, QUrl.ofParts] using key rest

theorem RTMPTargetInfo.urlStr_nil (qt : QtUrl) : RTMPTargetInfo.urlStr qt [] = qstr "rtmp://" := by
  simp [RTMPTargetInfo.urlStr, QString.trimmed, QString.contains, QString.isEmpty, qstr]

theorem List.headD_dropLast_of_length {α : Type} (d : α) : ∀ (l : List α), l.length > 1 →
    l.dropLast.headD d = l.headD d
  | [], h => by simp at h
  | [_], h => by simp at h
  | _ :: _ :: _, _ => by simp [List.dropLast]

theorem RTMPTargetInfo.fromQUrl_isValid_eq (url : QUrl) (inc : Bool) (streamName : QString) :
    (RTMPTargetInfo.fromQUrl url inc streamName).isValid
      = (url.isValid && RTMPProtocolTypeStrings.any (fun name => url.scheme == name)
          && url.userInfo.isEmpty && !url.host.isEmpty && !url.hasFragment
          && !(RTMPTargetInfo.pathWithQuery url).isEmpty
          && !((QString.split 47 (RTMPTargetInfo.pathWithQuery url)).headD []).isEmpty) := by
  have hhead : (if (inc && decide ((QString.split 47 (RTMPTargetInfo.pathWithQuery url)).length
        > 1)) = true then (QString.split 47 (RTMPTargetInfo.pathWithQuery url)).dropLast
      else QString.split 47 (RTMPTargetInfo.pathWithQuery url)).headD []
      = (QString.split 47 (RTMPTargetInfo.pathWithQuery url)).headD [] := by
    split_ifs with h
    · simp only [Bool.and_eq_true, decide_eq_true_eq] at h
      exact List.headD_dropLast_of_length _ _ h.2
    · rfl
  unfold RTMPTargetInfo.fromQUrl
  simp only [hhead]
  cases h1 : url.isValid
  · simp [RTMPTargetInfo.isValid]
  cases h2 : RTMPProtocolTypeStrings.any (fun name => url.scheme == name)
  · simp [RTMPTargetInfo.isValid]
  cases h3 : url.userInfo.isEmpty
  · simp [RTMPTargetInfo.isValid]
  cases h4 : url.host.isEmpty
  swap
  · simp [RTMPTargetInfo.isValid]
  cases h5 : url.hasFragment
  swap
  · simp [RTMPTargetInfo.isValid]
  cases h6 : (RTMPTargetInfo.pathWithQuery url).isEmpty
  swap
  · simp [RTMPTargetInfo.isValid]
  cases h7 : ((QString.split 47 (RTMPTargetInfo.pathWithQuery url)).headD []).isEmpty
  swap
  · simp [RTMPTargetInfo.isValid]
  have h2' : url.scheme = qstr "rtmp" ∨ url.scheme = qstr "rtmps" := by
    simpa [RTMPProtocolTypeStrings] using h2
  have hp : (if (url.scheme == RTMPProtocolTypeStrings.getD 0 []) = true then
        RTMPProtocolType.RTMPProtocol
      else if (url.scheme == RTMPProtocolTypeStrings.getD 1 []) = true then
        RTMPProtocolType.RTMPSProtocol
      else RTMPProtocolType.RTMPInvalidProtocol)
      ≠ RTMPProtocolType.RTMPInvalidProtocol := by
    rcases h2' with e | e <;> rw [e] <;> decide
  simp only [Bool.not_true, Bool.not_false, Bool.false_eq_true, if_false, Bool.and_self,
    RTMPTargetInfo.isValid, bne_iff_ne, ne_eq]
  simpa using hp

/-- The targets `fromUrl` returns as valid, by what `QUrl` reports. -/
theorem RTMPTargetInfo.fromQUrl_isValid_iff (url : QUrl) (inc : Bool) (streamName : QString) :
    (RTMPTargetInfo.fromQUrl url inc streamName).isValid = true ↔
      url.isValid = true
      ∧ (url.scheme = qstr "rtmp" ∨ url.scheme = qstr "rtmps")
      ∧ url.userInfo = []
      ∧ url.host ≠ []
      ∧ url.hasFragment = false
      ∧ RTMPTargetInfo.pathWithQuery url ≠ []
      ∧ (QString.split 47 (RTMPTargetInfo.pathWithQuery url)).headD [] ≠ [] := by
  have hE : ∀ s : QString, s.isEmpty = true ↔ s = [] := by
    intro s; cases s <;> simp [QString.isEmpty]
  have hN : ∀ s : QString, s.isEmpty = false ↔ s ≠ [] := by
    intro s; cases s <;> simp [QString.isEmpty]
  rw [RTMPTargetInfo.fromQUrl_isValid_eq]
  simp only [Bool.and_eq_true, Bool.not_eq_true', hE, hN, and_assoc]
  simp [RTMPProtocolTypeStrings]

theorem RTMPTargetInfo.fromQUrl_fields (url : QUrl) (inc : Bool) (streamName : QString)
    (h : (RTMPTargetInfo.fromQUrl url inc streamName).isValid = true) :
    (RTMPTargetInfo.fromQUrl url inc streamName).host = url.host
    ∧ (RTMPTargetInfo.fromQUrl url inc streamName).appName
        = (QString.split 47 (RTMPTargetInfo.pathWithQuery url)).headD [] := by
  have hhead : (if (inc && decide ((QString.split 47 (RTMPTargetInfo.pathWithQuery url)).length
        > 1)) = true then (QString.split 47 (RTMPTargetInfo.pathWithQuery url)).dropLast
      else QString.split 47 (RTMPTargetInfo.pathWithQuery url)).headD []
      = (QString.split 47 (RTMPTargetInfo.pathWithQuery url)).headD [] := by
    split_ifs with h
    · simp only [Bool.and_eq_true, decide_eq_true_eq] at h
      exact List.headD_dropLast_of_length _ _ h.2
    · rfl
  rw [RTMPTargetInfo.fromQUrl_isValid_eq] at h
  simp only [Bool.and_eq_true, Bool.not_eq_true'] at h
  obtain ⟨⟨⟨⟨⟨⟨h1, h2⟩, h3⟩, h4⟩, h5⟩, h6⟩, h7⟩ := h
  unfold RTMPTargetInfo.fromQUrl
  simp only [hhead, h1, h2, h3, h4, h5, h6, Bool.not_true, Bool.not_false,
    Bool.false_eq_true, if_false, and_self]

/-! ## Lemmas: the chunks of a message -/

theorem messageHeader_msgLenRemaining (fmt : Nat) (state : ChunkStreamState) (streamId : Nat)
    (type : Int) (timestamp msgSize : Nat) :
    (messageHeader fmt state streamId type timestamp msgSize).1.msgLenRemaining
      = state.msgLenRemaining := by
  unfold messageHeader
  split_ifs <;> rfl

/-- The bytes `writeChunks` returns start with the first chunk: basic header,
message header, and as much of the message as the chunk may carry. -/
theorem writeChunks_first (fuel outMaxChunkSize fmt : Nat) (state : ChunkStreamState)
    (streamId : Nat) (type : Int) (timestamp : Nat) (msg : QByteArray) (csId : Nat)
    (data : QByteArray) (last : ChunkStreamState)
    (h : writeChunks fuel outMaxChunkSize fmt state streamId type timestamp msg csId
      = some (data, last)) :
    ∃ more, data = basicHeader fmt csId
      ++ (messageHeader fmt state streamId type timestamp msg.length).2
      ++ (msg.drop (msg.length - state.msgLenRemaining)).take
          (min state.msgLenRemaining outMaxChunkSize)
      ++ more := by
  cases fuel with
  | zero => simp [writeChunks] at h
  | succ f =>
    rw [writeChunks] at h
    simp only [messageHeader_msgLenRemaining] at h
    split_ifs at h with hrem
    · cases hrec : writeChunks f outMaxChunkSize 3
          { (messageHeader fmt state streamId type timestamp msg.length).1 with
            msgLenRemaining := state.msgLenRemaining - min state.msgLenRemaining outMaxChunkSize }
          streamId type timestamp msg csId with
      | none => rw [hrec] at h; simp at h
      | some r =>
        rw [hrec] at h
        simp only [Option.some.injEq, Prod.mk.injEq] at h
        exact ⟨r.1, h.1.symm⟩
    · simp only [Option.some.injEq, Prod.mk.injEq] at h
      exact ⟨[], by rw [← h.1]; simp⟩

/-- With a chunk size above zero the loop of `writeMessage` ends, within as
many turns as the message has bytes left, and one more. -/
theorem writeChunks_isSome (outMaxChunkSize : Nat) (hmax : 0 < outMaxChunkSize)
    (streamId : Nat) (type : Int) (timestamp : Nat) (msg : QByteArray) (csId : Nat) :
    ∀ (fuel fmt : Nat) (state : ChunkStreamState), state.msgLenRemaining < fuel →
      (writeChunks fuel outMaxChunkSize fmt state streamId type timestamp msg csId).isSome
        = true
  | 0, _, _, h => by omega
  | f + 1, fmt, state, h => by
    rw [writeChunks]
    simp only [messageHeader_msgLenRemaining]
    split_ifs with hrem
    · have ih := writeChunks_isSome outMaxChunkSize hmax streamId type timestamp msg csId f 3
        { (messageHeader fmt state streamId type timestamp msg.length).1 with
          msgLenRemaining := state.msgLenRemaining - min state.msgLenRemaining outMaxChunkSize }
        (by simp only; omega)
      cases hrec : writeChunks f outMaxChunkSize 3
          { (messageHeader fmt state streamId type timestamp msg.length).1 with
            msgLenRemaining := state.msgLenRemaining - min state.msgLenRemaining outMaxChunkSize }
          streamId type timestamp msg csId with
      | none => rw [hrec] at ih; simp at ih
      | some r => simp
    · simp

theorem QHash.value?_set_self {α : Type} : ∀ (h : QHash α) (key : Nat) (value : α),
    QHash.value? (QHash.set h key value) key = some value
  | [], key, value => by simp [QHash.set, QHash.value?]
  | (k, v) :: rest, key, value => by
    by_cases hk : k = key
    · simp [QHash.set, QHash.value?, hk]
    · simp [QHash.set, QHash.value?, hk, QHash.value?_set_self rest key value]

theorem QHash.value?_of_not_contains {α : Type} : ∀ (h : QHash α) (key : Nat),
    QHash.contains h key = false → QHash.value? h key = none
  | [], _, _ => rfl
  | (k, v) :: rest, key, hc => by
    simp only [QHash.contains, List.any_cons, Bool.or_eq_false_iff, beq_eq_false_iff_ne,
      ne_eq] at hc
    simp only [QHash.value?, hc.1, if_false]
    exact QHash.value?_of_not_contains rest key hc.2

theorem chooseFmt_init (streamId : Nat) (type : Int) (timestamp : Nat) (msg : QByteArray)
    (hts : timestamp < 2 ^ 32) :
    chooseFmt ChunkStreamState.init streamId type timestamp msg.length
      = firstMessageFmt streamId type timestamp msg := by
  have hmod : (timestamp + 2 ^ 32 - 0) % 2 ^ 32 = timestamp := by omega
  have hlen : (0 = msg.length) ↔ msg = [] := by
    cases msg <;> simp
  unfold chooseFmt firstMessageFmt
  simp only [ChunkStreamState.init, hmod, NullMsgType, Nat.not_lt_zero, false_or]
  by_cases h0 : timestamp = 0 ∨ streamId ≠ 0
  · have h0' : timestamp = 0 ∨ ¬ 0 = streamId := by
      rcases h0 with h | h
      · exact Or.inl h
      · exact Or.inr (fun e => h e.symm)
    rw [if_pos h0, if_pos h0']
  · have h0' : ¬ (timestamp = 0 ∨ ¬ 0 = streamId) := by
      intro h
      rcases h with h | h
      · exact h0 (Or.inl h)
      · exact h0 (Or.inr (fun e => h e.symm))
    rw [if_neg h0, if_neg h0']
    have hz : ¬ 0 = timestamp := fun e => h0 (Or.inl e.symm)
    by_cases h1 : msg ≠ [] ∨ type ≠ 0
    · have h1' : ¬ 0 = msg.length ∨ ¬ 0 = type := by
        rcases h1 with h | h
        · exact Or.inl (fun e => h (hlen.1 e))
        · exact Or.inr (fun e => h e.symm)
      rw [if_pos h1, if_pos h1']
    · have h1' : ¬ (¬ 0 = msg.length ∨ ¬ 0 = type) := by
        intro h
        rcases h with h | h
        · exact h1 (Or.inl (fun e => h (hlen.2 e)))
        · exact h1 (Or.inr (fun e => h e.symm))
      rw [if_neg h1, if_neg h1', if_pos hz]

theorem QHash.contains_of_value? {α : Type} : ∀ (h : QHash α) (key : Nat) (value : α),
    QHash.value? h key = some value → QHash.contains h key = true
  | [], _, _, hv => by simp [QHash.value?] at hv
  | (k, v) :: rest, key, value, hv => by
    by_cases hk : k = key
    · simp [QHash.contains, hk]
    · simp only [QHash.value?, hk, if_false] at hv
      have := QHash.contains_of_value? rest key value hv
      simp only [QHash.contains] at this
      simp [QHash.contains, this]

theorem chooseFmt_repeat (state : ChunkStreamState) (streamId : Nat) (type : Int)
    (timestamp msgSize : Nat) (hsid : state.msgStreamId = streamId)
    (htype : state.msgType = type) (hlen : state.msgLen = msgSize)
    (hdelta : state.timestampDelta = (timestamp + 2 ^ 32 - state.timestamp) % 2 ^ 32)
    (hnz : timestamp ≠ 0) (hmono : state.timestamp ≤ timestamp) :
    chooseFmt state streamId type timestamp msgSize = 3 := by
  unfold chooseFmt
  have h0 : ¬ (timestamp = 0 ∨ timestamp < state.timestamp ∨ state.msgStreamId ≠ streamId) := by
    intro h
    rcases h with h | h | h
    · exact hnz h
    · omega
    · exact h hsid
  have h1 : ¬ (state.msgLen ≠ msgSize ∨ state.msgType ≠ type) := by
    intro h
    rcases h with h | h
    · exact h hlen
    · exact h htype
  simp only [h0, h1, if_false, ne_eq, hdelta, not_true_eq_false]

/-! ## Lemmas: the split of a message into chunks -/

theorem continuationChunks_length (maxChunkSize csId : Nat) : ∀ (count : Nat) (left : QByteArray),
    (continuationChunks maxChunkSize csId count left).length = count
  | 0, _ => rfl
  | n + 1, left => by
    simp [continuationChunks, continuationChunks_length maxChunkSize csId n]

theorem continuationChunks_shape (maxChunkSize csId : Nat) : ∀ (count : Nat) (left : QByteArray),
    ∀ ch ∈ continuationChunks maxChunkSize csId count left,
      ch.basic = basicHeader 3 csId ∧ ch.header = [] ∧ ch.payload.length ≤ maxChunkSize
  | 0, _, ch, h => by simp [continuationChunks] at h
  | n + 1, left, ch, h => by
    simp only [continuationChunks, List.mem_cons] at h
    rcases h with h | h
    · subst h
      exact ⟨rfl, rfl, by simp⟩
    · exact continuationChunks_shape maxChunkSize csId n _ ch h

theorem continuationChunks_payload (maxChunkSize csId : Nat) (hmax : 0 < maxChunkSize) :
    ∀ (count : Nat) (left : QByteArray), left.length ≤ count * maxChunkSize →
      (continuationChunks maxChunkSize csId count left).flatMap (fun ch => ch.payload) = left
  | 0, left, h => by
    have : left = [] := by
      cases left with
      | nil => rfl
      | cons a l => simp at h
    simp [continuationChunks, this]
  | n + 1, left, h => by
    have ih := continuationChunks_payload maxChunkSize csId hmax n (left.drop maxChunkSize)
      (by rw [List.length_drop, Nat.succ_mul] at *; omega)
    simp only [continuationChunks, List.flatMap_cons, ih, List.take_append_drop]

theorem chunkCount_pred (maxChunkSize size : Nat) (hmax : 0 < maxChunkSize) :
    chunkCount maxChunkSize size - 1
      = (size - min size maxChunkSize + maxChunkSize - 1) / maxChunkSize := by
  unfold chunkCount
  by_cases h : size ≤ maxChunkSize
  · rw [Nat.min_eq_left h, Nat.sub_self, Nat.zero_add,
      Nat.div_eq_of_lt (by omega : maxChunkSize - 1 < maxChunkSize)]
    have : (size + maxChunkSize - 1) / maxChunkSize ≤ 1 := by
      apply Nat.le_of_lt_succ
      apply (Nat.div_lt_iff_lt_mul hmax).2
      omega
    generalize (size + maxChunkSize - 1) / maxChunkSize = q at this ⊢
    omega
  · have hs : maxChunkSize < size := Nat.lt_of_not_le h
    rw [Nat.min_eq_right (Nat.le_of_lt hs)]
    have : size + maxChunkSize - 1 = (size - maxChunkSize + maxChunkSize - 1) + maxChunkSize := by
      omega
    rw [this, Nat.add_div_right _ hmax]
    generalize (size - maxChunkSize + maxChunkSize - 1) / maxChunkSize = q
    omega

theorem chunkCount_mul (maxChunkSize size : Nat) (hmax : 0 < maxChunkSize) :
    size ≤ chunkCount maxChunkSize size * maxChunkSize := by
  unfold chunkCount
  have h1 : size + maxChunkSize - 1 < ((size + maxChunkSize - 1) / maxChunkSize + 1) * maxChunkSize := by
    have := Nat.lt_div_mul_add (a := size + maxChunkSize - 1) hmax
    rw [Nat.add_mul, Nat.one_mul]
    rw [Nat.mul_comm] at this
    rw [Nat.mul_comm]
    exact this
  have h2 : (size + maxChunkSize - 1) / maxChunkSize * maxChunkSize
      ≤ max 1 ((size + maxChunkSize - 1) / maxChunkSize) * maxChunkSize :=
    Nat.mul_le_mul_right _ (Nat.le_max_right _ _)
  rw [Nat.add_mul, Nat.one_mul] at h1
  generalize (size + maxChunkSize - 1) / maxChunkSize * maxChunkSize = a at h1 h2
  generalize max 1 ((size + maxChunkSize - 1) / maxChunkSize) * maxChunkSize = b at h2 ⊢
  omega

theorem messageHeader_three (state : ChunkStreamState) (streamId : Nat) (type : Int)
    (timestamp msgSize : Nat) :
    messageHeader 3 state streamId type timestamp msgSize = (state, []) := by
  simp [messageHeader]

/-- The loop of `writeMessage` written out: the first chunk with the header
of its format, then fmt 3 chunks until the message is through. -/
theorem writeChunks_eq (outMaxChunkSize : Nat) (hmax : 0 < outMaxChunkSize)
    (streamId : Nat) (type : Int) (timestamp : Nat) (msg : QByteArray) (csId : Nat) :
    ∀ (fuel fmt : Nat) (state : ChunkStreamState), state.msgLenRemaining ≤ msg.length →
      state.msgLenRemaining < fuel →
      writeChunks fuel outMaxChunkSize fmt state streamId type timestamp msg csId
        = some (basicHeader fmt csId
            ++ (messageHeader fmt state streamId type timestamp msg.length).2
            ++ (msg.drop (msg.length - state.msgLenRemaining)).take outMaxChunkSize
            ++ (continuationChunks outMaxChunkSize csId
                ((state.msgLenRemaining - min state.msgLenRemaining outMaxChunkSize
                  + outMaxChunkSize - 1) / outMaxChunkSize)
                ((msg.drop (msg.length - state.msgLenRemaining)).drop outMaxChunkSize)).flatMap
              Chunk.bytes,
          { (messageHeader fmt state streamId type timestamp msg.length).1 with
            msgLenRemaining := 0 })
  | 0, _, _, _, h => by omega
  | f + 1, fmt, state, hle, hfuel => by
    rw [writeChunks]
    simp only [messageHeader_msgLenRemaining]
    have htake : (msg.drop (msg.length - state.msgLenRemaining)).take
        (min state.msgLenRemaining outMaxChunkSize)
        = (msg.drop (msg.length - state.msgLenRemaining)).take outMaxChunkSize := by
      by_cases h : state.msgLenRemaining ≤ outMaxChunkSize
      · rw [Nat.min_eq_left h, List.take_of_length_le (by rw [List.length_drop]; omega),
          List.take_of_length_le (by rw [List.length_drop]; omega)]
      · rw [Nat.min_eq_right (by omega)]
    rw [htake]
    by_cases hrem : state.msgLenRemaining - min state.msgLenRemaining outMaxChunkSize > 0
    · rw [if_pos hrem]
      have hbig : outMaxChunkSize < state.msgLenRemaining := by
        by_contra hc
        rw [Nat.min_eq_left (by omega)] at hrem
        omega
      have hmin : min state.msgLenRemaining outMaxChunkSize = outMaxChunkSize :=
        Nat.min_eq_right (by omega)
      rw [hmin] at hrem ⊢
      have ih := writeChunks_eq outMaxChunkSize hmax streamId type timestamp msg csId f 3
        { (messageHeader fmt state streamId type timestamp msg.length).1 with
          msgLenRemaining := state.msgLenRemaining - outMaxChunkSize }
        (by simp only; omega) (by simp only; omega)
      rw [ih]
      simp only [messageHeader_three]
      have hdrop : msg.length - (state.msgLenRemaining - outMaxChunkSize)
          = msg.length - state.msgLenRemaining + outMaxChunkSize := by omega
      have hcount : (state.msgLenRemaining - outMaxChunkSize + outMaxChunkSize - 1)
            / outMaxChunkSize
          = (state.msgLenRemaining - outMaxChunkSize
              - min (state.msgLenRemaining - outMaxChunkSize) outMaxChunkSize
              + outMaxChunkSize - 1) / outMaxChunkSize + 1 := by
        have := chunkCount_pred outMaxChunkSize (state.msgLenRemaining - outMaxChunkSize) hmax
        rw [← this]
        unfold chunkCount
        have hpos : 1 ≤ (state.msgLenRemaining - outMaxChunkSize + outMaxChunkSize - 1)
            / outMaxChunkSize := by
          apply (Nat.le_div_iff_mul_le hmax).2
          omega
        generalize (state.msgLenRemaining - outMaxChunkSize + outMaxChunkSize - 1)
          / outMaxChunkSize = q at hpos ⊢
        omega
      rw [hcount, hdrop]
      simp only [continuationChunks, List.flatMap_cons, Chunk.bytes, List.drop_drop,
        List.append_nil, List.append_assoc]
    · rw [if_neg hrem]
      have hzero : state.msgLenRemaining - min state.msgLenRemaining outMaxChunkSize = 0 := by
        omega
      rw [hzero, Nat.zero_add, Nat.div_eq_of_lt (by omega : outMaxChunkSize - 1 < outMaxChunkSize)]
      simp [continuationChunks]

/-- For a chunk stream id that passes the check, `writeMessage` hands the
bytes of the chunks to `write` and returns what `write` returns. -/
theorem RTMPClient.writeMessage_of_chunkMessage (socketWrite : SocketWrite) (c : RTMPClient)
    (streamId : Nat) (type : Int) (timestamp : Nat) (msg : QByteArray) (csId fuel : Nat)
    (hcs : 2 ≤ csId ∧ csId ≤ 65599) (data : QByteArray) (last : ChunkStreamState)
    (h : (c.initOutChunkStreamState csId).2.chunkMessage streamId type timestamp msg csId fuel
      = some (data, last)) :
    c.writeMessage socketWrite streamId type timestamp msg csId fuel
      = some (if ((c.initOutChunkStreamState csId).2.write socketWrite data).1 then
          (true, { ((c.initOutChunkStreamState csId).2.write socketWrite data).2 with
            outChunkStreams :=
              ((c.initOutChunkStreamState csId).2.write socketWrite data).2.outChunkStreams.set
                csId last })
        else (false, ((c.initOutChunkStreamState csId).2.write socketWrite data).2)) := by
  have hvalid : ¬ (csId > 65599 ∨ csId ≤ 1) := by omega
  unfold RTMPClient.writeMessage
  simp only [hvalid, if_false, h]
  cases ((c.initOutChunkStreamState csId).2.write socketWrite data).1 <;> simp

theorem RTMPClient.chunkMessage_eq (c : RTMPClient) (streamId : Nat) (type : Int)
    (timestamp : Nat) (msg : QByteArray) (csId fuel : Nat) (hmax : 0 < c.outMaxChunkSize)
    (hfuel : msg.length < fuel) :
    c.chunkMessage streamId type timestamp msg csId fuel
      = some ((c.messageChunks streamId type timestamp msg csId).flatMap Chunk.bytes,
          { (messageHeader
              (chooseFmt ((c.outChunkStreams.value? csId).getD ChunkStreamState.init) streamId
                type timestamp msg.length)
              { (c.outChunkStreams.value? csId).getD ChunkStreamState.init with
                msgLenRemaining := msg.length }
              streamId type timestamp msg.length).1 with msgLenRemaining := 0 }) := by
  unfold RTMPClient.chunkMessage RTMPClient.messageChunks Libbroadcast.messageChunks
  simp only
  rw [writeChunks_eq c.outMaxChunkSize hmax streamId type timestamp msg csId fuel _ _
    (by simp) (by simpa using hfuel)]
  simp only [Nat.sub_self, List.drop_zero, chunkCount_pred _ _ hmax, List.flatMap_cons,
    Chunk.bytes, List.append_assoc]

theorem messageChunks_length (fmt : Nat) (header : QByteArray) (maxChunkSize csId : Nat)
    (msg : QByteArray) :
    (messageChunks fmt header maxChunkSize csId msg).length
      = max 1 ((msg.length + maxChunkSize - 1) / maxChunkSize) := by
  simp only [messageChunks, List.length_cons, continuationChunks_length, chunkCount]
  generalize (msg.length + maxChunkSize - 1) / maxChunkSize = q
  omega

theorem messageChunks_payload (fmt : Nat) (header : QByteArray) (maxChunkSize csId : Nat)
    (hmax : 0 < maxChunkSize) (msg : QByteArray) :
    (messageChunks fmt header maxChunkSize csId msg).flatMap (fun ch => ch.payload) = msg := by
  have hcount := chunkCount_mul maxChunkSize msg.length hmax
  have hone : 1 ≤ chunkCount maxChunkSize msg.length := by
    unfold chunkCount
    exact Nat.le_max_left _ _
  simp only [messageChunks, List.flatMap_cons]
  rw [continuationChunks_payload maxChunkSize csId hmax _ _ (by
    rw [List.length_drop, Nat.sub_mul, Nat.one_mul]
    omega)]
  exact List.take_append_drop _ _

theorem RTMPClient.initOutChunkStreamState_outMaxChunkSize (c : RTMPClient) (csId : Nat) :
    (c.initOutChunkStreamState csId).2.outMaxChunkSize = c.outMaxChunkSize := by
  unfold RTMPClient.initOutChunkStreamState
  split_ifs <;> rfl

theorem messageChunks_tail (fmt : Nat) (header : QByteArray) (maxChunkSize csId : Nat)
    (msg : QByteArray) :
    ∀ ch ∈ (messageChunks fmt header maxChunkSize csId msg).tail,
      ch.basic = basicHeader 3 csId ∧ ch.header = [] := by
  intro ch h
  simp only [messageChunks, List.tail_cons] at h
  have := continuationChunks_shape maxChunkSize csId _ _ ch h
  exact ⟨this.1, this.2.1⟩

theorem messageChunks_payload_le (fmt : Nat) (header : QByteArray) (maxChunkSize csId : Nat)
    (msg : QByteArray) :
    ∀ ch ∈ messageChunks fmt header maxChunkSize csId msg, ch.payload.length ≤ maxChunkSize := by
  intro ch h
  simp only [messageChunks, List.mem_cons] at h
  rcases h with h | h
  · subst h
    simp
  · exact (continuationChunks_shape maxChunkSize csId _ _ ch h).2.2

/-! ## Lemmas: the fmt 0 message header read back -/

theorem amfDecodeUInt24_of_holds {data : CharPtr} {off n : Nat}
    (h : data.Holds off (amfEncodeUInt24 n)) (hn : n < 2 ^ 24) :
    amfDecodeUInt24 (data.offset off) = n := by
  have h0 := h 0 (by simp [amfEncodeUInt24])
  have h1 := h 1 (by simp [amfEncodeUInt24])
  have h2 := h 2 (by simp [amfEncodeUInt24])
  simp only [amfEncodeUInt24, List.getD_cons_zero, List.getD_cons_succ, Nat.add_zero]
    at h0 h1 h2
  simp only [amfDecodeUInt24, CharPtr.offset, Nat.add_zero, h0, h1, h2]
  omega

theorem decodeLEUInt32_of_holds {data : CharPtr} {off n : Nat}
    (h : data.Holds off (writeLEUInt32 n)) (hn : n < 2 ^ 32) :
    decodeLEUInt32 (data.offset off) = n := by
  have h0 := h 0 (by simp [writeLEUInt32])
  have h1 := h 1 (by simp [writeLEUInt32])
  have h2 := h 2 (by simp [writeLEUInt32])
  have h3 := h 3 (by simp [writeLEUInt32])
  simp only [writeLEUInt32, List.getD_cons_zero, List.getD_cons_succ, Nat.add_zero]
    at h0 h1 h2 h3
  simp only [decodeLEUInt32, CharPtr.offset, Nat.add_zero, h0, h1, h2, h3]
  omega

/-- The peeked header holds what stands in the buffer, as far as the peek goes. -/
theorem headerData_holds (basic header payload : QByteArray) (size : Nat)
    (h : basic.length + header.length ≤ size) :
    (headerData ((basic ++ header ++ payload).take size)).Holds basic.length header := by
  intro i hi
  simp only [headerData]
  have h1 : basic.length + i < ((basic ++ header ++ payload).take size).length := by
    simp only [List.length_take, List.length_append]
    omega
  rw [List.getD_eq_getElem _ _ h1, List.getD_eq_getElem _ _ hi, List.getElem_take,
    List.getElem_append_left (by simp only [List.length_append]; omega),
    List.getElem_append_right (by omega)]
  simp

theorem charToEnum_of_lt (signedChar : Bool) (type : Int)
    (htype : 0 ≤ type ∧ type < (if signedChar then 128 else 256)) :
    charToEnum signedChar (type % 256).toNat = type := by
  have h256 : type < 256 := by
    cases signedChar
    · simpa using htype.2
    · have : type < 128 := by simpa using htype.2
      omega
  have hmod : type % 256 = type := Int.emod_eq_of_lt htype.1 h256
  have hnat : ((type % 256).toNat : Int) = type := by
    rw [hmod]
    exact Int.toNat_of_nonneg htype.1
  have hlt : (type % 256).toNat < 256 := by omega
  generalize (type % 256).toNat = b at hnat hlt
  unfold charToEnum
  cases signedChar
  · simp only [Bool.false_and, Bool.false_eq_true, if_false]
    omega
  · have h128 : type < 128 := by simpa using htype.2
    have : ¬ 128 ≤ b % 256 := by omega
    simp only [Bool.true_and, decide_eq_true_eq, this, if_false]
    omega

/-- What `decodeMessageHeader` makes of a fmt 0 header whose fields are the
encodings of `short`, `msgSize`, `type` and `streamId`, with `extended` as
the timestamp where `short` is 0xFFFFFF. -/
theorem decodeMessageHeader_zero (signedChar : Bool) (inMaxChunkSize : Nat)
    (header : QByteArray) (basicSize : Nat) (state : ChunkStreamState)
    (short msgSize : Nat) (type : Int) (streamId extended : Nat)
    (hshort : short ≤ 0xFFFFFF) (hsize : msgSize < 2 ^ 24) (hsid : streamId < 2 ^ 32)
    (hext : extended < 2 ^ 32)
    (htype : 0 ≤ type ∧ type < (if signedChar then 128 else 256))
    (hlen : basicSize + (if short = 0xFFFFFF then 15 else 11) ≤ header.length)
    (h0 : (headerData header).Holds basicSize (amfEncodeUInt24 short))
    (h3 : (headerData header).Holds (basicSize + 3) (amfEncodeUInt24 msgSize))
    (h6 : headerData header (basicSize + 6) = (type % 256).toNat)
    (h7 : (headerData header).Holds (basicSize + 7) (writeLEUInt32 streamId))
    (h11 : short = 0xFFFFFF →
      (headerData header).Holds (basicSize + 11) (amfEncodeUInt32 extended)) :
    decodeMessageHeader signedChar inMaxChunkSize header 0 basicSize state
      = some ({ state with
          timestamp := if short = 0xFFFFFF then extended else short,
          timestampDelta := if short = 0xFFFFFF then extended else short,
          msgLen := msgSize, msgLenRemaining := msgSize, msgType := type,
          msgStreamId := streamId },
        basicSize + (if short = 0xFFFFFF then 15 else 11), min msgSize inMaxChunkSize) := by
  have d0 := amfDecodeUInt24_of_holds h0 (by omega)
  have d3 := amfDecodeUInt24_of_holds h3 hsize
  have d7 := decodeLEUInt32_of_holds h7 hsid
  have d6 := charToEnum_of_lt signedChar type htype
  unfold decodeMessageHeader
  simp only [Nat.zero_ne_one, if_false, OfNat.zero_ne_ofNat, d0, d3, d7, h6, d6]
  by_cases hs : short = 0xFFFFFF
  · have d11 := amfDecodeUInt32_of_holds (h11 hs) hext
    rw [if_pos hs] at hlen
    have hl1 : ¬ header.length < basicSize + 11 := by omega
    have hl2 : ¬ (short ≥ 0xFFFFFF ∧ header.length < basicSize + 11 + 4) := by omega
    have hge : short ≥ 0xFFFFFF := by omega
    have hl3 : ¬ header.length < basicSize + 11 + 4 := by omega
    simp only [hl1, hl2, if_false, hge, if_true, d11, if_pos hs]
    simp [hl3]
  · rw [if_neg hs] at hlen
    have hl1 : ¬ header.length < basicSize + 11 := by omega
    have hge : ¬ short ≥ 0xFFFFFF := by omega
    have hl2 : ¬ (short ≥ 0xFFFFFF ∧ header.length < basicSize + 11 + 4) := by omega
    simp only [hl1, hl2, if_false, hge, if_neg hs]
    simp

/-- The decoder of the basic header finds the format and the size of the
basic header `writeMessage` wrote, whatever it makes of the chunk stream id. -/
theorem decodeBasicHeader_size (signedChar : Bool) (fmt csId : Nat) (rest : QByteArray)
    (hfmt : fmt < 4) (hcs : 2 ≤ csId ∧ csId ≤ 65599) :
    ∃ id, decodeBasicHeader signedChar ((basicHeader fmt csId ++ rest).take (3 + 11 + 4))
      = some (fmt, id, (basicHeader fmt csId).length) := by
  unfold basicHeader
  by_cases h1 : csId ≤ 63
  · refine ⟨csId, ?_⟩
    simp only [h1, if_true]
    unfold decodeBasicHeader
    have hm : (fmt * 64 + csId) % 256 = fmt * 64 + csId := by omega
    have e1 : (fmt * 64 + csId) % 256 / 64 = fmt := by omega
    have e2 : (fmt * 64 + csId) % 64 = csId := by omega
    have e3 : ¬ csId = 0 := by omega
    have e4 : ¬ csId = 1 := by omega
    simp [hm, e2, e3, e4]
    omega
  · by_cases h2 : csId ≤ 319
    · refine ⟨(charToUInt signedChar ((csId - 64) % 256) + 64) % 2 ^ 32, ?_⟩
      simp only [h1, h2, if_true, if_false]
      unfold decodeBasicHeader
      have hm : fmt * 64 % 256 = fmt * 64 := by omega
      have e1 : fmt * 64 % 256 / 64 = fmt := by omega
      have e2 : fmt * 64 % 64 = 0 := by omega
      simp [hm, e1, e2]
    · refine ⟨(charToUInt signedChar ((csId - 64) % 256) * 256
          + charToUInt signedChar ((csId - 64) / 256 % 256) + 64) % 2 ^ 32, ?_⟩
      simp only [h1, h2, if_false]
      unfold decodeBasicHeader
      have hm : (fmt * 64 + 1) % 256 = fmt * 64 + 1 := by omega
      have e1 : (fmt * 64 + 1) % 256 / 64 = fmt := by omega
      have e2 : (fmt * 64 + 1) % 64 = 1 := by omega
      simp [hm, e2]
      omega


/-! ## Lemmas: the acknowledgement written while reading -/

theorem RTMPClient.writeMessage_isSome (socketWrite : SocketWrite) (c : RTMPClient)
    (streamId : Nat) (type : Int) (timestamp : Nat) (msg : QByteArray) (csId fuel : Nat)
    (hmax : 0 < c.outMaxChunkSize) (hfuel : msg.length < fuel) :
    ∃ r, c.writeMessage socketWrite streamId type timestamp msg csId fuel = some r := by
  by_cases hcs : 2 ≤ csId ∧ csId ≤ 65599
  · have hmax' : 0 < (c.initOutChunkStreamState csId).2.outMaxChunkSize := by
      rw [RTMPClient.initOutChunkStreamState_outMaxChunkSize]
      exact hmax
    have hchunk := RTMPClient.chunkMessage_eq (c.initOutChunkStreamState csId).2 streamId type
      timestamp msg csId fuel hmax' hfuel
    exact ⟨_, RTMPClient.writeMessage_of_chunkMessage socketWrite c streamId type timestamp msg
      csId fuel hcs _ _ hchunk⟩
  · have hbad : csId > 65599 ∨ csId ≤ 1 := by omega
    exact ⟨_, by unfold RTMPClient.writeMessage; rw [if_pos hbad]⟩

theorem RTMPClient.initInChunkStreamState_frame (c : RTMPClient) (csId : Nat) :
    (c.initInChunkStreamState csId).2.inMaxChunkSize = c.inMaxChunkSize
    ∧ (c.initInChunkStreamState csId).2.outMaxChunkSize = c.outMaxChunkSize
    ∧ (c.initInChunkStreamState csId).2.inBytesSinceHandshake = c.inBytesSinceHandshake
    ∧ (c.initInChunkStreamState csId).2.inBytesSinceLastAck = c.inBytesSinceLastAck
    ∧ (c.initInChunkStreamState csId).2.inAckWinSize = c.inAckWinSize
    ∧ (c.initInChunkStreamState csId).2.socketWritten = c.socketWritten
    ∧ (c.initInChunkStreamState csId).2.outBuf = c.outBuf
    ∧ (c.initInChunkStreamState csId).2.gamerOutBuf = c.gamerOutBuf
    ∧ (c.initInChunkStreamState csId).2.outChunkStreams = c.outChunkStreams
    ∧ (c.initInChunkStreamState csId).2.errors = c.errors := by
  unfold RTMPClient.initInChunkStreamState
  split_ifs <;> simp


/-! ## Lemmas: what writes and disconnects leave alone -/

theorem SocketWrite.acceptAll_local : SocketWrite.acceptAll.Local := by
  intro c data
  exact ⟨c.outBuf, c.gamerOutBuf, c.gamerInSatMode, c.socketWritten ++ data, rfl⟩

theorem RTMPClient.bufferFrame_refl (a : RTMPClient) : a.BufferFrame a := rfl

theorem RTMPClient.bufferFrame_trans {a b c : RTMPClient} (h1 : a.BufferFrame b)
    (h2 : b.BufferFrame c) : a.BufferFrame c := by
  unfold RTMPClient.BufferFrame at *
  rw [h2, h1]

theorem RTMPClient.attemptToEmptyOutBuf_frame (socketWrite : SocketWrite)
    (hsw : socketWrite.Local) (c : RTMPClient) :
    c.BufferFrame (c.attemptToEmptyOutBuf socketWrite).2
    ∧ (c.attemptToEmptyOutBuf socketWrite).2.bufferOutBufRef = c.bufferOutBufRef := by
  unfold RTMPClient.attemptToEmptyOutBuf
  split_ifs
  · exact ⟨rfl, rfl⟩
  · exact ⟨rfl, rfl⟩
  · obtain ⟨o, g, s, w, h⟩ := hsw c []
    constructor
    · show c.BufferFrame (socketWrite c []).2
      rw [h]
      rfl
    · show (socketWrite c []).2.bufferOutBufRef = c.bufferOutBufRef
      rw [h]

theorem RTMPClient.endForceBufferWrite_frame (socketWrite : SocketWrite)
    (hsw : socketWrite.Local) (c : RTMPClient) (hpos : c.bufferOutBufRef > 0) :
    c.BufferFrame (c.endForceBufferWrite socketWrite)
    ∧ (c.endForceBufferWrite socketWrite).bufferOutBufRef = c.bufferOutBufRef - 1 := by
  unfold RTMPClient.endForceBufferWrite
  have hn : ¬ c.bufferOutBufRef ≤ 0 := by omega
  simp only [hn, if_false]
  split_ifs with hz
  · obtain ⟨h1, h2⟩ := RTMPClient.attemptToEmptyOutBuf_frame socketWrite hsw
      { c with bufferOutBufRef := c.bufferOutBufRef - 1 }
    refine ⟨?_, h2⟩
    exact RTMPClient.bufferFrame_trans
      (RTMPClient.bufferFrame_refl { c with bufferOutBufRef := c.bufferOutBufRef - 1 }) h1
  · exact ⟨rfl, rfl⟩

theorem RTMPClient.leaveForcedBuffer_spec (socketWrite : SocketWrite) (hsw : socketWrite.Local) :
    ∀ (fuel : Nat) (c : RTMPClient), c.bufferOutBufRef ≤ fuel →
      ∃ after, c.leaveForcedBuffer socketWrite fuel = some after ∧ c.BufferFrame after
  | 0, c, h => by
    have hn : ¬ c.bufferOutBufRef > 0 := by omega
    exact ⟨c, by simp [RTMPClient.leaveForcedBuffer, hn], rfl⟩
  | fuel + 1, c, h => by
    unfold RTMPClient.leaveForcedBuffer
    by_cases hpos : c.bufferOutBufRef > 0
    · simp only [hpos, if_true]
      obtain ⟨h1, h2⟩ := RTMPClient.endForceBufferWrite_frame socketWrite hsw c hpos
      obtain ⟨after, ha, hf⟩ := RTMPClient.leaveForcedBuffer_spec socketWrite hsw fuel
        (c.endForceBufferWrite socketWrite) (by rw [h2]; push_cast at h; omega)
      exact ⟨after, ha, RTMPClient.bufferFrame_trans h1 hf⟩
    · simp only [hpos, if_false]
      exact ⟨c, rfl, rfl⟩

theorem RTMPClient.disconnect_spec (socketWrite : SocketWrite) (hsw : socketWrite.Local)
    (close : SocketClose) (fuel : Nat) (c : RTMPClient) (hfuel : c.bufferOutBufRef ≤ fuel)
    (hstate : c.handshakeState ≠ .DisconnectedState) :
    ∃ after, c.disconnect socketWrite close fuel = .ok after ∧ c.DisconnectFrame after := by
  obtain ⟨left, hleft, hframe⟩ := RTMPClient.leaveForcedBuffer_spec socketWrite hsw fuel c hfuel
  unfold RTMPClient.disconnect
  simp only [hstate, if_false, hleft]
  unfold RTMPClient.BufferFrame at hframe
  cases close
  · refine ⟨_, rfl, ?_, Or.inl ?_, Or.inl ?_⟩
    · split_ifs <;> (simp only; rw [hframe])
    · split_ifs <;> rfl
    · split_ifs <;> (simp only; rw [hframe])
  · refine ⟨_, rfl, ?_, Or.inr ?_, Or.inr ?_⟩
    · unfold RTMPClient.socketDisconnected
      split_ifs <;> (simp only; rw [hframe])
    · unfold RTMPClient.socketDisconnected
      split_ifs <;> rfl
    · unfold RTMPClient.socketDisconnected
      split_ifs <;> (simp only; rw [hframe])
  · refine ⟨_, rfl, ?_, Or.inr ?_, Or.inr ?_⟩
    · split_ifs <;> (simp only; rw [hframe])
    · split_ifs <;> rfl
    · split_ifs <;> (simp only; rw [hframe])

theorem RTMPClient.fail_spec (socketWrite : SocketWrite) (hsw : socketWrite.Local)
    (close : SocketClose) (fuel : Nat) (c : RTMPClient) (e : RTMPError)
    (hfuel : c.bufferOutBufRef ≤ fuel) (hstate : c.handshakeState ≠ .DisconnectedState) :
    ∃ after, c.fail socketWrite close fuel e = .ok after
      ∧ (c.emitError e).DisconnectFrame after := by
  unfold RTMPClient.fail
  exact RTMPClient.disconnect_spec socketWrite hsw close fuel (c.emitError e) hfuel hstate

theorem RTMPClient.writeFrame_refl (a : RTMPClient) : a.WriteFrame a := rfl

theorem RTMPClient.writeFrame_trans {a b c : RTMPClient} (h1 : a.WriteFrame b)
    (h2 : b.WriteFrame c) : a.WriteFrame c := by
  unfold RTMPClient.WriteFrame at *
  rw [h2, h1]

theorem RTMPClient.write_frame (socketWrite : SocketWrite) (hsw : socketWrite.Local)
    (c : RTMPClient) (data : QByteArray) : c.WriteFrame (c.write socketWrite data).2 := by
  unfold RTMPClient.write
  split
  · exact rfl
  · exact rfl
  · exact rfl
  · split_ifs
    · exact rfl
    · exact rfl
    · exact rfl
    · obtain ⟨o, g, s, w, h⟩ := hsw c data
      show c.WriteFrame (socketWrite c data).2
      rw [h]
      rfl

theorem RTMPClient.writeMessage_frame (socketWrite : SocketWrite) (hsw : socketWrite.Local)
    (c : RTMPClient) (streamId : Nat) (type : Int) (timestamp : Nat) (msg : QByteArray)
    (csId fuel : Nat) (r : Bool × RTMPClient)
    (h : c.writeMessage socketWrite streamId type timestamp msg csId fuel = some r) :
    c.WriteFrame r.2 := by
  have hinit : c.WriteFrame (c.initOutChunkStreamState csId).2 := by
    unfold RTMPClient.initOutChunkStreamState
    split_ifs <;> exact rfl
  unfold RTMPClient.writeMessage at h
  simp only at h
  split_ifs at h with hbad
  · simp only [Option.some.injEq] at h
    rw [← h]
    exact RTMPClient.writeFrame_trans hinit rfl
  · cases hc : (c.initOutChunkStreamState csId).2.chunkMessage streamId type timestamp msg csId
        fuel with
    | none => rw [hc] at h; simp at h
    | some d =>
      rw [hc] at h
      have hw := RTMPClient.write_frame socketWrite hsw (c.initOutChunkStreamState csId).2 d.1
      simp only at h
      split_ifs at h
      · simp only [Option.some.injEq] at h
        rw [← h]
        exact RTMPClient.writeFrame_trans hinit hw
      · simp only [Option.some.injEq] at h
        rw [← h]
        exact RTMPClient.writeFrame_trans (RTMPClient.writeFrame_trans hinit hw) rfl

/-! ## Lemmas: commands received -/

theorem RTMPClient.processMessage_command (qt : QtUtf8) (socketWrite : SocketWrite)
    (close : SocketClose) (beyond : CharPtr) (fuel : Nat) (c : RTMPClient) (streamId : Nat)
    (timestamp : Nat) (msg : QByteArray) (params : List AMFType) (hmsg : msg ≠ [])
    (hparams : params ≠ [])
    (hdecode : decodeParams qt (CharPtr.ofBytes msg beyond) msg.length fuel 0 []
      = .ok (some params)) :
    c.processMessage qt socketWrite close beyond fuel streamId CommandAmf0MsgType timestamp msg
      = c.processCommand qt socketWrite close fuel streamId params := by
  have hlen : ¬ msg.length < 1 := by
    have := List.length_pos.2 hmsg
    omega
  have hplen : ¬ params.length = 0 := by
    have := List.length_pos.2 hparams
    omega
  unfold RTMPClient.processMessage
  simp only [CommandAmf0MsgType, SetChunkSizeMsgType, AckMsgType, UserControlMsgType,
    WindowAckSizeMsgType, SetPeerBWMsgType]
  norm_num
  simp [hmsg, hparams, hdecode]

theorem AMFProps.contains_of_value_some (key : QString) : ∀ (m : AMFProps) (v : AMFType),
    m.value? key = some v → m.contains key = true
  | .nil, _, h => by simp [AMFProps.value?] at h
  | .cons k v rest, w, h => by
    by_cases hk : k = key
    · simp [AMFProps.contains, hk]
    · simp only [AMFProps.value?, hk, if_false] at h
      simp [AMFProps.contains, AMFProps.contains_of_value_some key rest w h]

theorem RTMPClient.fail_appConnected (socketWrite : SocketWrite) (hsw : socketWrite.Local)
    (close : SocketClose) (fuel : Nat) (c : RTMPClient) (e : RTMPError)
    (hfuel : c.bufferOutBufRef ≤ fuel) (hstate : c.handshakeState ≠ .DisconnectedState)
    (after : RTMPClient) (h : c.fail socketWrite close fuel e = .ok after) :
    after.appConnected = c.appConnected := by
  obtain ⟨a, ha, hframe, _, _⟩ := RTMPClient.fail_spec socketWrite hsw close fuel c e hfuel hstate
  rw [ha] at h
  cases h
  rw [hframe]
  rfl

theorem RTMPClient.writePublishMsg_appConnected (qt : QtUtf8) (socketWrite : SocketWrite)
    (hsw : socketWrite.Local) (c : RTMPClient) (streamId fuel : Nat) (r : Bool × RTMPClient)
    (h : c.writePublishMsg qt socketWrite streamId fuel = some r) :
    r.2.appConnected = c.appConnected := by
  unfold RTMPClient.writePublishMsg at h
  simp only at h
  split at h
  · simp at h
  · rename_i w hw
    have hf := RTMPClient.writeMessage_frame socketWrite hsw _ _ _ _ _ _ _ w hw
    unfold RTMPClient.WriteFrame at hf
    split_ifs at h
    · cases h
      show w.2.appConnected = c.appConnected
      rw [hf]
    · cases h
      show w.2.appConnected = c.appConnected
      rw [hf]

theorem RTMPClient.processOtherResult_appConnected (qt : QtUtf8) (socketWrite : SocketWrite)
    (hsw : socketWrite.Local) (close : SocketClose) (fuel : Nat) (c : RTMPClient)
    (isError : Bool) (params : List AMFType) (hfuel : c.bufferOutBufRef ≤ fuel)
    (hstate : c.handshakeState ≠ .DisconnectedState) (after : RTMPClient)
    (h : c.processOtherResult qt socketWrite close fuel isError params = .ok after) :
    after.appConnected = c.appConnected := by
  unfold RTMPClient.processOtherResult at h
  split_ifs at h with hcreating
  · split at h
    · cases h
    · split_ifs at h with heq
      · unfold RTMPClient.processCreateStreamResult at h
        simp only at h
        split_ifs at h with herr
        · split at h
          · cases h
            rfl
          · split at h
            · cases h
            · split_ifs at h with hp
              · split at h
                · cases h
                · rename_i w hw
                  cases h
                  rw [RTMPClient.writePublishMsg_appConnected qt socketWrite hsw _ _ _ w hw]
                  rfl
              · cases h
                rfl
        · exact RTMPClient.fail_appConnected socketWrite hsw close fuel
            { c with creatingStream := false, createStreamTransId := 0 } _ hfuel hstate after h
      · cases h
        rfl
  · cases h
    rfl

theorem RTMPClient.endForceBufferWrite_bufferFrame (socketWrite : SocketWrite)
    (hsw : socketWrite.Local) (c : RTMPClient) :
    c.BufferFrame (c.endForceBufferWrite socketWrite) := by
  by_cases hpos : c.bufferOutBufRef > 0
  · exact (RTMPClient.endForceBufferWrite_frame socketWrite hsw c hpos).1
  · unfold RTMPClient.endForceBufferWrite
    have : c.bufferOutBufRef ≤ 0 := by omega
    simp only [this, if_true]
    exact rfl

theorem RTMPClient.setReady_appConnected (c : RTMPClient) (isReady : Bool) (after : RTMPClient)
    (h : c.setReady isReady = .ok after) : after.appConnected = c.appConnected := by
  unfold RTMPClient.setReady at h
  split at h
  · cases h
  · split_ifs at h <;> (cases h; rfl)

theorem RTMPClient.getNextTransactionId_congr (a b : RTMPClient) (streamId : Nat)
    (h : a.nextTransactionIds = b.nextTransactionIds) :
    (a.getNextTransactionId streamId).1 = (b.getNextTransactionId streamId).1 := by
  unfold RTMPClient.getNextTransactionId
  rw [h]
  split_ifs <;> rfl

theorem RTMPClient.setMaxChunkSize_frame (socketWrite : SocketWrite) (hsw : socketWrite.Local)
    (c : RTMPClient) (maxSize fuel : Nat) (r : Bool × RTMPClient)
    (h : c.setMaxChunkSize socketWrite maxSize fuel = some r) :
    r.2.appConnected = c.appConnected ∧ r.2.nextTransactionIds = c.nextTransactionIds := by
  unfold RTMPClient.setMaxChunkSize at h
  split at h
  · cases h
  · rename_i m hm
    have hf := RTMPClient.writeMessage_frame socketWrite hsw _ _ _ _ _ _ _ m hm
    unfold RTMPClient.WriteFrame at hf
    split_ifs at h <;>
      · cases h
        constructor
        · show m.2.appConnected = c.appConnected
          rw [hf]
        · show m.2.nextTransactionIds = c.nextTransactionIds
          rw [hf]

theorem RTMPClient.writeConnectMsg_spec (qt : QtUtf8) (socketWrite : SocketWrite)
    (hsw : socketWrite.Local) (c : RTMPClient) (transactionId fuel : Nat) (w : RTMPClient)
    (h : c.writeConnectMsg qt socketWrite transactionId fuel = .ok (true, w)) :
    c.appConnected = false ∧ c.WriteFrame w := by
  unfold RTMPClient.writeConnectMsg at h
  by_cases happ : c.appConnected = true
  · rw [if_pos happ] at h
    simp at h
  · rw [if_neg happ] at h
    refine ⟨by simpa using happ, ?_⟩
    split at h
    · cases h
    · simp only at h
      unfold Fault.ofLoop at h
      split at h
      · cases h
      · rename_i y hy
        cases h
        exact RTMPClient.writeMessage_frame socketWrite hsw _ _ _ _ _ _ _ _ hy

/-- What `connectToApp` leaves when it returns true: the application not yet
connected, and the transaction id it took for `connect` on record. -/
theorem RTMPClient.beginForceBufferWrite_ok (c after : RTMPClient)
    (h : c.beginForceBufferWrite = .ok after) :
    after = { c with bufferOutBufRef := c.bufferOutBufRef + 1 }
      ∧ c.bufferOutBufRef < INT_MAX := by
  unfold RTMPClient.beginForceBufferWrite at h
  by_cases hmax : c.bufferOutBufRef ≥ INT_MAX
  · rw [if_pos hmax] at h
    cases h
  · rw [if_neg hmax] at h
    simp only [Except.ok.injEq] at h
    exact ⟨h.symm, by omega⟩

theorem RTMPClient.beginForceBufferWrite_of_lt (c : RTMPClient)
    (h : c.bufferOutBufRef < INT_MAX) :
    c.beginForceBufferWrite = .ok { c with bufferOutBufRef := c.bufferOutBufRef + 1 } := by
  unfold RTMPClient.beginForceBufferWrite
  rw [if_neg (by omega)]

theorem RTMPClient.connectToApp_pending (qt : QtUtf8) (socketWrite : SocketWrite)
    (hsw : socketWrite.Local) (c : RTMPClient) (fuel : Nat) (w : RTMPClient)
    (h : c.connectToApp qt socketWrite fuel = .ok (true, w)) :
    w.appConnected = false ∧ w.appConnectTransId = (c.getNextTransactionId 0).1 := by
  unfold RTMPClient.connectToApp at h
  simp only at h
  split at h
  · cases h
  rename_i c1 hbegin
  obtain ⟨hc1, -⟩ := RTMPClient.beginForceBufferWrite_ok c c1 hbegin
  split at h
  · cases h
  · rename_i r hr
    obtain ⟨_, hn⟩ := RTMPClient.setMaxChunkSize_frame socketWrite hsw _ _ _ r hr
    have hn : r.2.nextTransactionIds = c.nextTransactionIds := by
      rw [hn, hc1]
    split_ifs at h with hr1
    · simp at h
    · split at h
      · cases h
      · rename_i x hx
        simp only [Except.ok.injEq, Prod.mk.injEq] at h
        obtain ⟨hw1, hw2⟩ := h
        have hb := RTMPClient.endForceBufferWrite_bufferFrame socketWrite hsw x.2
        rw [hw2] at hb
        unfold RTMPClient.BufferFrame at hb
        have hx' : RTMPClient.writeConnectMsg qt socketWrite
            { (r.2.getNextTransactionId 0).2 with
              appConnectTransId := (r.2.getNextTransactionId 0).1 }
            (r.2.getNextTransactionId 0).1 fuel = .ok (true, x.2) := by
          rw [← hw1]
          exact hx
        obtain ⟨happ, hfx⟩ := RTMPClient.writeConnectMsg_spec qt socketWrite hsw _ _ _ _ hx'
        unfold RTMPClient.WriteFrame at hfx
        constructor
        · rw [hb, hfx]
          exact happ
        · rw [hb, hfx]
          exact RTMPClient.getNextTransactionId_congr _ _ 0 hn

/-! ## Lemmas: `socketWrite` and gamer mode -/

theorem RTMPClient.sendFrame_refl (a : RTMPClient) : a.SendFrame a := rfl

theorem RTMPClient.sendFrame_trans {a b c : RTMPClient} (h1 : a.SendFrame b)
    (h2 : b.SendFrame c) : a.SendFrame c := by
  unfold RTMPClient.SendFrame at *
  rw [h2, h1]

theorem RTMPClient.socketWriteData_frame (enterSatMode : RTMPClient → RTMPClient)
    (henter : ∀ c : RTMPClient, c.SendFrame (enterSatMode c)) (a : SocketAnswers) (n : Int)
    (c : RTMPClient) (data : QByteArray) :
    c.SendFrame (c.socketWriteData enterSatMode a n data).2 := by
  unfold RTMPClient.socketWriteData
  simp only []
  split_ifs <;> first
    | exact rfl
    | (refine RTMPClient.sendFrame_trans ?_ (henter _); exact rfl)

theorem RTMPClient.socketWriteWith_frame (enterSatMode : RTMPClient → RTMPClient)
    (henter : ∀ c : RTMPClient, c.SendFrame (enterSatMode c)) (a : SocketAnswers) (e : Bool)
    (c : RTMPClient) (data : QByteArray) :
    c.SendFrame (c.socketWriteWith enterSatMode a e data).2 := by
  unfold RTMPClient.socketWriteWith
  simp only []
  split_ifs <;> first
    | exact rfl
    | (refine RTMPClient.sendFrame_trans ?_ (henter _); exact rfl)
    | exact RTMPClient.socketWriteData_frame enterSatMode henter a _ _ data

theorem RTMPClient.gamerEnterSatModeWith_frame (flush : RTMPClient → QByteArray → RTMPClient)
    (hflush : ∀ (c : RTMPClient) (data : QByteArray), c.SendFrame (flush c data)) (c : RTMPClient) :
    c.SendFrame (c.gamerEnterSatModeWith flush) := by
  unfold RTMPClient.gamerEnterSatModeWith
  simp only []
  split_ifs <;> first
    | exact rfl
    | (refine RTMPClient.sendFrame_trans ?_ (hflush _ _); exact rfl)

theorem RTMPClient.gamerEnterSatMode_frame (nested : SocketAnswers) (c : RTMPClient) :
    c.SendFrame (c.gamerEnterSatMode nested) := by
  unfold RTMPClient.gamerEnterSatMode
  apply RTMPClient.gamerEnterSatModeWith_frame
  intro c data
  apply RTMPClient.socketWriteWith_frame
  intro c
  exact RTMPClient.gamerEnterSatModeWith_frame _ (fun c _ => RTMPClient.sendFrame_refl c) c

theorem RTMPClient.socketWrite_frame (env : SocketEnv) (e : Bool) (c : RTMPClient)
    (data : QByteArray) : c.SendFrame (RTMPClient.socketWrite env e c data).2 := by
  unfold RTMPClient.socketWrite
  apply RTMPClient.socketWriteWith_frame
  intro c
  exact RTMPClient.gamerEnterSatMode_frame env.nested c

theorem RTMPClient.socketWrite_local (env : SocketEnv) (e : Bool) :
    (RTMPClient.socketWrite env e).Local := by
  intro c data
  exact ⟨_, _, _, _, RTMPClient.socketWrite_frame env e c data⟩

theorem RTMPClient.socketWriteData_keeps (P : RTMPClient → Prop)
    (hP : ∀ (c : RTMPClient) (written buffer : QByteArray),
      P c → P { c with socketWritten := written, outBuf := buffer })
    (enterSatMode : RTMPClient → RTMPClient) (henter : ∀ c : RTMPClient, P c → P (enterSatMode c))
    (a : SocketAnswers) (n : Int) (c : RTMPClient) (data : QByteArray) (hc : P c) :
    P (c.socketWriteData enterSatMode a n data).2 := by
  unfold RTMPClient.socketWriteData
  simp only []
  split_ifs
  · exact hc
  · exact hc
  · exact hP c _ c.outBuf hc
  · exact henter _ (hP c _ _ hc)

/-- A property of the session that the writes of `socketWrite` to the socket
and to the internal buffer do not touch is kept by `socketWrite` when
`gamerEnterSatMode()` keeps it. -/
theorem RTMPClient.socketWriteWith_keeps (P : RTMPClient → Prop)
    (hP : ∀ (c : RTMPClient) (written buffer : QByteArray),
      P c → P { c with socketWritten := written, outBuf := buffer })
    (enterSatMode : RTMPClient → RTMPClient) (henter : ∀ c : RTMPClient, P c → P (enterSatMode c))
    (a : SocketAnswers) (e : Bool) (c : RTMPClient) (data : QByteArray) (hc : P c) :
    P (c.socketWriteWith enterSatMode a e data).2 := by
  unfold RTMPClient.socketWriteWith
  simp only []
  split_ifs <;> first
    | exact hc
    | exact hP c _ _ hc
    | exact henter _ (hP c c.socketWritten _ hc)
    | exact henter _ (hP c _ _ hc)
    | exact RTMPClient.socketWriteData_keeps P hP enterSatMode henter a _ _ data hc
    | exact RTMPClient.socketWriteData_keeps P hP enterSatMode henter a _ _ data (hP c _ _ hc)

theorem RTMPClient.gamerEnterSatModeWith_keeps (P : RTMPClient → Prop)
    (flush : RTMPClient → QByteArray → RTMPClient)
    (hsat : ∀ c : RTMPClient, P c → P { c with gamerInSatMode := true })
    (hflush : ∀ c : RTMPClient, P c →
      P (flush { c with gamerInSatMode := true, gamerOutBuf := [] } c.gamerOutBuf))
    (c : RTMPClient) (hc : P c) : P (c.gamerEnterSatModeWith flush) := by
  unfold RTMPClient.gamerEnterSatModeWith
  simp only []
  split_ifs <;> first
    | exact hc
    | exact hsat c hc
    | exact hflush c hc

/-- With an empty gamer buffer `gamerEnterSatMode()` does not flush. -/
theorem RTMPClient.gamerEnterSatModeWith_of_empty (flush : RTMPClient → QByteArray → RTMPClient)
    (c : RTMPClient) (hc : c.gamerOutBuf = []) :
    (c.gamerEnterSatModeWith flush).sendOrder = c.sendOrder
      ∧ (c.gamerEnterSatModeWith flush).gamerOutBuf = [] := by
  unfold RTMPClient.gamerEnterSatModeWith
  simp only [hc, List.isEmpty_nil, Bool.not_true, Bool.false_eq_true, if_false]
  split_ifs <;> simp [RTMPClient.sendOrder, hc]

theorem RTMPClient.socketWriteData_sendOrder (enterSatMode : RTMPClient → RTMPClient)
    (a : SocketAnswers) (n : Int) (c : RTMPClient) (data : QByteArray)
    (ha : a.dataWriteFails = false) (hout : c.outBuf = [])
    (henter : ∀ c' : RTMPClient, c'.gamerOutBuf = c.gamerOutBuf →
      (enterSatMode c').sendOrder = c'.sendOrder) :
    (c.socketWriteData enterSatMode a n data).2.sendOrder
      = c.socketWritten ++ c.outBuf ++ data ++ c.gamerOutBuf := by
  unfold RTMPClient.socketWriteData
  simp only [ha, Bool.false_eq_true, if_false]
  split_ifs with hempty hfull
  · have : data = [] := by simpa using hempty
    simp [RTMPClient.sendOrder, this]
  · have : data.take (min (data.length : Int) n).toNat = data := by
      rw [hfull]; exact List.take_length data
    simp [RTMPClient.sendOrder, this, hout]
  · refine Eq.trans (henter _ rfl) ?_
    simp [RTMPClient.sendOrder, hout]

theorem RTMPClient.socketWriteWith_sendOrder (enterSatMode : RTMPClient → RTMPClient)
    (a : SocketAnswers) (e : Bool) (c : RTMPClient) (data : QByteArray)
    (ha : a.noError = true) (he : e = true → data = [])
    (henter : ∀ c' : RTMPClient, c'.gamerOutBuf = c.gamerOutBuf →
      (enterSatMode c').sendOrder = c'.sendOrder) :
    (c.socketWriteWith enterSatMode a e data).2.sendOrder
      = c.socketWritten ++ c.outBuf ++ data ++ c.gamerOutBuf := by
  unfold SocketAnswers.noError at ha
  simp only [Bool.and_eq_true, Bool.not_eq_true', decide_eq_true_eq] at ha
  obtain ⟨⟨⟨hclosed, hsize⟩, hbuf⟩, hdata⟩ := ha
  unfold RTMPClient.socketWriteWith
  simp only [hclosed, Bool.and_false, Bool.false_eq_true, if_false, not_lt.2 hsize, hbuf]
  generalize (if a.bytesToWrite > 0 then max 0 (a.osWriteBufSize - a.bytesToWrite)
    else a.osWriteBufSize) = n
  generalize (min (c.outBuf.length : Int) n).toNat = k
  have hsplit : c.outBuf.take k ++ c.outBuf.drop k = c.outBuf := List.take_append_drop k c.outBuf
  split_ifs with hqt hnonempty hdone hmore
  · refine Eq.trans (henter _ rfl) ?_
    simp [RTMPClient.sendOrder]
  · simp only [Bool.and_eq_true, List.isEmpty_iff] at hdone
    have hd : data = [] := he hdone.2
    have hdrop : c.outBuf.drop k = [] := hdone.1
    rw [hdrop, List.append_nil] at hsplit
    simp [RTMPClient.sendOrder, hd, hdrop, hsplit]
  · refine Eq.trans (henter _ rfl) ?_
    simp only [RTMPClient.sendOrder, List.append_assoc]
    rw [← List.append_assoc (c.outBuf.take k), hsplit]
  · simp only [not_or, Bool.not_eq_true', Bool.not_eq_false', Nat.not_lt, Nat.le_zero,
      gt_iff_lt, Bool.not_eq_eq_eq_not, Bool.not_true] at hmore
    have hdrop : c.outBuf.drop k = [] := by simpa using hmore.2
    refine Eq.trans
      (RTMPClient.socketWriteData_sendOrder enterSatMode a _ _ data hdata hdrop henter) ?_
    rw [hdrop, List.append_nil] at hsplit
    simp only [hdrop, List.append_nil, hsplit, List.append_assoc]
  · rw [RTMPClient.socketWriteData_sendOrder enterSatMode a _ _ data hdata
      (by simpa using hnonempty) henter]

/-- The nested call of `socketWrite`, which `gamerEnterSatMode()` makes with
the gamer buffer emptied, leaves the gamer buffer empty. -/
theorem RTMPClient.nestedWrite_gamerOutBuf (flush : RTMPClient → QByteArray → RTMPClient)
    (a : SocketAnswers) (e : Bool) (c : RTMPClient) (data : QByteArray)
    (hc : c.gamerOutBuf = []) :
    (c.socketWriteWith (RTMPClient.gamerEnterSatModeWith flush) a e data).2.gamerOutBuf = [] :=
  RTMPClient.socketWriteWith_keeps (fun c => c.gamerOutBuf = []) (fun _ _ _ h => h) _
    (fun c h => (RTMPClient.gamerEnterSatModeWith_of_empty flush c h).2) a e c data hc

/-- The nested call of `socketWrite` stays in saturation mode. -/
theorem RTMPClient.nestedWrite_gamerInSatMode (flush : RTMPClient → QByteArray → RTMPClient)
    (a : SocketAnswers) (e : Bool) (c : RTMPClient) (data : QByteArray)
    (hc : c.gamerInSatMode = true) :
    (c.socketWriteWith (RTMPClient.gamerEnterSatModeWith flush) a e data).2.gamerInSatMode
      = true := by
  refine RTMPClient.socketWriteWith_keeps (fun c => c.gamerInSatMode = true) (fun _ _ _ h => h) _
    ?_ a e c data hc
  intro c h
  unfold RTMPClient.gamerEnterSatModeWith
  simp [h]

theorem RTMPClient.nestedWrite_sendOrder (flush : RTMPClient → QByteArray → RTMPClient)
    (a : SocketAnswers) (c : RTMPClient) (data : QByteArray) (ha : a.noError = true)
    (hc : c.gamerOutBuf = []) :
    (c.socketWriteWith (RTMPClient.gamerEnterSatModeWith flush) a false data).2.sendOrder
      = c.socketWritten ++ c.outBuf ++ data := by
  rw [RTMPClient.socketWriteWith_sendOrder _ a false c data ha (by simp)
    (fun c' h => (RTMPClient.gamerEnterSatModeWith_of_empty flush c' (h.trans hc)).1)]
  simp [hc]

/-- The three ways in which `gamerEnterSatMode()` ends: it returns at once,
it sets the flag and finds nothing to flush, or it sets the flag and flushes
the gamer buffer. -/
theorem RTMPClient.gamerEnterSatModeWith_cases (flush : RTMPClient → QByteArray → RTMPClient)
    (c : RTMPClient) :
    (c.gamerEnterSatModeWith flush = c
        ∧ (c.inGamerMode = false ∨ c.gamerInSatMode = true ∨ c.isSocketConnected = false))
      ∨ (c.gamerOutBuf = [] ∧ c.gamerEnterSatModeWith flush = { c with gamerInSatMode := true })
      ∨ c.gamerEnterSatModeWith flush
          = flush { c with gamerInSatMode := true, gamerOutBuf := [] } c.gamerOutBuf := by
  unfold RTMPClient.gamerEnterSatModeWith
  simp only []
  split_ifs with h1 h2 h3 h4
  · exact Or.inl ⟨rfl, Or.inl (by simpa using h1)⟩
  · exact Or.inl ⟨rfl, Or.inr (Or.inl h2)⟩
  · exact Or.inl ⟨rfl, Or.inr (Or.inr (by simpa using h3))⟩
  · exact Or.inr (Or.inr rfl)
  · exact Or.inr (Or.inl ⟨by simpa using h4, rfl⟩)

theorem RTMPClient.gamerEnterSatMode_sendOrder (nested : SocketAnswers) (c : RTMPClient)
    (ha : nested.noError = true) : (c.gamerEnterSatMode nested).sendOrder = c.sendOrder := by
  unfold RTMPClient.gamerEnterSatMode
  rcases RTMPClient.gamerEnterSatModeWith_cases _ c with ⟨h, _⟩ | ⟨_, h⟩ | h <;> rw [h]
  · rfl
  · rw [RTMPClient.nestedWrite_sendOrder _ nested _ _ ha rfl]
    simp [RTMPClient.sendOrder]

theorem RTMPClient.gamerEnterSatMode_idle (nested : SocketAnswers) (c : RTMPClient)
    (hc : c.GamerBufferIdle) : (c.gamerEnterSatMode nested).GamerBufferIdle := by
  unfold RTMPClient.gamerEnterSatMode
  rcases RTMPClient.gamerEnterSatModeWith_cases _ c with ⟨h, _⟩ | ⟨h1, h⟩ | h <;> rw [h]
  · exact hc
  · intro h'
    exact absurd h1 h'
  · intro h'
    exact absurd (RTMPClient.nestedWrite_gamerOutBuf _ nested false _ _ rfl) h'

/-- In gamer mode, with the socket connected, `gamerEnterSatMode()` leaves
the session in saturation mode. -/
theorem RTMPClient.gamerEnterSatMode_sat (nested : SocketAnswers) (c : RTMPClient)
    (hg : c.inGamerMode = true) (hconn : c.isSocketConnected = true) :
    (c.gamerEnterSatMode nested).gamerInSatMode = true := by
  unfold RTMPClient.gamerEnterSatMode
  rcases RTMPClient.gamerEnterSatModeWith_cases _ c with ⟨h, hwhy⟩ | ⟨h1, h2⟩ | h
  · rw [h]
    rcases hwhy with hw | hw | hw
    · rw [hg] at hw; exact absurd hw (by simp)
    · exact hw
    · rw [hconn] at hw; exact absurd hw (by simp)
  · rw [h2]
  · rw [h]
    exact RTMPClient.nestedWrite_gamerInSatMode _ nested false _ _ rfl

theorem RTMPClient.socketWrite_sendOrder (env : SocketEnv) (e : Bool) (c : RTMPClient)
    (data : QByteArray) (henv : env.noError = true) (he : e = true → data = []) :
    (RTMPClient.socketWrite env e c data).2.sendOrder
      = c.socketWritten ++ c.outBuf ++ data ++ c.gamerOutBuf := by
  unfold SocketEnv.noError at henv
  simp only [Bool.and_eq_true] at henv
  exact RTMPClient.socketWriteWith_sendOrder _ env.outer e c data henv.1 he
    (fun c' _ => RTMPClient.gamerEnterSatMode_sendOrder env.nested c' henv.2)

theorem RTMPClient.socketWrite_idle (env : SocketEnv) (e : Bool) (c : RTMPClient)
    (data : QByteArray) (hc : c.GamerBufferIdle) :
    (RTMPClient.socketWrite env e c data).2.GamerBufferIdle :=
  RTMPClient.socketWriteWith_keeps RTMPClient.GamerBufferIdle (fun _ _ _ h => h) _
    (fun c h => RTMPClient.gamerEnterSatMode_idle env.nested c h) env.outer e c data hc

theorem RTMPClient.socketWriteData_nonneg (enterSatMode : RTMPClient → RTMPClient)
    (a : SocketAnswers) (n : Int) (c : RTMPClient) (data : QByteArray)
    (ha : a.dataWriteFails = false) (hn : 0 ≤ n) :
    0 ≤ (c.socketWriteData enterSatMode a n data).1 := by
  unfold RTMPClient.socketWriteData
  simp only [ha, Bool.false_eq_true, if_false]
  split_ifs
  · exact hn
  · exact le_max_left _ _
  · exact le_max_left _ _

theorem RTMPClient.socketWriteWith_nonneg (enterSatMode : RTMPClient → RTMPClient)
    (a : SocketAnswers) (e : Bool) (c : RTMPClient) (data : QByteArray)
    (ha : a.noError = true) : 0 ≤ (c.socketWriteWith enterSatMode a e data).1 := by
  unfold SocketAnswers.noError at ha
  simp only [Bool.and_eq_true, Bool.not_eq_true', decide_eq_true_eq] at ha
  obtain ⟨⟨⟨hclosed, hsize⟩, hbuf⟩, hdata⟩ := ha
  unfold RTMPClient.socketWriteWith
  simp only [hclosed, Bool.and_false, Bool.false_eq_true, if_false, not_lt.2 hsize, hbuf]
  have hn : 0 ≤ (if a.bytesToWrite > 0 then max 0 (a.osWriteBufSize - a.bytesToWrite)
    else a.osWriteBufSize) := by
    split_ifs
    · exact le_max_left _ _
    · exact hsize
  generalize (if a.bytesToWrite > 0 then max 0 (a.osWriteBufSize - a.bytesToWrite)
    else a.osWriteBufSize) = n at hn ⊢
  split_ifs
  · exact le_refl _
  · exact le_refl _
  · exact le_refl _
  · exact RTMPClient.socketWriteData_nonneg _ _ _ _ _ hdata (le_max_left _ _)
  · exact RTMPClient.socketWriteData_nonneg _ _ _ _ _ hdata hn

/-- A socket that reports no error makes `socketWrite` return a number that
is not negative. -/
theorem RTMPClient.socketWrite_nonneg (env : SocketEnv) (e : Bool) (c : RTMPClient)
    (data : QByteArray) (henv : env.noError = true) :
    0 ≤ (RTMPClient.socketWrite env e c data).1 := by
  unfold SocketEnv.noError at henv
  simp only [Bool.and_eq_true] at henv
  exact RTMPClient.socketWriteWith_nonneg _ env.outer e c data henv.1

theorem RTMPClient.socketWriteWith_of_not_saturated (enterSatMode : RTMPClient → RTMPClient)
    (a : SocketAnswers) (c : RTMPClient) (data : QByteArray) (ha : a.noError = true)
    (hout : c.outBuf = [])
    (henter : ∀ x : RTMPClient, x.inGamerMode = c.inGamerMode →
      x.handshakeState = c.handshakeState → (enterSatMode x).gamerInSatMode = true)
    (hafter : (c.socketWriteWith enterSatMode a false data).2.gamerInSatMode = false) :
    (c.socketWriteWith enterSatMode a false data).2.socketWritten = c.socketWritten ++ data
      ∧ (c.socketWriteWith enterSatMode a false data).2.outBuf = []
      ∧ (c.socketWriteWith enterSatMode a false data).2.gamerOutBuf = c.gamerOutBuf := by
  unfold SocketAnswers.noError at ha
  simp only [Bool.and_eq_true, Bool.not_eq_true', decide_eq_true_eq] at ha
  obtain ⟨⟨⟨hclosed, hsize⟩, hbuf⟩, hdata⟩ := ha
  revert hafter
  unfold RTMPClient.socketWriteWith RTMPClient.socketWriteData
  simp only [hclosed, Bool.and_false, Bool.false_eq_true, if_false, not_lt.2 hsize, hbuf, hout,
    List.isEmpty_nil, Bool.not_true, hdata]
  generalize (if a.bytesToWrite > 0 then max 0 (a.osWriteBufSize - a.bytesToWrite)
    else a.osWriteBufSize) = n
  split_ifs with h1 h2 h3
  · intro hafter
    have := henter { c with outBuf := [] ++ data } rfl rfl
    rw [this] at hafter
    exact absurd hafter (by simp)
  · intro _
    have : data = [] := by simpa using h2
    simp [this, hout]
  · intro _
    have : data.take (min (data.length : Int) n).toNat = data := by
      rw [h3]; exact List.take_length data
    simp [this, hout]
  · intro hafter
    have := henter { c with
      socketWritten := c.socketWritten ++ data.take (min (data.length : Int) n).toNat,
      outBuf := [] ++ data.drop (min (data.length : Int) n).toNat } rfl rfl
    rw [this] at hafter
    exact absurd hafter (by simp)

/-- In gamer mode, with nothing in the internal buffer, a `socketWrite` that
does not end in saturation mode has handed all the data to the socket. -/
theorem RTMPClient.socketWrite_of_not_saturated (env : SocketEnv) (c : RTMPClient)
    (data : QByteArray) (henv : env.noError = true) (hg : c.inGamerMode = true)
    (hconn : c.isSocketConnected = true) (hout : c.outBuf = [])
    (hafter : (RTMPClient.socketWrite env false c data).2.gamerInSatMode = false) :
    (RTMPClient.socketWrite env false c data).2.socketWritten = c.socketWritten ++ data
      ∧ (RTMPClient.socketWrite env false c data).2.outBuf = []
      ∧ (RTMPClient.socketWrite env false c data).2.gamerOutBuf = c.gamerOutBuf := by
  unfold SocketEnv.noError at henv
  simp only [Bool.and_eq_true] at henv
  refine RTMPClient.socketWriteWith_of_not_saturated _ env.outer c data henv.1 hout ?_ hafter
  intro x hx hs
  refine RTMPClient.gamerEnterSatMode_sat env.nested x (hx.trans hg) ?_
  unfold RTMPClient.isSocketConnected at hconn ⊢
  rw [hs]; exact hconn

/-! ## Lemmas: transaction ids -/

theorem QHash.contains_set_self {α : Type} : ∀ (h : QHash α) (key : Nat) (value : α),
    (h.set key value).contains key = true
  | [], key, value => by simp [QHash.set, QHash.contains]
  | (k, v) :: rest, key, value => by
    unfold QHash.set
    split_ifs with hk
    · simp [QHash.contains, hk]
    · have ih := QHash.contains_set_self rest key value
      unfold QHash.contains at ih ⊢
      simp [hk, ih]

theorem QHash.contains_set_of_ne {α : Type} : ∀ (h : QHash α) (key other : Nat) (value : α),
    key ≠ other → (h.set key value).contains other = h.contains other
  | [], key, other, value, hne => by simp [QHash.set, QHash.contains, hne]
  | (k, v) :: rest, key, other, value, hne => by
    unfold QHash.set
    split_ifs with hk
    · simp [QHash.contains]
    · have ih := QHash.contains_set_of_ne rest key other value hne
      unfold QHash.contains at ih ⊢
      simp only [List.any_cons, ih]

theorem QHash.value?_set_of_ne {α : Type} : ∀ (h : QHash α) (key other : Nat) (value : α),
    key ≠ other → (h.set key value).value? other = h.value? other
  | [], key, other, value, hne => by simp [QHash.set, QHash.value?, hne]
  | (k, v) :: rest, key, other, value, hne => by
    unfold QHash.set
    split_ifs with hk
    · have hko : ¬ k = other := fun h => hne (hk.symm.trans h)
      simp [QHash.value?, hko]
    · have ih := QHash.value?_set_of_ne rest key other value hne
      simp only [QHash.value?, ih]

theorem QHash.contains_remove_self {α : Type} (h : QHash α) (key : Nat) :
    (h.remove key).contains key = false := by
  unfold QHash.remove QHash.contains
  simp [List.any_eq_false]

theorem RTMPClient.getNextTransactionId_counted (c : RTMPClient) (s j : Nat)
    (hc : c.Counted s j) :
    (c.getNextTransactionId s).1 = (j + 1) % 2 ^ 32
      ∧ (c.getNextTransactionId s).2.Counted s (j + 1) := by
  unfold RTMPClient.getNextTransactionId
  rcases hc with ⟨hj, hno⟩ | ⟨hj, hval⟩
  · subst hj
    simp only [hno, Bool.false_eq_true, if_false]
    refine ⟨by norm_num, Or.inr ⟨by omega, ?_⟩⟩
    show (c.nextTransactionIds.set s 2).value? s = _
    rw [QHash.value?_set_self]
    norm_num
  · have hcon := QHash.contains_of_value? c.nextTransactionIds s _ hval
    simp only [hcon, if_true, hval, Option.getD_some]
    refine ⟨?_, Or.inr ⟨by omega, ?_⟩⟩
    · first | rfl | trivial
    show (c.nextTransactionIds.set s _).value? s = _
    rw [QHash.value?_set_self]
    congr 1
    omega

theorem RTMPClient.getNextTransactionId_other (c : RTMPClient) (s t j : Nat) (hne : t ≠ s)
    (hc : c.Counted s j) : (c.getNextTransactionId t).2.Counted s j := by
  unfold RTMPClient.getNextTransactionId
  unfold RTMPClient.Counted at hc ⊢
  split_ifs
  · show (_ ∧ (c.nextTransactionIds.set t _).contains s = false)
      ∨ (_ ∧ (c.nextTransactionIds.set t _).value? s = _)
    rw [QHash.contains_set_of_ne _ _ _ _ hne, QHash.value?_set_of_ne _ _ _ _ hne]
    exact hc
  · show (_ ∧ (c.nextTransactionIds.set t _).contains s = false)
      ∨ (_ ∧ (c.nextTransactionIds.set t _).value? s = _)
    rw [QHash.contains_set_of_ne _ _ _ _ hne, QHash.value?_set_of_ne _ _ _ _ hne]
    exact hc

theorem RTMPClient.getNextTransactionIds_counted (s : Nat) :
    ∀ (calls : List Nat) (c : RTMPClient) (j : Nat), c.Counted s j →
      (c.getNextTransactionIds calls).2.Counted s (j + calls.count s)
  | [], c, j, hc => by simpa [RTMPClient.getNextTransactionIds] using hc
  | t :: rest, c, j, hc => by
    unfold RTMPClient.getNextTransactionIds
    simp only []
    by_cases ht : t = s
    · subst ht
      have h := RTMPClient.getNextTransactionIds_counted t rest _ _
        (RTMPClient.getNextTransactionId_counted c t j hc).2
      rw [List.count_cons_self]
      have e : j + (List.count t rest + 1) = j + 1 + List.count t rest := by omega
      rw [e]
      exact h
    · have h := RTMPClient.getNextTransactionIds_counted s rest _ _
        (RTMPClient.getNextTransactionId_other c s t j ht hc)
      rw [List.count_cons_of_ne (fun h => ht h.symm)]
      exact h

/-- On a session without an entry for message stream `s`, the call of
`getNextTransactionId(s)` that follows the calls of a list returns one more
than the number of calls for `s` in the list, reduced modulo `2 ^ 32`. -/
theorem RTMPClient.getNextTransactionId_after (c : RTMPClient) (s : Nat) (calls : List Nat)
    (hfresh : c.nextTransactionIds.contains s = false) :
    ((c.getNextTransactionIds calls).2.getNextTransactionId s).1
      = (calls.count s + 1) % 2 ^ 32 := by
  have h := RTMPClient.getNextTransactionIds_counted s calls c 0 (Or.inl ⟨rfl, hfresh⟩)
  rw [Nat.zero_add] at h
  exact (RTMPClient.getNextTransactionId_counted _ s _ h).1

/-- Where `writeDeleteStreamMsg` returns true it has removed the counter of
the stream it deleted. -/
theorem RTMPClient.writeDeleteStreamMsg_removes (qt : QtUtf8) (socketWrite : SocketWrite)
    (c : RTMPClient) (streamId fuel : Nat) (after : RTMPClient)
    (h : c.writeDeleteStreamMsg qt socketWrite streamId fuel = .ok (true, after)) :
    after.nextTransactionIds.contains (if streamId = 0 then c.publishStreamId else streamId)
      = false := by
  unfold RTMPClient.writeDeleteStreamMsg at h
  generalize (if streamId = 0 then c.publishStreamId else streamId) = deleted at h ⊢
  generalize (if streamId = 0 then c.lastPublishTimestamp else 0) = closeTimestamp at h
  by_cases h0 : streamId = 0 ∧ (c.publisher.isNone = true ∨ c.publishStreamId = 0)
  · rw [if_pos h0] at h
    simp at h
  · rw [if_neg h0] at h
    simp only [] at h
    split at h
    · cases h
    split at h
    · cases h
    · split_ifs at h
      · simp at h
      · split at h
        · cases h
        · split_ifs at h
          · simp at h
          · split at h
            · cases h
            · simp only [Except.ok.injEq, Prod.mk.injEq] at h
              rw [← h.2]
              split_ifs <;> exact QHash.contains_remove_self _ _

/-! ## Lemmas: NAL units -/

/-- For data that starts with a start code, or with a byte other than zero,
the offset the publisher finds is the length of the start code. -/
theorem drop_nalOffset (data : QByteArray) (h : startsWithCodeOrData data = true) :
    data.drop (nalOffset data) = stripStartCode data := by
  unfold startsWithCodeOrData at h
  match data, h with
  | [], _ => rfl
  | 0 :: 0 :: 0 :: 1 :: rest, _ =>
    simp [nalOffset, skipZeroBytes, stripStartCode]
  | 0 :: 0 :: 1 :: rest, _ =>
    simp [nalOffset, skipZeroBytes, stripStartCode]
  | [0], h => simp at h
  | 0 :: (b + 1) :: rest, h => simp at h
  | [0, 0], h => simp at h
  | 0 :: 0 :: (b + 2) :: rest, h => simp at h
  | [0, 0, 0], h => simp at h
  | 0 :: 0 :: 0 :: 0 :: rest, h => simp at h
  | 0 :: 0 :: 0 :: (b + 2) :: rest, h => simp at h
  | (b + 1) :: rest, _ =>
    simp [nalOffset, skipZeroBytes, stripStartCode]

/-- The loop of `writeVideoFrame` in AVC mode appends the units one after
the other. -/
theorem foldl_avcSamples (pkts : List QByteArray) : ∀ (header : QByteArray),
    pkts.foldl
        (fun frameData data =>
          frameData ++ (amfEncodeUInt32 (data.drop (nalOffset data)).length
            ++ data.drop (nalOffset data)))
        header
      = header ++ (pkts.map (fun data =>
          amfEncodeUInt32 (data.drop (nalOffset data)).length
            ++ data.drop (nalOffset data))).flatten := by
  induction pkts with
  | nil => intro header; simp
  | cons p rest ih =>
    intro header
    rw [List.foldl_cons, ih]
    simp [List.append_assoc]

theorem leadingZeros_cons_cons (b : Nat) (rest : QByteArray) :
    leadingZeros (0 :: b :: rest) = leadingZeros (b :: rest) + 1 := by
  rw [leadingZeros]

theorem leadingZeros_of_ne (a : Nat) (rest : QByteArray) (h : a ≠ 0) :
    leadingZeros (a :: rest) = 0 := by
  cases a with
  | zero => exact absurd rfl h
  | succ n => rw [leadingZeros]; intro b r hh; cases hh

theorem leadingZeros_singleton (a : Nat) : leadingZeros [a] = 0 := by
  rw [leadingZeros]; intro b r hh; cases hh

theorem skipZeroBytes_eq (data : QByteArray) :
    ∀ (fuel off : Nat), data.length ≤ off + fuel →
      skipZeroBytes data fuel off = off + leadingZeros (data.drop off)
  | 0, off, h => by
    rw [skipZeroBytes, List.drop_eq_nil_of_le (by omega)]
    rfl
  | fuel + 1, off, h => by
    rw [skipZeroBytes]
    by_cases hc : off + 1 < data.length ∧ data.getD off 0 = 0
    · rw [if_pos hc, skipZeroBytes_eq data fuel (off + 1) (by omega)]
      have h0 : off < data.length := by omega
      have hget : data[off] = 0 := by
        have := hc.2
        rwa [List.getD_eq_getElem _ _ h0] at this
      rw [List.drop_eq_getElem_cons h0, hget, List.drop_eq_getElem_cons hc.1,
        leadingZeros_cons_cons]
      omega
    · rw [if_neg hc]
      by_cases h1 : off + 1 < data.length
      · have h0 : off < data.length := by omega
        have hne : data[off] ≠ 0 := by
          intro e
          apply hc
          refine ⟨h1, ?_⟩
          rw [List.getD_eq_getElem _ _ h0, e]
        rw [List.drop_eq_getElem_cons h0, leadingZeros_of_ne _ _ hne, Nat.add_zero]
      · by_cases h0 : off < data.length
        · rw [List.drop_eq_getElem_cons h0, List.drop_eq_nil_of_le (by omega),
            leadingZeros_singleton, Nat.add_zero]
        · rw [List.drop_eq_nil_of_le (by omega)]
          rfl

theorem nalOffset_eq (data : QByteArray) :
    nalOffset data
      = if 0 < leadingZeros data ∧ data.getD (leadingZeros data) 0 = 1 then leadingZeros data + 1
        else leadingZeros data := by
  unfold nalOffset
  have h := skipZeroBytes_eq data data.length 0 (by omega)
  simp only [List.drop_zero, Nat.zero_add] at h
  simp only [h, gt_iff_lt]

/-! ## Lemmas: the order of the data on the send path -/

theorem RTMPClient.gamerOutBuf_of_idle (c : RTMPClient) (hc : c.GamerBufferIdle)
    (h : (c.inGamerMode && !c.gamerInSatMode) = false) : c.gamerOutBuf = [] := by
  by_contra hne
  obtain ⟨hg, hs⟩ := hc hne
  rw [hg, hs] at h
  exact absurd h (by decide)

theorem RTMPClient.write_of_unconnected (socketWrite : SocketWrite) (c : RTMPClient)
    (data : QByteArray)
    (h : c.handshakeState = .DisconnectedState ∨ c.handshakeState = .ConnectingState
      ∨ c.handshakeState = .DisconnectingState) :
    c.write socketWrite data = (false, { c with errors := c.errors ++ [.InvalidWriteError] }) := by
  unfold RTMPClient.write
  split
  · rfl
  · rfl
  · rfl
  · rename_i h1 h2 h3
    rcases h with h | h | h
    · exact absurd h h1
    · exact absurd h h2
    · exact absurd h h3

theorem RTMPClient.write_of_connected (socketWrite : SocketWrite) (c : RTMPClient)
    (data : QByteArray)
    (h : ¬ (c.handshakeState = .DisconnectedState ∨ c.handshakeState = .ConnectingState
      ∨ c.handshakeState = .DisconnectingState)) :
    c.write socketWrite data
      = if data.isEmpty then (true, c)
        else if c.inGamerMode && !c.gamerInSatMode then
          (true, { c with gamerOutBuf := c.gamerOutBuf ++ data })
        else if c.bufferOutBufRef > 0 then (true, { c with outBuf := c.outBuf ++ data })
        else (decide (0 ≤ (socketWrite c data).1), (socketWrite c data).2) := by
  unfold RTMPClient.write
  split
  · rename_i heq; exact absurd (Or.inl heq) h
  · rename_i heq; exact absurd (Or.inr (Or.inl heq)) h
  · rename_i heq; exact absurd (Or.inr (Or.inr heq)) h
  · rfl

/-- The method `write` puts the data it accepts behind the data that is on
the send path already. -/
theorem RTMPClient.write_sendOrder (env : SocketEnv) (c : RTMPClient) (data : QByteArray)
    (henv : env.noError = true) (hc : c.GamerBufferIdle) :
    (c.write (RTMPClient.socketWrite env false) data).2.sendOrder
        = c.sendOrder
          ++ (if (c.write (RTMPClient.socketWrite env false) data).1 then data else [])
      ∧ (c.write (RTMPClient.socketWrite env false) data).2.GamerBufferIdle := by
  by_cases hstate : c.handshakeState = .DisconnectedState ∨ c.handshakeState = .ConnectingState
      ∨ c.handshakeState = .DisconnectingState
  · rw [RTMPClient.write_of_unconnected _ c data hstate]
    exact ⟨by simp [RTMPClient.sendOrder], hc⟩
  · rw [RTMPClient.write_of_connected _ c data hstate]
    by_cases hd : data.isEmpty = true
    · rw [if_pos hd]
      have : data = [] := by simpa using hd
      exact ⟨by simp [this], hc⟩
    rw [if_neg hd]
    by_cases hg : (c.inGamerMode && !c.gamerInSatMode) = true
    · rw [if_pos hg]
      refine ⟨by simp [RTMPClient.sendOrder], ?_⟩
      intro _
      simpa using hg
    rw [if_neg hg]
    have hgb := RTMPClient.gamerOutBuf_of_idle c hc (by simpa using hg)
    by_cases hr : c.bufferOutBufRef > 0
    · rw [if_pos hr]
      refine ⟨by simp [RTMPClient.sendOrder, hgb], ?_⟩
      intro h
      exact absurd hgb h
    rw [if_neg hr]
    have hnn := RTMPClient.socketWrite_nonneg env false c data henv
    refine ⟨?_, RTMPClient.socketWrite_idle env false c data hc⟩
    simp only [hnn, decide_True, if_true]
    rw [RTMPClient.socketWrite_sendOrder env false c data henv (by simp)]
    simp [RTMPClient.sendOrder, hgb]

theorem RTMPClient.initOutChunkStreamState_sendOrder (c : RTMPClient) (csId : Nat) :
    (c.initOutChunkStreamState csId).2.sendOrder = c.sendOrder
      ∧ ((c.initOutChunkStreamState csId).2.GamerBufferIdle ↔ c.GamerBufferIdle) := by
  unfold RTMPClient.initOutChunkStreamState
  split_ifs
  · exact ⟨rfl, Iff.rfl⟩
  · exact ⟨rfl, Iff.rfl⟩

theorem RTMPClient.writeMessage_sendOrder (env : SocketEnv) (c : RTMPClient) (m : Message)
    (fuel : Nat) (r : Bool × RTMPClient) (henv : env.noError = true) (hc : c.GamerBufferIdle)
    (h : c.writeMessage (RTMPClient.socketWrite env false) m.streamId m.type m.timestamp m.msg
      m.csId fuel = some r) :
    r.2.sendOrder = c.sendOrder ++ (if r.1 then c.messageBytes m fuel else [])
      ∧ r.2.GamerBufferIdle := by
  obtain ⟨hinit, hidle⟩ := RTMPClient.initOutChunkStreamState_sendOrder c m.csId
  unfold RTMPClient.writeMessage at h
  unfold RTMPClient.messageBytes
  simp only [] at h
  split_ifs at h with hbad
  · simp only [Option.some.injEq] at h
    rw [← h]
    refine ⟨?_, hidle.2 hc⟩
    simp only [Bool.false_eq_true, if_false, List.append_nil]
    exact hinit
  · cases hchunk : (c.initOutChunkStreamState m.csId).2.chunkMessage m.streamId m.type
        m.timestamp m.msg m.csId fuel with
    | none => rw [hchunk] at h; simp at h
    | some d =>
      rw [hchunk] at h
      obtain ⟨hw, hwi⟩ := RTMPClient.write_sendOrder env (c.initOutChunkStreamState m.csId).2
        d.1 henv (hidle.2 hc)
      simp only [] at h
      split_ifs at h with hfail
      · simp only [Option.some.injEq] at h
        rw [← h]
        refine ⟨?_, hwi⟩
        have h1 : ((c.initOutChunkStreamState m.csId).2.write
            (RTMPClient.socketWrite env false) d.1).1 = false := by simpa using hfail
        rw [h1] at hw
        simp only [Bool.false_eq_true, if_false, List.append_nil] at hw ⊢
        rw [hw, hinit]
      · simp only [Option.some.injEq] at h
        rw [← h]
        refine ⟨?_, hwi⟩
        have h1 : ((c.initOutChunkStreamState m.csId).2.write
            (RTMPClient.socketWrite env false) d.1).1 = true := by simpa using hfail
        rw [h1] at hw
        simp only [if_true] at hw ⊢
        show ((c.initOutChunkStreamState m.csId).2.write
            (RTMPClient.socketWrite env false) d.1).2.sendOrder = _
        rw [hw, hinit]

theorem RTMPClient.attemptToEmptyOutBuf_sendOrder (env : SocketEnv) (e : Bool) (c : RTMPClient)
    (henv : env.noError = true) (hc : c.GamerBufferIdle) :
    (c.attemptToEmptyOutBuf (RTMPClient.socketWrite env e)).2.sendOrder = c.sendOrder
      ∧ (c.attemptToEmptyOutBuf (RTMPClient.socketWrite env e)).2.GamerBufferIdle := by
  unfold RTMPClient.attemptToEmptyOutBuf
  split_ifs
  · exact ⟨rfl, hc⟩
  · exact ⟨rfl, hc⟩
  · refine ⟨?_, RTMPClient.socketWrite_idle env e c [] hc⟩
    show (RTMPClient.socketWrite env e c []).2.sendOrder = _
    rw [RTMPClient.socketWrite_sendOrder env e c [] henv (fun _ => rfl)]
    simp [RTMPClient.sendOrder]

theorem RTMPClient.endForceBufferWrite_sendOrder (env : SocketEnv) (c : RTMPClient)
    (henv : env.noError = true) (hc : c.GamerBufferIdle) :
    (c.endForceBufferWrite (RTMPClient.socketWrite env false)).sendOrder = c.sendOrder
      ∧ (c.endForceBufferWrite (RTMPClient.socketWrite env false)).GamerBufferIdle := by
  unfold RTMPClient.endForceBufferWrite
  simp only []
  split_ifs
  · exact ⟨rfl, hc⟩
  · have h := RTMPClient.attemptToEmptyOutBuf_sendOrder env false
      { c with bufferOutBufRef := c.bufferOutBufRef - 1 } henv hc
    exact ⟨h.1, h.2⟩
  · exact ⟨rfl, hc⟩

theorem RTMPClient.socketReadyForWrite_sendOrder (env : SocketEnv) (c : RTMPClient)
    (henv : env.noError = true) (hc : c.GamerBufferIdle) :
    (c.socketReadyForWrite (RTMPClient.socketWrite env true)).sendOrder = c.sendOrder
      ∧ (c.socketReadyForWrite (RTMPClient.socketWrite env true)).GamerBufferIdle := by
  unfold RTMPClient.socketReadyForWrite
  split_ifs
  · exact ⟨rfl, hc⟩
  · exact RTMPClient.attemptToEmptyOutBuf_sendOrder env true c henv hc

/-- The step of `gamerTickEvent` that takes the front of the gamer buffer
and hands it to `socketWrite`. -/
theorem RTMPClient.releaseFront_sendOrder (env : SocketEnv) (c : RTMPClient) (maxBytes : Int)
    (henv : env.noError = true) (hg : c.inGamerMode = true) (hs : c.gamerInSatMode = false) :
    (RTMPClient.socketWrite env false
        { c with
          gamerOutBuf :=
            if maxBytes ≥ (c.gamerOutBuf.length : Int) then []
            else c.gamerOutBuf.drop maxBytes.toNat }
        (if maxBytes ≥ (c.gamerOutBuf.length : Int) then c.gamerOutBuf
          else c.gamerOutBuf.take maxBytes.toNat)).2.sendOrder = c.sendOrder
      ∧ (RTMPClient.socketWrite env false
        { c with
          gamerOutBuf :=
            if maxBytes ≥ (c.gamerOutBuf.length : Int) then []
            else c.gamerOutBuf.drop maxBytes.toNat }
        (if maxBytes ≥ (c.gamerOutBuf.length : Int) then c.gamerOutBuf
          else c.gamerOutBuf.take maxBytes.toNat)).2.GamerBufferIdle := by
  refine ⟨?_, RTMPClient.socketWrite_idle env false _ _ (fun _ => ⟨hg, hs⟩)⟩
  rw [RTMPClient.socketWrite_sendOrder env false _ _ henv (by simp)]
  split_ifs
  · simp [RTMPClient.sendOrder]
  · simp [RTMPClient.sendOrder]

theorem RTMPClient.gamerTickEvent_sendOrder (env : SocketEnv) (tickFreq : Float32)
    (satModeExpired : Bool) (c : RTMPClient) (numDropped : Int) (after : RTMPClient)
    (henv : env.noError = true) (hc : c.GamerBufferIdle)
    (h : c.gamerTickEvent (RTMPClient.socketWrite env false) tickFreq satModeExpired numDropped
      = .ok after) :
    after.sendOrder = c.sendOrder ∧ after.GamerBufferIdle := by
  unfold RTMPClient.gamerTickEvent at h
  by_cases h1 : (!c.inGamerMode) = true
  · rw [if_pos h1] at h
    cases h; exact ⟨rfl, hc⟩
  rw [if_neg h1] at h
  have hg : c.inGamerMode = true := by simpa using h1
  by_cases h2 : (!c.isSocketConnected) = true
  · rw [if_pos h2] at h
    cases h; exact ⟨rfl, hc⟩
  rw [if_neg h2] at h
  have hconn : c.isSocketConnected = true := by simpa using h2
  by_cases h3 : c.willWriteBuffer = true
  · rw [if_pos h3] at h
    cases h; exact ⟨rfl, hc⟩
  rw [if_neg h3] at h
  by_cases h4 : c.gamerInSatMode = true ∧ 1 + numDropped ≥ 2 ^ 31
  · rw [if_pos h4] at h
    cases h
  rw [if_neg h4] at h
  by_cases h5 : (c.gamerInSatMode && !satModeExpired) = true
  · rw [if_pos h5] at h
    cases h; exact ⟨rfl, hc⟩
  rw [if_neg h5] at h
  obtain ⟨x, hx⟩ : ∃ x, x = (if c.gamerInSatMode = true then c.gamerExitSatMode else c) :=
    ⟨_, rfl⟩
  have hxs : x.gamerInSatMode = false ∧ x.inGamerMode = true ∧ x.sendOrder = c.sendOrder
      ∧ x.gamerOutBuf = c.gamerOutBuf := by
    rw [hx]
    split_ifs with hsat
    · unfold RTMPClient.gamerExitSatMode
      simp [hg, hsat, hconn, RTMPClient.sendOrder]
    · exact ⟨by simpa using hsat, hg, rfl, rfl⟩
  rw [← hx] at h
  simp only [] at h
  by_cases h6 : x.gamerOutBuf.isEmpty = true
  · rw [if_pos h6] at h
    cases h
    refine ⟨hxs.2.2.1, ?_⟩
    intro hne
    exact ⟨hxs.2.1, hxs.1⟩
  rw [if_neg h6] at h
  cases hmax : gamerMaxBytes x.gamerAvgUploadBytes tickFreq numDropped with
  | error e => rw [hmax] at h; cases h
  | ok maxBytes =>
    rw [hmax] at h
    simp only [Except.ok.injEq] at h
    rw [← h, ← hxs.2.2.1]
    exact RTMPClient.releaseFront_sendOrder env x maxBytes henv hxs.2.1 hxs.1

/-- One call on the send path puts the data that `write` has accepted in it
behind the data that was on the send path, and moves nothing else. -/
theorem RTMPClient.send_sendOrder (tickFreq : Float32) (fuel : Nat) (env : SocketEnv)
    (c : RTMPClient) (call : SendCall) (r : RTMPClient × QByteArray)
    (henv : env.noError = true) (hc : c.GamerBufferIdle)
    (h : c.send tickFreq fuel env call = .ok r) :
    r.1.sendOrder = c.sendOrder ++ r.2 ∧ r.1.GamerBufferIdle := by
  cases call with
  | write data =>
    simp only [RTMPClient.send, Except.ok.injEq] at h
    rw [← h]
    exact RTMPClient.write_sendOrder env c data henv hc
  | writeMessage m =>
    simp only [RTMPClient.send] at h
    cases hw : c.writeMessage (RTMPClient.socketWrite env false) m.streamId m.type m.timestamp
        m.msg m.csId fuel with
    | none => rw [hw] at h; cases h
    | some w =>
      rw [hw] at h
      simp only [Except.ok.injEq] at h
      rw [← h]
      exact RTMPClient.writeMessage_sendOrder env c m fuel w henv hc hw
  | beginForceBufferWrite =>
    simp only [RTMPClient.send] at h
    cases hbegin : c.beginForceBufferWrite with
    | error e => rw [hbegin] at h; cases h
    | ok c1 =>
      rw [hbegin] at h
      simp only [Except.ok.injEq] at h
      obtain ⟨hc1, -⟩ := RTMPClient.beginForceBufferWrite_ok c c1 hbegin
      rw [← h, hc1]
      exact ⟨by simp [RTMPClient.sendOrder], hc⟩
  | endForceBufferWrite =>
    simp only [RTMPClient.send, Except.ok.injEq] at h
    rw [← h]
    simp only [List.append_nil]
    exact RTMPClient.endForceBufferWrite_sendOrder env c henv hc
  | socketReadyForWrite =>
    simp only [RTMPClient.send, Except.ok.injEq] at h
    rw [← h]
    simp only [List.append_nil]
    exact RTMPClient.socketReadyForWrite_sendOrder env c henv hc
  | gamerTickEvent numDropped satModeExpired =>
    simp only [RTMPClient.send] at h
    cases ht : c.gamerTickEvent (RTMPClient.socketWrite env false) tickFreq satModeExpired
        numDropped with
    | error e => rw [ht] at h; cases h
    | ok after =>
      rw [ht] at h
      simp only [Except.ok.injEq] at h
      rw [← h]
      simp only [List.append_nil]
      exact RTMPClient.gamerTickEvent_sendOrder env tickFreq satModeExpired c numDropped after
        henv hc ht

theorem RTMPClient.sendAll_sendOrder (tickFreq : Float32) (fuel : Nat) :
    ∀ (steps : List (SendCall × SocketEnv)) (c : RTMPClient) (r : RTMPClient × QByteArray),
      (∀ step ∈ steps, step.2.noError = true) → c.GamerBufferIdle →
      c.sendAll tickFreq fuel steps = .ok r →
      r.1.sendOrder = c.sendOrder ++ r.2 ∧ r.1.GamerBufferIdle
  | [], c, r, _, hc, h => by
    simp only [RTMPClient.sendAll, Except.ok.injEq] at h
    rw [← h]
    exact ⟨by simp, hc⟩
  | (call, env) :: rest, c, r, henv, hc, h => by
    simp only [RTMPClient.sendAll] at h
    cases hfirst : c.send tickFreq fuel env call with
    | error e => rw [hfirst] at h; cases h
    | ok first =>
      rw [hfirst] at h
      simp only [] at h
      obtain ⟨h1, h1i⟩ := RTMPClient.send_sendOrder tickFreq fuel env c call first
        (henv (call, env) (by simp)) hc hfirst
      cases hmore : RTMPClient.sendAll tickFreq fuel first.1 rest with
      | error e => rw [hmore] at h; cases h
      | ok more =>
        rw [hmore] at h
        simp only [Except.ok.injEq] at h
        obtain ⟨h2, h2i⟩ := RTMPClient.sendAll_sendOrder tickFreq fuel rest first.1 more
          (fun step hstep => henv step (List.mem_cons_of_mem _ hstep)) h1i hmore
        rw [← h]
        exact ⟨by rw [h2, h1, List.append_assoc], h2i⟩

/-- Saturation mode is entered with the gamer buffer flushed. -/
theorem RTMPClient.socketWrite_saturated (env : SocketEnv) (e : Bool) (c : RTMPClient)
    (data : QByteArray) (hc : c.gamerInSatMode = true → c.gamerOutBuf = []) :
    (RTMPClient.socketWrite env e c data).2.gamerInSatMode = true →
      (RTMPClient.socketWrite env e c data).2.gamerOutBuf = [] := by
  refine RTMPClient.socketWriteWith_keeps
    (fun x => x.gamerInSatMode = true → x.gamerOutBuf = []) (fun _ _ _ h => h) _ ?_
    env.outer e c data hc
  intro x hx
  show (x.gamerEnterSatMode env.nested).gamerInSatMode = true →
    (x.gamerEnterSatMode env.nested).gamerOutBuf = []
  unfold RTMPClient.gamerEnterSatMode
  rcases RTMPClient.gamerEnterSatModeWith_cases _ x with ⟨h, _⟩ | ⟨h1, h⟩ | h <;> rw [h]
  · exact hx
  · intro _; exact h1
  · intro _
    exact RTMPClient.nestedWrite_gamerOutBuf _ env.nested false _ _ rfl

theorem take_of_maxBytes (l : QByteArray) (maxBytes : Int) :
    (if maxBytes ≥ (l.length : Int) then l else l.take maxBytes.toNat) = l.take maxBytes.toNat
      ∧ (if maxBytes ≥ (l.length : Int) then [] else l.drop maxBytes.toNat)
        = l.drop maxBytes.toNat := by
  split_ifs with h
  · have : l.length ≤ maxBytes.toNat := by omega
    exact ⟨(List.take_of_length_le this).symm, (List.drop_of_length_le this).symm⟩
  · exact ⟨rfl, rfl⟩

/-! ## The header format and the state `writeMessage` stores -/

theorem chooseFmt_cascade (state : ChunkStreamState) (streamId : Nat) (type : Int)
    (timestamp msgSize : Nat) (hts : timestamp < 2 ^ 32) :
    chooseFmt state streamId type timestamp msgSize
      = (if streamId ≠ state.msgStreamId ∨ timestamp = 0 ∨ timestamp < state.timestamp then 0
        else if msgSize ≠ state.msgLen ∨ type ≠ state.msgType then 1
        else if timestamp - state.timestamp ≠ state.timestampDelta then 2
        else 3) := by
  unfold chooseFmt
  by_cases h0 : streamId ≠ state.msgStreamId ∨ timestamp = 0 ∨ timestamp < state.timestamp
  · have h0' : timestamp = 0 ∨ timestamp < state.timestamp ∨ state.msgStreamId ≠ streamId := by
      rcases h0 with h | h | h
      · exact Or.inr (Or.inr (fun e => h e.symm))
      · exact Or.inl h
      · exact Or.inr (Or.inl h)
    simp only [if_pos h0, if_pos h0']
  · have h0' : ¬ (timestamp = 0 ∨ timestamp < state.timestamp ∨ state.msgStreamId ≠ streamId) := by
      intro h
      apply h0
      rcases h with h | h | h
      · exact Or.inr (Or.inl h)
      · exact Or.inr (Or.inr h)
      · exact Or.inl (fun e => h e.symm)
    simp only [if_neg h0, if_neg h0']
    have hle : state.timestamp ≤ timestamp := by
      by_contra hlt
      exact h0 (Or.inr (Or.inr (by omega)))
    have hsub : (timestamp + 2 ^ 32 - state.timestamp) % 2 ^ 32 = timestamp - state.timestamp := by
      have : timestamp + 2 ^ 32 - state.timestamp = (timestamp - state.timestamp) + 2 ^ 32 := by
        omega
      rw [this, Nat.add_mod_right, Nat.mod_eq_of_lt (by omega)]
    rw [hsub]
    by_cases h1 : msgSize ≠ state.msgLen ∨ type ≠ state.msgType
    · have h1' : state.msgLen ≠ msgSize ∨ state.msgType ≠ type := by
        rcases h1 with h | h
        · exact Or.inl (fun e => h e.symm)
        · exact Or.inr (fun e => h e.symm)
      simp only [if_pos h1, if_pos h1']
    · have h1' : ¬ (state.msgLen ≠ msgSize ∨ state.msgType ≠ type) := by
        intro h
        apply h1
        rcases h with h | h
        · exact Or.inl (fun e => h e.symm)
        · exact Or.inr (fun e => h e.symm)
      simp only [if_neg h1, if_neg h1']
      by_cases h2 : timestamp - state.timestamp ≠ state.timestampDelta
      · have h2' : state.timestampDelta ≠ timestamp - state.timestamp := fun e => h2 e.symm
        simp only [if_pos h2, if_pos h2']
      · have h2' : ¬ state.timestampDelta ≠ timestamp - state.timestamp := fun e =>
          h2 (fun e2 => e e2.symm)
        simp only [if_neg h2, if_neg h2']

theorem RTMPClient.initOutChunkStreamState_state (c : RTMPClient) (csId : Nat) :
    ((c.initOutChunkStreamState csId).2.outChunkStreams.value? csId).getD ChunkStreamState.init
      = (c.outChunkStreams.value? csId).getD ChunkStreamState.init := by
  unfold RTMPClient.initOutChunkStreamState
  by_cases h : c.outChunkStreams.contains csId = true
  · rw [if_pos h]
  · rw [if_neg h]
    have hf : c.outChunkStreams.contains csId = false := by simpa using h
    simp only [QHash.value?_set_self, Option.getD_some,
      QHash.value?_of_not_contains _ _ hf, Option.getD_none]

theorem messageHeader_timestamp (fmt : Nat) (state : ChunkStreamState) (streamId : Nat)
    (type : Int) (timestamp msgSize : Nat) :
    (messageHeader fmt state streamId type timestamp msgSize).1.timestamp
      = if fmt = 3 then state.timestamp else timestamp := by
  unfold messageHeader
  by_cases h1 : fmt = 1
  · subst h1; rfl
  · by_cases h2 : fmt = 2
    · subst h2; rfl
    · by_cases h3 : fmt = 3
      · subst h3; rfl
      · simp only [if_neg h1, if_neg h2, if_neg h3]

theorem writeChunks_last (outMaxChunkSize streamId : Nat) (type : Int) (timestamp : Nat)
    (msg : QByteArray) (csId : Nat) :
    ∀ (fuel fmt : Nat) (state : ChunkStreamState) (data : QByteArray) (last : ChunkStreamState),
      writeChunks fuel outMaxChunkSize fmt state streamId type timestamp msg csId
          = some (data, last) →
        last = { (messageHeader fmt state streamId type timestamp msg.length).1 with
          msgLenRemaining := 0 }
  | 0, _, _, _, _, h => by simp [writeChunks] at h
  | f + 1, fmt, state, data, last, h => by
    rw [writeChunks] at h
    simp only [messageHeader_msgLenRemaining] at h
    split_ifs at h with hrem
    · cases hrec : writeChunks f outMaxChunkSize 3
          { (messageHeader fmt state streamId type timestamp msg.length).1 with
            msgLenRemaining := state.msgLenRemaining - min state.msgLenRemaining outMaxChunkSize }
          streamId type timestamp msg csId with
      | none => rw [hrec] at h; simp at h
      | some r =>
        rw [hrec] at h
        simp only [Option.some.injEq, Prod.mk.injEq] at h
        have ih := writeChunks_last outMaxChunkSize streamId type timestamp msg csId f 3 _ r.1
          r.2 hrec
        rw [messageHeader_three] at ih
        rw [← h.2, ih]
    · simp only [Option.some.injEq, Prod.mk.injEq] at h
      rw [← h.2]
      have h0 : state.msgLenRemaining - min state.msgLenRemaining outMaxChunkSize = 0 := by
        omega
      rw [h0]

theorem writeChunks_zero (streamId : Nat) (type : Int) (timestamp : Nat) (msg : QByteArray)
    (csId : Nat) :
    ∀ (fuel fmt : Nat) (state : ChunkStreamState), 0 < state.msgLenRemaining →
      writeChunks fuel 0 fmt state streamId type timestamp msg csId = none
  | 0, _, _, _ => rfl
  | f + 1, fmt, state, h => by
    rw [writeChunks]
    simp only [messageHeader_msgLenRemaining, Nat.min_zero, Nat.sub_zero]
    rw [if_pos h]
    rw [writeChunks_zero streamId type timestamp msg csId f 3 _ (by simpa using h)]

theorem writeChunks_empty (outMaxChunkSize streamId : Nat) (type : Int) (timestamp : Nat)
    (msg : QByteArray) (csId fuel fmt : Nat) (state : ChunkStreamState)
    (h : state.msgLenRemaining = 0) :
    (writeChunks (fuel + 1) outMaxChunkSize fmt state streamId type timestamp msg csId).isSome
      = true := by
  rw [writeChunks]
  simp only [messageHeader_msgLenRemaining, h, Nat.zero_min, Nat.sub_zero, Nat.lt_irrefl,
    if_false, Option.isSome_some]

theorem RTMPClient.writeMessage_stored (socketWrite : SocketWrite) (c : RTMPClient)
    (streamId : Nat) (type : Int) (timestamp : Nat) (msg : QByteArray) (csId fuel : Nat)
    (after : RTMPClient)
    (h : c.writeMessage socketWrite streamId type timestamp msg csId fuel = some (true, after)) :
    after.outChunkStreams.value? csId
      = some { (messageHeader
          (chooseFmt ((c.outChunkStreams.value? csId).getD ChunkStreamState.init) streamId type
            timestamp msg.length)
          { (c.outChunkStreams.value? csId).getD ChunkStreamState.init with
            msgLenRemaining := msg.length }
          streamId type timestamp msg.length).1 with msgLenRemaining := 0 } := by
  unfold RTMPClient.writeMessage at h
  simp only [] at h
  by_cases hcs : csId > 65599 ∨ csId ≤ 1
  · rw [if_pos hcs] at h
    simp at h
  rw [if_neg hcs] at h
  cases hchunk : (c.initOutChunkStreamState csId).2.chunkMessage streamId type timestamp msg
      csId fuel with
  | none => rw [hchunk] at h; simp at h
  | some r =>
    rw [hchunk] at h
    simp only [] at h
    by_cases hw : (!((c.initOutChunkStreamState csId).2.write socketWrite r.1).1) = true
    · rw [if_pos hw] at h
      simp at h
    rw [if_neg hw] at h
    simp only [Option.some.injEq, Prod.mk.injEq, true_and] at h
    rw [← h]
    simp only [QHash.value?_set_self]
    unfold RTMPClient.chunkMessage at hchunk
    simp only [RTMPClient.initOutChunkStreamState_state] at hchunk
    rw [writeChunks_last _ _ _ _ _ _ _ _ _ r.1 r.2 hchunk]

theorem RTMPClient.writeMessage_zero (socketWrite : SocketWrite) (c : RTMPClient)
    (streamId : Nat) (type : Int) (timestamp : Nat) (msg : QByteArray) (csId fuel : Nat)
    (hzero : c.outMaxChunkSize = 0) (hmsg : msg ≠ []) (hcs : 2 ≤ csId ∧ csId ≤ 65599) :
    c.writeMessage socketWrite streamId type timestamp msg csId fuel = none := by
  have hvalid : ¬ (csId > 65599 ∨ csId ≤ 1) := by omega
  have hlen : 0 < msg.length := List.length_pos.mpr hmsg
  unfold RTMPClient.writeMessage
  simp only [hvalid, if_false]
  unfold RTMPClient.chunkMessage
  rw [RTMPClient.initOutChunkStreamState_outMaxChunkSize, hzero,
    writeChunks_zero streamId type timestamp msg csId fuel _ _ (by simpa using hlen)]

theorem RTMPClient.writeMessage_returns (socketWrite : SocketWrite) (c : RTMPClient)
    (streamId : Nat) (type : Int) (timestamp : Nat) (msg : QByteArray) (csId fuel : Nat)
    (hsize : 0 < c.outMaxChunkSize ∨ msg = []) (hfuel : msg.length < fuel) :
    ∃ r, c.writeMessage socketWrite streamId type timestamp msg csId fuel = some r := by
  rcases hsize with hmax | hnil
  · exact RTMPClient.writeMessage_isSome socketWrite c streamId type timestamp msg csId fuel hmax
      hfuel
  · subst hnil
    obtain ⟨f, rfl⟩ : ∃ f, fuel = f + 1 := ⟨fuel - 1, by simp at hfuel; omega⟩
    unfold RTMPClient.writeMessage
    simp only []
    split_ifs with hcs
    · exact ⟨_, rfl⟩
    · unfold RTMPClient.chunkMessage
      have hsome := writeChunks_empty (c.initOutChunkStreamState csId).2.outMaxChunkSize streamId
        type timestamp [] csId f
        (chooseFmt (((c.initOutChunkStreamState csId).2.outChunkStreams.value? csId).getD
          ChunkStreamState.init) streamId type timestamp ([] : QByteArray).length)
        { ((c.initOutChunkStreamState csId).2.outChunkStreams.value? csId).getD
            ChunkStreamState.init with msgLenRemaining := ([] : QByteArray).length } rfl
      cases hw : writeChunks (f + 1) (c.initOutChunkStreamState csId).2.outMaxChunkSize
          (chooseFmt (((c.initOutChunkStreamState csId).2.outChunkStreams.value? csId).getD
            ChunkStreamState.init) streamId type timestamp ([] : QByteArray).length)
          { ((c.initOutChunkStreamState csId).2.outChunkStreams.value? csId).getD
              ChunkStreamState.init with msgLenRemaining := ([] : QByteArray).length }
          streamId type timestamp [] csId with
      | none => rw [hw] at hsome; simp at hsome
      | some r =>
        simp only []
        split_ifs <;> exact ⟨_, rfl⟩

theorem RTMPClient.chunkMessage_first (c : RTMPClient) (streamId : Nat) (type : Int)
    (timestamp : Nat) (msg : QByteArray) (csId fuel : Nat) (hcs : 2 ≤ csId ∧ csId ≤ 65599)
    (hmax : 0 < c.outMaxChunkSize) (hfuel : msg.length < fuel) :
    ∃ data last more,
      (c.initOutChunkStreamState csId).2.chunkMessage streamId type timestamp msg csId fuel
        = some (data, last)
      ∧ data = basicHeader
            (chooseFmt ((c.outChunkStreams.value? csId).getD ChunkStreamState.init) streamId type
              timestamp msg.length) csId
          ++ (messageHeader
              (chooseFmt ((c.outChunkStreams.value? csId).getD ChunkStreamState.init) streamId
                type timestamp msg.length)
              { (c.outChunkStreams.value? csId).getD ChunkStreamState.init with
                msgLenRemaining := msg.length }
              streamId type timestamp msg.length).2
          ++ msg.take (min msg.length c.outMaxChunkSize) ++ more
      ∧ ∀ socketWrite : SocketWrite,
          (c.writeMessage socketWrite streamId type timestamp msg csId fuel).map (fun r => r.1)
            = some ((c.initOutChunkStreamState csId).2.write socketWrite data).1 := by
  have hvalid : ¬ (csId > 65599 ∨ csId ≤ 1) := by omega
  have hwrite : ∀ (socketWrite : SocketWrite) (data : QByteArray) (last : ChunkStreamState),
      (c.initOutChunkStreamState csId).2.chunkMessage streamId type timestamp msg csId fuel
        = some (data, last) →
      (c.writeMessage socketWrite streamId type timestamp msg csId fuel).map (fun r => r.1)
        = some ((c.initOutChunkStreamState csId).2.write socketWrite data).1 := by
    intro socketWrite data last h
    unfold RTMPClient.writeMessage
    simp only [hvalid, if_false, h]
    cases ((c.initOutChunkStreamState csId).2.write socketWrite data).1 <;> simp
  revert hwrite
  unfold RTMPClient.chunkMessage
  simp only [RTMPClient.initOutChunkStreamState_state,
    RTMPClient.initOutChunkStreamState_outMaxChunkSize]
  generalize (c.outChunkStreams.value? csId).getD ChunkStreamState.init = state
  have hsome := writeChunks_isSome c.outMaxChunkSize hmax streamId type timestamp msg csId fuel
    (chooseFmt state streamId type timestamp msg.length)
    { state with msgLenRemaining := msg.length } hfuel
  cases hw : writeChunks fuel c.outMaxChunkSize
      (chooseFmt state streamId type timestamp msg.length)
      { state with msgLenRemaining := msg.length } streamId type timestamp msg csId with
  | none => rw [hw] at hsome; simp at hsome
  | some r =>
    intro hwrite
    obtain ⟨more, hmore⟩ := writeChunks_first _ _ _ _ _ _ _ _ _ r.1 r.2 hw
    refine ⟨r.1, r.2, more, rfl, ?_, fun socketWrite => hwrite socketWrite r.1 r.2 rfl⟩
    simpa using hmore

/-! ## The read path, case by case -/

theorem RTMPClient.initInChunkStreamState_state (c : RTMPClient) (csId : Nat) :
    ((c.initInChunkStreamState csId).2.inChunkStreams.value? csId).getD ChunkStreamState.init
      = (c.inChunkStreams.value? csId).getD ChunkStreamState.init := by
  unfold RTMPClient.initInChunkStreamState
  by_cases h : c.inChunkStreams.contains csId = true
  · rw [if_pos h]
  · rw [if_neg h]
    have hf : c.inChunkStreams.contains csId = false := by simpa using h
    simp only [QHash.value?_set_self, Option.getD_some,
      QHash.value?_of_not_contains _ _ hf, Option.getD_none]

theorem RTMPClient.initInChunkStreamState_idem (c : RTMPClient) (csId : Nat) :
    ((c.initInChunkStreamState csId).2.initInChunkStreamState csId).2
      = (c.initInChunkStreamState csId).2 := by
  by_cases h : c.inChunkStreams.contains csId = true
  · have h1 : (c.initInChunkStreamState csId).2 = c := by
      unfold RTMPClient.initInChunkStreamState
      rw [if_pos h]
    rw [h1, h1]
  · have hf : c.inChunkStreams.contains csId = false := by simpa using h
    have h2 : (c.initInChunkStreamState csId).2.inChunkStreams.contains csId = true := by
      unfold RTMPClient.initInChunkStreamState
      rw [if_neg h]
      exact QHash.contains_set_self _ _ _
    generalize (c.initInChunkStreamState csId).2 = d at h2
    unfold RTMPClient.initInChunkStreamState
    rw [if_pos h2]

/-- The four ways in which `readChunkFromSocket` returns: for want of a
basic header, for want of a message header, for want of the payload, or with
the chunk read. -/
theorem RTMPClient.readChunkFromSocket_cases (signedChar : Bool) (socketWrite : SocketWrite)
    (processMessage : ProcessMessage) (c : RTMPClient) (buffer : QByteArray) (fuel : Nat) :
    (decodeBasicHeader signedChar (buffer.take (3 + 11 + 4)) = none
      ∧ c.readChunkFromSocket signedChar socketWrite processMessage buffer fuel
        = some (false, c, buffer))
    ∨ ∃ fmt csId basicSize,
      decodeBasicHeader signedChar (buffer.take (3 + 11 + 4)) = some (fmt, csId, basicSize)
      ∧ ((decodeMessageHeader signedChar c.inMaxChunkSize (buffer.take (3 + 11 + 4)) fmt basicSize
            ((c.inChunkStreams.value? csId).getD ChunkStreamState.init) = none
          ∧ c.readChunkFromSocket signedChar socketWrite processMessage buffer fuel
            = some (false, (c.initInChunkStreamState csId).2, buffer))
        ∨ ∃ state dataStart chunkLen,
          decodeMessageHeader signedChar c.inMaxChunkSize (buffer.take (3 + 11 + 4)) fmt
              basicSize ((c.inChunkStreams.value? csId).getD ChunkStreamState.init)
            = some (state, dataStart, chunkLen)
          ∧ ((buffer.length < dataStart + chunkLen
              ∧ c.readChunkFromSocket signedChar socketWrite processMessage buffer fuel
                = some (false, (c.initInChunkStreamState csId).2, buffer))
            ∨ (dataStart + chunkLen ≤ buffer.length
              ∧ ∃ stored counted,
                stored = { state with
                    msg := (if fmt ≠ 3 then [] else state.msg)
                      ++ (buffer.drop dataStart).take chunkLen,
                    msgLenRemaining := state.msgLenRemaining - chunkLen }
                ∧ counted = { (c.initInChunkStreamState csId).2 with
                    inChunkStreams :=
                      (c.initInChunkStreamState csId).2.inChunkStreams.set csId stored,
                    inBytesSinceHandshake :=
                      (c.inBytesSinceHandshake + (dataStart + chunkLen)) % 2 ^ 32,
                    inBytesSinceLastAck :=
                      (c.inBytesSinceLastAck + (dataStart + chunkLen)) % 2 ^ 32 }
                ∧ c.readChunkFromSocket signedChar socketWrite processMessage buffer fuel
                  = match (if counted.inBytesSinceLastAck ≥ counted.inAckWinSize then
                        match counted.writeAcknowledge socketWrite fuel with
                        | none => none
                        | some r => some { r.2 with inBytesSinceLastAck := 0 }
                      else some counted) with
                    | none => none
                    | some acked =>
                      some (true,
                        if stored.msgLenRemaining ≤ 0 then
                          processMessage
                            { acked with processed := acked.processed
                              ++ [⟨stored.msgStreamId, stored.msgType, stored.timestamp,
                                stored.msg⟩] }
                            stored.msgStreamId stored.msgType stored.timestamp stored.msg
                        else acked,
                        buffer.drop (dataStart + chunkLen))))) := by
  have hf := RTMPClient.initInChunkStreamState_frame c
  cases hbasic : decodeBasicHeader signedChar (buffer.take (3 + 11 + 4)) with
  | none =>
    refine Or.inl ⟨rfl, ?_⟩
    unfold RTMPClient.readChunkFromSocket
    simp only [hbasic]
  | some b =>
    obtain ⟨fmt, csId, basicSize⟩ := b
    refine Or.inr ⟨fmt, csId, basicSize, rfl, ?_⟩
    cases hheader : decodeMessageHeader signedChar c.inMaxChunkSize (buffer.take (3 + 11 + 4))
        fmt basicSize ((c.inChunkStreams.value? csId).getD ChunkStreamState.init) with
    | none =>
      refine Or.inl ⟨rfl, ?_⟩
      unfold RTMPClient.readChunkFromSocket
      simp only [hbasic, (hf csId).1, RTMPClient.initInChunkStreamState_state, hheader]
    | some r =>
      obtain ⟨state, dataStart, chunkLen⟩ := r
      refine Or.inr ⟨state, dataStart, chunkLen, rfl, ?_⟩
      by_cases hlen : buffer.length < dataStart + chunkLen
      · refine Or.inl ⟨hlen, ?_⟩
        unfold RTMPClient.readChunkFromSocket
        simp only [hbasic, (hf csId).1, RTMPClient.initInChunkStreamState_state, hheader, hlen,
          if_true]
      · refine Or.inr ⟨by omega, _, _, rfl, rfl, ?_⟩
        unfold RTMPClient.readChunkFromSocket
        simp only [hbasic, (hf csId).1, (hf csId).2.2.1, (hf csId).2.2.2.1, RTMPClient.initInChunkStreamState_state,
          hheader, hlen, if_false, List.drop_drop]
        by_cases h3 : fmt ≠ 3
        · simp only [h3, if_true, ne_eq, not_false_eq_true]
          split <;> rename_i hack
          · rw [hack]
          · rw [hack]
            split_ifs <;> rfl
        · simp only [h3, if_false]
          split <;> rename_i hack
          · rw [hack]
          · rw [hack]
            split_ifs <;> rfl

theorem decodeBasicHeader_bounds (signedChar : Bool) (header : QByteArray)
    (fmt csId basicSize : Nat)
    (h : decodeBasicHeader signedChar header = some (fmt, csId, basicSize)) :
    1 ≤ basicSize ∧ basicSize ≤ header.length ∧ fmt < 4 := by
  unfold decodeBasicHeader at h
  simp only [] at h
  split_ifs at h <;> simp only [Option.some.injEq, Prod.mk.injEq, reduceCtorEq] at h <;>
    (obtain ⟨rfl, -, rfl⟩ := h; refine ⟨by omega, by omega, by omega⟩)

theorem decodeMessageHeader_dataStart (signedChar : Bool) (inMaxChunkSize : Nat)
    (header : QByteArray) (fmt basicSize : Nat) (old state : ChunkStreamState)
    (dataStart chunkLen : Nat)
    (h : decodeMessageHeader signedChar inMaxChunkSize header fmt basicSize old
      = some (state, dataStart, chunkLen)) :
    basicSize ≤ dataStart := by
  unfold decodeMessageHeader at h
  simp only [] at h
  split_ifs at h <;> simp only [Option.some.injEq, Prod.mk.injEq, reduceCtorEq] at h <;>
    (obtain ⟨-, rfl, -⟩ := h; omega)

/-- A call of `readChunkFromSocket` that returns true has read a whole
chunk: what it decoded, stored and counted, and where it leaves the buffer. -/
theorem RTMPClient.readChunkFromSocket_true (signedChar : Bool) (socketWrite : SocketWrite)
    (processMessage : ProcessMessage) (c : RTMPClient) (buffer : QByteArray) (fuel : Nat)
    (final : RTMPClient) (rest : QByteArray)
    (h : c.readChunkFromSocket signedChar socketWrite processMessage buffer fuel
      = some (true, final, rest)) :
    ∃ fmt csId basicSize state dataStart chunkLen stored counted acked,
      decodeBasicHeader signedChar (buffer.take (3 + 11 + 4)) = some (fmt, csId, basicSize)
      ∧ decodeMessageHeader signedChar c.inMaxChunkSize (buffer.take (3 + 11 + 4)) fmt
          basicSize ((c.inChunkStreams.value? csId).getD ChunkStreamState.init)
        = some (state, dataStart, chunkLen)
      ∧ dataStart + chunkLen ≤ buffer.length
      ∧ stored = { state with
          msg := (if fmt ≠ 3 then [] else state.msg) ++ (buffer.drop dataStart).take chunkLen,
          msgLenRemaining := state.msgLenRemaining - chunkLen }
      ∧ counted = { (c.initInChunkStreamState csId).2 with
          inChunkStreams := (c.initInChunkStreamState csId).2.inChunkStreams.set csId stored,
          inBytesSinceHandshake := (c.inBytesSinceHandshake + (dataStart + chunkLen)) % 2 ^ 32,
          inBytesSinceLastAck := (c.inBytesSinceLastAck + (dataStart + chunkLen)) % 2 ^ 32 }
      ∧ (acked = counted
        ∨ ∃ r, counted.writeAcknowledge socketWrite fuel = some r
          ∧ acked = { r.2 with inBytesSinceLastAck := 0 })
      ∧ final = (if stored.msgLenRemaining ≤ 0 then
          processMessage
            { acked with processed := acked.processed
              ++ [⟨stored.msgStreamId, stored.msgType, stored.timestamp, stored.msg⟩] }
            stored.msgStreamId stored.msgType stored.timestamp stored.msg
        else acked)
      ∧ rest = buffer.drop (dataStart + chunkLen) := by
  rcases RTMPClient.readChunkFromSocket_cases signedChar socketWrite processMessage c buffer fuel
    with ⟨-, hres⟩ | ⟨fmt, csId, basicSize, hbasic, hrest⟩
  · rw [hres] at h
    simp at h
  rcases hrest with ⟨-, hres⟩ | ⟨state, dataStart, chunkLen, hheader, hrest⟩
  · rw [hres] at h
    simp at h
  rcases hrest with ⟨-, hres⟩ | ⟨hwhole, stored, counted, hstored, hcounted, hres⟩
  · rw [hres] at h
    simp at h
  rw [hres] at h
  by_cases hwin : counted.inBytesSinceLastAck ≥ counted.inAckWinSize
  · rw [if_pos hwin] at h
    cases hack : counted.writeAcknowledge socketWrite fuel with
    | none => rw [hack] at h; simp at h
    | some r =>
      rw [hack] at h
      simp only [Option.some.injEq, Prod.mk.injEq, true_and] at h
      exact ⟨fmt, csId, basicSize, state, dataStart, chunkLen, stored, counted,
        { r.2 with inBytesSinceLastAck := 0 }, hbasic, hheader, hwhole, hstored, hcounted,
        Or.inr ⟨r, hack, rfl⟩, h.1.symm, h.2.symm⟩
  · rw [if_neg hwin] at h
    simp only [Option.some.injEq, Prod.mk.injEq, true_and] at h
    exact ⟨fmt, csId, basicSize, state, dataStart, chunkLen, stored, counted, counted, hbasic,
      hheader, hwhole, hstored, hcounted, Or.inl rfl, h.1.symm, h.2.symm⟩

/-- A call of `readChunkFromSocket` that returns false leaves the buffer as
it was, and the session too, but for the state it may have created for the
chunk stream named by the basic header. -/
theorem RTMPClient.readChunkFromSocket_false (signedChar : Bool) (socketWrite : SocketWrite)
    (processMessage : ProcessMessage) (c : RTMPClient) (buffer : QByteArray) (fuel : Nat)
    (after : RTMPClient) (rest : QByteArray)
    (h : c.readChunkFromSocket signedChar socketWrite processMessage buffer fuel
      = some (false, after, rest)) :
    rest = buffer
    ∧ (after = c
      ∨ ∃ fmt csId basicSize,
        decodeBasicHeader signedChar (buffer.take (3 + 11 + 4)) = some (fmt, csId, basicSize)
        ∧ after = (c.initInChunkStreamState csId).2) := by
  rcases RTMPClient.readChunkFromSocket_cases signedChar socketWrite processMessage c buffer fuel
    with ⟨-, hres⟩ | ⟨fmt, csId, basicSize, hbasic, hrest⟩
  · rw [hres] at h
    simp only [Option.some.injEq, Prod.mk.injEq, true_and] at h
    exact ⟨h.2.symm, Or.inl h.1.symm⟩
  rcases hrest with ⟨-, hres⟩ | ⟨state, dataStart, chunkLen, hheader, hrest⟩
  · rw [hres] at h
    simp only [Option.some.injEq, Prod.mk.injEq, true_and] at h
    exact ⟨h.2.symm, Or.inr ⟨fmt, csId, basicSize, hbasic, h.1.symm⟩⟩
  rcases hrest with ⟨-, hres⟩ | ⟨hwhole, stored, counted, hstored, hcounted, hres⟩
  · rw [hres] at h
    simp only [Option.some.injEq, Prod.mk.injEq, true_and] at h
    exact ⟨h.2.symm, Or.inr ⟨fmt, csId, basicSize, hbasic, h.1.symm⟩⟩
  rw [hres] at h
  split at h
  · simp at h
  · simp at h

theorem RTMPClient.readChunkFromSocket_consumes (signedChar : Bool)
    (socketWrite : SocketWrite) (processMessage : ProcessMessage) (c : RTMPClient)
    (buffer : QByteArray) (fuel : Nat) (final : RTMPClient) (rest : QByteArray)
    (h : c.readChunkFromSocket signedChar socketWrite processMessage buffer fuel
      = some (true, final, rest)) :
    ∃ n, 1 ≤ n ∧ n ≤ buffer.length ∧ rest = buffer.drop n := by
  obtain ⟨fmt, csId, basicSize, state, dataStart, chunkLen, stored, counted, acked, hbasic,
    hheader, hwhole, -, -, -, -, hrest⟩ :=
    RTMPClient.readChunkFromSocket_true signedChar socketWrite processMessage c buffer fuel
      final rest h
  have h1 := (decodeBasicHeader_bounds signedChar _ fmt csId basicSize hbasic).1
  have h2 := decodeMessageHeader_dataStart signedChar _ _ fmt basicSize _ state dataStart
    chunkLen hheader
  exact ⟨dataStart + chunkLen, by omega, hwhole, hrest⟩

theorem RTMPClient.readChunkFromSocket_isSome (signedChar : Bool) (socketWrite : SocketWrite)
    (processMessage : ProcessMessage) (c : RTMPClient) (buffer : QByteArray) (fuel : Nat)
    (hmax : 0 < c.outMaxChunkSize) (hfuel : 4 < fuel) :
    ∃ r, c.readChunkFromSocket signedChar socketWrite processMessage buffer fuel = some r := by
  rcases RTMPClient.readChunkFromSocket_cases signedChar socketWrite processMessage c buffer fuel
    with ⟨-, hres⟩ | ⟨fmt, csId, basicSize, hbasic, hrest⟩
  · exact ⟨_, hres⟩
  rcases hrest with ⟨-, hres⟩ | ⟨state, dataStart, chunkLen, hheader, hrest⟩
  · exact ⟨_, hres⟩
  rcases hrest with ⟨-, hres⟩ | ⟨hwhole, stored, counted, hstored, hcounted, hres⟩
  · exact ⟨_, hres⟩
  rw [hres]
  have hmax' : 0 < counted.outMaxChunkSize := by
    rw [hcounted]
    exact (RTMPClient.initInChunkStreamState_frame c csId).2.1 ▸ hmax
  obtain ⟨r, hr⟩ := RTMPClient.writeMessage_isSome socketWrite counted 0 AckMsgType 0
    (amfEncodeUInt32 counted.inBytesSinceHandshake) 2 fuel hmax'
    (by simpa [amfEncodeUInt32] using hfuel)
  have hack : counted.writeAcknowledge socketWrite fuel = some r := hr
  rw [hack]
  split_ifs <;> exact ⟨_, rfl⟩

/-- The session after a chunk has been read keeps the output chunk size,
when the dispatch keeps it. -/
theorem RTMPClient.readChunkFromSocket_outMaxChunkSize (signedChar : Bool)
    (socketWrite : SocketWrite) (hsw : socketWrite.Local) (processMessage : ProcessMessage)
    (hproc : ∀ (s : RTMPClient) (streamId : Nat) (type : Int) (timestamp : Nat)
      (msg : QByteArray),
      (processMessage s streamId type timestamp msg).outMaxChunkSize = s.outMaxChunkSize)
    (c : RTMPClient) (buffer : QByteArray) (fuel : Nat) (r : Bool × RTMPClient × QByteArray)
    (h : c.readChunkFromSocket signedChar socketWrite processMessage buffer fuel = some r) :
    r.2.1.outMaxChunkSize = c.outMaxChunkSize := by
  obtain ⟨b, after, rest⟩ := r
  cases b with
  | false =>
    obtain ⟨-, hafter⟩ := RTMPClient.readChunkFromSocket_false signedChar socketWrite
      processMessage c buffer fuel after rest h
    rcases hafter with rfl | ⟨fmt, csId, basicSize, -, rfl⟩
    · rfl
    · exact (RTMPClient.initInChunkStreamState_frame c csId).2.1
  | true =>
    obtain ⟨fmt, csId, basicSize, state, dataStart, chunkLen, stored, counted, acked, -, -, -,
      -, hcounted, hacked, hfinal, -⟩ :=
      RTMPClient.readChunkFromSocket_true signedChar socketWrite processMessage c buffer fuel
        after rest h
    have hc : counted.outMaxChunkSize = c.outMaxChunkSize := by
      rw [hcounted]
      exact (RTMPClient.initInChunkStreamState_frame c csId).2.1
    have ha : acked.outMaxChunkSize = c.outMaxChunkSize := by
      rcases hacked with rfl | ⟨r, hr, rfl⟩
      · exact hc
      · have hframe := RTMPClient.writeMessage_frame socketWrite hsw counted 0 AckMsgType 0
          (amfEncodeUInt32 counted.inBytesSinceHandshake) 2 fuel r hr
        exact (congrArg RTMPClient.outMaxChunkSize hframe).trans hc
    show after.outMaxChunkSize = c.outMaxChunkSize
    rw [hfinal]
    split_ifs
    · rw [hproc]
      exact ha
    · exact ha

/-- With an output chunk size above zero the loop of `processSocketData`
ends within as many turns as the buffer has bytes, and one more; four further
units of fuel cover the acknowledgement a turn may write. -/
theorem RTMPClient.readChunks_isSome (signedChar : Bool) (socketWrite : SocketWrite)
    (hsw : socketWrite.Local) (processMessage : ProcessMessage)
    (hproc : ∀ (s : RTMPClient) (streamId : Nat) (type : Int) (timestamp : Nat)
      (msg : QByteArray),
      (processMessage s streamId type timestamp msg).outMaxChunkSize = s.outMaxChunkSize) :
    ∀ (fuel : Nat) (c : RTMPClient) (buffer : QByteArray), 0 < c.outMaxChunkSize →
      buffer.length + 4 < fuel →
      ∃ final rest, c.readChunks signedChar socketWrite processMessage fuel buffer
          = some (final, rest)
        ∧ rest.length ≤ buffer.length
  | 0, _, _, _, h => by omega
  | fuel + 1, c, buffer, hmax, hfuel => by
    obtain ⟨r, hr⟩ := RTMPClient.readChunkFromSocket_isSome signedChar socketWrite
      processMessage c buffer (fuel + 1) hmax (by omega)
    have hout := RTMPClient.readChunkFromSocket_outMaxChunkSize signedChar socketWrite hsw
      processMessage hproc c buffer (fuel + 1) r hr
    obtain ⟨b, after, rest⟩ := r
    rw [RTMPClient.readChunks, hr]
    cases b with
    | false =>
      obtain ⟨hrest, -⟩ := RTMPClient.readChunkFromSocket_false signedChar socketWrite
        processMessage c buffer (fuel + 1) after rest hr
      exact ⟨after, rest, rfl, by rw [hrest]⟩
    | true =>
      obtain ⟨n, hn1, hn2, hrest⟩ := RTMPClient.readChunkFromSocket_consumes signedChar
        socketWrite processMessage c buffer (fuel + 1) after rest hr
      have hlen : rest.length < buffer.length := by
        rw [hrest, List.length_drop]
        omega
      obtain ⟨final, rest2, h2, hle⟩ := RTMPClient.readChunks_isSome signedChar socketWrite
        hsw processMessage hproc fuel after rest (by rw [hout]; exact hmax) (by omega)
      exact ⟨final, rest2, h2, by omega⟩

theorem decodeBasicHeader_append (signedChar : Bool) (header extra : QByteArray)
    (r : Nat × Nat × Nat) (h : decodeBasicHeader signedChar header = some r) :
    decodeBasicHeader signedChar (header ++ extra) = some r := by
  unfold decodeBasicHeader at h ⊢
  simp only [] at h ⊢
  by_cases h1 : header.length < 1
  · rw [if_pos h1] at h
    cases h
  have l1 : ¬ (header ++ extra).length < 1 := by rw [List.length_append]; omega
  have g0 : (header ++ extra).getD 0 0 = header.getD 0 0 :=
    List.getD_append _ _ _ _ (by omega)
  rw [if_neg h1] at h
  rw [if_neg l1, g0]
  by_cases c0 : header.getD 0 0 % 64 = 0
  · rw [if_pos c0] at h ⊢
    by_cases h2 : header.length < 2
    · rw [if_pos h2] at h
      cases h
    have l2 : ¬ (header ++ extra).length < 2 := by rw [List.length_append]; omega
    have g1 : (header ++ extra).getD 1 0 = header.getD 1 0 :=
      List.getD_append _ _ _ _ (by omega)
    rw [if_neg h2] at h
    rw [if_neg l2, g1]
    exact h
  · rw [if_neg c0] at h ⊢
    by_cases c1 : header.getD 0 0 % 64 = 1
    · rw [if_pos c1] at h ⊢
      by_cases h3 : header.length < 3
      · rw [if_pos h3] at h
        cases h
      have l3 : ¬ (header ++ extra).length < 3 := by rw [List.length_append]; omega
      have g1 : (header ++ extra).getD 1 0 = header.getD 1 0 :=
        List.getD_append _ _ _ _ (by omega)
      have g2 : (header ++ extra).getD 2 0 = header.getD 2 0 :=
        List.getD_append _ _ _ _ (by omega)
      rw [if_neg h3] at h
      rw [if_neg l3, g1, g2]
      exact h
    · rw [if_neg c1] at h ⊢
      exact h

/-- The basic header decoded from a buffer is decoded from every buffer
that starts with the same bytes. -/
theorem decodeBasicHeader_take_append (signedChar : Bool) (buffer more : QByteArray)
    (r : Nat × Nat × Nat)
    (h : decodeBasicHeader signedChar (buffer.take (3 + 11 + 4)) = some r) :
    decodeBasicHeader signedChar ((buffer ++ more).take (3 + 11 + 4)) = some r := by
  rw [List.take_append_eq_append_take]
  exact decodeBasicHeader_append signedChar _ _ r h

theorem RTMPClient.readChunkFromSocket_initIn (signedChar : Bool) (socketWrite : SocketWrite)
    (processMessage : ProcessMessage) (c : RTMPClient) (buffer : QByteArray)
    (fuel fmt csId basicSize : Nat)
    (hbasic : decodeBasicHeader signedChar (buffer.take (3 + 11 + 4))
      = some (fmt, csId, basicSize)) :
    (c.initInChunkStreamState csId).2.readChunkFromSocket signedChar socketWrite processMessage
        buffer fuel
      = c.readChunkFromSocket signedChar socketWrite processMessage buffer fuel := by
  unfold RTMPClient.readChunkFromSocket
  simp only [hbasic, RTMPClient.initInChunkStreamState_idem]

/-- After a call that returned false, reading a buffer that starts with the
bytes the call has seen goes as it does from the session before the call. -/
theorem RTMPClient.readChunkFromSocket_retry (signedChar : Bool) (socketWrite : SocketWrite)
    (processMessage : ProcessMessage) (c : RTMPClient) (buffer : QByteArray) (fuel : Nat)
    (after : RTMPClient) (rest : QByteArray)
    (h : c.readChunkFromSocket signedChar socketWrite processMessage buffer fuel
      = some (false, after, rest)) (more : QByteArray) (fuel2 : Nat) :
    after.readChunkFromSocket signedChar socketWrite processMessage (buffer ++ more) fuel2
      = c.readChunkFromSocket signedChar socketWrite processMessage (buffer ++ more) fuel2 := by
  obtain ⟨-, hafter⟩ := RTMPClient.readChunkFromSocket_false signedChar socketWrite
    processMessage c buffer fuel after rest h
  rcases hafter with rfl | ⟨fmt, csId, basicSize, hbasic, rfl⟩
  · rfl
  · exact RTMPClient.readChunkFromSocket_initIn signedChar socketWrite processMessage c
      (buffer ++ more) fuel2 fmt csId basicSize
      (decodeBasicHeader_take_append signedChar buffer more _ hbasic)

theorem RTMPClient.initInChunkStreamState_known (c : RTMPClient) (csId id : Nat)
    (hknown : c.inChunkStreams.contains id = true) :
    (c.initInChunkStreamState csId).2.inChunkStreams.value? id = c.inChunkStreams.value? id := by
  unfold RTMPClient.initInChunkStreamState
  by_cases h : c.inChunkStreams.contains csId = true
  · rw [if_pos h]
  · rw [if_neg h]
    have hne : csId ≠ id := by
      intro e
      rw [e] at h
      exact h hknown
    exact QHash.value?_set_of_ne _ _ _ _ hne

theorem decodeMessageHeader_fields (signedChar : Bool) (inMaxChunkSize : Nat)
    (header : QByteArray) (fmt basicSize : Nat) (old state : ChunkStreamState)
    (dataStart chunkLen : Nat)
    (h : decodeMessageHeader signedChar inMaxChunkSize header fmt basicSize old
      = some (state, dataStart, chunkLen)) :
    (fmt = 0 →
      state.timestamp
          = (if amfDecodeUInt24 ((headerData header).offset basicSize) ≥ 0xFFFFFF then
              amfDecodeUInt32 ((headerData header).offset (basicSize + 11))
            else amfDecodeUInt24 ((headerData header).offset basicSize))
        ∧ state.timestampDelta = state.timestamp
        ∧ state.msgLen = amfDecodeUInt24 ((headerData header).offset (basicSize + 3))
        ∧ state.msgType = charToEnum signedChar (headerData header (basicSize + 6))
        ∧ state.msgStreamId = decodeLEUInt32 ((headerData header).offset (basicSize + 7))
        ∧ state.msgLenRemaining = state.msgLen
        ∧ dataStart = basicSize
            + (if amfDecodeUInt24 ((headerData header).offset basicSize) ≥ 0xFFFFFF then 15
              else 11)
        ∧ chunkLen = min state.msgLen inMaxChunkSize)
    ∧ (fmt = 1 →
      state.timestampDelta = amfDecodeUInt24 ((headerData header).offset basicSize)
        ∧ state.timestamp = (old.timestamp + state.timestampDelta) % 2 ^ 32
        ∧ state.msgLen = amfDecodeUInt24 ((headerData header).offset (basicSize + 3))
        ∧ state.msgType = charToEnum signedChar (headerData header (basicSize + 6))
        ∧ state.msgStreamId = old.msgStreamId)
    ∧ (fmt = 2 →
      state.timestampDelta = amfDecodeUInt24 ((headerData header).offset basicSize)
        ∧ state.timestamp = (old.timestamp + state.timestampDelta) % 2 ^ 32
        ∧ state.msgLen = old.msgLen ∧ state.msgType = old.msgType
        ∧ state.msgStreamId = old.msgStreamId)
    ∧ (fmt = 3 →
      state.timestampDelta = old.timestampDelta
        ∧ state.msgLen = old.msgLen ∧ state.msgType = old.msgType
        ∧ state.msgStreamId = old.msgStreamId
        ∧ state.timestamp
          = (if old.msgLenRemaining = 0 then (old.timestamp + old.timestampDelta) % 2 ^ 32
            else old.timestamp)) := by
  refine ⟨fun hf => ?_, fun hf => ?_, fun hf => ?_, fun hf => ?_⟩ <;> subst hf <;>
    unfold decodeMessageHeader at h <;>
    simp only [OfNat.ofNat_ne_one, OfNat.zero_ne_ofNat, OfNat.ofNat_ne_zero, if_false, if_true,
      Nat.succ_ne_self, reduceCtorEq] at h
  · split_ifs at h with h1 h2 h3 <;>
      simp only [Option.some.injEq, Prod.mk.injEq, reduceCtorEq] at h <;>
      obtain ⟨rfl, rfl, rfl⟩ := h <;>
      first
        | (simp_all; done)
        | (simp_all
           rw [if_neg (by omega), if_neg (by omega)]
           exact ⟨rfl, rfl⟩)
  · split_ifs at h
    simp only [Option.some.injEq, Prod.mk.injEq, reduceCtorEq] at h
    obtain ⟨rfl, rfl, rfl⟩ := h
    simp
  · split_ifs at h <;>
      simp only [Option.some.injEq, Prod.mk.injEq, reduceCtorEq] at h <;>
      obtain ⟨rfl, rfl, rfl⟩ := h <;> simp
  · split_ifs at h with h1 <;>
      simp only [Option.some.injEq, Prod.mk.injEq, reduceCtorEq] at h <;>
      obtain ⟨rfl, rfl, rfl⟩ := h
    · have h0 : ¬ old.msgLenRemaining = 0 := by omega
      simp [h0]
    · have h0 : old.msgLenRemaining = 0 := by omega
      simp [h0]

/-- The state a chunk read leaves for its chunk stream, when the dispatch
keeps the states of the input chunk streams. -/
theorem RTMPClient.readChunkFromSocket_stored (signedChar : Bool) (socketWrite : SocketWrite)
    (hsw : socketWrite.Local) (processMessage : ProcessMessage)
    (hproc : ∀ (s : RTMPClient) (streamId : Nat) (type : Int) (timestamp : Nat)
      (msg : QByteArray),
      (processMessage s streamId type timestamp msg).inChunkStreams = s.inChunkStreams)
    (c : RTMPClient) (buffer : QByteArray) (fuel : Nat) (final : RTMPClient)
    (rest : QByteArray)
    (h : c.readChunkFromSocket signedChar socketWrite processMessage buffer fuel
      = some (true, final, rest)) :
    ∃ fmt csId basicSize state dataStart chunkLen,
      decodeBasicHeader signedChar (buffer.take (3 + 11 + 4)) = some (fmt, csId, basicSize)
      ∧ decodeMessageHeader signedChar c.inMaxChunkSize (buffer.take (3 + 11 + 4)) fmt
          basicSize ((c.inChunkStreams.value? csId).getD ChunkStreamState.init)
        = some (state, dataStart, chunkLen)
      ∧ dataStart + chunkLen ≤ buffer.length
      ∧ rest = buffer.drop (dataStart + chunkLen)
      ∧ final.inChunkStreams.value? csId
        = some { state with
            msg := (if fmt ≠ 3 then [] else state.msg) ++ (buffer.drop dataStart).take chunkLen,
            msgLenRemaining := state.msgLenRemaining - chunkLen } := by
  obtain ⟨fmt, csId, basicSize, state, dataStart, chunkLen, stored, counted, acked, hbasic,
    hheader, hwhole, hstored, hcounted, hacked, hfinal, hrest⟩ :=
    RTMPClient.readChunkFromSocket_true signedChar socketWrite processMessage c buffer fuel
      final rest h
  refine ⟨fmt, csId, basicSize, state, dataStart, chunkLen, hbasic, hheader, hwhole, hrest, ?_⟩
  have hc : counted.inChunkStreams
      = (c.initInChunkStreamState csId).2.inChunkStreams.set csId stored := by
    rw [hcounted]
  have ha : acked.inChunkStreams = counted.inChunkStreams := by
    rcases hacked with rfl | ⟨r, hr, rfl⟩
    · rfl
    · have hframe := RTMPClient.writeMessage_frame socketWrite hsw counted 0 AckMsgType 0
        (amfEncodeUInt32 counted.inBytesSinceHandshake) 2 fuel r hr
      show r.2.inChunkStreams = counted.inChunkStreams
      exact (congrArg RTMPClient.inChunkStreams hframe).trans rfl
  have hf : final.inChunkStreams = acked.inChunkStreams := by
    rw [hfinal]
    split_ifs
    · rw [hproc]
    · rfl
  rw [hf, ha, hc, QHash.value?_set_self, hstored]

/-- With an output chunk size of 0, a call of `readChunkFromSocket` that
reads a chunk and has an acknowledgement to write does not return. -/
theorem RTMPClient.readChunkFromSocket_zero (signedChar : Bool) (socketWrite : SocketWrite)
    (processMessage : ProcessMessage) (c : RTMPClient) (buffer : QByteArray)
    (fuel fmt csId basicSize : Nat) (state : ChunkStreamState) (dataStart chunkLen : Nat)
    (hzero : c.outMaxChunkSize = 0)
    (hbasic : decodeBasicHeader signedChar (buffer.take (3 + 11 + 4))
      = some (fmt, csId, basicSize))
    (hheader : decodeMessageHeader signedChar c.inMaxChunkSize (buffer.take (3 + 11 + 4)) fmt
        basicSize ((c.inChunkStreams.value? csId).getD ChunkStreamState.init)
      = some (state, dataStart, chunkLen))
    (hwhole : dataStart + chunkLen ≤ buffer.length)
    (hwin : (c.inBytesSinceLastAck + (dataStart + chunkLen)) % 2 ^ 32 ≥ c.inAckWinSize) :
    c.readChunkFromSocket signedChar socketWrite processMessage buffer fuel = none := by
  rcases RTMPClient.readChunkFromSocket_cases signedChar socketWrite processMessage c buffer fuel
    with ⟨hb, -⟩ | ⟨fmt2, csId2, basicSize2, hbasic2, hrest⟩
  · rw [hbasic] at hb
    cases hb
  rw [hbasic] at hbasic2
  simp only [Option.some.injEq, Prod.mk.injEq] at hbasic2
  obtain ⟨rfl, rfl, rfl⟩ := hbasic2
  rcases hrest with ⟨hh, -⟩ | ⟨state2, dataStart2, chunkLen2, hheader2, hrest⟩
  · rw [hheader] at hh
    cases hh
  rw [hheader] at hheader2
  simp only [Option.some.injEq, Prod.mk.injEq] at hheader2
  obtain ⟨rfl, rfl, rfl⟩ := hheader2
  rcases hrest with ⟨hshort, -⟩ | ⟨-, stored, counted, -, hcounted, hres⟩
  · omega
  have hframe := RTMPClient.initInChunkStreamState_frame c csId
  have hw : counted.inBytesSinceLastAck ≥ counted.inAckWinSize := by
    rw [hcounted]
    show (c.inBytesSinceLastAck + (dataStart + chunkLen)) % 2 ^ 32
      ≥ (c.initInChunkStreamState csId).2.inAckWinSize
    rw [hframe.2.2.2.2.1]
    exact hwin
  have hz : counted.outMaxChunkSize = 0 := by
    rw [hcounted]
    exact hframe.2.1.trans hzero
  have hack : counted.writeAcknowledge socketWrite fuel = none :=
    RTMPClient.writeMessage_zero socketWrite counted 0 AckMsgType 0
      (amfEncodeUInt32 counted.inBytesSinceHandshake) 2 fuel hz (by simp [amfEncodeUInt32])
      (by omega)
  rw [hres, if_pos hw, hack]

/-! ## Claims about the AMF0 codec -/

/-- C5, counterexample: the one-byte input `00`, a Number marker with the
eight bytes of the number missing, does not make `decode` fail.  Followed in
memory by zero bytes it yields the Number 0.0 and 9; whatever follows it,
`decode` returns a non-null Number and 9, eight bytes more than the input has. -/
theorem amf_decode_truncated_number_succeeds :
    AMFType.decode asciiText 1 (CharPtr.ofBytes [0x00] (fun _ => 0))
        = some (some (.number 0), 9)
    ∧ ∀ (fuel : Nat) (beyond : CharPtr), ∃ bits,
        AMFType.decode asciiText (fuel + 1) (CharPtr.ofBytes [0x00] beyond)
          = some (some (.number bits), 9) := by
  refine ⟨by decide, ?_⟩
  intro fuel beyond
  exact ⟨_, AMFType.decode_number _ _ _ (by simp [amfDecodeUInt8, CharPtr.ofBytes])⟩

/-- C5, as amended: `decode` gives a null result and 0 on an unknown marker
byte; a null result always comes with 0; and an Object (marker 03) or
EcmaArray (marker 08) fails with a null result and 0, no partial object being
returned, as soon as the value of one of its properties fails to decode, after
any number of properties that decoded, whatever their bytes.  A Number,
Boolean, String or LongString marker never fails: `decode` is handed no length
and cannot see that its input ends early; it returns a value that is not null
and the byte count the marker announces, 9 for a Number, 2 for a Boolean, 3
and the 16-bit length for a String, 5 and the 32-bit length, as a `uint`, for
a LongString. -/
theorem amf_decode_failure (qt : QtUtf8) (fuel : Nat) (data : CharPtr) :
    (amfDecodeUInt8 data ∉ [0x00, 0x01, 0x02, 0x03, 0x05, 0x06, 0x08, 0x0C] →
      AMFType.decode qt (fuel + 1) data = some (none, 0))
    ∧ (∀ n, AMFType.decode qt fuel data = some (none, n) → n = 0)
    ∧ (∀ (start p : Nat) (obj : AMFProps) (valueFuel n : Nat),
        (amfDecodeUInt8 data = 0x03 ∧ start = 1) ∨ (amfDecodeUInt8 data = 0x08 ∧ start = 5) →
        AMFType.LoopReaches qt data start .nil p obj →
        amfDecodeUInt8
          (data.offset ((p + (2 + amfDecodeUInt16 (data.offset p))) % 2 ^ 32)) ≠ 0x09 →
        AMFType.decode qt valueFuel
          (data.offset ((p + (2 + amfDecodeUInt16 (data.offset p))) % 2 ^ 32))
            = some (none, n) →
        ∃ enough, ∀ k, AMFType.decode qt (enough + k) data = some (none, 0))
    ∧ (amfDecodeUInt8 data = 0x00 →
        AMFType.decode qt (fuel + 1) data
          = some (some (.number (amfDecodeDouble (data.offset 1))), 9))
    ∧ (amfDecodeUInt8 data = 0x01 →
        AMFType.decode qt (fuel + 1) data
          = some (some (.boolean (amfDecodeUInt8 (data.offset 1) != 0)), 2))
    ∧ (amfDecodeUInt8 data = 0x02 →
        AMFType.decode qt (fuel + 1) data
          = some (some (.string (qt.fromUtf8
              ((data.offset 3).read (amfDecodeUInt16 (data.offset 1))))),
            3 + amfDecodeUInt16 (data.offset 1)))
    ∧ (amfDecodeUInt8 data = 0x0C →
        AMFType.decode qt (fuel + 1) data
          = some (some (.string (qt.fromUtf8
              ((data.offset 5).read (amfDecodeUInt32 (data.offset 1))))),
            (5 + amfDecodeUInt32 (data.offset 1)) % 2 ^ 32)) := by
  refine ⟨?_, ?_, ?_, ?_, ?_, ?_, ?_⟩
  · intro h
    simp only [List.mem_cons, List.mem_singleton, List.mem_nil_iff, not_or, or_false] at h
    exact AMFType.decode_unknown qt fuel data h.1 h.2.1 h.2.2.1 h.2.2.2.1 h.2.2.2.2.1
      h.2.2.2.2.2.1 h.2.2.2.2.2.2.1 h.2.2.2.2.2.2.2
  · intro n h
    exact AMFType.decode_null qt fuel data n h
  · intro start p obj valueFuel n hmark hreach h9 hv
    exact AMFType.decode_of_reaches_fail qt data start p obj valueFuel n hmark hreach h9 hv
  · intro h
    simp [AMFType.decode, h]
  · intro h
    simp [AMFType.decode, h]
  · intro h
    simp [AMFType.decode, h]
  · intro h
    simp [AMFType.decode, h]

/-- C5, witness: an Object holding `a = Null` and then a property `b` whose
value starts with the unknown marker 0x0A fails as a whole. -/
theorem amf_decode_failure_witness :
    ∃ enough, ∀ k,
      AMFType.decode asciiText (enough + k)
        (CharPtr.ofBytes [0x03, 0, 1, 97, 0x05, 0, 1, 98, 0x0A] (fun _ => 0)) = some (none, 0) :=
  (amf_decode_failure asciiText 1
    (CharPtr.ofBytes [0x03, 0, 1, 97, 0x05, 0, 1, 98, 0x0A] (fun _ => 0))).2.2.1
    1 5 (AMFProps.insert [97] .null .nil) 1 0 (Or.inl ⟨by decide, rfl⟩)
    (AMFType.LoopReaches.turn 1 .nil 1 .null 1 5 (AMFProps.insert [97] .null .nil)
      (by decide) (by decide) (AMFType.LoopReaches.here _ _))
    (by decide) (by decide)

/-- C6, counterexample: with `b = Null` inserted first and `a = Undefined`
second, `serialized` emits `a` before `b`; the bytes in insertion order,
`03 00 01 62 05 00 01 61 06 00 00 09`, are not what it returns. -/
theorem amf_object_not_in_insertion_order :
    (AMFType.object (AMFProps.ofInserts [(qstr "b", .null), (qstr "a", .undefined)])).serialized
        asciiText
      ≠ [0x03, 0x00, 0x01, 0x62, 0x05, 0x00, 0x01, 0x61, 0x06, 0x00, 0x00, 0x09]
    ∧ (AMFType.object (AMFProps.ofInserts [(qstr "b", .null), (qstr "a", .undefined)])).serialized
        asciiText
      = [0x03, 0x00, 0x01, 0x61, 0x06, 0x00, 0x01, 0x62, 0x05, 0x00, 0x00, 0x09] := by
  decide

/-- C6, as amended: `AMFObject::serialized` emits the properties in ascending
key order (the order of the `QMap`, by UTF-16 code unit), whatever the order
of insertion.  For distinct keys of at most 65535 bytes of UTF-8 each,
inserted in any order, the properties held are exactly those inserted, their
keys strictly ascending, and the encoding is 0x03, then for each property in
that order the big-endian u16 byte length of the key, the key's UTF-8 bytes
and the encoding of its value, then 00 00 09; an empty object is 03 00 00 09. -/
theorem amf_object_serialized_in_key_order (qt : QtUtf8) (kvs : List (QString × AMFType))
    (hdistinct : (kvs.map Prod.fst).Nodup)
    (hshort : ∀ kv ∈ kvs, (qt.toUtf8 kv.1).length ≤ 0xFFFF) :
    List.Perm (AMFProps.ofInserts kvs).toList kvs
    ∧ (AMFProps.ofInserts kvs).keys.Pairwise (fun a b => QString.lt a b = true)
    ∧ (AMFType.object (AMFProps.ofInserts kvs)).serialized qt
        = [0x03]
          ++ (AMFProps.ofInserts kvs).toList.flatMap (fun kv =>
              [(qt.toUtf8 kv.1).length / 256, (qt.toUtf8 kv.1).length % 256]
                ++ qt.toUtf8 kv.1 ++ kv.2.serialized qt)
          ++ [0x00, 0x00, 0x09]
    ∧ (AMFType.object (AMFProps.ofInserts [])).serialized qt = [0x03, 0x00, 0x00, 0x09] := by
  have hspec := AMFProps.foldl_insert_spec kvs .nil
    (by simpa [AMFProps.keys, AMFProps.toList] using hdistinct)
    (by simp [AMFProps.keys, AMFProps.toList])
  have hperm : List.Perm (AMFProps.ofInserts kvs).toList kvs := by
    simpa [AMFProps.ofInserts, AMFProps.toList] using hspec.1
  refine ⟨hperm, hspec.2, ?_, rfl⟩
  have hbody : (AMFProps.ofInserts kvs).toList.flatMap (AMFType.serializedProperty qt)
      = (AMFProps.ofInserts kvs).toList.flatMap (fun kv =>
          [(qt.toUtf8 kv.1).length / 256, (qt.toUtf8 kv.1).length % 256]
            ++ qt.toUtf8 kv.1 ++ kv.2.serialized qt) := by
    apply List.flatMap_congr
    intro kv hkv
    have hlen := hshort kv (hperm.mem_iff.1 hkv)
    have hnot : ¬ (qt.toUtf8 kv.1).length > 0xFFFF := by omega
    have hdiv : (qt.toUtf8 kv.1).length / 256 % 256 = (qt.toUtf8 kv.1).length / 256 :=
      Nat.mod_eq_of_lt (by omega)
    simp [AMFType.serializedProperty, amfEncodeUtf8String, hnot, amfEncodeUInt16, hdiv]
  simp only [AMFType.serialized, AMFProps.serialized_eq_flatMap, hbody]
  simp

/-- C6, witness: `fmsVer` inserted before `capabilities` comes out after it. -/
theorem amf_object_serialized_in_key_order_witness :
    (AMFProps.ofInserts
        [(qstr "fmsVer", AMFType.string (qstr "FMS/3,0,1,123")),
         (qstr "capabilities", AMFType.number (binary64OfNat 31))]).keys.Pairwise
      (fun a b => QString.lt a b = true) :=
  (amf_object_serialized_in_key_order asciiText
    [(qstr "fmsVer", AMFType.string (qstr "FMS/3,0,1,123")),
     (qstr "capabilities", AMFType.number (binary64OfNat 31))]
    (by decide) (by decide)).2.1

/-- C7: `AMFString::serialized` emits marker 0x02, the big-endian u16 byte
length and the UTF-8 bytes when the UTF-8 length is at most 65535, and marker
0x0C, the big-endian u32 byte length and the UTF-8 bytes when it exceeds
65535; `decode` accepts both forms, consumes 3 + len and 5 + len bytes
respectively and returns a value whose `asString()` is non-null.  The size
bound is the one a `QByteArray` imposes on the encoder's buffer. -/
theorem amf_string_short_and_long_form (qt : QtUtf8) (s : QString) (fuel : Nat)
    (beyond : CharPtr) (hsize : (qt.toUtf8 s).length + 5 < 2 ^ 31) :
    ((qt.toUtf8 s).length ≤ 65535 →
      (AMFType.string s).serialized qt
        = [0x02, (qt.toUtf8 s).length / 256, (qt.toUtf8 s).length % 256] ++ qt.toUtf8 s
      ∧ ∃ w, AMFType.decode qt (fuel + 1)
            (CharPtr.ofBytes ((AMFType.string s).serialized qt) beyond)
          = some (some w, 3 + (qt.toUtf8 s).length) ∧ w.asString ≠ none)
    ∧ (65535 < (qt.toUtf8 s).length →
      (AMFType.string s).serialized qt
        = [0x0C, (qt.toUtf8 s).length / 16777216, (qt.toUtf8 s).length / 65536 % 256,
            (qt.toUtf8 s).length / 256 % 256, (qt.toUtf8 s).length % 256] ++ qt.toUtf8 s
      ∧ ∃ w, AMFType.decode qt (fuel + 1)
            (CharPtr.ofBytes ((AMFType.string s).serialized qt) beyond)
          = some (some w, 5 + (qt.toUtf8 s).length) ∧ w.asString ≠ none) := by
  have hdec := AMFType.decode_string_serialized qt s fuel
    (CharPtr.ofBytes ((AMFType.string s).serialized qt) beyond) (CharPtr.holds_ofBytes _ _)
    (by omega)
  constructor
  · intro hle
    have hnot : ¬ (qt.toUtf8 s).length > 0xFFFF := by omega
    have hdiv : (qt.toUtf8 s).length / 256 % 256 = (qt.toUtf8 s).length / 256 :=
      Nat.mod_eq_of_lt (by omega)
    refine ⟨by simp [AMFType.serialized, amfEncodeUtf8String, hnot, amfEncodeUInt16,
      amfEncodeUInt8, hdiv], AMFType.string (qt.fromUtf8 (qt.toUtf8 s)), ?_, ?_⟩
    · rw [hdec, if_neg hnot]
    · simp [AMFType.asString]
  · intro hgt
    have hlong : (qt.toUtf8 s).length > 0xFFFF := by omega
    have hdiv : (qt.toUtf8 s).length / 16777216 % 256 = (qt.toUtf8 s).length / 16777216 :=
      Nat.mod_eq_of_lt (by omega)
    refine ⟨by simp [AMFType.serialized, amfEncodeUtf8String, hlong, amfEncodeUInt32,
      amfEncodeUInt8, hdiv], AMFType.string (qt.fromUtf8 (qt.toUtf8 s)), ?_, ?_⟩
    · rw [hdec, if_pos hlong]
    · simp [AMFType.asString]

/-- C7, witness: the version string of the tests, 13 bytes in the short form. -/
theorem amf_string_short_and_long_form_witness :
    (AMFType.string (qstr "FMS/3,0,1,123")).serialized asciiText
      = [0x02, 0x00, 0x0D, 0x46, 0x4D, 0x53, 0x2F, 0x33, 0x2C, 0x30, 0x2C, 0x31, 0x2C, 0x31,
          0x32, 0x33] :=
  ((amf_string_short_and_long_form asciiText (qstr "FMS/3,0,1,123") 0 (fun _ => 0)
    (by decide)).1 (by decide)).1

/-- C8: `AMFNumber(x).serialized()` is 9 bytes, marker 0x00 and then the 8
bytes of the binary64 bit pattern of `x` from the most significant on (0.0,
whose pattern is zero, gives 00 and eight 00 bytes; 854.0 gives
00 40 8A B0 00 00 00 00 00), and `amfDecodeDouble` returns the original bit
pattern from the 8 bytes `amfEncodeDouble` wrote. -/
theorem amf_number_serialized (qt : QtUtf8) (x : Nat) (beyond : CharPtr) (hx : x < 2 ^ 64) :
    (AMFType.number x).serialized qt
      = [0x00, x / 2 ^ 56 % 256, x / 2 ^ 48 % 256, x / 2 ^ 40 % 256, x / 2 ^ 32 % 256,
          x / 2 ^ 24 % 256, x / 2 ^ 16 % 256, x / 2 ^ 8 % 256, x % 256]
    ∧ ((AMFType.number x).serialized qt).length = 9
    ∧ (AMFType.number 0).serialized qt = [0x00, 0, 0, 0, 0, 0, 0, 0, 0]
    ∧ (AMFType.number (binary64OfNat 854)).serialized qt
        = [0x00, 0x40, 0x8A, 0xB0, 0x00, 0x00, 0x00, 0x00, 0x00]
    ∧ amfDecodeDouble (CharPtr.ofBytes (amfEncodeDouble x) beyond) = x := by
  have h854 : binary64OfNat 854 = 0x408AB00000000000 := by decide
  refine ⟨by simp [AMFType.serialized, amfEncodeUInt8, amfEncodeDouble], rfl,
    by simp [AMFType.serialized, amfEncodeUInt8, amfEncodeDouble],
    by simp [AMFType.serialized, amfEncodeUInt8, amfEncodeDouble, h854], ?_⟩
  have h := amfDecodeDouble_of_holds (CharPtr.holds_ofBytes (amfEncodeDouble x) beyond) hx
  rwa [CharPtr.offset_zero] at h

/-- C8, witness: the bit pattern of 854.0. -/
theorem amf_number_serialized_witness :
    amfDecodeDouble (CharPtr.ofBytes (amfEncodeDouble (binary64OfNat 854)) (fun _ => 0))
      = binary64OfNat 854 :=
  (amf_number_serialized asciiText (binary64OfNat 854) (fun _ => 0) (by decide)).2.2.2.2

/-! ## Claims about RTMP target URLs -/

/-- C4: `fromUrl` returns an invalid target whenever `QUrl` reports the text
invalid (as it does for two ports), a scheme other than rtmp or rtmps, a
user-info, an empty host, a fragment, no path, or a path whose first segment
is empty; the empty string reaches `QUrl` as `rtmp://`, which has no host; and
consequently every target returned as valid has a non-empty `appName` and a
non-empty `host`. -/
theorem rtmp_fromUrl_rejects (qt : QtUrl) (str : QString) (inc : Bool) (streamName : QString)
    (url : QUrl) (hurl : qt.parse (RTMPTargetInfo.urlStr qt str) = url) :
    (url.isValid = false
        ∨ (url.scheme ≠ qstr "rtmp" ∧ url.scheme ≠ qstr "rtmps")
        ∨ url.userInfo ≠ []
        ∨ url.host = []
        ∨ url.hasFragment = true
        ∨ RTMPTargetInfo.pathWithQuery url = []
        ∨ (QString.split 47 (RTMPTargetInfo.pathWithQuery url)).headD [] = [] →
      (RTMPTargetInfo.fromUrl qt str inc streamName).isValid = false)
    ∧ RTMPTargetInfo.urlStr qt [] = qstr "rtmp://"
    ∧ ((RTMPTargetInfo.fromUrl qt str inc streamName).isValid = true →
        (RTMPTargetInfo.fromUrl qt str inc streamName).appName ≠ []
        ∧ (RTMPTargetInfo.fromUrl qt str inc streamName).host ≠ []) := by
  unfold RTMPTargetInfo.fromUrl
  rw [hurl]
  refine ⟨?_, RTMPTargetInfo.urlStr_nil qt, ?_⟩
  · intro h
    cases hv : (RTMPTargetInfo.fromQUrl url inc streamName).isValid with
    | false => rfl
    | true =>
      obtain ⟨h1, h2, h3, h4, h5, h6, h7⟩ :=
        (RTMPTargetInfo.fromQUrl_isValid_iff url inc streamName).1 hv
      rcases h with h | h | h | h | h | h | h
      · rw [h1] at h; exact absurd h (by simp)
      · rcases h2 with e | e
        · exact absurd e h.1
        · exact absurd e h.2
      · exact absurd h3 h
      · exact absurd h h4
      · rw [h5] at h; exact absurd h (by simp)
      · exact absurd h h6
      · exact absurd h h7
  · intro hv
    obtain ⟨_, _, _, h4, _, _, h7⟩ :=
      (RTMPTargetInfo.fromQUrl_isValid_iff url inc streamName).1 hv
    obtain ⟨hhost, happ⟩ := RTMPTargetInfo.fromQUrl_fields url inc streamName hv
    rw [hhost, happ]
    exact ⟨h7, h4⟩

/-- C4, witness: `rtmp://192.168.1.1//instance`, whose first path segment is
empty, is rejected. -/
theorem rtmp_fromUrl_rejects_witness :
    (RTMPTargetInfo.fromUrl
        (QtUrl.reporting (QUrl.ofParts (qstr "rtmp") (qstr "192.168.1.1") none
          (qstr "/instance")))
        (qstr "rtmp://192.168.1.1//instance") true []).isValid = false :=
  (rtmp_fromUrl_rejects
    (QtUrl.reporting (QUrl.ofParts (qstr "rtmp") (qstr "192.168.1.1") none (qstr "/instance")))
    (qstr "rtmp://192.168.1.1//instance") true []
    (QUrl.ofParts (qstr "rtmp") (qstr "192.168.1.1") none (qstr "/instance")) rfl).1
    (Or.inr (Or.inr (Or.inr (Or.inr (Or.inr (Or.inr (by decide)))))))

/-! ## Claims about the chunk engine -/

/-- C2, the failing input evaluated: two one-byte video messages written on
chunk stream 4 of a fresh session, the second with the same stream, type,
length and timestamp delta as the first, leave the writer as the 15 bytes
below, the second message behind a fmt 3 header (C4).  A fresh session
reading these bytes dispatches the payload AA and then, for the second
message, AA BB instead of BB: the buffer of the chunk stream still holds the
first message when the second one starts.  The outcome is the same whether
`char` is signed or not. -/
theorem chunk_reassembly_keeps_previous_payload :
    (RTMPClient.initialized.writeMessages SocketWrite.acceptAll 2 twoVideoMessages).map
        (fun w => w.socketWritten)
      = some [0x04, 0, 0, 10, 0, 0, 1, 9, 1, 0, 0, 0, 0xAA, 0xC4, 0xBB]
    ∧ (RTMPClient.initialized.readChunks true SocketWrite.acceptAll ProcessMessage.logOnly 3
          [0x04, 0, 0, 10, 0, 0, 1, 9, 1, 0, 0, 0, 0xAA, 0xC4, 0xBB]).map
        (fun r => r.1.processed)
      = some [⟨1, VideoMsgType, 10, [0xAA]⟩, ⟨1, VideoMsgType, 20, [0xAA, 0xBB]⟩]
    ∧ (RTMPClient.initialized.readChunks false SocketWrite.acceptAll ProcessMessage.logOnly 3
          [0x04, 0, 0, 10, 0, 0, 1, 9, 1, 0, 0, 0, 0xAA, 0xC4, 0xBB]).map
        (fun r => r.1.processed)
      = some [⟨1, VideoMsgType, 10, [0xAA]⟩, ⟨1, VideoMsgType, 20, [0xAA, 0xBB]⟩] := by
  decide

/-- C9, counterexample: on a fresh session chunk stream 4 has no output
state, and a one-byte audio message for message stream 0 with timestamp 5 is
written as `44 00 00 05 00 00 01 08 AA`: a fmt 1 header, not a fmt 0 one. -/
theorem first_message_not_always_fmt0 :
    RTMPClient.initialized.outChunkStreams.contains 4 = false
    ∧ (RTMPClient.initialized.writeMessage SocketWrite.acceptAll 0 AudioMsgType 5 [0xAA] 4 2).map
        (fun r => (r.1, r.2.socketWritten))
      = some (true, [0x44, 0, 0, 5, 0, 0, 1, 8, 0xAA]) := by
  decide

/-- C9, as amended: the first message written on a chunk stream that has no
output state yet is emitted with a fmt 0 header whenever its timestamp is 0
or its msg_stream_id is not 0, for every type and payload; with a non-zero
timestamp on message stream 0 it is emitted with a fmt 1 header, or a fmt 2
header when it is an empty message of type 0.  The bytes handed to `write`
start with the basic header of that format, the message header of that format
and the first chunk of the payload, and `writeMessage` returns what `write`
makes of them. -/
theorem first_message_header_format (c : RTMPClient) (streamId : Nat) (type : Int)
    (timestamp : Nat) (msg : QByteArray) (csId fuel : Nat)
    (hnew : c.outChunkStreams.contains csId = false) (hcs : 2 ≤ csId ∧ csId ≤ 65599)
    (hts : timestamp < 2 ^ 32) (hmax : 0 < c.outMaxChunkSize) (hfuel : msg.length < fuel) :
    (timestamp = 0 ∨ streamId ≠ 0 → firstMessageFmt streamId type timestamp msg = 0)
    ∧ ∃ data last more,
        (c.initOutChunkStreamState csId).2.chunkMessage streamId type timestamp msg csId fuel
          = some (data, last)
        ∧ data = basicHeader (firstMessageFmt streamId type timestamp msg) csId
            ++ (messageHeader (firstMessageFmt streamId type timestamp msg)
                { ChunkStreamState.init with msgLenRemaining := msg.length }
                streamId type timestamp msg.length).2
            ++ msg.take (min msg.length c.outMaxChunkSize) ++ more
        ∧ ∀ socketWrite : SocketWrite,
            (c.writeMessage socketWrite streamId type timestamp msg csId fuel).map (fun r => r.1)
              = some ((c.initOutChunkStreamState csId).2.write socketWrite data).1 := by
  refine ⟨fun h => by simp [firstMessageFmt, h], ?_⟩
  have hvalid : ¬ (csId > 65599 ∨ csId ≤ 1) := by omega
  have hwrite : ∀ (socketWrite : SocketWrite) (data : QByteArray) (last : ChunkStreamState),
      (c.initOutChunkStreamState csId).2.chunkMessage streamId type timestamp msg csId fuel
        = some (data, last) →
      (c.writeMessage socketWrite streamId type timestamp msg csId fuel).map (fun r => r.1)
        = some ((c.initOutChunkStreamState csId).2.write socketWrite data).1 := by
    intro socketWrite data last h
    unfold RTMPClient.writeMessage
    simp only [hvalid, if_false, h]
    cases ((c.initOutChunkStreamState csId).2.write socketWrite data).1 <;> simp
  revert hwrite
  have hstate : ((c.initOutChunkStreamState csId).2.outChunkStreams.value? csId).getD
      ChunkStreamState.init = ChunkStreamState.init := by
    simp [RTMPClient.initOutChunkStreamState, hnew, QHash.value?_set_self]
  have hmax' : (c.initOutChunkStreamState csId).2.outMaxChunkSize = c.outMaxChunkSize := by
    simp [RTMPClient.initOutChunkStreamState, hnew]
  unfold RTMPClient.chunkMessage
  simp only [hstate, hmax', chooseFmt_init streamId type timestamp msg hts]
  have hsome := writeChunks_isSome c.outMaxChunkSize hmax streamId type timestamp msg csId fuel
    (firstMessageFmt streamId type timestamp msg)
    { ChunkStreamState.init with msgLenRemaining := msg.length } hfuel
  cases hw : writeChunks fuel c.outMaxChunkSize (firstMessageFmt streamId type timestamp msg)
      { ChunkStreamState.init with msgLenRemaining := msg.length } streamId type timestamp msg
      csId with
  | none => rw [hw] at hsome; simp at hsome
  | some r =>
    intro hwrite
    obtain ⟨more, hmore⟩ := writeChunks_first _ _ _ _ _ _ _ _ _ r.1 r.2 hw
    refine ⟨r.1, r.2, more, rfl, ?_, fun socketWrite => hwrite socketWrite r.1 r.2 rfl⟩
    simpa using hmore

/-- C9, witness: a video message for message stream 1 opens chunk stream 4
with a fmt 0 header. -/
theorem first_message_header_format_witness :
    firstMessageFmt 1 VideoMsgType 10 [0xAA] = 0 :=
  (first_message_header_format RTMPClient.initialized 1 VideoMsgType 10 [0xAA] 4 2
    (by decide) (by decide) (by decide) (by decide) (by decide)).1 (Or.inr (by decide))

/-- C10, the failing input evaluated, then what holds.  Three one-byte
audio messages for message stream 1 written on chunk stream 6 of a fresh
session at 5, 10 and 15 ms.  The third has the msg_stream_id, the type, the
length and the timestamp delta, 5 ms, of the second; it is written with a
fmt 2 header, `86 00 00 0A CC`: the second went out with a fmt 3 header,
which left the timestamp of the output state at 5, and the delta the writer
computes for the third is 10.  Besides, a one-byte video message written
twice at timestamp 0 has a fmt 0 header both times, as has every message with
timestamp 0, by the test `timestamp == 0`.  What holds: a message whose
msg_stream_id, type and length are those of the output state, whose timestamp
is neither 0 nor below the one of the output state, and whose delta from the
timestamp of the output state is the delta of the output state, is written
with a fmt 3 header, the basic header followed at once by the payload. -/
theorem constant_delta_message_is_fmt2 :
    (RTMPClient.initialized.writeMessages SocketWrite.acceptAll 2
          [⟨1, AudioMsgType, 5, [0xAA], 6⟩, ⟨1, AudioMsgType, 10, [0xBB], 6⟩,
            ⟨1, AudioMsgType, 15, [0xCC], 6⟩]).map (fun w => w.socketWritten)
      = some [0x06, 0, 0, 5, 0, 0, 1, 8, 1, 0, 0, 0, 0xAA, 0xC6, 0xBB, 0x86, 0, 0, 10, 0xCC]
    ∧ (RTMPClient.initialized.writeMessages SocketWrite.acceptAll 2
          [⟨1, VideoMsgType, 0, [0xAA], 4⟩, ⟨1, VideoMsgType, 0, [0xAA], 4⟩]).map
        (fun w => w.socketWritten)
      = some [0x04, 0, 0, 0, 0, 0, 1, 9, 1, 0, 0, 0, 0xAA,
              0x04, 0, 0, 0, 0, 0, 1, 9, 1, 0, 0, 0, 0xAA]
    ∧ (∀ (state : ChunkStreamState) (streamId : Nat) (type : Int) (msgSize : Nat),
        chooseFmt state streamId type 0 msgSize = 0)
    ∧ ∀ (c : RTMPClient) (state : ChunkStreamState) (streamId : Nat) (type : Int)
        (timestamp : Nat) (msg : QByteArray) (csId fuel : Nat),
        c.outChunkStreams.value? csId = some state → 2 ≤ csId ∧ csId ≤ 65599 →
        state.msgStreamId = streamId → state.msgType = type → state.msgLen = msg.length →
        state.timestampDelta = (timestamp + 2 ^ 32 - state.timestamp) % 2 ^ 32 →
        timestamp ≠ 0 → state.timestamp ≤ timestamp →
        0 < c.outMaxChunkSize → msg.length < fuel →
        chooseFmt state streamId type timestamp msg.length = 3
        ∧ ∃ data last more,
            (c.initOutChunkStreamState csId).2.chunkMessage streamId type timestamp msg csId
              fuel = some (data, last)
            ∧ data = basicHeader 3 csId ++ msg.take (min msg.length c.outMaxChunkSize) ++ more
            ∧ ∀ socketWrite : SocketWrite,
                (c.writeMessage socketWrite streamId type timestamp msg csId fuel).map
                    (fun r => r.1)
                  = some ((c.initOutChunkStreamState csId).2.write socketWrite data).1 := by
  refine ⟨by decide, by decide, ?_, ?_⟩
  · intro state streamId type msgSize
    simp [chooseFmt]
  intro c state streamId type timestamp msg csId fuel hstate hcs hsid htype hlen hdelta hnz
    hmono hmax hfuel
  have hvalid : ¬ (csId > 65599 ∨ csId ≤ 1) := by omega
  have hwrite : ∀ (socketWrite : SocketWrite) (data : QByteArray) (last : ChunkStreamState),
      (c.initOutChunkStreamState csId).2.chunkMessage streamId type timestamp msg csId fuel
        = some (data, last) →
      (c.writeMessage socketWrite streamId type timestamp msg csId fuel).map (fun r => r.1)
        = some ((c.initOutChunkStreamState csId).2.write socketWrite data).1 := by
    intro socketWrite data last h
    unfold RTMPClient.writeMessage
    simp only [hvalid, if_false, h]
    cases ((c.initOutChunkStreamState csId).2.write socketWrite data).1 <;> simp
  have hfmt := chooseFmt_repeat state streamId type timestamp msg.length hsid htype hlen hdelta
    hnz hmono
  refine ⟨hfmt, ?_⟩
  revert hwrite
  have hinit : (c.initOutChunkStreamState csId).2 = c := by
    simp [RTMPClient.initOutChunkStreamState, QHash.contains_of_value? _ _ _ hstate]
  unfold RTMPClient.chunkMessage
  simp only [hinit, hstate, Option.getD_some, hfmt]
  have hsome := writeChunks_isSome c.outMaxChunkSize hmax streamId type timestamp msg csId fuel
    3 { state with msgLenRemaining := msg.length } hfuel
  cases hw : writeChunks fuel c.outMaxChunkSize 3 { state with msgLenRemaining := msg.length }
      streamId type timestamp msg csId with
  | none => rw [hw] at hsome; simp at hsome
  | some r =>
    intro hwrite
    obtain ⟨more, hmore⟩ := writeChunks_first _ _ _ _ _ _ _ _ _ r.1 r.2 hw
    refine ⟨r.1, r.2, more, rfl, ?_, fun socketWrite => hwrite socketWrite r.1 r.2 rfl⟩
    simpa [messageHeader] using hmore

/-! ## Claims about chunking, headers and acknowledgements -/

/-- C11, counterexample: an empty video message written on chunk stream 4 of
a fresh session, whose chunk size is 128, goes out as one chunk of twelve
bytes, a fmt 0 header without payload, while the quotient of 0 bytes by 128
rounded up is 0 chunks. -/
theorem empty_message_is_one_chunk :
    (RTMPClient.initialized.writeMessage SocketWrite.acceptAll 1 VideoMsgType 10 [] 4 1).map
        (fun r => (r.1, r.2.socketWritten))
      = some (true, [0x04, 0, 0, 10, 0, 0, 0, 9, 1, 0, 0, 0])
    ∧ (([] : QByteArray).length + RTMPClient.initialized.outMaxChunkSize - 1)
        / RTMPClient.initialized.outMaxChunkSize = 0 := by
  decide

/-- C11, as amended: with a chunk size `C` above zero, `writeMessage` of an
`N`-byte payload hands to `write` the chunks of the message in order, and
they are `ceil(N/C)` chunks, or one chunk when the payload is empty; each
carries at most `C` payload bytes, the payloads in order make up the message,
and every chunk after the first has a fmt 3 basic header and no message
header, whatever the format of the first. -/
theorem message_split_into_chunks (c : RTMPClient) (streamId : Nat) (type : Int)
    (timestamp : Nat) (msg : QByteArray) (csId fuel : Nat) (hcs : 2 ≤ csId ∧ csId ≤ 65599)
    (hmax : 0 < c.outMaxChunkSize) (hfuel : msg.length < fuel) :
    ∃ chunks last,
      chunks = (c.initOutChunkStreamState csId).2.messageChunks streamId type timestamp msg csId
      ∧ (c.initOutChunkStreamState csId).2.chunkMessage streamId type timestamp msg csId fuel
          = some (chunks.flatMap Chunk.bytes, last)
      ∧ (∀ socketWrite : SocketWrite,
          (c.writeMessage socketWrite streamId type timestamp msg csId fuel).map (fun r => r.1)
            = some ((c.initOutChunkStreamState csId).2.write socketWrite
                (chunks.flatMap Chunk.bytes)).1)
      ∧ chunks.length = max 1 ((msg.length + c.outMaxChunkSize - 1) / c.outMaxChunkSize)
      ∧ (msg ≠ [] → chunks.length = (msg.length + c.outMaxChunkSize - 1) / c.outMaxChunkSize)
      ∧ (∀ ch ∈ chunks, ch.payload.length ≤ c.outMaxChunkSize)
      ∧ chunks.flatMap (fun ch => ch.payload) = msg
      ∧ ∀ ch ∈ chunks.tail, ch.basic = basicHeader 3 csId ∧ ch.header = [] := by
  have hmax' : 0 < (c.initOutChunkStreamState csId).2.outMaxChunkSize := by
    rw [RTMPClient.initOutChunkStreamState_outMaxChunkSize]
    exact hmax
  have hchunk := RTMPClient.chunkMessage_eq (c.initOutChunkStreamState csId).2 streamId type
    timestamp msg csId fuel hmax' hfuel
  refine ⟨_, _, rfl, hchunk, ?_, ?_, ?_, ?_, ?_, ?_⟩
  · intro socketWrite
    rw [RTMPClient.writeMessage_of_chunkMessage socketWrite c streamId type timestamp msg csId
      fuel hcs _ _ hchunk]
    cases ((c.initOutChunkStreamState csId).2.write socketWrite _).1 <;> simp
  · simp only [RTMPClient.messageChunks, messageChunks_length,
      RTMPClient.initOutChunkStreamState_outMaxChunkSize]
  · intro hne
    simp only [RTMPClient.messageChunks, messageChunks_length,
      RTMPClient.initOutChunkStreamState_outMaxChunkSize]
    have hpos : 0 < msg.length := List.length_pos.2 hne
    have : 1 ≤ (msg.length + c.outMaxChunkSize - 1) / c.outMaxChunkSize := by
      apply (Nat.le_div_iff_mul_le hmax).2
      omega
    exact Nat.max_eq_right this
  · intro ch h
    have := messageChunks_payload_le _ _ _ _ _ ch h
    rwa [RTMPClient.initOutChunkStreamState_outMaxChunkSize] at this
  · exact messageChunks_payload _ _ _ _ hmax' _
  · exact messageChunks_tail _ _ _ _ _

/-- C11, witness: five bytes with a chunk size of 2 make three chunks. -/
theorem message_split_into_chunks_witness :
    ∃ chunks last,
      chunks = ({ RTMPClient.initialized with outMaxChunkSize := 2 }.initOutChunkStreamState
          4).2.messageChunks 1 VideoMsgType 10 [1, 2, 3, 4, 5] 4
      ∧ ({ RTMPClient.initialized with outMaxChunkSize := 2 }.initOutChunkStreamState
          4).2.chunkMessage 1 VideoMsgType 10 [1, 2, 3, 4, 5] 4 6
          = some (chunks.flatMap Chunk.bytes, last)
      ∧ chunks.length = 3 := by
  obtain ⟨chunks, last, h1, h2, _, h4, _⟩ := message_split_into_chunks
    { RTMPClient.initialized with outMaxChunkSize := 2 } 1 VideoMsgType 10 [1, 2, 3, 4, 5] 4 6
    (by decide) (by decide) (by decide)
  exact ⟨chunks, last, h1, h2, h4⟩

/-- C12, the failing input evaluated: the basic header `writeMessage` emits
for chunk stream 320 is `01 01 00`, the high byte of 320 - 64 before the low
one; the decoder of `readChunkFromSocket` takes the third byte as the high
one and reads chunk stream 65.  For chunk stream 192 the header is `00 80`,
and where `char` is signed the decoder sign-extends the second byte and reads
chunk stream 4294967232. -/
theorem basic_header_misread :
    basicHeader 0 320 = [0x01, 0x01, 0x00]
    ∧ decodeBasicHeader false (basicHeader 0 320) = some (0, 65, 3)
    ∧ decodeBasicHeader true (basicHeader 0 320) = some (0, 65, 3)
    ∧ basicHeader 0 192 = [0x00, 0x80]
    ∧ decodeBasicHeader true (basicHeader 0 192) = some (0, 4294967232, 2)
    ∧ decodeBasicHeader false (basicHeader 0 192) = some (0, 192, 2) := by
  decide

/-- C13: `writeMessage` with a chunk stream id of at most 1 or above 65599
emits `InvalidWriteError`, returns false and leaves the output buffer, the
gamer buffer and the socket as they were; for an id from 2 to 65599 the check
does not fail: the message is cut into chunks and the outcome is that of
`write` on their bytes. -/
theorem writeMessage_checks_chunk_stream_id (socketWrite : SocketWrite) (c : RTMPClient)
    (streamId : Nat) (type : Int) (timestamp : Nat) (msg : QByteArray) (csId fuel : Nat) :
    (csId ≤ 1 ∨ csId > 65599 →
      ∃ after, c.writeMessage socketWrite streamId type timestamp msg csId fuel
          = some (false, after)
        ∧ after.errors = c.errors ++ [RTMPError.InvalidWriteError]
        ∧ after.outBuf = c.outBuf ∧ after.gamerOutBuf = c.gamerOutBuf
        ∧ after.socketWritten = c.socketWritten)
    ∧ (2 ≤ csId ∧ csId ≤ 65599 →
      c.writeMessage socketWrite streamId type timestamp msg csId fuel
        = ((c.initOutChunkStreamState csId).2.chunkMessage streamId type timestamp msg csId
            fuel).map (fun r =>
          if ((c.initOutChunkStreamState csId).2.write socketWrite r.1).1 then
            (true, { ((c.initOutChunkStreamState csId).2.write socketWrite r.1).2 with
              outChunkStreams :=
                ((c.initOutChunkStreamState csId).2.write socketWrite
                  r.1).2.outChunkStreams.set csId r.2 })
          else (false, ((c.initOutChunkStreamState csId).2.write socketWrite r.1).2))) := by
  constructor
  · intro h
    have hbad : csId > 65599 ∨ csId ≤ 1 := by omega
    refine ⟨{ (c.initOutChunkStreamState csId).2 with
        errors := (c.initOutChunkStreamState csId).2.errors ++ [RTMPError.InvalidWriteError] },
      by unfold RTMPClient.writeMessage; simp only [hbad, if_true], ?_, ?_, ?_, ?_⟩ <;>
      · unfold RTMPClient.initOutChunkStreamState
        split_ifs <;> rfl
  · intro h
    cases hc : (c.initOutChunkStreamState csId).2.chunkMessage streamId type timestamp msg csId
        fuel with
    | none =>
      have hvalid : ¬ (csId > 65599 ∨ csId ≤ 1) := by omega
      unfold RTMPClient.writeMessage
      simp only [hvalid, if_false, hc, Option.map_none']
    | some r =>
      rw [RTMPClient.writeMessage_of_chunkMessage socketWrite c streamId type timestamp msg csId
        fuel h r.1 r.2 hc]
      rfl

/-- C13, witness: chunk stream 1 is refused and nothing is written. -/
theorem writeMessage_checks_chunk_stream_id_witness :
    ∃ after, RTMPClient.initialized.writeMessage SocketWrite.acceptAll 1 VideoMsgType 10 [0xAA]
        1 2 = some (false, after)
      ∧ after.errors = RTMPClient.initialized.errors ++ [RTMPError.InvalidWriteError]
      ∧ after.outBuf = RTMPClient.initialized.outBuf
      ∧ after.gamerOutBuf = RTMPClient.initialized.gamerOutBuf
      ∧ after.socketWritten = RTMPClient.initialized.socketWritten :=
  (writeMessage_checks_chunk_stream_id SocketWrite.acceptAll RTMPClient.initialized 1
    VideoMsgType 10 [0xAA] 1 2).1 (Or.inl (by decide))

/-- C14: the message header of a fmt 0 chunk is the 3-byte big-endian
timestamp, the 3-byte big-endian message length, the type byte and the 4-byte
little-endian msg_stream_id, eleven bytes; from 0xFFFFFF on the timestamp
field is FF FF FF and the timestamp follows as four big-endian bytes.  Placed
behind the basic header `writeMessage` emits for the chunk stream, it is read
back by `readChunkFromSocket` as the same timestamp, length, type and
msg_stream_id, for every 32-bit timestamp; the type is an enumerator of
`RTMPMsgType`, all of which are below 128, and the length fits its 24 bits. -/
theorem fmt0_header_read_back (signedChar : Bool) (inMaxChunkSize csId : Nat)
    (payload : QByteArray) (written read : ChunkStreamState) (streamId : Nat) (type : Int)
    (timestamp msgSize : Nat) (hcs : 2 ≤ csId ∧ csId ≤ 65599) (hts : timestamp < 2 ^ 32)
    (hsize : msgSize < 2 ^ 24) (hsid : streamId < 2 ^ 32)
    (htype : 0 ≤ type ∧ type < (if signedChar then 128 else 256)) :
    (messageHeader 0 written streamId type timestamp msgSize).2
      = (if timestamp ≥ 0xFFFFFF then [0xFF, 0xFF, 0xFF]
          else [timestamp / 65536 % 256, timestamp / 256 % 256, timestamp % 256])
        ++ [msgSize / 65536 % 256, msgSize / 256 % 256, msgSize % 256]
        ++ [type.toNat]
        ++ [streamId % 256, streamId / 256 % 256, streamId / 65536 % 256,
            streamId / 16777216 % 256]
        ++ (if timestamp ≥ 0xFFFFFF then
            [timestamp / 16777216 % 256, timestamp / 65536 % 256, timestamp / 256 % 256,
              timestamp % 256]
          else [])
    ∧ (∃ id, decodeBasicHeader signedChar
        ((basicHeader 0 csId ++ (messageHeader 0 written streamId type timestamp msgSize).2
          ++ payload).take (3 + 11 + 4))
        = some (0, id, (basicHeader 0 csId).length))
    ∧ decodeMessageHeader signedChar inMaxChunkSize
        ((basicHeader 0 csId ++ (messageHeader 0 written streamId type timestamp msgSize).2
          ++ payload).take (3 + 11 + 4))
        0 (basicHeader 0 csId).length read
      = some ({ read with
          timestamp := timestamp, timestampDelta := timestamp, msgLen := msgSize,
          msgLenRemaining := msgSize, msgType := type, msgStreamId := streamId },
        (basicHeader 0 csId).length + (if timestamp ≥ 0xFFFFFF then 15 else 11),
        min msgSize inMaxChunkSize) := by
  have h256 : type < 256 := by
    cases signedChar
    · simpa using htype.2
    · have : type < 128 := by simpa using htype.2
      omega
  have htn : (type % 256).toNat = type.toNat := by
    rw [Int.emod_eq_of_lt htype.1 h256]
  have hbl : (basicHeader 0 csId).length ≤ 3 := by
    unfold basicHeader
    split_ifs <;> simp
  have hhdr : (messageHeader 0 written streamId type timestamp msgSize).2
      = amfEncodeUInt24 (if timestamp ≥ 0xFFFFFF then 0xFFFFFF else timestamp)
        ++ (amfEncodeUInt24 msgSize ++ ([(type % 256).toNat] ++ (writeLEUInt32 streamId
        ++ (if timestamp ≥ 0xFFFFFF then amfEncodeUInt32 timestamp else [])))) := by
    simp only [messageHeader, Nat.zero_ne_one, if_false, OfNat.zero_ne_ofNat, writeUInt24,
      List.append_assoc]
    split_ifs <;> rfl
  refine ⟨?_, ?_, ?_⟩
  · rw [hhdr, htn]
    by_cases h : timestamp ≥ 0xFFFFFF
    · simp [h, amfEncodeUInt24, amfEncodeUInt32, writeLEUInt32]
    · simp [h, amfEncodeUInt24, amfEncodeUInt32, writeLEUInt32]
  · rw [List.append_assoc]
    exact decodeBasicHeader_size signedChar 0 csId _ (by decide) hcs
  · have hlen : ((messageHeader 0 written streamId type timestamp msgSize).2).length
        = if timestamp ≥ 0xFFFFFF then 15 else 11 := by
      rw [hhdr]
      by_cases h : timestamp ≥ 0xFFFFFF
      · simp [h, amfEncodeUInt24, amfEncodeUInt32, writeLEUInt32]
      · simp [h, amfEncodeUInt24, amfEncodeUInt32, writeLEUInt32]
    have hholds := headerData_holds (basicHeader 0 csId)
      (messageHeader 0 written streamId type timestamp msgSize).2 payload (3 + 11 + 4)
      (by rw [hlen]; split_ifs <;> omega)
    have htake : (basicHeader 0 csId).length
        + (if timestamp ≥ 0xFFFFFF then 15 else 11)
        ≤ ((basicHeader 0 csId ++ (messageHeader 0 written streamId type timestamp msgSize).2
          ++ payload).take (3 + 11 + 4)).length := by
      simp only [List.length_take, List.length_append, hlen]
      split_ifs <;> omega
    generalize hD : headerData ((basicHeader 0 csId
      ++ (messageHeader 0 written streamId type timestamp msgSize).2 ++ payload).take
        (3 + 11 + 4)) = D at hholds
    rw [hhdr] at hholds
    obtain ⟨h0, hrest⟩ := CharPtr.holds_append.1 hholds
    obtain ⟨h3, hrest⟩ := CharPtr.holds_append.1 hrest
    obtain ⟨h6, hrest⟩ := CharPtr.holds_append.1 hrest
    obtain ⟨h7, h11⟩ := CharPtr.holds_append.1 hrest
    have h6' := CharPtr.holds_head h6
    have l24 : ∀ n, (amfEncodeUInt24 n).length = 3 := fun n => rfl
    have lle : ∀ n, (writeLEUInt32 n).length = 4 := fun n => rfl
    simp only [l24, lle, List.length_cons, List.length_nil, Nat.add_assoc] at h3 h6' h7 h11
    norm_num at h3 h6' h7 h11
    rw [← hD] at h0 h3 h6' h7 h11
    have key := decodeMessageHeader_zero signedChar inMaxChunkSize
      ((basicHeader 0 csId ++ (messageHeader 0 written streamId type timestamp msgSize).2
          ++ payload).take (3 + 11 + 4))
      (basicHeader 0 csId).length read
      (if timestamp ≥ 0xFFFFFF then 0xFFFFFF else timestamp) msgSize type streamId timestamp
      (by split_ifs <;> omega) hsize hsid hts htype
      (by
        by_cases h : timestamp ≥ 0xFFFFFF
        · simpa [h] using htake
        · have h' : ¬ timestamp = 0xFFFFFF := by omega
          simpa [h, h'] using htake)
      h0 h3 h6' h7
      (by
        intro hs
        have h : timestamp ≥ 0xFFFFFF := by
          by_contra hc
          rw [if_neg hc] at hs
          omega
        rw [if_pos h] at h11
        exact h11)
    rw [key]
    by_cases h : timestamp ≥ 0xFFFFFF
    · simp only [h, if_true]
    · have h' : ¬ timestamp = 0xFFFFFF := by omega
      simp only [h, if_false, h']

/-- C14, witness: a timestamp of 0x1000000 goes through the extended field
where `char` is signed. -/
theorem fmt0_header_read_back_witness :
    decodeMessageHeader true 128
        ((basicHeader 0 4 ++ (messageHeader 0 ChunkStreamState.init 1 VideoMsgType 0x1000000 1).2
          ++ [0xAA]).take (3 + 11 + 4))
        0 (basicHeader 0 4).length ChunkStreamState.init
      = some ({ ChunkStreamState.init with
          timestamp := 0x1000000, timestampDelta := 0x1000000, msgLen := 1,
          msgLenRemaining := 1, msgType := VideoMsgType, msgStreamId := 1 },
        (basicHeader 0 4).length + (if 0x1000000 ≥ 0xFFFFFF then 15 else 11), min 1 128) :=
  (fmt0_header_read_back true 128 4 [0xAA] ChunkStreamState.init ChunkStreamState.init 1
    VideoMsgType 0x1000000 1 (by decide) (by decide) (by decide) (by decide) (by decide)).2.2

/-- C15: a chunk read adds its header and payload bytes to both byte
counters, modulo 2^32 as `uint` counts; when the bytes since the last
acknowledgement then reach the window, one message of type 3 is written on
chunk stream 2 and message stream 0 whose payload is the four big-endian
bytes of the bytes received since the handshake, and the counter since the
last acknowledgement becomes 0; otherwise nothing is written.  The message
the chunk completes, if it completes one, is dispatched after that. -/
theorem read_chunk_acknowledgement (signedChar : Bool) (socketWrite : SocketWrite)
    (processMessage : ProcessMessage) (c : RTMPClient) (buffer : QByteArray)
    (fuel fmt csId basicSize : Nat) (state : ChunkStreamState) (dataStart chunkLen : Nat)
    (hbasic : decodeBasicHeader signedChar (buffer.take (3 + 11 + 4))
      = some (fmt, csId, basicSize))
    (hheader : decodeMessageHeader signedChar c.inMaxChunkSize (buffer.take (3 + 11 + 4)) fmt
        basicSize (((c.initInChunkStreamState csId).2.inChunkStreams.value? csId).getD
          ChunkStreamState.init)
      = some (state, dataStart, chunkLen))
    (hwhole : dataStart + chunkLen ≤ buffer.length) (hmax : 0 < c.outMaxChunkSize)
    (hfuel : 4 < fuel) :
    ∃ counted acked final,
      counted.inBytesSinceHandshake = (c.inBytesSinceHandshake + (dataStart + chunkLen)) % 2 ^ 32
      ∧ counted.inBytesSinceLastAck = (c.inBytesSinceLastAck + (dataStart + chunkLen)) % 2 ^ 32
      ∧ counted.inAckWinSize = c.inAckWinSize
      ∧ counted.socketWritten = c.socketWritten ∧ counted.outBuf = c.outBuf
      ∧ counted.gamerOutBuf = c.gamerOutBuf ∧ counted.outChunkStreams = c.outChunkStreams
      ∧ counted.errors = c.errors
      ∧ (if counted.inBytesSinceLastAck ≥ counted.inAckWinSize then
          ∃ r, counted.writeMessage socketWrite 0 AckMsgType 0
              (amfEncodeUInt32 counted.inBytesSinceHandshake) 2 fuel = some r
            ∧ acked = { r.2 with inBytesSinceLastAck := 0 }
        else acked = counted)
      ∧ c.readChunkFromSocket signedChar socketWrite processMessage buffer fuel
          = some (true, final, buffer.drop (dataStart + chunkLen))
      ∧ (final = acked
        ∨ ∃ d : Dispatch, final = processMessage
            { acked with processed := acked.processed ++ [d] } d.streamId d.type d.timestamp
            d.msg) := by
  obtain ⟨f1, f2, f3, f4, f5, f6, f7, f8, f9, f10⟩ := RTMPClient.initInChunkStreamState_frame c csId
  have hnot : ¬ buffer.length < dataStart + chunkLen := by omega
  obtain ⟨stored, hstored⟩ : ∃ x : ChunkStreamState, x =
      { (if fmt ≠ 3 then { state with msg := [] } else state) with
        msg := (if fmt ≠ 3 then { state with msg := [] } else state).msg
          ++ (buffer.drop dataStart).take chunkLen,
        msgLenRemaining := (if fmt ≠ 3 then { state with msg := [] } else state).msgLenRemaining
          - chunkLen } := ⟨_, rfl⟩
  obtain ⟨counted, hcounted⟩ : ∃ x : RTMPClient, x =
      { (c.initInChunkStreamState csId).2 with
        inChunkStreams := (c.initInChunkStreamState csId).2.inChunkStreams.set csId stored,
        inBytesSinceHandshake :=
          ((c.initInChunkStreamState csId).2.inBytesSinceHandshake + (dataStart + chunkLen))
            % 2 ^ 32,
        inBytesSinceLastAck :=
          ((c.initInChunkStreamState csId).2.inBytesSinceLastAck + (dataStart + chunkLen))
            % 2 ^ 32 } := ⟨_, rfl⟩
  have hmain : c.readChunkFromSocket signedChar socketWrite processMessage buffer fuel
      = match (if counted.inBytesSinceLastAck ≥ counted.inAckWinSize then
            match counted.writeAcknowledge socketWrite fuel with
            | none => none
            | some r => some { r.2 with inBytesSinceLastAck := 0 }
          else some counted) with
        | none => none
        | some c =>
          if stored.msgLenRemaining ≤ 0 then
            some (true, processMessage
              { c with processed := c.processed
                ++ [⟨stored.msgStreamId, stored.msgType, stored.timestamp, stored.msg⟩] }
              stored.msgStreamId stored.msgType stored.timestamp stored.msg,
              (buffer.drop dataStart).drop chunkLen)
          else some (true, c, (buffer.drop dataStart).drop chunkLen) := by
    rw [← f1] at hheader
    subst hcounted hstored
    unfold RTMPClient.readChunkFromSocket
    simp only [hbasic, hheader, hnot, if_false]
  have hmax' : 0 < counted.outMaxChunkSize := by
    rw [hcounted]
    exact f2 ▸ hmax
  obtain ⟨r, hr⟩ := RTMPClient.writeMessage_isSome socketWrite counted 0 AckMsgType 0
    (amfEncodeUInt32 counted.inBytesSinceHandshake) 2 fuel hmax'
    (by simpa [amfEncodeUInt32] using hfuel)
  have hack : counted.writeAcknowledge socketWrite fuel = some r := hr
  rw [hmain, List.drop_drop]
  obtain ⟨acked, hacked⟩ : ∃ x : RTMPClient, x =
      if counted.inBytesSinceLastAck ≥ counted.inAckWinSize then
        { r.2 with inBytesSinceLastAck := 0 }
      else counted := ⟨_, rfl⟩
  have hmatch : (if counted.inBytesSinceLastAck ≥ counted.inAckWinSize then
        match counted.writeAcknowledge socketWrite fuel with
        | none => none
        | some r => some { r.2 with inBytesSinceLastAck := 0 }
      else some counted) = some acked := by
    rw [hacked, hack]
    split_ifs <;> rfl
  rw [hmatch]
  refine ⟨counted, acked,
    if stored.msgLenRemaining ≤ 0 then
      processMessage
        { acked with processed := acked.processed
          ++ [⟨stored.msgStreamId, stored.msgType, stored.timestamp, stored.msg⟩] }
        stored.msgStreamId stored.msgType stored.timestamp stored.msg
    else acked,
    by rw [hcounted, f3], by rw [hcounted, f4], by rw [hcounted, f5], by rw [hcounted, f6],
    by rw [hcounted, f7], by rw [hcounted, f8], by rw [hcounted, f9], by rw [hcounted, f10],
    ?_, ?_, ?_⟩
  · by_cases hwin : counted.inBytesSinceLastAck ≥ counted.inAckWinSize
    · rw [if_pos hwin] at hacked
      rw [if_pos hwin]
      exact ⟨r, hr, hacked⟩
    · rw [if_neg hwin] at hacked
      rw [if_neg hwin]
      exact hacked
  · by_cases hdone : stored.msgLenRemaining ≤ 0
    · simp only [hdone, if_true]
    · simp only [hdone, if_false]
  · by_cases hdone : stored.msgLenRemaining ≤ 0
    · rw [if_pos hdone]
      exact Or.inr ⟨⟨stored.msgStreamId, stored.msgType, stored.timestamp, stored.msg⟩, rfl⟩
    · rw [if_neg hdone]
      exact Or.inl rfl

/-- C15, witness: a chunk of thirteen bytes read with a window of thirteen. -/
theorem read_chunk_acknowledgement_witness :
    ∃ final, RTMPClient.readChunkFromSocket true SocketWrite.acceptAll ProcessMessage.logOnly
        { RTMPClient.initialized with inAckWinSize := 13 }
        [0x04, 0, 0, 10, 0, 0, 1, 9, 1, 0, 0, 0, 0xAA] 5
      = some (true, final, List.drop (12 + 1) [0x04, 0, 0, 10, 0, 0, 1, 9, 1, 0, 0, 0, 0xAA]) := by
  obtain ⟨_, _, final, _, _, _, _, _, _, _, _, _, h, _⟩ := read_chunk_acknowledgement true
    SocketWrite.acceptAll ProcessMessage.logOnly { RTMPClient.initialized with inAckWinSize := 13 }
    [0x04, 0, 0, 10, 0, 0, 1, 9, 1, 0, 0, 0, 0xAA] 5 0 4 1 ⟨10, 10, 1, VideoMsgType, 1, 1, []⟩
    12 1 (by decide) (by decide) (by decide) (by decide) (by decide)
  exact ⟨final, h⟩

/-! ## Claims about the handshake and the commands received -/

set_option maxRecDepth 100000

/-- C16: while the session waits for S2, 1528 echoed bytes that differ from
the random bytes sent in C1 make it emit `UnexpectedResponseError` and
disconnect: `processSocketData` returns with the session disconnecting or
disconnected and `initialized` not emitted.  Echoed bytes equal to them,
whatever the two time fields in front hold, make the session Initialized with
`initialized` emitted and its flow-control state at the defaults: chunk sizes
128, acknowledgement windows 2500000, byte counters 0; the method goes on
from there with the application connect, if it is to start by itself, and
with the chunks that follow. -/
theorem handshake_S2_echo (signedChar : Bool) (qt : QtUtf8) (socketWrite : SocketWrite)
    (close : SocketClose) (processMessage : ProcessMessage) (now fuel : Nat) (c : RTMPClient)
    (time1 time2 echo rest : QByteArray) (hsw : socketWrite.Local)
    (hfuel : c.bufferOutBufRef ≤ fuel) (hstate : c.handshakeState = .AckSentState)
    (ht1 : time1.length = 4) (ht2 : time2.length = 4) (hecho : echo.length = 1528) :
    (echo ≠ c.handshakeRandomData →
      ∃ after,
        c.processSocketData signedChar qt socketWrite close processMessage now fuel
          (time1 ++ time2 ++ echo ++ rest) = .ok (after, [])
        ∧ after.errors = c.errors ++ [RTMPError.UnexpectedResponseError]
        ∧ (after.handshakeState = .DisconnectingState
          ∨ after.handshakeState = .DisconnectedState)
        ∧ (after.signals = c.signals ∨ after.signals = c.signals ++ [Signal.disconnected]))
    ∧ (echo = c.handshakeRandomData →
      ∃ after,
        c.receiveS2 socketWrite close fuel (time1 ++ time2 ++ echo ++ rest)
          = .ok (.next after rest)
        ∧ c.processSocketData signedChar qt socketWrite close processMessage now fuel
            (time1 ++ time2 ++ echo ++ rest)
          = after.afterS2 signedChar qt socketWrite close processMessage fuel rest
        ∧ after.handshakeState = .InitializedState
        ∧ after.signals = c.signals ++ [Signal.initialized]
        ∧ after.errors = c.errors
        ∧ after.inMaxChunkSize = 128 ∧ after.outMaxChunkSize = 128
        ∧ after.inAckWinSize = 2500000 ∧ after.outAckWinSize = 2500000
        ∧ after.inBytesSinceLastAck = 0 ∧ after.outBytesSinceLastAck = 0
        ∧ after.inBytesSinceHandshake = 0) := by
  have hlen : ¬ (time1 ++ time2 ++ echo ++ rest).length < 4 + 4 + 1528 := by
    simp only [List.length_append]
    omega
  have hdrop8 : (time1 ++ time2 ++ echo ++ rest).drop 8 = echo ++ rest := by
    rw [List.append_assoc (time1 ++ time2), List.drop_append_of_le_length (by simp; omega)]
    rw [List.drop_of_length_le (by simp; omega)]
    rfl
  have htake : ((time1 ++ time2 ++ echo ++ rest).drop 8).take 1528 = echo := by
    rw [hdrop8, List.take_append_of_le_length (by omega), List.take_of_length_le (by omega)]
  have hrest : (time1 ++ time2 ++ echo ++ rest).drop (4 + 4 + 1528) = rest := by
    have : 4 + 4 + 1528 = 8 + 1528 := rfl
    rw [this, ← List.drop_drop, hdrop8, List.drop_append_of_le_length (by omega),
      List.drop_of_length_le (by omega)]
    rfl
  constructor
  · intro hne
    have hne' : c.handshakeRandomData ≠ echo := fun e => hne e.symm
    obtain ⟨after, hfail, hframe, hhs, hsig⟩ := RTMPClient.fail_spec socketWrite hsw close fuel c
      .UnexpectedResponseError hfuel (by rw [hstate]; decide)
    refine ⟨after, ?_, ?_, hhs, hsig⟩
    · unfold RTMPClient.processSocketData
      simp only [hstate]
      unfold RTMPClient.receiveS2
      simp only [hlen, if_false, htake, hne', ne_eq, not_false_eq_true, if_true, hfail]
    · rw [hframe]
      rfl
  · intro heq
    have heq' : ¬ c.handshakeRandomData ≠ echo := fun h => h heq.symm
    have hs2 : c.receiveS2 socketWrite close fuel (time1 ++ time2 ++ echo ++ rest)
        = .ok (.next
          ({ c.resetStateMembers with handshakeState := .InitializedState }.emit .initialized)
          rest) := by
      unfold RTMPClient.receiveS2
      simp only [hlen, if_false, htake, heq', hrest]
    refine ⟨_, hs2, ?_, rfl, rfl, rfl, rfl, rfl, rfl, rfl, rfl, rfl, rfl⟩
    unfold RTMPClient.processSocketData
    simp only [hstate, hs2]

/-- C16, witness: an echo of 1528 sevens answers random data of 1528 sevens. -/
theorem handshake_S2_echo_witness :
    ∃ after,
      RTMPClient.receiveS2 SocketWrite.acceptAll SocketClose.closing 0
          { RTMPClient.initial with
            handshakeState := .AckSentState, handshakeRandomData := List.replicate 1528 7 }
          ([0, 0, 0, 0] ++ [9, 9, 9, 9] ++ List.replicate 1528 7 ++ [])
        = .ok (.next after [])
      ∧ after.handshakeState = .InitializedState := by
  obtain ⟨after, h1, _, h3, _⟩ := (handshake_S2_echo true asciiText SocketWrite.acceptAll
    SocketClose.closing ProcessMessage.logOnly 0 0
    { RTMPClient.initial with
      handshakeState := .AckSentState, handshakeRandomData := List.replicate 1528 7 }
    [0, 0, 0, 0] [9, 9, 9, 9] (List.replicate 1528 7) [] SocketWrite.acceptAll_local
    (by decide) rfl rfl rfl (List.length_replicate _ _)).2 rfl
  exact ⟨after, h1, h3⟩

/-- C17: while a publish is pending, an `onStatus` command on the publish
stream whose info object has the code `NetStream.Publish.Start` sets the
publisher ready and emits `ready` once, with no error; every `onStatus`
that comes later only reaches the listeners of `receivedAmfCommandMsg`, with
no `ready` and no error.  With any other code the session emits
`RtmpPublishRejectedError` and disconnects, and the publisher, never ready,
is gone. -/
theorem publish_status (qt : QtUtf8) (socketWrite : SocketWrite) (close : SocketClose)
    (beyond : CharPtr) (fuel : Nat) (c : RTMPClient) (streamId timestamp : Nat)
    (msg : QByteArray) (p1 p2 : AMFType) (info : AMFProps) (rest : List AMFType)
    (code : QString) (pub : RTMPPublisher) (hsw : socketWrite.Local)
    (hfuel : c.bufferOutBufRef ≤ fuel) (hstate : c.handshakeState = .InitializedState)
    (hpending : c.beginningPublish = true) (hstream : streamId = c.publishStreamId)
    (hpub : c.publisher = some pub) (hready : pub.isReady = false) (hmsg : msg ≠ [])
    (hdecode : decodeParams qt (CharPtr.ofBytes msg beyond) msg.length fuel 0 []
      = .ok (some (.string (qstr "onStatus") :: p1 :: p2 :: .object info :: rest)))
    (hcode : info.value? (qstr "code") = some (.string code)) :
    (code = qstr "NetStream.Publish.Start" →
      ∃ after,
        c.processMessage qt socketWrite close beyond fuel streamId CommandAmf0MsgType timestamp
          msg = .ok after
        ∧ after.publisher = some { pub with isReady := true }
        ∧ after.signals = c.signals
            ++ [Signal.receivedAmfCommandMsg streamId
                (.string (qstr "onStatus") :: p1 :: p2 :: .object info :: rest),
              Signal.ready]
        ∧ after.errors = c.errors
        ∧ after.handshakeState = .InitializedState
        ∧ ∀ (streamId2 timestamp2 : Nat) (msg2 : QByteArray) (beyond2 : CharPtr)
            (rest2 : List AMFType), msg2 ≠ [] →
            decodeParams qt (CharPtr.ofBytes msg2 beyond2) msg2.length fuel 0 []
              = .ok (some (.string (qstr "onStatus") :: rest2)) →
            after.processMessage qt socketWrite close beyond2 fuel streamId2 CommandAmf0MsgType
                timestamp2 msg2
              = .ok (after.emit
                  (Signal.receivedAmfCommandMsg streamId2 (.string (qstr "onStatus") :: rest2))))
    ∧ (code ≠ qstr "NetStream.Publish.Start" →
      ∃ after,
        c.processMessage qt socketWrite close beyond fuel streamId CommandAmf0MsgType timestamp
          msg = .ok after
        ∧ after.errors = c.errors ++ [RTMPError.RtmpPublishRejectedError]
        ∧ after.publisher = none
        ∧ (after.handshakeState = .DisconnectingState
          ∨ after.handshakeState = .DisconnectedState)
        ∧ (after.signals = c.signals
              ++ [Signal.receivedAmfCommandMsg streamId
                (.string (qstr "onStatus") :: p1 :: p2 :: .object info :: rest)]
          ∨ after.signals = c.signals
              ++ [Signal.receivedAmfCommandMsg streamId
                (.string (qstr "onStatus") :: p1 :: p2 :: .object info :: rest),
              Signal.disconnected])) := by
  have hcmd := RTMPClient.processMessage_command qt socketWrite close beyond fuel c streamId
    timestamp msg _ hmsg (by simp) hdecode
  have hcontains := AMFProps.contains_of_value_some (qstr "code") info _ hcode
  have hr1 : ¬ qstr "onStatus" = qstr "_result" := by decide
  have hr2 : ¬ qstr "onStatus" = qstr "_error" := by decide
  rw [hcmd]
  unfold RTMPClient.processCommand
  simp only [List.getD_cons_zero, AMFType.asString, hr1, hr2, or_self, false_and, if_false,
    RTMPClient.emit, hpending, true_and, List.length_cons, hstream, List.getD_cons_succ,
    AMFType.asObject, hcontains, hcode, Bool.not_true, Bool.false_eq_true]
  have hlen4 : rest.length + 1 + 1 + 1 + 1 ≥ 4 ∧ True := ⟨by omega, trivial⟩
  simp only [hlen4, if_true]
  constructor
  · intro hstart
    simp only [hstart, if_true]
    unfold RTMPClient.setReady
    simp only [hpub, hready, Bool.false_eq_true, if_false, if_true, RTMPClient.emit]
    refine ⟨_, rfl, rfl, ?_, rfl, hstate, ?_⟩
    · simp
    · intro streamId2 timestamp2 msg2 beyond2 rest2 hmsg2 hdecode2
      rw [RTMPClient.processMessage_command qt socketWrite close beyond2 fuel _ streamId2
        timestamp2 msg2 _ hmsg2 (by simp) hdecode2]
      unfold RTMPClient.processCommand
      simp only [List.getD_cons_zero, AMFType.asString, hr1, hr2, or_self, false_and, if_false,
        RTMPClient.emit, Bool.false_eq_true]
  · intro hother
    simp only [hother, if_false]
    obtain ⟨after, hfail, hframe, hhs, hsig⟩ := RTMPClient.fail_spec socketWrite hsw close fuel
      { c with
        signals := c.signals ++ [Signal.receivedAmfCommandMsg c.publishStreamId
          (.string (qstr "onStatus") :: p1 :: p2 :: .object info :: rest)],
        beginningPublish := false, lastPublishTimestamp := 0 }
      .RtmpPublishRejectedError hfuel (by simp only [hstate]; decide)
    refine ⟨after, hfail, ?_, ?_, hhs, ?_⟩
    · rw [hframe]
      rfl
    · rw [hframe]
    · rcases hsig with h | h
      · exact Or.inl h
      · refine Or.inr ?_
        rw [h]
        simp [RTMPClient.emitError]

/-- C17, witness: the status `NetStream.Publish.Start` on stream 1. -/
theorem publish_status_witness :
    ∃ after,
      RTMPClient.processMessage asciiText SocketWrite.acceptAll SocketClose.closing (fun _ => 0) 10
          { RTMPClient.initialized with
            beginningPublish := true, publishStreamId := 1, publisher := some ⟨false, false⟩ }
          1 CommandAmf0MsgType 0
          [2, 0, 8, 111, 110, 83, 116, 97, 116, 117, 115, 0, 0, 0, 0, 0, 0, 0, 0, 0, 5, 3, 0, 4,
            99, 111, 100, 101, 2, 0, 23, 78, 101, 116, 83, 116, 114, 101, 97, 109, 46, 80, 117,
            98, 108, 105, 115, 104, 46, 83, 116, 97, 114, 116, 0, 0, 9]
        = .ok after
      ∧ after.publisher = some ⟨true, false⟩ := by
  obtain ⟨after, h1, h2, _⟩ := (publish_status asciiText SocketWrite.acceptAll
    SocketClose.closing (fun _ => 0) 10
    { RTMPClient.initialized with
      beginningPublish := true, publishStreamId := 1, publisher := some ⟨false, false⟩ }
    1 0
    [2, 0, 8, 111, 110, 83, 116, 97, 116, 117, 115, 0, 0, 0, 0, 0, 0, 0, 0, 0, 5, 3, 0, 4,
      99, 111, 100, 101, 2, 0, 23, 78, 101, 116, 83, 116, 114, 101, 97, 109, 46, 80, 117,
      98, 108, 105, 115, 104, 46, 83, 116, 97, 114, 116, 0, 0, 9]
    (.number 0) .null (.cons (qstr "code") (.string (qstr "NetStream.Publish.Start")) .nil) []
    (qstr "NetStream.Publish.Start") ⟨false, false⟩ SocketWrite.acceptAll_local
    (by decide) rfl rfl rfl rfl rfl (by decide) (by decide) (by decide)).1 rfl
  exact ⟨after, h1, h2⟩

/-- C18, counterexample: `connectToApp` on a fresh initialized session
writes `connect` with transaction id 1 and leaves the application not yet
connected; the session then receives `_result` with transaction id 1 and one
more value, three values in all.  The message reaches the listeners and
nothing else happens: `app_connected` stays false and `connectedToApp` is not
emitted. -/
theorem short_result_is_ignored :
    decodeParams asciiText
        (CharPtr.ofBytes [2, 0, 7, 95, 114, 101, 115, 117, 108, 116, 0, 63, 240, 0, 0, 0, 0, 0, 0, 5]
          (fun _ => 0)) 20 10 0 []
      = .ok (some [.string (qstr "_result"), .number (doubleOfUInt 1), .null])
    ∧ (RTMPClient.initialized.connectToApp asciiText SocketWrite.acceptAll 200).toOption.map
        (fun r => (r.1, r.2.appConnectTransId, r.2.appConnected)) = some (true, 1, false)
    ∧ ((RTMPClient.initialized.connectToApp asciiText SocketWrite.acceptAll 200).toOption.bind
        (fun r =>
          (RTMPClient.processMessage asciiText SocketWrite.acceptAll SocketClose.closing
            (fun _ => 0) 10 r.2 0 CommandAmf0MsgType 0
            [2, 0, 7, 95, 114, 101, 115, 117, 108, 116, 0, 63, 240, 0, 0, 0, 0, 0, 0,
              5]).toOption.map
          (fun after => (after.appConnected, after.signals, after.errors))))
      = some (false,
          [Signal.receivedAmfCommandMsg 0
            [.string (qstr "_result"), .number (doubleOfUInt 1), .null]], []) := by
  decide

/-- C18, as amended: `connectToApp`, where it returns true, leaves the
application not yet connected and keeps the transaction id `t` it wrote
`connect` with.  In that state a received `_result` of at least four values
whose transaction id is `t` sets `app_connected` and emits `connectedToApp`;
a received `_error` of at least four values whose transaction id is `t` emits
`RtmpConnectRejectedError`, disconnects and leaves `app_connected` false; a
command of fewer than four values, or one whose transaction id is another,
does not change `app_connected`. -/
theorem connect_result (qt : QtUtf8) (socketWrite : SocketWrite) (close : SocketClose)
    (beyond : CharPtr) (fuel : Nat) (c : RTMPClient) (streamId timestamp : Nat)
    (msg : QByteArray) (params : List AMFType) (hsw : socketWrite.Local)
    (hfuel : c.bufferOutBufRef ≤ fuel) (hstate : c.handshakeState = .InitializedState)
    (hpending : c.appConnected = false) (hmsg : msg ≠ []) (hparams : params ≠ [])
    (hdecode : decodeParams qt (CharPtr.ofBytes msg beyond) msg.length fuel 0 []
      = .ok (some params)) :
    (∀ (before after : RTMPClient),
      before.connectToApp qt socketWrite fuel = .ok (true, after) →
      after.appConnected = false
      ∧ after.appConnectTransId = (before.getNextTransactionId 0).1)
    ∧ (∀ (bits : Nat) (p2 p3 : AMFType) (rest : List AMFType),
      params = .string (qstr "_result") :: .number bits :: p2 :: p3 :: rest →
      doubleEqUInt bits c.appConnectTransId = true →
      ∃ after,
        c.processMessage qt socketWrite close beyond fuel streamId CommandAmf0MsgType timestamp
          msg = .ok after
        ∧ after.appConnected = true
        ∧ after.signals = c.signals
            ++ [Signal.receivedAmfCommandMsg streamId params, Signal.connectedToApp]
        ∧ after.errors = c.errors
        ∧ after.handshakeState = .InitializedState)
    ∧ (∀ (bits : Nat) (p2 p3 : AMFType) (rest : List AMFType),
      params = .string (qstr "_error") :: .number bits :: p2 :: p3 :: rest →
      doubleEqUInt bits c.appConnectTransId = true →
      ∃ after,
        c.processMessage qt socketWrite close beyond fuel streamId CommandAmf0MsgType timestamp
          msg = .ok after
        ∧ after.errors = c.errors ++ [RTMPError.RtmpConnectRejectedError]
        ∧ after.appConnected = false
        ∧ (after.handshakeState = .DisconnectingState
          ∨ after.handshakeState = .DisconnectedState))
    ∧ ((params.length < 4
        ∨ ∃ bits, params.getD 1 .null = .number bits
          ∧ doubleEqUInt bits c.appConnectTransId = false) →
      ∀ after,
        c.processMessage qt socketWrite close beyond fuel streamId CommandAmf0MsgType timestamp
          msg = .ok after →
        after.appConnected = c.appConnected) := by
  have hcmd := RTMPClient.processMessage_command qt socketWrite close beyond fuel c streamId
    timestamp msg params hmsg hparams hdecode
  have hne : c.handshakeState ≠ .DisconnectedState := by rw [hstate]; decide
  have hr : ¬ qstr "_result" = qstr "_error" := by decide
  have hnc : (!c.appConnected) = true := by rw [hpending]; rfl
  rw [hcmd]
  refine ⟨fun before after h => RTMPClient.connectToApp_pending qt socketWrite hsw before fuel
    after h, ?_, ?_, ?_⟩
  · intro bits p2 p3 rest hshape heq
    subst hshape
    unfold RTMPClient.processCommand
    have hlen4 : rest.length + 1 + 1 + 1 + 1 ≥ 4 := by omega
    simp only [List.getD_cons_zero, AMFType.asString, true_or, List.length_cons, hlen4,
      and_self, if_true, RTMPClient.emit, hnc, List.getD_cons_succ,
      AMFType.asNumber, heq, hr, decide_False, Bool.not_false]
    exact ⟨_, rfl, rfl, by simp, rfl, hstate⟩
  · intro bits p2 p3 rest hshape heq
    subst hshape
    unfold RTMPClient.processCommand
    have hlen4 : rest.length + 1 + 1 + 1 + 1 ≥ 4 := by omega
    simp only [List.getD_cons_zero, AMFType.asString, or_true, List.length_cons, hlen4,
      and_self, if_true, RTMPClient.emit, hnc, List.getD_cons_succ,
      AMFType.asNumber, heq, decide_True, Bool.not_true, Bool.false_eq_true, if_false]
    obtain ⟨after, hfail, hframe, hhs, _⟩ := RTMPClient.fail_spec socketWrite hsw close fuel
      { c with signals := c.signals ++ [Signal.receivedAmfCommandMsg streamId
        (.string (qstr "_error") :: .number bits :: p2 :: p3 :: rest)] }
      .RtmpConnectRejectedError hfuel hne
    refine ⟨after, hfail, ?_, ?_, hhs⟩
    · rw [hframe]
      rfl
    · rw [hframe]
      exact hpending
  · intro hcase after hok
    unfold RTMPClient.processCommand at hok
    simp only [RTMPClient.emit] at hok
    split at hok
    · cases hok
    · rename_i invoke hinvoke
      by_cases h1 : (invoke = qstr "_result" ∨ invoke = qstr "_error") ∧ params.length ≥ 4
      · rw [if_pos h1] at hok
        rcases hcase with hshort | ⟨bits, hbits, hneq⟩
        · omega
        · simp only [hnc, if_true, hbits, AMFType.asNumber, hneq, Bool.false_eq_true,
            if_false] at hok
          exact RTMPClient.processOtherResult_appConnected qt socketWrite hsw close fuel
            { c with signals := c.signals ++ [Signal.receivedAmfCommandMsg streamId params] }
            _ params hfuel hne after hok
      · rw [if_neg h1] at hok
        split_ifs at hok with h2
        · split at hok
          · exact RTMPClient.fail_appConnected socketWrite hsw close fuel
              { c with
                signals := c.signals ++ [Signal.receivedAmfCommandMsg streamId params],
                beginningPublish := false, lastPublishTimestamp := 0 }
              _ hfuel hne after hok
          · split_ifs at hok
            · exact RTMPClient.fail_appConnected socketWrite hsw close fuel
                { c with
                  signals := c.signals ++ [Signal.receivedAmfCommandMsg streamId params],
                  beginningPublish := false, lastPublishTimestamp := 0 }
                _ hfuel hne after hok
            · split at hok
              · cases hok
              · split at hok
                · exact RTMPClient.fail_appConnected socketWrite hsw close fuel
                    { c with
                      signals := c.signals ++ [Signal.receivedAmfCommandMsg streamId params],
                      beginningPublish := false, lastPublishTimestamp := 0 }
                    _ hfuel hne after hok
                · split_ifs at hok
                  · exact RTMPClient.setReady_appConnected
                      { c with
                        signals := c.signals ++ [Signal.receivedAmfCommandMsg streamId params],
                        beginningPublish := false, lastPublishTimestamp := 0 }
                      true after hok
                  · exact RTMPClient.fail_appConnected socketWrite hsw close fuel
                      { c with
                        signals := c.signals ++ [Signal.receivedAmfCommandMsg streamId params],
                        beginningPublish := false, lastPublishTimestamp := 0 }
                      _ hfuel hne after hok
        · cases hok
          rfl

/-- C18, witness: `_result` with transaction id 1 and two nulls answers a
`connect` written with transaction id 1. -/
theorem connect_result_witness :
    ∃ after,
      RTMPClient.processMessage asciiText SocketWrite.acceptAll SocketClose.closing (fun _ => 0) 10
          { RTMPClient.initialized with appConnectTransId := 1 } 0 CommandAmf0MsgType 0
          [2, 0, 7, 95, 114, 101, 115, 117, 108, 116, 0, 63, 240, 0, 0, 0, 0, 0, 0, 5, 5]
        = .ok after
      ∧ after.appConnected = true := by
  obtain ⟨after, h1, h2, _⟩ := (connect_result asciiText SocketWrite.acceptAll
    SocketClose.closing (fun _ => 0) 10 { RTMPClient.initialized with appConnectTransId := 1 } 0 0
    [2, 0, 7, 95, 114, 101, 115, 117, 108, 116, 0, 63, 240, 0, 0, 0, 0, 0, 0, 5, 5]
    [.string (qstr "_result"), .number (doubleOfUInt 1), .null, .null]
    SocketWrite.acceptAll_local (by decide) rfl rfl (by decide) (by decide)
    (by decide)).2.1 (doubleOfUInt 1) .null .null [] rfl (by decide)
  exact ⟨after, h1, h2⟩

/-- C19, the failing inputs evaluated on a fresh initialized session, whose
window is 2500000 and whose recorded limit type is Hard.  A SetPeerBW of 1000
with limit type Soft leaves the window at 2500000, not at the smaller 1000;
one of 5000000 with limit type Soft raises the window to 5000000, the larger
of the two.  Neither changes the recorded limit type, so that a Dynamic
SetPeerBW of 1000 that follows a Soft one still sets the window to 1000. -/
theorem set_peer_bandwidth_soft_and_dynamic :
    (RTMPClient.processMessage asciiText SocketWrite.acceptAll SocketClose.closing (fun _ => 0) 5
        RTMPClient.initialized 0 SetPeerBWMsgType 0 [0, 0, 3, 232, 1]).toOption.map
      (fun after => (after.outAckWinSize, after.inAckLimitType))
      = some (2500000, AckLimitType.HardLimitType)
    ∧ (RTMPClient.processMessage asciiText SocketWrite.acceptAll SocketClose.closing (fun _ => 0) 5
        RTMPClient.initialized 0 SetPeerBWMsgType 0 [0, 76, 75, 64, 1]).toOption.map
      (fun after => (after.outAckWinSize, after.inAckLimitType))
      = some (5000000, AckLimitType.HardLimitType)
    ∧ ((RTMPClient.processMessage asciiText SocketWrite.acceptAll SocketClose.closing (fun _ => 0) 5
        RTMPClient.initialized 0 SetPeerBWMsgType 0 [0, 0, 3, 232, 1]).toOption.bind
      (fun soft =>
        (RTMPClient.processMessage asciiText SocketWrite.acceptAll SocketClose.closing
          (fun _ => 0) 5 soft 0 SetPeerBWMsgType 0 [0, 0, 3, 232, 2]).toOption.map
        (fun after => after.outAckWinSize)))
      = some 1000 := by
  decide

/-- C20, the failing input evaluated.  The peer has set the chunk size to 1;
the session reads the first chunk of a two-byte video message on chunk
stream 4, then an Abort message for chunk stream 4 sent on chunk stream 2,
then a fmt 3 chunk on chunk stream 4.  The Abort message is dispatched and
the video message after it, with both its bytes: `processMessage` has no case
for the type Abort and returns with the session as it was. -/
theorem abort_message_is_ignored :
    (RTMPClient.readChunks true SocketWrite.acceptAll ProcessMessage.logOnly 10
        { RTMPClient.initialized with inMaxChunkSize := 1 }
        [0x04, 0, 0, 10, 0, 0, 2, 9, 1, 0, 0, 0, 0xAA,
         0x02, 0, 0, 0, 0, 0, 4, 2, 0, 0, 0, 0, 0, 0xC2, 0, 0xC2, 0, 0xC2, 4,
         0xC4, 0xBB]).map
      (fun r => (r.1.processed, r.2))
      = some ([⟨0, AbortMsgType, 0, [0, 0, 0, 4]⟩, ⟨1, VideoMsgType, 10, [0xAA, 0xBB]⟩], [])
    ∧ ∀ (qt : QtUtf8) (socketWrite : SocketWrite) (close : SocketClose) (beyond : CharPtr)
        (fuel : Nat) (c : RTMPClient) (streamId timestamp : Nat) (msg : QByteArray),
        c.processMessage qt socketWrite close beyond fuel streamId AbortMsgType timestamp msg
          = .ok c := by
  refine ⟨by decide, ?_⟩
  intro qt socketWrite close beyond fuel c streamId timestamp msg
  unfold RTMPClient.processMessage
  simp only [AbortMsgType, SetChunkSizeMsgType, AckMsgType, UserControlMsgType,
    WindowAckSizeMsgType, SetPeerBWMsgType, CommandAmf0MsgType]
  norm_num

set_option maxRecDepth 100000
/-! ## Claims about malformed messages -/

/-- C21, the failing input evaluated, then the handlers that do check.  A
UserControl message whose payload is the two bytes `00 06`, a PingRequest
without its timestamp, passes the size check of two bytes: the handler reads
the four bytes that follow the payload in memory, here `DE AD BE EF`, and
answers with a PingResponse that carries them; no error is emitted and the
session stays Initialized.  With the five bytes `00 06 01 02 03` the last byte
of the timestamp, here `EF`, is still read from behind the payload.  Every
other short control message, whatever the session and the memory behind the
payload, ends in `emit error(UnexpectedResponseError); disconnect();`. -/
theorem short_ping_request_is_answered :
    (RTMPClient.initialized.processMessage asciiText
          (RTMPClient.socketWrite (SocketEnv.free 65536) false) .closing
          (fun i => [0xDE, 0xAD, 0xBE, 0xEF].getD i 0) 10 0 UserControlMsgType 0 [0, 6]).map
        (fun c : RTMPClient => (c.errors, c.handshakeState, c.socketWritten))
      = .ok ([], .InitializedState,
          [2, 0, 0, 0, 0, 0, 6, 4, 0, 0, 0, 0, 0, 7, 0xDE, 0xAD, 0xBE, 0xEF])
    ∧ (RTMPClient.initialized.processMessage asciiText
          (RTMPClient.socketWrite (SocketEnv.free 65536) false) .closing
          (fun i => [0xEF].getD i 0) 10 0 UserControlMsgType 0 [0, 6, 1, 2, 3]).map
        (fun c : RTMPClient => (c.errors, c.handshakeState, c.socketWritten))
      = .ok ([], .InitializedState,
          [2, 0, 0, 0, 0, 0, 6, 4, 0, 0, 0, 0, 0, 7, 1, 2, 3, 0xEF])
    ∧ ∀ (qt : QtUtf8) (socketWrite : SocketWrite) (close : SocketClose) (beyond : CharPtr)
        (fuel : Nat) (c : RTMPClient) (streamId timestamp : Nat) (msg : QByteArray),
        (msg.length < 4 →
          c.processMessage qt socketWrite close beyond fuel streamId SetChunkSizeMsgType
              timestamp msg = c.fail socketWrite close fuel .UnexpectedResponseError
          ∧ c.processMessage qt socketWrite close beyond fuel streamId AckMsgType timestamp msg
              = c.fail socketWrite close fuel .UnexpectedResponseError
          ∧ c.processMessage qt socketWrite close beyond fuel streamId WindowAckSizeMsgType
              timestamp msg = c.fail socketWrite close fuel .UnexpectedResponseError)
        ∧ (msg.length < 5 →
          c.processMessage qt socketWrite close beyond fuel streamId SetPeerBWMsgType timestamp
              msg = c.fail socketWrite close fuel .UnexpectedResponseError)
        ∧ (msg.length < 2 →
          c.processMessage qt socketWrite close beyond fuel streamId UserControlMsgType timestamp
              msg = c.fail socketWrite close fuel .UnexpectedResponseError) := by
  refine ⟨by decide, by decide, ?_⟩
  intro qt socketWrite close beyond fuel c streamId timestamp msg
  refine ⟨fun h => ⟨?_, ?_, ?_⟩, fun h => ?_, fun h => ?_⟩ <;>
    unfold RTMPClient.processMessage <;>
    simp [h, SetChunkSizeMsgType, AckMsgType, WindowAckSizeMsgType, SetPeerBWMsgType,
      UserControlMsgType, CommandAmf0MsgType]

/-- C22, the failing inputs evaluated.  A command message that holds the
single AMF value null decodes, and `processMessage` then applies `*` to the
null pointer that `asString()` returned.  A `_result` with four values whose
second is null, received before the application is connected, has
`getValue()` called on the null pointer that `asNumber()` returned.  The same
message received once the application is connected, with no stream being
created, is dropped: no error is emitted and the session stays Initialized. -/
theorem command_downcasts_are_not_checked :
    (RTMPClient.initialized.processMessage asciiText
          (RTMPClient.socketWrite (SocketEnv.free 65536) false) .closing (fun _ => 0) 10 0
          CommandAmf0MsgType 0 [5]).map (fun _ => ())
      = .error .nullDereference
    ∧ (RTMPClient.initialized.processMessage asciiText
          (RTMPClient.socketWrite (SocketEnv.free 65536) false) .closing (fun _ => 0) 10 0
          CommandAmf0MsgType 0 ([2, 0, 7] ++ qstr "_result" ++ [5, 5, 5])).map (fun _ => ())
      = .error .nullDereference
    ∧ ({ RTMPClient.initialized with appConnected := true }.processMessage asciiText
          (RTMPClient.socketWrite (SocketEnv.free 65536) false) .closing (fun _ => 0) 10 0
          CommandAmf0MsgType 0 ([2, 0, 7] ++ qstr "_result" ++ [5, 5, 5])).map
        (fun c : RTMPClient => (c.errors, c.handshakeState))
      = .ok ([], .InitializedState) := by
  refine ⟨by decide, by decide, by decide⟩

/-! ## Claims about the send path -/

/-- C23: `write` called while the session is Disconnected, Connecting or
Disconnecting returns false and emits `InvalidWriteError`, and changes nothing
else: the internal buffer, the gamer buffer and the bytes handed to the socket
are as before.  In every other state `write` emits no error at all, whatever
the socket answers. -/
theorem write_needs_connected_socket (env : SocketEnv) (c : RTMPClient) (data : QByteArray) :
    if c.handshakeState = .DisconnectedState ∨ c.handshakeState = .ConnectingState
        ∨ c.handshakeState = .DisconnectingState then
      c.write (RTMPClient.socketWrite env false) data
          = (false, { c with errors := c.errors ++ [.InvalidWriteError] })
        ∧ (c.write (RTMPClient.socketWrite env false) data).2.outBuf = c.outBuf
        ∧ (c.write (RTMPClient.socketWrite env false) data).2.gamerOutBuf = c.gamerOutBuf
        ∧ (c.write (RTMPClient.socketWrite env false) data).2.socketWritten = c.socketWritten
    else (c.write (RTMPClient.socketWrite env false) data).2.errors = c.errors := by
  have hframe := RTMPClient.socketWrite_frame env false c data
  unfold RTMPClient.write
  cases hstate : c.handshakeState <;> simp only [reduceCtorEq, or_self, or_false, false_or,
    or_true, true_or, if_true, if_false, and_self] <;>
  · split_ifs
    · rfl
    · rfl
    · rfl
    · show (RTMPClient.socketWrite env false c data).2.errors = c.errors
      rw [hframe]

/-- C25, counterexample: an initialized session in gamer mode with a
force-buffer count of 1.  `write` of three bytes returns true and appends
them to the gamer buffer; the internal buffer stays empty.  And at a count of
`INT_MAX` the increment of `beginForceBufferWrite` overflows the `int`, so
that it does not add 1. -/
theorem forced_write_lands_in_gamer_buffer :
    ({ RTMPClient.initialized with inGamerMode := true, bufferOutBufRef := 1 }.write
        (RTMPClient.socketWrite (SocketEnv.free 65536) false) [1, 2, 3]).1 = true
      ∧ ({ RTMPClient.initialized with inGamerMode := true, bufferOutBufRef := 1 }.write
        (RTMPClient.socketWrite (SocketEnv.free 65536) false) [1, 2, 3]).2.outBuf = []
      ∧ ({ RTMPClient.initialized with inGamerMode := true, bufferOutBufRef := 1 }.write
        (RTMPClient.socketWrite (SocketEnv.free 65536) false) [1, 2, 3]).2.gamerOutBuf
          = [1, 2, 3]
      ∧ ({ RTMPClient.initialized with bufferOutBufRef := 2147483647 }
          : RTMPClient).beginForceBufferWrite = .error .signedOverflow := by
  refine ⟨by decide, by decide, by decide, by decide⟩

/-- C25, as amended: the force-buffer count is 0 in a new session and, being
non-negative, stays so: `beginForceBufferWrite` adds 1 to a count below
`INT_MAX`; `endForceBufferWrite` does nothing when the count is not positive,
and otherwise subtracts 1.  While the count is positive, `write` on a session
that is neither Disconnected, Connecting nor Disconnecting returns true and
appends the data to the internal buffer, or to the gamer buffer in gamer mode
outside saturation mode, without calling `socketWrite`; `socketReadyForWrite`
and `gamerTickEvent` return at once; and `endForceBufferWrite` leaves the
buffers alone as long as the count stays positive: the one call that attempts
a flush, `attemptToEmptyOutBuf`, is made by the `endForceBufferWrite` that
brings the count to 0.  That the socket is not called shows in the results,
which are the same for every socket. -/
theorem force_buffer_count (env : SocketEnv) (tickFreq : Float32) (c : RTMPClient)
    (data : QByteArray) (numDropped : Int) (satModeExpired : Bool)
    (hnonneg : 0 ≤ c.bufferOutBufRef) (hmax : c.bufferOutBufRef < INT_MAX) :
    RTMPClient.initial.bufferOutBufRef = 0
    ∧ c.beginForceBufferWrite = .ok { c with bufferOutBufRef := c.bufferOutBufRef + 1 }
    ∧ (c.bufferOutBufRef ≤ 0 → c.endForceBufferWrite (RTMPClient.socketWrite env false) = c)
    ∧ (0 < c.bufferOutBufRef →
        (c.endForceBufferWrite (RTMPClient.socketWrite env false)).bufferOutBufRef
          = c.bufferOutBufRef - 1)
    ∧ 0 ≤ (c.endForceBufferWrite (RTMPClient.socketWrite env false)).bufferOutBufRef
    ∧ (1 < c.bufferOutBufRef →
        ∀ socketWrite : SocketWrite,
          c.endForceBufferWrite socketWrite
            = { c with bufferOutBufRef := c.bufferOutBufRef - 1 })
    ∧ (c.bufferOutBufRef = 1 →
        ∀ socketWrite : SocketWrite,
          c.endForceBufferWrite socketWrite
            = ({ c with bufferOutBufRef := 0 }.attemptToEmptyOutBuf socketWrite).2)
    ∧ (0 < c.bufferOutBufRef →
        (c.handshakeState ≠ .DisconnectedState → c.handshakeState ≠ .ConnectingState →
          c.handshakeState ≠ .DisconnectingState →
          ∀ socketWrite : SocketWrite,
            c.write socketWrite data
              = (true,
                if c.inGamerMode = true ∧ c.gamerInSatMode = false then
                  { c with gamerOutBuf := c.gamerOutBuf ++ data }
                else { c with outBuf := c.outBuf ++ data }))
        ∧ (∀ socketWrite : SocketWrite, c.socketReadyForWrite socketWrite = c)
        ∧ ∀ socketWrite : SocketWrite,
            c.gamerTickEvent socketWrite tickFreq satModeExpired numDropped = .ok c) := by
  have hframe := RTMPClient.endForceBufferWrite_frame (RTMPClient.socketWrite env false)
    (RTMPClient.socketWrite_local env false) c
  have hcount : ∀ h : 0 < c.bufferOutBufRef,
      (c.endForceBufferWrite (RTMPClient.socketWrite env false)).bufferOutBufRef
        = c.bufferOutBufRef - 1 := fun h => (hframe h).2
  refine ⟨rfl, RTMPClient.beginForceBufferWrite_of_lt c hmax, ?_, hcount, ?_, ?_, ?_, ?_⟩
  · intro h0
    unfold RTMPClient.endForceBufferWrite
    rw [if_pos h0]
  · by_cases hpos : 0 < c.bufferOutBufRef
    · rw [hcount hpos]; omega
    · unfold RTMPClient.endForceBufferWrite
      rw [if_pos (by omega)]
      exact hnonneg
  · intro h1 socketWrite
    unfold RTMPClient.endForceBufferWrite
    have h0 : ¬ c.bufferOutBufRef ≤ 0 := by omega
    have h2 : ¬ c.bufferOutBufRef - 1 = 0 := by omega
    simp [h0, h2]
  · intro h1 socketWrite
    unfold RTMPClient.endForceBufferWrite
    simp [h1]
  · intro hpos
    refine ⟨?_, ?_, ?_⟩
    · intro h1 h2 h3 socketWrite
      unfold RTMPClient.write
      cases hstate : c.handshakeState
      case DisconnectedState => exact absurd hstate h1
      case ConnectingState => exact absurd hstate h2
      case DisconnectingState => exact absurd hstate h3
      all_goals
        by_cases hg : c.inGamerMode = true ∧ c.gamerInSatMode = false
        · have hg2 : (c.inGamerMode && !c.gamerInSatMode) = true := by
            rw [hg.1, hg.2]; rfl
          simp only [hg2, if_true, if_pos hg]
          by_cases hd : data.isEmpty = true
          · rw [if_pos hd]
            have : data = [] := by simpa using hd
            rw [this, List.append_nil, ← hstate]
          · rw [if_neg hd, ← hstate]
        · have hg2 : (c.inGamerMode && !c.gamerInSatMode) = false := by
            cases hm : c.inGamerMode <;> cases hs : c.gamerInSatMode <;> simp_all
          simp only [hg2, Bool.false_eq_true, if_false, if_pos hpos, if_neg hg]
          by_cases hd : data.isEmpty = true
          · rw [if_pos hd]
            have : data = [] := by simpa using hd
            rw [this, List.append_nil, ← hstate]
          · rw [if_neg hd, ← hstate]
    · intro socketWrite
      unfold RTMPClient.socketReadyForWrite
      rw [if_pos hpos]
    · intro socketWrite
      unfold RTMPClient.gamerTickEvent
      have hw : c.willWriteBuffer = true := by
        unfold RTMPClient.willWriteBuffer
        simp [hpos]
      by_cases hgm : (!c.inGamerMode) = true
      · rw [if_pos hgm]
      · rw [if_neg hgm]
        by_cases hcn : (!c.isSocketConnected) = true
        · rw [if_pos hcn]
        · rw [if_neg hcn, if_pos hw]

/-- C25, witness: an initialized session with a force-buffer count of 1.
`write` of three bytes appends them to the internal buffer and hands nothing
to the socket. -/
theorem force_buffer_count_witness :
    ({ RTMPClient.initialized with bufferOutBufRef := 1 } : RTMPClient).write
        (RTMPClient.socketWrite (SocketEnv.free 65536) false) [1, 2, 3]
      = (true,
        if ({ RTMPClient.initialized with bufferOutBufRef := 1 } : RTMPClient).inGamerMode
            = true
          ∧ ({ RTMPClient.initialized with bufferOutBufRef := 1 } : RTMPClient).gamerInSatMode
            = false then
          { ({ RTMPClient.initialized with bufferOutBufRef := 1 } : RTMPClient) with
            gamerOutBuf := ({ RTMPClient.initialized with bufferOutBufRef := 1 }
              : RTMPClient).gamerOutBuf ++ [1, 2, 3] }
        else
          { ({ RTMPClient.initialized with bufferOutBufRef := 1 } : RTMPClient) with
            outBuf := ({ RTMPClient.initialized with bufferOutBufRef := 1 }
              : RTMPClient).outBuf ++ [1, 2, 3] }) :=
  ((force_buffer_count (SocketEnv.free 65536) Float32.one
    { RTMPClient.initialized with bufferOutBufRef := 1 } [1, 2, 3] 0 false
    (by decide) (by decide)).2.2.2.2.2.2.2 (by decide)).1 (by decide) (by decide) (by decide)
    (RTMPClient.socketWrite (SocketEnv.free 65536) false)

/-- C24, counterexample: on a fresh session, after 4294967295 calls of
`getNextTransactionId(0)` the next call, the `2 ^ 32`-th, returns 0: the
counter is a `uint` and has wrapped. -/
theorem transaction_id_wraps_to_zero :
    (RTMPClient.getNextTransactionId
        (RTMPClient.initial.getNextTransactionIds (List.replicate 4294967295 0)).2 0).1 = 0 := by
  rw [RTMPClient.getNextTransactionId_after RTMPClient.initial 0 _ rfl,
    List.count_replicate_self]
  norm_num

/-- C24, as amended: on a session that has no counter for message stream
`s`, as after `resetStateMembers` or after a `writeDeleteStreamMsg` that
returned true for `s`, the call of `getNextTransactionId(s)` that follows any
calls for any streams returns `k`, one more than the number of those calls
that were for `s`, as long as `k` is below `2 ^ 32`: the ids of a stream start
at 1, go up by 1, are never 0, and do not depend on the calls made for other
streams. -/
theorem transaction_ids_count_up (c : RTMPClient) (s : Nat) (calls : List Nat)
    (hfresh : c.nextTransactionIds.contains s = false) (hk : calls.count s + 1 < 2 ^ 32) :
    ((c.getNextTransactionIds calls).2.getNextTransactionId s).1 = calls.count s + 1
    ∧ ((c.getNextTransactionIds calls).2.getNextTransactionId s).1 ≠ 0
    ∧ (∀ before : RTMPClient, before.resetStateMembers.nextTransactionIds.contains s = false)
    ∧ (∀ (qt : QtUtf8) (socketWrite : SocketWrite) (before after : RTMPClient)
        (streamId fuel : Nat),
        before.writeDeleteStreamMsg qt socketWrite streamId fuel = .ok (true, after) →
        after.nextTransactionIds.contains
          (if streamId = 0 then before.publishStreamId else streamId) = false) := by
  have h := RTMPClient.getNextTransactionId_after c s calls hfresh
  rw [Nat.mod_eq_of_lt hk] at h
  refine ⟨h, by rw [h]; omega, fun _ => rfl, ?_⟩
  intro qt socketWrite before after streamId fuel hdel
  exact RTMPClient.writeDeleteStreamMsg_removes qt socketWrite before streamId fuel after hdel

/-- C24, witness: on a fresh session the call for stream 0 that follows calls
for the streams 0, 1 and 0 returns 3. -/
theorem transaction_ids_count_up_witness :
    ((RTMPClient.initial.getNextTransactionIds [0, 1, 0]).2.getNextTransactionId 0).1 = 3 :=
  (transaction_ids_count_up RTMPClient.initial 0 [0, 1, 0] (by decide) (by decide)).1

/-! ## Claims about the path of a target URL -/

/-- C28: for a URL that `fromUrl` accepts as far as its path (valid for
`QUrl`, scheme rtmp or rtmps, no user-info, a host, no fragment, a path that
is not empty), let `first :: rest` be the segments of the path, that is, the
parts between the `/` of the path taken together with `?` and the query.
With `incStreamName` true and at least two segments, `streamName` is the last
segment, `appName` the first and `appInstance` the segments between them
joined with `/`.  With `incStreamName` false, `streamName` is the argument,
`appName` the first segment and `appInstance` all the others joined with `/`.
And where `QUrl` reports the path up to the first `?` and the query after it,
what is split is the text of the URL after the `/` that ends the authority, so
that a `?query` is part of the segment it was written in. -/
theorem fromUrl_path_segments (qt : QtUrl) (str streamName first : QString)
    (rest : List QString)
    (hvalid : (qt.parse (RTMPTargetInfo.urlStr qt str)).isValid = true)
    (hscheme : (qt.parse (RTMPTargetInfo.urlStr qt str)).scheme = qstr "rtmp"
      ∨ (qt.parse (RTMPTargetInfo.urlStr qt str)).scheme = qstr "rtmps")
    (huser : (qt.parse (RTMPTargetInfo.urlStr qt str)).userInfo = [])
    (hhost : (qt.parse (RTMPTargetInfo.urlStr qt str)).host ≠ [])
    (hfragment : (qt.parse (RTMPTargetInfo.urlStr qt str)).hasFragment = false)
    (hpath : RTMPTargetInfo.pathWithQuery (qt.parse (RTMPTargetInfo.urlStr qt str)) ≠ [])
    (hsplit : QString.split 47
        (RTMPTargetInfo.pathWithQuery (qt.parse (RTMPTargetInfo.urlStr qt str)))
      = first :: rest) :
    (∀ hk : rest ≠ [],
      (RTMPTargetInfo.fromUrl qt str true streamName).streamName = rest.getLast hk
        ∧ (RTMPTargetInfo.fromUrl qt str true streamName).appName = first
        ∧ (RTMPTargetInfo.fromUrl qt str true streamName).appInstance
          = QString.join 47 rest.dropLast)
    ∧ (RTMPTargetInfo.fromUrl qt str false streamName).streamName = streamName
    ∧ (RTMPTargetInfo.fromUrl qt str false streamName).appName = first
    ∧ (RTMPTargetInfo.fromUrl qt str false streamName).appInstance = QString.join 47 rest
    ∧ ∀ (scheme host : QString) (port : Option Nat) (text : QString),
        RTMPTargetInfo.pathWithQuery (QUrl.ofParts scheme host port text) = text := by
  have hschemeOk : (RTMPProtocolTypeStrings.any
      (fun name => (qt.parse (RTMPTargetInfo.urlStr qt str)).scheme == name)) = true := by
    rcases hscheme with h | h <;> rw [h] <;> decide
  have huserE : (qt.parse (RTMPTargetInfo.urlStr qt str)).userInfo.isEmpty = true := by
    rw [huser]; rfl
  have hhostE : (qt.parse (RTMPTargetInfo.urlStr qt str)).host.isEmpty = false := by
    cases h : (qt.parse (RTMPTargetInfo.urlStr qt str)).host with
    | nil => exact absurd h hhost
    | cons c cs => simp [QString.isEmpty]
  have hpathE : (RTMPTargetInfo.pathWithQuery
      (qt.parse (RTMPTargetInfo.urlStr qt str))).isEmpty = false := by
    cases h : RTMPTargetInfo.pathWithQuery (qt.parse (RTMPTargetInfo.urlStr qt str)) with
    | nil => exact absurd h hpath
    | cons c cs => simp [QString.isEmpty]
  have hjoin : ∀ l : List QString, (if l.length > 0 then QString.join 47 l else [])
      = QString.join 47 l := by
    intro l
    cases l with
    | nil => rfl
    | cons a b => simp
  refine ⟨?_, ?_, ?_, ?_, fun scheme host port text =>
    RTMPTargetInfo.pathWithQuery_ofParts scheme host port text⟩
  · intro hk
    unfold RTMPTargetInfo.fromUrl RTMPTargetInfo.fromQUrl
    simp only [hvalid, hschemeOk, huserE, hhostE, hfragment, hpathE, hsplit, Bool.not_true,
      Bool.not_false, Bool.false_eq_true, if_false, if_true]
    obtain ⟨b, more, rfl⟩ : ∃ b more, rest = b :: more := by
      cases rest with
      | nil => exact absurd rfl hk
      | cons b more => exact ⟨b, more, rfl⟩
    have hlen : decide ((first :: b :: more).length > 1) = true := by simp
    simp only [hlen, Bool.and_self, if_true, hjoin]
    refine ⟨?_, ?_, ?_⟩
    · rw [List.getLastD_eq_getLast?, List.getLast?_eq_getLast _ (by simp)]
      simp
    · simp [List.dropLast]
    · simp [List.dropLast]
  · unfold RTMPTargetInfo.fromUrl RTMPTargetInfo.fromQUrl
    simp only [hvalid, hschemeOk, huserE, hhostE, hfragment, hpathE, hsplit, Bool.not_true,
      Bool.not_false, Bool.false_eq_true, if_false, if_true, Bool.false_and]
  · unfold RTMPTargetInfo.fromUrl RTMPTargetInfo.fromQUrl
    simp only [hvalid, hschemeOk, huserE, hhostE, hfragment, hpathE, hsplit, Bool.not_true,
      Bool.not_false, Bool.false_eq_true, if_false, if_true, Bool.false_and, List.headD_cons]
  · unfold RTMPTargetInfo.fromUrl RTMPTargetInfo.fromQUrl
    simp only [hvalid, hschemeOk, huserE, hhostE, hfragment, hpathE, hsplit, Bool.not_true,
      Bool.not_false, Bool.false_eq_true, if_false, if_true, Bool.false_and, List.tail_cons,
      hjoin]

/-- C28, witness: the URL of the test
`IPWithDoubleInstanceAndStreamNameAndQueryInStreamName`, whose last segment
carries a query, read with its stream name. -/
theorem fromUrl_path_segments_witness :
    (RTMPTargetInfo.fromUrl
        (QtUrl.reporting (QUrl.ofParts (qstr "rtmp") (qstr "192.168.1.1") none
          (qstr "live/instance/second/stream?Name")))
        (qstr "rtmp://192.168.1.1/live/instance/second/stream?Name") true []).streamName
      = qstr "stream?Name"
    ∧ (RTMPTargetInfo.fromUrl
        (QtUrl.reporting (QUrl.ofParts (qstr "rtmp") (qstr "192.168.1.1") none
          (qstr "live/instance/second/stream?Name")))
        (qstr "rtmp://192.168.1.1/live/instance/second/stream?Name") true []).appName
      = qstr "live"
    ∧ (RTMPTargetInfo.fromUrl
        (QtUrl.reporting (QUrl.ofParts (qstr "rtmp") (qstr "192.168.1.1") none
          (qstr "live/instance/second/stream?Name")))
        (qstr "rtmp://192.168.1.1/live/instance/second/stream?Name") true []).appInstance
      = qstr "instance/second" :=
  (fromUrl_path_segments
    (QtUrl.reporting (QUrl.ofParts (qstr "rtmp") (qstr "192.168.1.1") none
      (qstr "live/instance/second/stream?Name")))
    (qstr "rtmp://192.168.1.1/live/instance/second/stream?Name") [] (qstr "live")
    [qstr "instance", qstr "second", qstr "stream?Name"]
    (by decide) (by decide) (by decide) (by decide) (by decide) (by decide) (by decide)).1
    (by decide)

set_option maxRecDepth 100000
/-! ## Claims about the publisher -/

set_option maxRecDepth 100000

/-! ## Claims about gamer mode and the order of the data -/

/-- C29, counterexample.  A session in gamer mode outside saturation mode,
average upload 5120 bytes per second, 60 ticks per second, 120 bytes in the
gamer buffer; the cap of a tick is `(int)((5120.0f / 60.0f) * 1.0f * 1.3f)`,
110 bytes.  The socket takes 64 bytes of the 110 and then reports its buffer
full: `socketWrite` keeps the other 46 in the internal buffer and calls
`gamerEnterSatMode()`, which flushes what was left in the gamer buffer.  After
the one tick the gamer buffer is empty, 110 bytes have been handed to the
socket and the last 10 bytes wait in the internal buffer, out of reach of the
cap.  Besides, the cap is computed in single precision: for an average upload
of 6452783 bytes per second and one tick per second it is 8388618, where
6452783 × 13 / 10 cut to a whole number is 8388617; and for the 100 MiB per
second the constructor sets, one tick per second and 15 missed ticks the
product is above the largest `int`, so that the conversion is undefined. -/
theorem gamer_tick_flushes_on_saturation :
    gamerMaxBytes 5120 (Float32.ofInt 60) 0 = .ok 110
    ∧ ((({ RTMPClient.initialized with inGamerMode := true, gamerOutBuf := List.range 120 }
            : RTMPClient).gamerSetAverageUpload 5120).gamerTickEvent
          (RTMPClient.socketWrite
            { outer := SocketAnswers.free 64,
              nested := { SocketAnswers.free 64 with bytesAfterWrite := 46 } } false)
          (Float32.ofInt 60) false 0).map
        (fun c : RTMPClient => (c.socketWritten, c.outBuf, c.gamerOutBuf, c.gamerInSatMode))
      = .ok (List.range 110, [110, 111, 112, 113, 114, 115, 116, 117, 118, 119], [], true)
    ∧ gamerMaxBytes 6452783 Float32.one 0 = .ok 8388618
    ∧ 6452783 * 13 / 10 = 8388617
    ∧ gamerMaxBytes (100 * 1024 * 1024) Float32.one 15 = .error .undefinedConversion := by
  refine ⟨by decide, by decide, by decide, by decide, by decide⟩

/-- C29, as amended: in gamer mode outside saturation mode, with a socket
that reports no error, let `maxBytes` be the number
`(int)((((float)avgUploadBytes / tickFreq) * (float)(1 + numDropped)) * 1.3f)`
as single-precision arithmetic gives it, where the conversion is defined.  One
`gamerTickEvent(numDropped)` on a session whose socket is not connected, or
that has data in the internal buffer or a force-buffer scope open, returns
without any change.  On any other session it returns and keeps the order of
the bytes on the send path; if the session is still outside saturation mode
afterwards, the first `maxBytes` bytes of the gamer buffer, or all of it when
it is shorter, have been handed to the socket, the rest of the gamer buffer is
in place, in order, and the internal buffer is empty; otherwise the socket has
reported its buffer full and the whole gamer buffer has been flushed. -/
theorem gamer_tick_releases_front (env : SocketEnv) (tickFreq : Float32)
    (satModeExpired : Bool) (c : RTMPClient) (numDropped maxBytes : Int)
    (hgamer : c.inGamerMode = true) (hsat : c.gamerInSatMode = false)
    (henv : env.noError = true)
    (hmax : gamerMaxBytes c.gamerAvgUploadBytes tickFreq numDropped = .ok maxBytes) :
    (c.isSocketConnected = false ∨ c.willWriteBuffer = true →
      c.gamerTickEvent (RTMPClient.socketWrite env false) tickFreq satModeExpired numDropped
        = .ok c)
    ∧ (c.isSocketConnected = true → c.willWriteBuffer = false →
      ∃ after : RTMPClient,
        c.gamerTickEvent (RTMPClient.socketWrite env false) tickFreq satModeExpired numDropped
            = .ok after
          ∧ after.sendOrder = c.sendOrder
          ∧ (after.gamerInSatMode = false →
              after.socketWritten = c.socketWritten ++ c.gamerOutBuf.take maxBytes.toNat
                ∧ after.gamerOutBuf = c.gamerOutBuf.drop maxBytes.toNat
                ∧ after.outBuf = [])
          ∧ (after.gamerInSatMode = true → after.gamerOutBuf = [])) := by
  have h1 : ¬ (!c.inGamerMode) = true := by rw [hgamer]; decide
  refine ⟨fun h => ?_, fun hconn hidle => ?_⟩
  · unfold RTMPClient.gamerTickEvent
    rw [if_neg h1]
    by_cases hc : (!c.isSocketConnected) = true
    · rw [if_pos hc]
    · rw [if_neg hc]
      rcases h with h | h
      · rw [h] at hc
        exact absurd rfl hc
      · rw [if_pos h]
  have hout : c.outBuf = [] := by
    unfold RTMPClient.willWriteBuffer at hidle
    simp only [Bool.or_eq_false_iff, Bool.not_eq_false', List.isEmpty_iff] at hidle
    exact hidle.2
  unfold RTMPClient.gamerTickEvent
  have h2 : ¬ (!c.isSocketConnected) = true := by rw [hconn]; decide
  have h3 : ¬ c.willWriteBuffer = true := by rw [hidle]; decide
  have h4 : ¬ (c.gamerInSatMode = true ∧ 1 + numDropped ≥ 2 ^ 31) := by rw [hsat]; simp
  have h5 : ¬ (c.gamerInSatMode && !satModeExpired) = true := by rw [hsat]; simp
  have h6 : ¬ c.gamerInSatMode = true := by rw [hsat]; decide
  rw [if_neg h1, if_neg h2, if_neg h3, if_neg h4, if_neg h5]
  simp only [if_neg h6, hmax]
  by_cases hempty : c.gamerOutBuf.isEmpty = true
  · rw [if_pos hempty]
    have hnil : c.gamerOutBuf = [] := by simpa using hempty
    refine ⟨c, rfl, rfl, fun _ => ?_, fun _ => hnil⟩
    simp [hnil, hout]
  · rw [if_neg hempty]
    obtain ⟨htake, hdrop⟩ := take_of_maxBytes c.gamerOutBuf maxBytes
    rw [htake, hdrop]
    refine ⟨_, rfl, ?_, ?_, ?_⟩
    · have h := (RTMPClient.releaseFront_sendOrder env c maxBytes henv hgamer hsat).1
      rw [htake, hdrop] at h
      exact h
    · intro hafter
      obtain ⟨hw, ho, hb⟩ := RTMPClient.socketWrite_of_not_saturated env
        { c with gamerOutBuf := c.gamerOutBuf.drop maxBytes.toNat }
        (c.gamerOutBuf.take maxBytes.toNat) henv hgamer hconn hout hafter
      exact ⟨hw, hb, ho⟩
    · exact RTMPClient.socketWrite_saturated env false
        { c with gamerOutBuf := c.gamerOutBuf.drop maxBytes.toNat }
        (c.gamerOutBuf.take maxBytes.toNat) (fun h => by rw [hsat] at h; exact absurd h (by simp))

/-- C29, witness: 120 bytes in the gamer buffer, a cap of 110 bytes and a
socket with room for all of them. -/
theorem gamer_tick_releases_front_witness :
    ∃ after : RTMPClient,
      (({ RTMPClient.initialized with inGamerMode := true, gamerOutBuf := List.range 120 }
            : RTMPClient).gamerSetAverageUpload 5120).gamerTickEvent
          (RTMPClient.socketWrite (SocketEnv.free 65536) false) (Float32.ofInt 60) false 0
          = .ok after
        ∧ after.sendOrder
          = (({ RTMPClient.initialized with inGamerMode := true, gamerOutBuf := List.range 120 }
            : RTMPClient).gamerSetAverageUpload 5120).sendOrder
        ∧ (after.gamerInSatMode = false →
            after.socketWritten
                = (({ RTMPClient.initialized with
                      inGamerMode := true, gamerOutBuf := List.range 120 }
                    : RTMPClient).gamerSetAverageUpload 5120).socketWritten
                  ++ (({ RTMPClient.initialized with
                      inGamerMode := true, gamerOutBuf := List.range 120 }
                    : RTMPClient).gamerSetAverageUpload 5120).gamerOutBuf.take (110 : Int).toNat
              ∧ after.gamerOutBuf
                = (({ RTMPClient.initialized with
                      inGamerMode := true, gamerOutBuf := List.range 120 }
                    : RTMPClient).gamerSetAverageUpload 5120).gamerOutBuf.drop (110 : Int).toNat
              ∧ after.outBuf = [])
        ∧ (after.gamerInSatMode = true → after.gamerOutBuf = []) :=
  (gamer_tick_releases_front (SocketEnv.free 65536) (Float32.ofInt 60) false
    (({ RTMPClient.initialized with inGamerMode := true, gamerOutBuf := List.range 120 }
      : RTMPClient).gamerSetAverageUpload 5120) 0 110
    (by decide) (by decide) (by decide) (by decide)).2 (by decide) (by decide)

/-- C30: with a socket that reports no error, after any sequence of calls of
`write`, `writeMessage`, `beginForceBufferWrite`, `endForceBufferWrite`,
`socketReadyForWrite` and `gamerTickEvent` that has returned, with whatever
entries to and exits from saturation mode they brought, the bytes handed to
the socket followed by the internal buffer followed by the gamer buffer are
those that were there at the start followed by all the data `write` has
accepted, in the order of the calls.  The start is any session whose gamer
buffer holds data only in gamer mode outside saturation mode, as is the case
after `connect()`, which clears the buffers and the flag. -/
theorem send_path_keeps_order (tickFreq : Float32) (fuel : Nat)
    (steps : List (SendCall × SocketEnv)) (c after : RTMPClient) (accepted : QByteArray)
    (henv : ∀ step ∈ steps, step.2.noError = true)
    (hc : c.gamerOutBuf ≠ [] → c.inGamerMode = true ∧ c.gamerInSatMode = false)
    (h : c.sendAll tickFreq fuel steps = .ok (after, accepted)) :
    after.socketWritten ++ after.outBuf ++ after.gamerOutBuf
      = c.socketWritten ++ c.outBuf ++ c.gamerOutBuf ++ accepted :=
  (RTMPClient.sendAll_sendOrder tickFreq fuel steps c (after, accepted) henv hc h).1

/-- C30, witness: in gamer mode, a write and a message inside a force-buffer
scope, a tick that finds room for 4 bytes and so enters saturation mode, a
write in saturation mode and a writable notification.  All 18 bytes have
reached the socket in the order written. -/
theorem send_path_keeps_order_witness :
    ([1, 2, 3, 4, 0, 0, 10, 0, 0, 1, 9, 1, 0, 0, 0, 0xAA, 4, 5] : QByteArray) ++ [] ++ []
      = [] ++ [] ++ [] ++ [1, 2, 3, 4, 0, 0, 10, 0, 0, 1, 9, 1, 0, 0, 0, 0xAA, 4, 5] :=
  send_path_keeps_order (Float32.ofInt 60) 10
    [(.beginForceBufferWrite, SocketEnv.free 64),
     (.write [1, 2, 3], SocketEnv.free 64),
     (.writeMessage ⟨1, VideoMsgType, 10, [0xAA], 4⟩, SocketEnv.free 64),
     (.endForceBufferWrite, SocketEnv.free 64),
     (.gamerTickEvent 0 false, SocketEnv.free 4),
     (.write [4, 5], SocketEnv.free 64),
     (.socketReadyForWrite, SocketEnv.free 64)]
    { RTMPClient.initialized with inGamerMode := true }
    { RTMPClient.initialized with
      inGamerMode := true, gamerInSatMode := true,
      outChunkStreams :=
        [(4, { timestamp := 10, timestampDelta := 10, msgLen := 1, msgType := VideoMsgType,
               msgStreamId := 1, msgLenRemaining := 0, msg := [] })],
      socketWritten := [1, 2, 3, 4, 0, 0, 10, 0, 0, 1, 9, 1, 0, 0, 0, 0xAA, 4, 5] }
    [1, 2, 3, 4, 0, 0, 10, 0, 0, 1, 9, 1, 0, 0, 0, 0xAA, 4, 5]
    (by decide) (by decide) (by decide)

set_option maxRecDepth 100000
/-! ## Claims about the header format and the state of the writer -/

/-- C31: let ts0, delta0, len0, type0 and sid0 be the timestamp, timestamp
delta, message length, message type and msg_stream_id that the output state
of the chunk stream records, all zero for a chunk stream that has none yet.
The format `writeMessage` chooses for the first chunk of a message is 0 when
the msg_stream_id is not sid0, the timestamp is 0 or the timestamp is below
ts0; otherwise 1 when the length of the payload is not len0 or the type is
not type0; otherwise 2 when the timestamp less ts0 is not delta0; otherwise 3.
When the chunk stream id is valid and the loop over the chunks ends, the bytes
handed to `write` start with the basic header of that format and the message
header of that format. -/
theorem first_chunk_format (c : RTMPClient) (state : ChunkStreamState) (streamId : Nat)
    (type : Int) (timestamp : Nat) (msg : QByteArray) (csId fuel : Nat)
    (hstate : (c.outChunkStreams.value? csId).getD ChunkStreamState.init = state)
    (hts : timestamp < 2 ^ 32) :
    ∃ fmt,
      fmt = (if streamId ≠ state.msgStreamId ∨ timestamp = 0 ∨ timestamp < state.timestamp then 0
          else if msg.length ≠ state.msgLen ∨ type ≠ state.msgType then 1
          else if timestamp - state.timestamp ≠ state.timestampDelta then 2
          else 3)
      ∧ chooseFmt state streamId type timestamp msg.length = fmt
      ∧ (2 ≤ csId ∧ csId ≤ 65599 → 0 < c.outMaxChunkSize → msg.length < fuel →
        ∃ data last more,
          (c.initOutChunkStreamState csId).2.chunkMessage streamId type timestamp msg csId fuel
            = some (data, last)
          ∧ data = basicHeader fmt csId
              ++ (messageHeader fmt { state with msgLenRemaining := msg.length } streamId type
                  timestamp msg.length).2
              ++ msg.take (min msg.length c.outMaxChunkSize) ++ more
          ∧ ∀ socketWrite : SocketWrite,
              (c.writeMessage socketWrite streamId type timestamp msg csId fuel).map
                  (fun r => r.1)
                = some ((c.initOutChunkStreamState csId).2.write socketWrite data).1) := by
  have hfmt := chooseFmt_cascade state streamId type timestamp msg.length hts
  refine ⟨_, rfl, hfmt, fun hcs hmax hfuel => ?_⟩
  obtain ⟨data, last, more, hchunk, hdata, hwrite⟩ :=
    RTMPClient.chunkMessage_first c streamId type timestamp msg csId fuel hcs hmax hfuel
  rw [hstate, hfmt] at hdata
  exact ⟨data, last, more, hchunk, hdata, hwrite⟩

/-- C31, witness: after a one-byte video message at 10 ms with a delta of
10, a one-byte video message at 25 ms on the same message stream changes the
delta only, and is written with a fmt 2 header. -/
theorem first_chunk_format_witness :
    chooseFmt ⟨10, 10, 1, VideoMsgType, 1, 0, []⟩ 1 VideoMsgType 25 ([0xBB] : QByteArray).length
      = 2 :=
  (first_chunk_format
    { RTMPClient.initialized with outChunkStreams := [(4, ⟨10, 10, 1, VideoMsgType, 1, 0, []⟩)] }
    ⟨10, 10, 1, VideoMsgType, 1, 0, []⟩ 1 VideoMsgType 25 [0xBB] 4 2
    (by decide) (by decide)).elim (fun _ h => h.2.1.trans (h.1.trans (by decide)))

/-- C33, the failing input evaluated, then what holds of every write.  Two
one-byte video messages written on chunk stream 4 at 10 ms and at 20 ms: the
second repeats the stream, type, length and delta of the first and goes out
with a fmt 3 header, and the state stored for the chunk stream afterwards
still has the timestamp 10, with the delta 10 and nothing remaining; a third
message at 30 ms is then written as a fmt 2 chunk with the delta 20.  For
every call of `writeMessage` that returns true the state stored for the chunk
stream has nothing remaining, and its timestamp is the timestamp of the call
unless the format chosen is 3, when it is the timestamp recorded before. -/
theorem fmt3_write_keeps_recorded_timestamp :
    (RTMPClient.initialized.writeMessages SocketWrite.acceptAll 2 twoVideoMessages).map
        (fun w => (w.socketWritten,
          (w.outChunkStreams.value? 4).map
            (fun s => (s.timestamp, s.timestampDelta, s.msgLenRemaining))))
      = some ([0x04, 0, 0, 10, 0, 0, 1, 9, 1, 0, 0, 0, 0xAA, 0xC4, 0xBB], some (10, 10, 0))
    ∧ (RTMPClient.initialized.writeMessages SocketWrite.acceptAll 2 threeVideoMessages).map
        (fun w => (w.socketWritten,
          (w.outChunkStreams.value? 4).map
            (fun s => (s.timestamp, s.timestampDelta, s.msgLenRemaining))))
      = some ([0x04, 0, 0, 10, 0, 0, 1, 9, 1, 0, 0, 0, 0xAA, 0xC4, 0xBB, 0x84, 0, 0, 20, 0xCC],
          some (30, 20, 0))
    ∧ ∀ (socketWrite : SocketWrite) (c after : RTMPClient) (streamId : Nat) (type : Int)
        (timestamp : Nat) (msg : QByteArray) (csId fuel : Nat),
        c.writeMessage socketWrite streamId type timestamp msg csId fuel = some (true, after) →
        ∃ last, after.outChunkStreams.value? csId = some last
          ∧ last.msgLenRemaining = 0
          ∧ last.timestamp
            = if chooseFmt ((c.outChunkStreams.value? csId).getD ChunkStreamState.init) streamId
                type timestamp msg.length = 3
              then ((c.outChunkStreams.value? csId).getD ChunkStreamState.init).timestamp
              else timestamp := by
  refine ⟨by decide, by decide, ?_⟩
  intro socketWrite c after streamId type timestamp msg csId fuel h
  refine ⟨_, RTMPClient.writeMessage_stored socketWrite c streamId type timestamp msg csId fuel
    after h, rfl, ?_⟩
  exact messageHeader_timestamp _ _ _ _ _ _

/-- C36, the failing input evaluated.  `setMaxChunkSize(0)` on a fresh
initialized session returns true and leaves an output chunk size of 0.  With
an output chunk size of 0 the loop of `writeMessage` takes 0 bytes of the
payload at every turn: for a payload that is not empty, on a chunk stream from
2 to 65599, it does not end, whatever the number of turns allowed.  With an
output chunk size above 0, or an empty payload, it ends within as many turns
as the payload has bytes, and one more. -/
theorem zero_chunk_size_never_ends :
    (RTMPClient.initialized.setMaxChunkSize SocketWrite.acceptAll 0 5).map
        (fun r => (r.1, r.2.outMaxChunkSize))
      = some (true, 0)
    ∧ (∀ (socketWrite : SocketWrite) (c : RTMPClient) (streamId : Nat) (type : Int)
        (timestamp : Nat) (msg : QByteArray) (csId fuel : Nat),
        c.outMaxChunkSize = 0 → msg ≠ [] → 2 ≤ csId ∧ csId ≤ 65599 →
        c.writeMessage socketWrite streamId type timestamp msg csId fuel = none)
    ∧ ∀ (socketWrite : SocketWrite) (c : RTMPClient) (streamId : Nat) (type : Int)
        (timestamp : Nat) (msg : QByteArray) (csId fuel : Nat),
        0 < c.outMaxChunkSize ∨ msg = [] → msg.length < fuel →
        ∃ r, c.writeMessage socketWrite streamId type timestamp msg csId fuel = some r := by
  refine ⟨by decide, ?_, ?_⟩
  · intro socketWrite c streamId type timestamp msg csId fuel hzero hmsg hcs
    exact RTMPClient.writeMessage_zero socketWrite c streamId type timestamp msg csId fuel hzero
      hmsg hcs
  · intro socketWrite c streamId type timestamp msg csId fuel hsize hfuel
    exact RTMPClient.writeMessage_returns socketWrite c streamId type timestamp msg csId fuel
      hsize hfuel

/-- C39, the failing input evaluated.  `setMaxChunkSize(0x80000080)` on a
fresh initialized session writes a SetChunkSize message whose payload is
`00 00 00 80`, a chunk size of 128, and stores 0x80000080 as the output chunk
size.  A session that receives this payload sets its input chunk size to 128.
A message of 200 bytes written next goes out as a single chunk, which that
reader takes for a chunk of 128 bytes followed by another chunk.  In general
the size stored is the argument and the size announced is the argument
without its top bit, so that the two agree for arguments below `2 ^ 31`. -/
theorem chunk_size_stored_unmasked :
    (RTMPClient.initialized.setMaxChunkSize SocketWrite.acceptAll 0x80000080 5).map
        (fun r => (r.1, r.2.outMaxChunkSize, r.2.socketWritten))
      = some (true, 0x80000080, [2, 0, 0, 0, 0, 0, 4, 1, 0, 0, 0, 0, 0, 0, 0, 0x80])
    ∧ (RTMPClient.initialized.processMessage asciiText SocketWrite.acceptAll .closing
          (fun _ => 0) 10 0 SetChunkSizeMsgType 0 [0, 0, 0, 0x80]).map
        (fun c : RTMPClient => c.inMaxChunkSize)
      = .ok 128
    ∧ ((RTMPClient.initialized.setMaxChunkSize SocketWrite.acceptAll 0x80000080 5).bind
        (fun r => ({ r.2 with socketWritten := [] } : RTMPClient).writeMessage
          SocketWrite.acceptAll 1 VideoMsgType 10 (List.replicate 200 0xAA) 4 201)).map
        (fun r => (r.1, r.2.socketWritten.length))
      = some (true, 12 + 200)
    ∧ ∀ (socketWrite : SocketWrite) (c : RTMPClient) (maxSize fuel : Nat),
        c.setMaxChunkSize socketWrite maxSize fuel
          = (c.writeMessage socketWrite 0 SetChunkSizeMsgType 0
              (amfEncodeUInt32 (maxSize % 2 ^ 31)) 2 fuel).map
            (fun r => if r.1 then (true, { r.2 with outMaxChunkSize := maxSize }) else (false, r.2))
        ∧ (maxSize < 2 ^ 31 → maxSize % 2 ^ 31 = maxSize) := by
  refine ⟨by decide, by decide, by decide, ?_⟩
  intro socketWrite c maxSize fuel
  refine ⟨?_, fun h => Nat.mod_eq_of_lt h⟩
  unfold RTMPClient.setMaxChunkSize
  cases h : c.writeMessage socketWrite 0 SetChunkSizeMsgType 0
      (amfEncodeUInt32 (maxSize % 2 ^ 31)) 2 fuel with
  | none => rfl
  | some r =>
    cases hr : r.1 <;> simp [hr]

set_option maxRecDepth 100000
/-! ## Claims about reassembly and timestamps on the read path -/

/-- C34, the failing input evaluated, with an input chunk size of 2.  A
message of 4 bytes arrives as a fmt 0 chunk `11 22` and a fmt 3 chunk `33 44`
and is dispatched whole.  A fmt 3 chunk `55 66` then starts the next message
of 4 bytes: the buffer of the chunk stream still holds the first message, so
that between chunks it has 6 bytes with 2 remaining, and after the fmt 3 chunk
`77 88` a payload of 8 bytes is dispatched.  And a message of 4 bytes that
arrives as a fmt 0 chunk `11 22` and a fmt 2 chunk `33 44`, which the method
takes for a continuation, is dispatched with the 2 bytes `33 44`: the buffer
is emptied on every chunk whose format is not 3. -/
theorem reassembly_buffer_not_reset :
    (({ RTMPClient.initialized with inMaxChunkSize := 2 } : RTMPClient).readChunks true
          SocketWrite.acceptAll ProcessMessage.logOnly 4
          [0x04, 0, 0, 10, 0, 0, 4, 9, 1, 0, 0, 0, 0x11, 0x22, 0xC4, 0x33, 0x44,
            0xC4, 0x55, 0x66]).map
        (fun r => (r.1.processed,
          (r.1.inChunkStreams.value? 4).map
            (fun s => (s.msg.length, s.msgLenRemaining, s.msgLen)), r.2))
      = some ([⟨1, VideoMsgType, 10, [0x11, 0x22, 0x33, 0x44]⟩], some (6, 2, 4), [])
    ∧ (({ RTMPClient.initialized with inMaxChunkSize := 2 } : RTMPClient).readChunks true
          SocketWrite.acceptAll ProcessMessage.logOnly 5
          [0x04, 0, 0, 10, 0, 0, 4, 9, 1, 0, 0, 0, 0x11, 0x22, 0xC4, 0x33, 0x44,
            0xC4, 0x55, 0x66, 0xC4, 0x77, 0x88]).map
        (fun r => r.1.processed)
      = some [⟨1, VideoMsgType, 10, [0x11, 0x22, 0x33, 0x44]⟩,
          ⟨1, VideoMsgType, 20, [0x11, 0x22, 0x33, 0x44, 0x55, 0x66, 0x77, 0x88]⟩]
    ∧ (({ RTMPClient.initialized with inMaxChunkSize := 2 } : RTMPClient).readChunks true
          SocketWrite.acceptAll ProcessMessage.logOnly 3
          [0x04, 0, 0, 10, 0, 0, 4, 9, 1, 0, 0, 0, 0x11, 0x22, 0x84, 0, 0, 0, 0x33, 0x44]).map
        (fun r => r.1.processed)
      = some [⟨1, VideoMsgType, 10, [0x33, 0x44]⟩] := by
  refine ⟨by decide, by decide, by decide⟩

/-- C35, the failing inputs evaluated.  Three one-byte video messages
written on chunk stream 4 of a fresh session at 10, 20 and 30 ms go out as a
fmt 0 chunk, a fmt 3 chunk and a fmt 2 chunk with the delta 20, since the
fmt 3 write left the recorded timestamp at 10; a fresh session that reads
these bytes dispatches the timestamps 10, 20 and 40.  Two messages at 1 ms
and at 0x1000001 ms go out as a fmt 0 chunk and a fmt 2 chunk whose delta
field holds the low 24 bits of 0x1000000, which are 0; the reader dispatches
the timestamps 1 and 1. -/
theorem written_timestamps_misread :
    (RTMPClient.initialized.writeMessages SocketWrite.acceptAll 2 threeVideoMessages).map
        (fun w => w.socketWritten)
      = some [0x04, 0, 0, 10, 0, 0, 1, 9, 1, 0, 0, 0, 0xAA, 0xC4, 0xBB, 0x84, 0, 0, 20, 0xCC]
    ∧ (RTMPClient.initialized.readChunks true SocketWrite.acceptAll ProcessMessage.logOnly 4
          [0x04, 0, 0, 10, 0, 0, 1, 9, 1, 0, 0, 0, 0xAA, 0xC4, 0xBB, 0x84, 0, 0, 20, 0xCC]).map
        (fun r => r.1.processed.map (fun d => d.timestamp))
      = some [10, 20, 40]
    ∧ threeVideoMessages.map (fun m => m.timestamp) = [10, 20, 30]
    ∧ (RTMPClient.initialized.writeMessages SocketWrite.acceptAll 2
          twoDistantVideoMessages).map (fun w => w.socketWritten)
      = some [0x04, 0, 0, 1, 0, 0, 1, 9, 1, 0, 0, 0, 0xAA, 0x84, 0, 0, 0, 0xBB]
    ∧ (RTMPClient.initialized.readChunks true SocketWrite.acceptAll ProcessMessage.logOnly 3
          [0x04, 0, 0, 1, 0, 0, 1, 9, 1, 0, 0, 0, 0xAA, 0x84, 0, 0, 0, 0xBB]).map
        (fun r => r.1.processed.map (fun d => d.timestamp))
      = some [1, 1]
    ∧ twoDistantVideoMessages.map (fun m => m.timestamp) = [1, 16777217] := by
  refine ⟨by decide, by decide, by decide, by decide, by decide, by decide⟩
set_option maxRecDepth 100000
/-! ## Claims about the start of a NAL unit -/

/-- C40, the failing inputs evaluated, then what holds.  The packet
`00 00 02 03`, whose first bytes are zero without a 01 behind them, written in
AVC mode at timestamp 40 under the header `27 01 00 00 00`: the message
carries the unit `02 03` behind the length 2, not the four bytes behind the
length 4.  The SPS `00 00 00 00 01 67 42 00 1E`, which starts with four zero
bytes and so with neither start code, is written into the configuration record
as the four bytes `67 42 00 1E`.  What holds: for data that is empty or starts
with one of the two start codes or with a byte other than zero, what both
methods emit is the data without that start code, unchanged if there is none,
behind its length; in general the offset at which both methods take a unit to
start is the number of zero bytes in front of the data, the last byte of the
data not counted, and one more when at least one zero byte was counted and the
byte behind them is 01. -/
theorem zero_bytes_before_data_are_dropped :
    (({ RTMPClient.initialized with
            publisher := some { isReady := true, isAvc := true },
            publishStreamId := 1 }.writeVideoFrame
          (RTMPClient.socketWrite (SocketEnv.free 65536) false) 40
          [0x27, 0x01, 0x00, 0x00, 0x00] [[0x00, 0x00, 0x02, 0x03]] 10).map
        (fun r : Bool × RTMPClient => (r.1, r.2.socketWritten)))
      = .ok (true,
          [0x04, 0, 0, 40, 0, 0, 11, 9, 1, 0, 0, 0]
            ++ [0x27, 0x01, 0x00, 0x00, 0x00, 0, 0, 0, 2, 0x02, 0x03])
    ∧ stripStartCode [0x00, 0x00, 0x02, 0x03] = [0x00, 0x00, 0x02, 0x03]
    ∧ (({ RTMPClient.initialized with
            publisher := some { isReady := true, isAvc := false },
            publishStreamId := 1 }.writeAvcConfigRecord
          (RTMPClient.socketWrite (SocketEnv.free 65536) false)
          [0x00, 0x00, 0x00, 0x00, 0x01, 0x67, 0x42, 0x00, 0x1E] [0x68, 0xCE] 10).map
        (fun r : Bool × RTMPClient => (r.1, r.2.socketWritten)))
      = .ok (true,
          [0x04, 0, 0, 0, 0, 0, 22, 9, 1, 0, 0, 0]
            ++ [0x17, 0, 0, 0, 0, 0x01, 0x42, 0x00, 0x1E, 0xFF, 0xE1, 0, 4, 0x67, 0x42, 0x00, 0x1E,
                0x01, 0, 2, 0x68, 0xCE])
    ∧ stripStartCode [0x00, 0x00, 0x00, 0x00, 0x01, 0x67, 0x42, 0x00, 0x1E]
      = [0x00, 0x00, 0x00, 0x00, 0x01, 0x67, 0x42, 0x00, 0x1E]
    ∧ (∀ data : QByteArray, startsWithCodeOrData data = true →
        data.drop (nalOffset data) = stripStartCode data
          ∧ data.length - nalOffset data = (stripStartCode data).length)
    ∧ (∀ data : QByteArray,
        nalOffset data
          = (if 0 < leadingZeros data ∧ data.getD (leadingZeros data) 0 = 1 then
              leadingZeros data + 1
            else leadingZeros data))
    ∧ (∀ (socketWrite : SocketWrite) (c : RTMPClient) (p : RTMPPublisher) (timestamp : Nat)
        (header : QByteArray) (pkts : List QByteArray) (fuel : Nat),
        c.publisher = some p → p.isReady = true → p.isAvc = true →
        c.writeVideoFrame socketWrite timestamp header pkts fuel
          = Fault.ofLoop
              (c.writeVideoData socketWrite timestamp
                (header ++ (pkts.map (fun pkt =>
                  amfEncodeUInt32 (pkt.length - nalOffset pkt) ++ pkt.drop (nalOffset pkt))).flatten)
                fuel))
    ∧ ∀ (socketWrite : SocketWrite) (c : RTMPClient) (p : RTMPPublisher)
        (sps pps : QByteArray) (fuel : Nat),
        c.publisher = some p → p.isReady = true → sps ≠ [] → pps ≠ [] →
        nalOffset sps + 3 < sps.length →
        c.writeAvcConfigRecord socketWrite sps pps fuel
          = Fault.ofLoop
              (({ c with publisher := some { p with isAvc := true } } : RTMPClient).writeVideoData
                socketWrite 0
                ([0x17, 0x00, 0x00, 0x00, 0x00]
                  ++ ([0x01, sps.getD (nalOffset sps + 1) 0, sps.getD (nalOffset sps + 2) 0,
                      sps.getD (nalOffset sps + 3) 0, 0xFF, 0xE1]
                    ++ amfEncodeUInt16 (sps.length - nalOffset sps) ++ sps.drop (nalOffset sps)
                    ++ [0x01] ++ amfEncodeUInt16 (pps.length - nalOffset pps)
                    ++ pps.drop (nalOffset pps)))
                fuel) := by
  refine ⟨by decide, by decide, by decide, by decide, ?_, nalOffset_eq, ?_, ?_⟩
  · intro data h
    have hd := drop_nalOffset data h
    refine ⟨hd, ?_⟩
    rw [← hd, List.length_drop]
  · intro socketWrite c p timestamp header pkts fuel hpublisher hready havc
    unfold RTMPClient.writeVideoFrame
    simp only [hpublisher, hready, havc, Bool.not_true, Bool.false_eq_true, if_false, if_true]
    rw [foldl_avcSamples]
    simp only [List.length_drop]
  · intro socketWrite c p sps pps fuel hpublisher hready hsps hpps hlen
    have hs : sps.isEmpty = false := by
      cases sps with
      | nil => exact absurd rfl hsps
      | cons a b => rfl
    have hp : pps.isEmpty = false := by
      cases pps with
      | nil => exact absurd rfl hpps
      | cons a b => rfl
    have hl : ¬ sps.length ≤ nalOffset sps + 3 := by omega
    unfold RTMPClient.writeAvcConfigRecord
    simp only [hpublisher, hready, hs, hp, hl, Bool.not_true, Bool.false_eq_true, if_false,
      Bool.or_self, avcConfigRecord, List.append_assoc, List.cons_append, List.nil_append]

set_option maxRecDepth 100000
/-! ## Claims about the read path -/

/-- C32: a call of `readChunkFromSocket` that reads a chunk stores for its
chunk stream a state that depends on the format as follows, `old` being the
state before the call, all zero for a chunk stream not seen before, and the
header fields being read from the bytes behind the basic header.  Format 0:
the timestamp is the 24-bit field, or the 32-bit field behind the header when
the 24-bit field is 0xFFFFFF; the timestamp delta is the timestamp; length,
type and little-endian msg_stream_id are those of the header; the message
buffer holds the payload of this chunk only.  Format 1: the delta is the
24-bit field and is added to the timestamp, as a `uint`; length and type are
those of the header; the msg_stream_id stays.  Format 2: the delta is the
24-bit field and is added to the timestamp; length, type and msg_stream_id
stay.  Format 3: delta, length, type and msg_stream_id stay; the delta is
added to the timestamp when nothing remained of a message, and the timestamp
stays on a continuation chunk.  The socket write and the dispatch are taken
not to touch the states of the input chunk streams. -/
theorem read_chunk_state_update (signedChar : Bool) (socketWrite : SocketWrite)
    (processMessage : ProcessMessage) (c : RTMPClient) (buffer : QByteArray)
    (fuel fmt csId basicSize : Nat) (old : ChunkStreamState)
    (hsw : socketWrite.Local)
    (hproc : ∀ (s : RTMPClient) (streamId : Nat) (type : Int) (timestamp : Nat)
      (msg : QByteArray),
      (processMessage s streamId type timestamp msg).inChunkStreams = s.inChunkStreams)
    (hbasic : decodeBasicHeader signedChar (buffer.take (3 + 11 + 4))
      = some (fmt, csId, basicSize))
    (hold : (c.inChunkStreams.value? csId).getD ChunkStreamState.init = old)
    (hread : (c.readChunkFromSocket signedChar socketWrite processMessage buffer fuel).map
      (fun r => r.1) = some true) :
    ∃ final rest new,
      c.readChunkFromSocket signedChar socketWrite processMessage buffer fuel
        = some (true, final, rest)
      ∧ final.inChunkStreams.value? csId = some new
      ∧ (fmt = 0 →
        new.timestamp
            = (if amfDecodeUInt24 ((headerData (buffer.take (3 + 11 + 4))).offset basicSize)
                ≥ 0xFFFFFF then
                amfDecodeUInt32 ((headerData (buffer.take (3 + 11 + 4))).offset (basicSize + 11))
              else amfDecodeUInt24 ((headerData (buffer.take (3 + 11 + 4))).offset basicSize))
          ∧ new.timestampDelta = new.timestamp
          ∧ new.msgLen
            = amfDecodeUInt24 ((headerData (buffer.take (3 + 11 + 4))).offset (basicSize + 3))
          ∧ new.msgType
            = charToEnum signedChar (headerData (buffer.take (3 + 11 + 4)) (basicSize + 6))
          ∧ new.msgStreamId
            = decodeLEUInt32 ((headerData (buffer.take (3 + 11 + 4))).offset (basicSize + 7))
          ∧ new.msg
            = (buffer.drop (basicSize
                + (if amfDecodeUInt24 ((headerData (buffer.take (3 + 11 + 4))).offset basicSize)
                    ≥ 0xFFFFFF then 15 else 11))).take (min new.msgLen c.inMaxChunkSize))
      ∧ (fmt = 1 →
        new.timestampDelta
            = amfDecodeUInt24 ((headerData (buffer.take (3 + 11 + 4))).offset basicSize)
          ∧ new.timestamp = (old.timestamp + new.timestampDelta) % 2 ^ 32
          ∧ new.msgLen
            = amfDecodeUInt24 ((headerData (buffer.take (3 + 11 + 4))).offset (basicSize + 3))
          ∧ new.msgType
            = charToEnum signedChar (headerData (buffer.take (3 + 11 + 4)) (basicSize + 6))
          ∧ new.msgStreamId = old.msgStreamId)
      ∧ (fmt = 2 →
        new.timestampDelta
            = amfDecodeUInt24 ((headerData (buffer.take (3 + 11 + 4))).offset basicSize)
          ∧ new.timestamp = (old.timestamp + new.timestampDelta) % 2 ^ 32
          ∧ new.msgLen = old.msgLen ∧ new.msgType = old.msgType
          ∧ new.msgStreamId = old.msgStreamId)
      ∧ (fmt = 3 →
        new.timestampDelta = old.timestampDelta
          ∧ new.msgLen = old.msgLen ∧ new.msgType = old.msgType
          ∧ new.msgStreamId = old.msgStreamId
          ∧ new.timestamp
            = (if old.msgLenRemaining = 0 then (old.timestamp + old.timestampDelta) % 2 ^ 32
              else old.timestamp)) := by
  cases hres : c.readChunkFromSocket signedChar socketWrite processMessage buffer fuel with
  | none => rw [hres] at hread; simp at hread
  | some r =>
    obtain ⟨b, final, rest⟩ := r
    rw [hres] at hread
    simp only [Option.map_some', Option.some.injEq] at hread
    subst hread
    obtain ⟨fmt2, csId2, basicSize2, state, dataStart, chunkLen, hbasic2, hheader, -, -,
      hstored⟩ := RTMPClient.readChunkFromSocket_stored signedChar socketWrite hsw
        processMessage hproc c buffer fuel final rest hres
    rw [hbasic] at hbasic2
    simp only [Option.some.injEq, Prod.mk.injEq] at hbasic2
    obtain ⟨rfl, rfl, rfl⟩ := hbasic2
    rw [hold] at hheader
    obtain ⟨h0, h1, h2, h3⟩ := decodeMessageHeader_fields signedChar c.inMaxChunkSize _ fmt
      basicSize old state dataStart chunkLen hheader
    refine ⟨final, rest, _, rfl, hstored, fun hf => ?_, fun hf => ?_, fun hf => ?_,
      fun hf => ?_⟩
    · obtain ⟨e1, e2, e3, e4, e5, -, e7, e8⟩ := h0 hf
      refine ⟨e1, e2, e3, e4, e5, ?_⟩
      have hne : fmt ≠ 3 := by omega
      simp only [hne, ne_eq, not_false_eq_true, if_true, List.nil_append]
      rw [e7, e8]
    · exact h1 hf
    · exact h2 hf
    · exact h3 hf

/-- C32, witness: a fmt 1 chunk on chunk stream 4, whose state records the
timestamp 10 and the message stream 1: delta 5, length 1, type 8. -/
theorem read_chunk_state_update_witness :
    ∃ new : ChunkStreamState,
      new.timestampDelta
          = amfDecodeUInt24 ((headerData
              (([0x44, 0, 0, 5, 0, 0, 1, 8, 0xAA] : QByteArray).take (3 + 11 + 4))).offset 1)
        ∧ new.timestamp
          = ((⟨10, 10, 1, VideoMsgType, 1, 0, []⟩ : ChunkStreamState).timestamp
              + new.timestampDelta) % 2 ^ 32
        ∧ new.msgLen
          = amfDecodeUInt24 ((headerData
              (([0x44, 0, 0, 5, 0, 0, 1, 8, 0xAA] : QByteArray).take (3 + 11 + 4))).offset
                (1 + 3))
        ∧ new.msgType
          = charToEnum true (headerData
              (([0x44, 0, 0, 5, 0, 0, 1, 8, 0xAA] : QByteArray).take (3 + 11 + 4)) (1 + 6))
        ∧ new.msgStreamId = (⟨10, 10, 1, VideoMsgType, 1, 0, []⟩ : ChunkStreamState).msgStreamId :=
  (read_chunk_state_update true SocketWrite.acceptAll ProcessMessage.logOnly
    { RTMPClient.initialized with inChunkStreams := [(4, ⟨10, 10, 1, VideoMsgType, 1, 0, []⟩)] }
    [0x44, 0, 0, 5, 0, 0, 1, 8, 0xAA] 5 1 4 1 ⟨10, 10, 1, VideoMsgType, 1, 0, []⟩
    SocketWrite.acceptAll_local (fun _ _ _ _ _ => rfl) (by decide) (by decide)
    (by decide)).elim
    (fun _ h => h.elim (fun _ h => h.elim (fun new h => ⟨new, h.2.2.2.1 rfl⟩)))

/-- C37, the failing input evaluated, then what holds.  A session whose
acknowledgement window is 13 bytes reads a chunk of 13 bytes and writes the
acknowledgement `02 00 00 00 00 00 04 03 00 00 00 00 00 00 00 0D`.  The same
session with an output chunk size of 0, as `setMaxChunkSize(0)` leaves it,
does not return from that call, whatever the number of turns allowed: the
acknowledgement is written by `writeMessage`, whose loop does not end; so the
loop `while(readChunkFromSocket(buffer));` does not end on these 13 bytes.
What holds: a call of `readChunkFromSocket` that returns true has taken at
least one byte off the buffer, whatever the input chunk size; and with an
output chunk size above zero the loop ends on every buffer, within as many
turns as the buffer has bytes and one more, whatever the input chunk size,
the socket write and the dispatch being taken to return and not to touch the
output chunk size.  With an input chunk size of 0 a fmt 0 chunk of a message
of 4 bytes and the 6 bytes behind it are read as seven chunks without
payload, and the loop ends with the buffer empty and nothing dispatched. -/
theorem read_loop_hangs_in_acknowledgement :
    (({ RTMPClient.initialized with inAckWinSize := 13 } : RTMPClient).readChunkFromSocket true
          SocketWrite.acceptAll ProcessMessage.logOnly
          [0x04, 0, 0, 10, 0, 0, 1, 9, 1, 0, 0, 0, 0xAA] 5).map
        (fun r => (r.1, r.2.1.socketWritten, r.2.2))
      = some (true, [2, 0, 0, 0, 0, 0, 4, 3, 0, 0, 0, 0, 0, 0, 0, 13], [])
    ∧ (∀ fuel : Nat,
        ({ RTMPClient.initialized with outMaxChunkSize := 0, inAckWinSize := 13 }
            : RTMPClient).readChunkFromSocket true SocketWrite.acceptAll ProcessMessage.logOnly
            [0x04, 0, 0, 10, 0, 0, 1, 9, 1, 0, 0, 0, 0xAA] fuel
          = none)
    ∧ (∀ fuel : Nat,
        ({ RTMPClient.initialized with outMaxChunkSize := 0, inAckWinSize := 13 }
            : RTMPClient).readChunks true SocketWrite.acceptAll ProcessMessage.logOnly fuel
            [0x04, 0, 0, 10, 0, 0, 1, 9, 1, 0, 0, 0, 0xAA]
          = none)
    ∧ (∀ (signedChar : Bool) (socketWrite : SocketWrite) (processMessage : ProcessMessage)
        (c : RTMPClient) (buffer : QByteArray) (fuel : Nat) (final : RTMPClient)
        (rest : QByteArray),
        c.readChunkFromSocket signedChar socketWrite processMessage buffer fuel
            = some (true, final, rest) →
          ∃ n, 1 ≤ n ∧ n ≤ buffer.length ∧ rest = buffer.drop n
            ∧ rest.length < buffer.length)
    ∧ (∀ (signedChar : Bool) (socketWrite : SocketWrite) (processMessage : ProcessMessage)
        (c : RTMPClient) (buffer : QByteArray) (fuel : Nat),
        socketWrite.Local →
        (∀ (s : RTMPClient) (streamId : Nat) (type : Int) (timestamp : Nat) (msg : QByteArray),
          (processMessage s streamId type timestamp msg).outMaxChunkSize = s.outMaxChunkSize) →
        0 < c.outMaxChunkSize → buffer.length + 4 < fuel →
        ∃ final rest, c.readChunks signedChar socketWrite processMessage fuel buffer
            = some (final, rest)
          ∧ rest.length ≤ buffer.length)
    ∧ (({ RTMPClient.initialized with inMaxChunkSize := 0 } : RTMPClient).readChunks true
          SocketWrite.acceptAll ProcessMessage.logOnly 23
          [0x04, 0, 0, 10, 0, 0, 4, 9, 1, 0, 0, 0, 0xC4, 0xC4, 0xC4, 0xC4, 0xC4, 0xC4]).map
        (fun r => (r.1.processed, r.2))
      = some ([], []) := by
  have hnone : ∀ fuel : Nat,
      ({ RTMPClient.initialized with outMaxChunkSize := 0, inAckWinSize := 13 }
          : RTMPClient).readChunkFromSocket true SocketWrite.acceptAll ProcessMessage.logOnly
          [0x04, 0, 0, 10, 0, 0, 1, 9, 1, 0, 0, 0, 0xAA] fuel
        = none := fun fuel =>
    RTMPClient.readChunkFromSocket_zero true SocketWrite.acceptAll ProcessMessage.logOnly
      { RTMPClient.initialized with outMaxChunkSize := 0, inAckWinSize := 13 }
      [0x04, 0, 0, 10, 0, 0, 1, 9, 1, 0, 0, 0, 0xAA] fuel 0 4 1
      ⟨10, 10, 1, VideoMsgType, 1, 1, []⟩ 12 1 rfl (by decide) (by decide) (by decide)
      (by decide)
  refine ⟨by decide, hnone, ?_, ?_, ?_, by decide⟩
  · intro fuel
    cases fuel with
    | zero => rfl
    | succ f => rw [RTMPClient.readChunks, hnone (f + 1)]
  · intro signedChar socketWrite processMessage c buffer fuel final rest h
    obtain ⟨n, h1, h2, h3⟩ := RTMPClient.readChunkFromSocket_consumes signedChar socketWrite
      processMessage c buffer fuel final rest h
    refine ⟨n, h1, h2, h3, ?_⟩
    rw [h3, List.length_drop]
    omega
  · intro signedChar socketWrite processMessage c buffer fuel hsw hproc hmax hfuel
    exact RTMPClient.readChunks_isSome signedChar socketWrite hsw processMessage hproc fuel c
      buffer hmax hfuel

/-- C38: a call of `readChunkFromSocket` that returns false leaves the
buffer as it was; the session differs from the one before at most by the
zeroed state created for a chunk stream not seen before, so that the state of
every chunk stream seen before, the three byte counters, the dispatches and
the bytes written and buffered are unchanged; and reading a buffer that starts
with the same bytes, such as the same bytes followed by those that arrive
later, does from the session the call has left what it does from the session
before the call, for one chunk and for the whole loop. -/
theorem partial_chunk_is_left_in_buffer (signedChar : Bool) (socketWrite : SocketWrite)
    (processMessage : ProcessMessage) (c after : RTMPClient) (buffer rest : QByteArray)
    (fuel : Nat)
    (hread : c.readChunkFromSocket signedChar socketWrite processMessage buffer fuel
      = some (false, after, rest)) :
    rest = buffer
    ∧ after = { c with inChunkStreams := after.inChunkStreams }
    ∧ (∀ id, c.inChunkStreams.contains id = true →
        after.inChunkStreams.value? id = c.inChunkStreams.value? id)
    ∧ after.inBytesSinceLastAck = c.inBytesSinceLastAck
    ∧ after.inBytesSinceHandshake = c.inBytesSinceHandshake
    ∧ after.outBytesSinceLastAck = c.outBytesSinceLastAck
    ∧ after.processed = c.processed ∧ after.socketWritten = c.socketWritten
    ∧ after.outBuf = c.outBuf ∧ after.gamerOutBuf = c.gamerOutBuf
    ∧ (∀ (more : QByteArray) (fuel2 : Nat),
        after.readChunkFromSocket signedChar socketWrite processMessage (buffer ++ more) fuel2
          = c.readChunkFromSocket signedChar socketWrite processMessage (buffer ++ more) fuel2)
    ∧ ∀ (more : QByteArray) (fuel2 : Nat),
        after.readChunks signedChar socketWrite processMessage fuel2 (buffer ++ more)
          = c.readChunks signedChar socketWrite processMessage fuel2 (buffer ++ more) := by
  have hretry := RTMPClient.readChunkFromSocket_retry signedChar socketWrite processMessage c
    buffer fuel after rest hread
  obtain ⟨hrest, hafter⟩ := RTMPClient.readChunkFromSocket_false signedChar socketWrite
    processMessage c buffer fuel after rest hread
  have hshape : after = { c with inChunkStreams := after.inChunkStreams }
      ∧ ∀ id, c.inChunkStreams.contains id = true →
        after.inChunkStreams.value? id = c.inChunkStreams.value? id := by
    rcases hafter with rfl | ⟨fmt, csId, basicSize, -, rfl⟩
    · exact ⟨rfl, fun _ _ => rfl⟩
    · refine ⟨?_, fun id hid => RTMPClient.initInChunkStreamState_known c csId id hid⟩
      unfold RTMPClient.initInChunkStreamState
      split_ifs <;> rfl
  obtain ⟨hs, hknown⟩ := hshape
  refine ⟨hrest, hs, hknown, ?_, ?_, ?_, ?_, ?_, ?_, ?_, hretry, ?_⟩
  · rw [hs]
  · rw [hs]
  · rw [hs]
  · rw [hs]
  · rw [hs]
  · rw [hs]
  · rw [hs]
  · intro more fuel2
    cases fuel2 with
    | zero => rfl
    | succ f =>
      rw [RTMPClient.readChunks, RTMPClient.readChunks, hretry more (f + 1)]

/-- C38, witness: the first 8 bytes of a chunk of 13 on a chunk stream not
seen before.  The call returns false, having created the state of chunk
stream 4; once the other 5 bytes have arrived the loop reads the chunk from
the session the call has left as it does from the session before it. -/
theorem partial_chunk_is_left_in_buffer_witness :
    (RTMPClient.initialized.initInChunkStreamState 4).2.readChunks true SocketWrite.acceptAll
        ProcessMessage.logOnly 5 ([0x04, 0, 0, 10, 0, 0, 1, 9] ++ [1, 0, 0, 0, 0xAA])
      = RTMPClient.initialized.readChunks true SocketWrite.acceptAll ProcessMessage.logOnly 5
        ([0x04, 0, 0, 10, 0, 0, 1, 9] ++ [1, 0, 0, 0, 0xAA]) :=
  (partial_chunk_is_left_in_buffer true SocketWrite.acceptAll ProcessMessage.logOnly
    RTMPClient.initialized (RTMPClient.initialized.initInChunkStreamState 4).2
    [0x04, 0, 0, 10, 0, 0, 1, 9] [0x04, 0, 0, 10, 0, 0, 1, 9] 5
    (by decide)).2.2.2.2.2.2.2.2.2.2.2 [1, 0, 0, 0, 0xAA] 5

end Libbroadcast
